import Mathlib

/-!
# Subway Deal rules engine: a shallow embedding

The Go package `server/game` is embedded as pure functions over explicit state.

Conventions of the embedding:

* Go `int` is `Int`.  Every number the engine handles is a sum of at most 106 card values or a
  small counter, far from the 64-bit range.
* Go pointers to players and property sets are positions in the owning containers; a mutation
  through a pointer is an update of the state at that position, applied in program order, so
  that aliasing (two pointers to one player) behaves as in the source.
* A Go `map` is an association list with distinct keys, in insertion order.
* A Go run-time panic (nil dereference, failed type assertion, index out of range, division by
  zero) is the result `none`.
* Cosmetic card fields that no function of the package reads (`ColorHex`, `Position`,
  `Description`, `Effect`, `MTATheme`, `ColorNames`, `DisplayValue`, `Theme`) and the action
  `Timestamp` are left out.
-/

namespace SubwayDeal

/-! ## card.go -/

/-- The Go type `CardType` is a string; `other` stands for every string that is not one of the
five constants (tests build cards whose type is the empty string). -/
inductive CardType where
  | property
  | wildcard
  | action
  | rent
  | money
  | other (s : String)
  deriving DecidableEq, Repr

/-- Fields common to all cards (`BaseCard`); `Typ` is the Go field `Type`. -/
structure BaseCard where
  ID : String
  Typ : CardType
  Name : String
  Value : Int
  deriving DecidableEq, Repr

/-- The five concrete card structs behind the `Card` interface.  The constructor is the dynamic
Go type (what a type switch sees); `BaseCard.Typ` is the separate `Type` field. -/
inductive Card where
  | property (base : BaseCard) (Color : String) (SetSize : Int) (Rent : List (Int × Int))
  | wildcard (base : BaseCard) (Colors : List String) (CurrentColor : String)
  | action (base : BaseCard)
  | rent (base : BaseCard) (Colors : List String) (Target : String)
  | money (base : BaseCard) (Denomination : Int)
  deriving DecidableEq, Repr

namespace Card

/-- The embedded `BaseCard` of a card. -/
def base : Card → BaseCard
  | property b _ _ _ => b
  | wildcard b _ _ => b
  | action b => b
  | rent b _ _ => b
  | money b _ => b

def GetID (c : Card) : String := c.base.ID

def GetType (c : Card) : CardType := c.base.Typ

def GetName (c : Card) : String := c.base.Name

def GetValue (c : Card) : Int := c.base.Value

/-- `PropertyCard.GetRent`: the map entry at `propertyCount`, 0 when the key is absent. -/
def propertyRent (rent : List (Int × Int)) (propertyCount : Int) : Int :=
  match rent.lookup propertyCount with
  | some r => r
  | none => 0

/-- The loop of `WildcardCard.FlipColor`: the colour after the first occurrence of `current` in
the remaining `colors`, wrapping inside the whole list `all`; `i` is the loop index. -/
def flipFrom (all : List String) (current : String) : List String → Nat → Option String
  | [], _ => none
  | color :: rest, i =>
    if color = current then all[(i + 1) % all.length]? else flipFrom all current rest (i + 1)

/-- `WildcardCard.FlipColor` on the card value; a card that is not a wildcard, or whose current
colour is not in its list, is unchanged. -/
def FlipColor : Card → Card
  | wildcard b colors current =>
    match flipFrom colors current colors 0 with
    | some next => wildcard b colors next
    | none => wildcard b colors current
  | c => c

/-- `WildcardCard.CanBeColor`. -/
def CanBeColor (colors : List String) (color : String) : Bool :=
  colors.any fun clr => clr = color

/-- `RentCard.IsWildRent` on the fields of a rent card. -/
def IsWildRent (name : String) (colors : List String) : Bool :=
  colors.length = 0 || name = "Wild Rent"

/-- The colour a played or stolen card is filed under: the type switch
`case *PropertyCard: c.Color; case *WildcardCard: c.CurrentColor`, the empty string otherwise. -/
def playColor : Card → String
  | property _ color _ _ => color
  | wildcard _ _ current => current
  | _ => ""

end Card

/-- The first card with the given id together with the list without it: the loop
`for i, card := range xs { if card.GetID() == cardID { ... append(xs[:i], xs[i+1:]...) } }`
shared by `Player.RemoveFromHand` and `PropertySet.RemoveCard`. -/
def removeFirstByID : List Card → String → Option (Card × List Card)
  | [], _ => none
  | c :: cs, cardID =>
    if c.GetID = cardID then some (c, cs)
    else
      match removeFirstByID cs cardID with
      | some (r, rest) => some (r, c :: rest)
      | none => none

/-- The list without its first card of the given id (unchanged when there is none). -/
def eraseFirstByID : List Card → String → List Card
  | [], _ => []
  | c :: cs, cardID => if c.GetID = cardID then cs else c :: eraseFirstByID cs cardID

/-- The first card with the given id, as in `Player.GetCardFromHand`. -/
def findByID : List Card → String → Option Card
  | [], _ => none
  | c :: cs, cardID => if c.GetID = cardID then some c else findByID cs cardID

/-! ## property_set.go -/

/-- How many cards complete each colour set. -/
def SetSizes : List (String × Int) :=
  [("brown", 2), ("blue", 3), ("pink", 3), ("orange", 3), ("red", 3), ("yellow", 3),
   ("green", 3), ("darkblue", 2), ("railroad", 4), ("utility", 2)]

/-- Cards of one colour owned by a player. -/
structure PropertySet where
  Color : String
  Cards : List Card
  Improvements : List String
  deriving DecidableEq, Repr

def NewPropertySet (color : String) : PropertySet :=
  { Color := color, Cards := [], Improvements := [] }

namespace PropertySet

def SetSize (ps : PropertySet) : Int :=
  match SetSizes.lookup ps.Color with
  | some size => size
  | none => 3

def AddCard (ps : PropertySet) (card : Card) : PropertySet :=
  { ps with Cards := ps.Cards ++ [card] }

/-- `RemoveCard`: `none` is the error "card not found in set". -/
def RemoveCard (ps : PropertySet) (cardID : String) : Option (Card × PropertySet) :=
  match removeFirstByID ps.Cards cardID with
  | some (removed, rest) => some (removed, { ps with Cards := rest })
  | none => none

def IsComplete (ps : PropertySet) : Bool :=
  decide ((ps.Cards.length : Int) ≥ ps.SetSize)

def hasImprovement (ps : PropertySet) (t : String) : Bool :=
  ps.Improvements.any fun imp => imp = t

def CanAddImprovement (ps : PropertySet) (improvementType : String) : Bool :=
  if !ps.IsComplete then false
  else if ps.Color = "railroad" || ps.Color = "utility" then false
  else if improvementType = "express" then !ps.hasImprovement "express"
  else if improvementType = "station" then
    ps.hasImprovement "express" && !ps.hasImprovement "station"
  else false

/-- `AddImprovement`: `none` is the error "cannot add improvement". -/
def AddImprovement (ps : PropertySet) (improvementType : String) : Option PropertySet :=
  if ps.CanAddImprovement improvementType then
    some { ps with Improvements := ps.Improvements ++ [improvementType] }
  else none

/-- The base-rent loop of `GetRent`: the rent of the first property card at `count`, 0 when the
set holds no property card. -/
def baseRent (count : Int) : List Card → Int
  | [] => 0
  | Card.property _ _ _ rent :: _ => Card.propertyRent rent count
  | _ :: rest => baseRent count rest

def GetRent (ps : PropertySet) : Int :=
  if ps.Cards.length = 0 then 0
  else
    baseRent ps.Cards.length ps.Cards
      + ((if ps.hasImprovement "express" then 3 else 0)
        + (if ps.hasImprovement "station" then 4 else 0))

end PropertySet

/-! ## player.go -/

/-- A game participant.  `Properties` is the Go map from colour to property set. -/
structure Player where
  ID : String
  Name : String
  Hand : List Card
  Bank : List Card
  Properties : List (String × PropertySet)
  deriving DecidableEq, Repr

def NewPlayer (id name : String) : Player :=
  { ID := id, Name := name, Hand := [], Bank := [], Properties := [] }

/-- Map assignment `m[key] = ps`: replaces the entry of an existing key, else adds one. -/
def mapSet : List (String × PropertySet) → String → PropertySet → List (String × PropertySet)
  | [], key, ps => [(key, ps)]
  | (k, v) :: rest, key, ps =>
    if k = key then (k, ps) :: rest else (k, v) :: mapSet rest key ps

/-- Total value of a list of cards. -/
def totalValue (cards : List Card) : Int := (cards.map Card.GetValue).sum

/-- The order `sort.Slice` is called with in `PayMoney`: ascending card value. -/
def valueLE (a b : Card) : Prop := a.GetValue ≤ b.GetValue

instance : DecidableRel valueLE := fun a b => inferInstanceAs (Decidable (a.GetValue ≤ b.GetValue))

/-- The call `sort.Slice(sorted, less)` of `PayMoney`: a routine that returns the cards of the
slice in ascending order of value.  `sort.Slice` does not promise an order among cards of equal
value, and which one comes out depends on the algorithm of the Go release; the model is
therefore stated for every routine that returns a value-sorted permutation of the slice. -/
class SliceSort where
  sort : List Card → List Card
  perm : ∀ cards : List Card, (sort cards).Perm cards
  sorted : ∀ cards : List Card, (sort cards).Sorted valueLE

/-- Insertion sort by value: one routine `sort.Slice` may run (cards of equal value keep their
order), and the one it does run on slices of at most 12 elements since Go 1.19.  It is the
`SliceSort` of the concrete games evaluated below, whose banks hold fewer cards than that. -/
def sortByValue (cards : List Card) : List Card := cards.insertionSort valueLE

/-- The payment loop of `PayMoney` over the sorted copy: returns payment, total and the bank. -/
def payLoop (amount : Int) : List Card → List Card → Int → List Card → List Card × Int × List Card
  | [], payment, total, bank => (payment, total, bank)
  | card :: rest, payment, total, bank =>
    if total ≥ amount then (payment, total, bank)
    else
      payLoop amount rest (payment ++ [card]) (total + card.GetValue)
        (eraseFirstByID bank card.GetID)

namespace Player

def AddToHand (p : Player) (card : Card) : Player := { p with Hand := p.Hand ++ [card] }

/-- `RemoveFromHand`: `none` is the error "card not in hand". -/
def RemoveFromHand (p : Player) (cardID : String) : Option (Card × Player) :=
  match removeFirstByID p.Hand cardID with
  | some (removed, rest) => some (removed, { p with Hand := rest })
  | none => none

def GetCardFromHand (p : Player) (cardID : String) : Option Card := findByID p.Hand cardID

def AddToBank (p : Player) (card : Card) : Player := { p with Bank := p.Bank ++ [card] }

def GetTotalMoney (p : Player) : Int := totalValue p.Bank

/-- `PayMoney` with the sorting routine as a parameter: the cards paid, their total and the
player afterwards. -/
def PayMoneyWith (sortFn : List Card → List Card) (p : Player) (amount : Int) :
    (List Card × Int) × Player :=
  if amount ≤ 0 then (([], 0), p)
  else
    match payLoop amount (sortFn p.Bank) [] 0 p.Bank with
    | (payment, total, bank) => ((payment, total), { p with Bank := bank })

/-- `PayMoney`, with the sort routine of the runtime. -/
def PayMoney [SliceSort] (p : Player) (amount : Int) : (List Card × Int) × Player :=
  p.PayMoneyWith SliceSort.sort amount

/-- `GetPropertySet`: the set of the colour and the player afterwards; a missing entry is
created empty and stored in the map. -/
def GetPropertySet (p : Player) (color : String) : PropertySet × Player :=
  match p.Properties.lookup color with
  | some ps => (ps, p)
  | none =>
    (NewPropertySet color, { p with Properties := p.Properties ++ [(color, NewPropertySet color)] })

/-- Writes through the pointer that `GetPropertySet color` returned. -/
def setPropertySet (p : Player) (color : String) (ps : PropertySet) : Player :=
  { p with Properties := mapSet p.Properties color ps }

def GetCompleteSetCount (p : Player) : Int :=
  ((p.Properties.filter fun e => e.2.IsComplete).length : Int)

def HasWon (p : Player) : Bool := decide (p.GetCompleteSetCount ≥ 3)

end Player

/-! ## action.go -/

/-- The Go type `ActionType` is a string; `other` stands for every string that is not one of the
nineteen constants. -/
inductive ActionType where
  | DrawCards
  | EndTurn
  | PlayProperty
  | PlayMoney
  | PlayRent
  | PlayAction
  | FlipWildcard
  | SwipeIn
  | FareEvasion
  | PowerBroker
  | ServiceChange
  | LineClosure
  | MissedTrain
  | ItsMyStop
  | RushHour
  | ExpressService
  | NewStation
  | Accept
  | PlayFareEvasion
  | other (s : String)
  deriving DecidableEq, Repr

/-- The string value of an action type, as printed by `%s`. -/
def ActionType.name : ActionType → String
  | DrawCards => "DRAW_CARDS"
  | EndTurn => "END_TURN"
  | PlayProperty => "PLAY_PROPERTY"
  | PlayMoney => "PLAY_MONEY"
  | PlayRent => "PLAY_RENT"
  | PlayAction => "PLAY_ACTION"
  | FlipWildcard => "FLIP_WILDCARD"
  | SwipeIn => "SWIPE_IN"
  | FareEvasion => "FARE_EVASION"
  | PowerBroker => "POWER_BROKER"
  | ServiceChange => "SERVICE_CHANGE"
  | LineClosure => "LINE_CLOSURE"
  | MissedTrain => "MISSED_YOUR_TRAIN"
  | ItsMyStop => "ITS_MY_STOP"
  | RushHour => "RUSH_HOUR"
  | ExpressService => "EXPRESS_SERVICE"
  | NewStation => "NEW_STATION"
  | Accept => "ACCEPT"
  | PlayFareEvasion => "PLAY_FARE_EVASION"
  | other s => s

/-- A player action; `Data` is the Go map of string keys to string values. -/
structure Action where
  Typ : ActionType
  PlayerID : String
  Data : List (String × String)
  deriving DecidableEq, Repr

namespace Action

/-- The map read `a.Data[key]`: the empty string when the key is absent. -/
def data (a : Action) (key : String) : String :=
  match a.Data.lookup key with
  | some v => v
  | none => ""

def GetCardID (a : Action) : String := a.data "cardId"

def GetTargetPlayerID (a : Action) : String := a.data "targetPlayerId"

def GetColor (a : Action) : String := a.data "color"

def GetTargetCardID (a : Action) : String := a.data "targetCardId"

end Action

/-! ## state.go -/

inductive GamePhase where
  | setup
  | playing
  | finished
  deriving DecidableEq, Repr

inductive TurnPhase where
  | draw
  | actions
  | response
  | discard
  deriving DecidableEq, Repr

/-- An action waiting for the response of its targets; `Act` is the Go field `Action`. -/
structure PendingAction where
  Act : Action
  SourcePlayerID : String
  TargetPlayerIDs : List String
  RespondedIDs : List String
  RentMultiplier : Int
  RentColor : String
  RentAmount : Int
  deriving DecidableEq, Repr

/-- The complete state of a game.  `Winner` is the position in `Players` of the player the Go
pointer refers to. -/
structure GameState where
  ID : String
  Players : List Player
  Deck : List Card
  DiscardPile : List Card
  CurrentPlayerIndex : Nat
  Phase : GamePhase
  TurnPhase : TurnPhase
  ActionsPlayedThisTurn : Int
  MaxActionsPerTurn : Int
  Winner : Option Nat
  PendingAction : Option PendingAction
  deriving DecidableEq, Repr

def NewGameState (id : String) : GameState :=
  { ID := id, Players := [], Deck := [], DiscardPile := [], CurrentPlayerIndex := 0,
    Phase := GamePhase.setup, TurnPhase := TurnPhase.draw, ActionsPlayedThisTurn := 0,
    MaxActionsPerTurn := 3, Winner := none, PendingAction := none }

/-- Position of the first player of a list with the given id. -/
def indexOfID : List Player → String → Option Nat
  | [], _ => none
  | p :: ps, playerID =>
    if p.ID = playerID then some 0
    else
      match indexOfID ps playerID with
      | some i => some (i + 1)
      | none => none

/-- Position of the first player of a list who has won. -/
def indexOfWinner : List Player → Option Nat
  | [] => none
  | p :: ps =>
    if p.HasWon then some 0
    else
      match indexOfWinner ps with
      | some i => some (i + 1)
      | none => none

/-- The targets of a pending action that are not among the responded ids. -/
def PendingAction.pendingTargets (pa : PendingAction) : List String :=
  pa.TargetPlayerIDs.filter fun targetID => !(pa.RespondedIDs.any fun respID => respID = targetID)

namespace GameState

/-- `GetCurrentPlayer`: position and value of the current player; `none` is the nil pointer of
an empty player list and also the index-out-of-range panic. -/
def GetCurrentPlayer (gs : GameState) : Option (Nat × Player) :=
  match gs.Players[gs.CurrentPlayerIndex]? with
  | some p => some (gs.CurrentPlayerIndex, p)
  | none => none

/-- `GetPlayer`: position and value of the first player with the id; `none` is nil. -/
def GetPlayer (gs : GameState) (playerID : String) : Option (Nat × Player) :=
  match indexOfID gs.Players playerID with
  | some i =>
    match gs.Players[i]? with
    | some p => some (i, p)
    | none => none
  | none => none

/-- Stores a player back at a position: the effect of mutating through the pointer. -/
@[simp] def setPlayer (gs : GameState) (i : Nat) (p : Player) : GameState :=
  { gs with Players := gs.Players.set i p }

/-- `NextPlayer`; `none` is the division by zero on an empty player list. -/
def NextPlayer (gs : GameState) : Option GameState :=
  if gs.Players.length = 0 then none
  else
    some { gs with
      CurrentPlayerIndex := (gs.CurrentPlayerIndex + 1) % gs.Players.length
      ActionsPlayedThisTurn := 0
      TurnPhase := TurnPhase.draw }

def IsGameOver (gs : GameState) : Bool := decide (gs.Phase = GamePhase.finished)

/-- `CheckWinCondition`: the returned flag and the state afterwards. -/
def CheckWinCondition (gs : GameState) : Bool × GameState :=
  match indexOfWinner gs.Players with
  | some i => (true, { gs with Winner := some i, Phase := GamePhase.finished })
  | none => (false, gs)

def HasPendingAction (gs : GameState) : Bool := gs.PendingAction.isSome

/-- `GetPendingTargets` (the nil result without a pending action is the empty list). -/
def GetPendingTargets (gs : GameState) : List String :=
  match gs.PendingAction with
  | none => []
  | some pa => pa.pendingTargets

@[simp] def MarkResponded (gs : GameState) (playerID : String) : GameState :=
  match gs.PendingAction with
  | none => gs
  | some pa => { gs with PendingAction := some { pa with RespondedIDs := pa.RespondedIDs ++ [playerID] } }

def AllTargetsResponded (gs : GameState) : Bool := decide (gs.GetPendingTargets.length = 0)

@[simp] def ClearPendingAction (gs : GameState) : GameState :=
  { gs with PendingAction := none, TurnPhase := TurnPhase.actions }

/-- Applies a mutation to the player at a position (a write through a `*Player`). -/
def modifyPlayer (gs : GameState) (i : Nat) (f : Player → Player) : GameState :=
  match gs.Players[i]? with
  | some p => gs.setPlayer i (f p)
  | none => gs

/-- Appends a card to the discard pile. -/
@[simp] def discard (gs : GameState) (card : Card) : GameState :=
  { gs with DiscardPile := gs.DiscardPile ++ [card] }

/-- The statement `e.state.ActionsPlayedThisTurn++`. -/
@[simp] def countAction (gs : GameState) : GameState :=
  { gs with ActionsPlayedThisTurn := gs.ActionsPlayedThisTurn + 1 }

/-- Installs a pending action and switches to the response phase. -/
@[simp] def setPending (gs : GameState) (pa : SubwayDeal.PendingAction) : GameState :=
  { gs with PendingAction := some pa, TurnPhase := TurnPhase.response }

/-- The loop collecting the ids of all players other than `playerID`, in seating order. -/
def otherPlayerIDs (gs : GameState) (playerID : String) : List String :=
  (gs.Players.filter fun p => decide (p.ID ≠ playerID)).map fun p => p.ID

end GameState

/-! ## cards_data.go -/

/-- The loop `for i := 1; i <= n; i++` building cards whose id ends in the decimal `i`. -/
def numbered (n : Nat) (mk : String → Card) : List Card :=
  (List.range n).map fun i => mk (toString (i + 1))

/-- One property card of the catalog. -/
def prop (id name : String) (value : Int) (color : String) (setSize : Int)
    (rent : List (Int × Int)) : Card :=
  Card.property ⟨id, CardType.property, name, value⟩ color setSize rent

def createPropertyCards : List Card :=
  [ prop "prop_j" "J" 1 "brown" 2 [(1, 1), (2, 2)],
    prop "prop_z" "Z" 1 "brown" 2 [(1, 1), (2, 2)],
    prop "prop_a" "A" 1 "blue" 3 [(1, 1), (2, 2), (3, 3)],
    prop "prop_c" "C" 1 "blue" 3 [(1, 1), (2, 2), (3, 3)],
    prop "prop_e" "E" 1 "blue" 3 [(1, 1), (2, 2), (3, 3)],
    prop "prop_42nd_shuttle" "42nd St Shuttle" 2 "pink" 3 [(1, 1), (2, 2), (3, 4)],
    prop "prop_franklin_shuttle" "Franklin Ave Shuttle" 2 "pink" 3 [(1, 1), (2, 2), (3, 4)],
    prop "prop_rockaway_shuttle" "Rockaway Park Shuttle" 2 "pink" 3 [(1, 1), (2, 2), (3, 4)],
    prop "prop_b" "B" 2 "orange" 3 [(1, 1), (2, 3), (3, 5)],
    prop "prop_d" "D" 2 "orange" 3 [(1, 1), (2, 3), (3, 5)],
    prop "prop_f" "F" 2 "orange" 3 [(1, 1), (2, 3), (3, 5)],
    prop "prop_1" "1" 3 "red" 3 [(1, 2), (2, 3), (3, 6)],
    prop "prop_2" "2" 3 "red" 3 [(1, 2), (2, 3), (3, 6)],
    prop "prop_3" "3" 3 "red" 3 [(1, 2), (2, 3), (3, 6)],
    prop "prop_n" "N" 3 "yellow" 3 [(1, 2), (2, 4), (3, 6)],
    prop "prop_q" "Q" 3 "yellow" 3 [(1, 2), (2, 4), (3, 6)],
    prop "prop_r" "R" 3 "yellow" 3 [(1, 2), (2, 4), (3, 6)],
    prop "prop_penn" "Penn Station" 4 "green" 3 [(1, 2), (2, 4), (3, 7)],
    prop "prop_grand_central" "Grand Central" 4 "green" 3 [(1, 2), (2, 4), (3, 7)],
    prop "prop_atlantic" "Atlantic Terminal" 4 "green" 3 [(1, 2), (2, 4), (3, 7)],
    prop "prop_citi_field" "Citi Field" 4 "darkblue" 2 [(1, 3), (2, 8)],
    prop "prop_yankee_stadium" "Yankee Stadium" 4 "darkblue" 2 [(1, 3), (2, 8)],
    prop "prop_lirr" "LIRR" 2 "railroad" 4 [(1, 1), (2, 2), (3, 3), (4, 4)],
    prop "prop_metro_north" "Metro-North" 2 "railroad" 4 [(1, 1), (2, 2), (3, 3), (4, 4)],
    prop "prop_nj_transit" "NJ Transit" 2 "railroad" 4 [(1, 1), (2, 2), (3, 3), (4, 4)],
    prop "prop_path" "PATH" 2 "railroad" 4 [(1, 1), (2, 2), (3, 3), (4, 4)],
    prop "prop_g" "G" 2 "utility" 2 [(1, 1), (2, 2)],
    prop "prop_l" "L" 2 "utility" 2 [(1, 1), (2, 2)] ]

/-- One wildcard of the catalog. -/
def wild (id name : String) (value : Int) (colors : List String) (current : String) : Card :=
  Card.wildcard ⟨id, CardType.wildcard, name, value⟩ colors current

def createWildcardCards : List Card :=
  [ wild "wild_broadway" "Broadway Junction" 1 ["blue", "brown"] "blue",
    wild "wild_jamaica" "Jamaica Station" 4 ["blue", "railroad"] "blue" ]
  ++ numbered 2 (fun i =>
      wild ("wild_service_advisory_" ++ i) "Service Advisory" 2 ["pink", "orange"] "pink")
  ++ numbered 2 (fun i => wild ("wild_times_square_" ++ i) "Times Square" 3 ["red", "yellow"] "red")
  ++ [ wild "wild_big_game" "Big Game" 4 ["darkblue", "green"] "darkblue",
       wild "wild_grand_central" "Grand Central" 4 ["green", "railroad"] "green",
       wild "wild_weekend_service" "Weekend Service" 2 ["utility", "railroad"] "utility" ]
  ++ numbered 2 (fun i =>
      wild ("wild_fulton_" ++ i) "Fulton Center" 0
        ["brown", "blue", "pink", "orange", "red", "yellow", "green", "darkblue", "railroad",
         "utility"] "blue")

/-- One action card of the catalog. -/
def act (id name : String) (value : Int) : Card :=
  Card.action ⟨id, CardType.action, name, value⟩

def createActionCards : List Card :=
  numbered 10 (fun i => act ("action_swipe_in_" ++ i) "Swipe In" 1)
  ++ numbered 3 (fun i => act ("action_fare_evasion_" ++ i) "Fare Evasion" 4)
  ++ numbered 3 (fun i => act ("action_power_broker_" ++ i) "Power Broker" 3)
  ++ numbered 3 (fun i => act ("action_service_change_" ++ i) "Service Change" 3)
  ++ numbered 2 (fun i => act ("action_line_closure_" ++ i) "Line Closure" 5)
  ++ numbered 3 (fun i => act ("action_missed_train_" ++ i) "Missed Your Train" 3)
  ++ numbered 3 (fun i => act ("action_its_my_stop_" ++ i) "It's My Stop!" 2)
  ++ numbered 2 (fun i => act ("action_rush_hour_" ++ i) "Rush Hour" 1)
  ++ numbered 3 (fun i => act ("action_express_service_" ++ i) "Express Service" 3)
  ++ numbered 2 (fun i => act ("action_new_station_" ++ i) "New Station" 4)

/-- One rent card of the catalog. -/
def rentCard (id name : String) (value : Int) (colors : List String) (target : String) : Card :=
  Card.rent ⟨id, CardType.rent, name, value⟩ colors target

def createRentCards : List Card :=
  numbered 2 (fun i => rentCard ("rent_blue_brown_" ++ i) "Rent" 1 ["blue", "brown"] "all")
  ++ numbered 2 (fun i => rentCard ("rent_pink_orange_" ++ i) "Rent" 1 ["pink", "orange"] "all")
  ++ numbered 2 (fun i => rentCard ("rent_red_yellow_" ++ i) "Rent" 1 ["red", "yellow"] "all")
  ++ numbered 2 (fun i =>
      rentCard ("rent_darkblue_green_" ++ i) "Rent" 1 ["darkblue", "green"] "all")
  ++ numbered 2 (fun i =>
      rentCard ("rent_railroad_utility_" ++ i) "Rent" 1 ["railroad", "utility"] "all")
  ++ numbered 3 (fun i => rentCard ("rent_wild_" ++ i) "Wild Rent" 3 [] "one")

/-- One money card of the catalog. -/
def moneyCard (id name : String) (value : Int) : Card :=
  Card.money ⟨id, CardType.money, name, value⟩ value

def createMoneyCards : List Card :=
  numbered 6 (fun i => moneyCard ("money_1_" ++ i) "$1" 1)
  ++ numbered 5 (fun i => moneyCard ("money_2_" ++ i) "$2" 2)
  ++ numbered 3 (fun i => moneyCard ("money_3_" ++ i) "$3" 3)
  ++ numbered 3 (fun i => moneyCard ("money_4_" ++ i) "$4" 4)
  ++ numbered 2 (fun i => moneyCard ("money_5_" ++ i) "$5" 5)
  ++ [moneyCard "money_10_1" "$10" 10]

/-- All 106 cards of the game. -/
def CreateAllCards : List Card :=
  createPropertyCards ++ createWildcardCards ++ createActionCards ++ createRentCards
    ++ createMoneyCards

/-! ## executor.go -/

structure PaymentResult where
  FromPlayer : String
  Amount : Int
  Shortfall : Int
  deriving DecidableEq, Repr

/-- The result of executing an action. -/
structure ActionResult where
  Success : Bool
  Message : String
  Error : String
  Payments : List PaymentResult
  PendingAction : Bool
  deriving DecidableEq, Repr

namespace ActionResult

/-- The literal `ActionResult{Success: false, Error: err}`. -/
def failure (err : String) : ActionResult :=
  { Success := false, Message := "", Error := err, Payments := [], PendingAction := false }

/-- The literal `ActionResult{Success: true, Message: msg}`. -/
def ok (msg : String) : ActionResult :=
  { Success := true, Message := msg, Error := "", Payments := [], PendingAction := false }

/-- The literal `ActionResult{Success: true, Message: msg, PendingAction: true}`. -/
def pending (msg : String) : ActionResult :=
  { Success := true, Message := msg, Error := "", Payments := [], PendingAction := true }

/-- The result literal of the monetary case of `resolveForPlayer`: `name` paid `total` towards
`amount`. -/
def paid (name : String) (amount total : Int) : ActionResult :=
  { Success := true, Message := name ++ " paid $" ++ toString total, Error := "",
    Payments := [{ FromPlayer := name, Amount := total, Shortfall := max 0 (amount - total) }],
    PendingAction := false }

end ActionResult

/-- The error text of `Player.RemoveFromHand`. -/
def errNotInHand : String := "card not in hand"

/-- The swap `deck[i], deck[j] = deck[j], deck[i]`. -/
def swapAt (deck : List Card) (i j : Nat) : List Card :=
  match deck[i]?, deck[j]? with
  | some a, some b => (deck.set i b).set j a
  | _, _ => deck

/-- The Fisher-Yates loop `for i := n; i > 0; i-- { j := rand.Intn(i + 1); swap(i, j) }`;
`rnd i` is the number the random source yields at loop index `i`, reduced into `[0, i]`. -/
def shuffleLoop (rnd : Nat → Nat) : Nat → List Card → List Card
  | 0, deck => deck
  | i + 1, deck => shuffleLoop rnd i (swapAt deck (i + 1) (rnd (i + 1) % (i + 2)))

/-- The body of `shuffleDeck` (the executor's and the engine's are the same loop). -/
def shuffle (rnd : Nat → Nat) (deck : List Card) : List Card :=
  shuffleLoop rnd (deck.length - 1) deck

namespace GameState

/-- The first statement of `Executor.drawCard`: an empty deck is replaced by the shuffled
discard pile. -/
def refill (gs : GameState) (rnd : Nat → Nat) : GameState :=
  if gs.Deck.length = 0 then { gs with Deck := shuffle rnd gs.DiscardPile, DiscardPile := [] }
  else gs

/-- `Executor.drawCard`: the card drawn (`none` is nil) and the state afterwards. -/
def drawCard (gs : GameState) (rnd : Nat → Nat) : Option Card × GameState :=
  match (gs.refill rnd).Deck.getLast? with
  | none => (none, gs.refill rnd)
  | some card => (some card, { gs.refill rnd with Deck := (gs.refill rnd).Deck.dropLast })

/-- One round of the draw loop of Swipe In: draw, and add to the hand of player `i` if a card
came. -/
def drawInto (gs : GameState) (i : Nat) (rnd : Nat → Nat) : GameState :=
  match (gs.drawCard rnd).1 with
  | some card => (gs.drawCard rnd).2.modifyPlayer i fun p => p.AddToHand card
  | none => (gs.drawCard rnd).2

/-- The statement `player.GetPropertySet(color)` through the pointer at position `i`: the set,
and the state in which a missing set has been created. -/
def getPropertySetAt (gs : GameState) (i : Nat) (color : String) : Option (PropertySet × GameState) :=
  match gs.Players[i]? with
  | some p => some ((p.GetPropertySet color).1, gs.setPlayer i (p.GetPropertySet color).2)
  | none => none

/-- A write through a `*PropertySet` obtained from player `i` for `color`. -/
def setPropertySetAt (gs : GameState) (i : Nat) (color : String) (ps : PropertySet) : GameState :=
  gs.modifyPlayer i fun p => p.setPropertySet color ps

/-- The name of the player at a position, for messages (`none`: nil dereference). -/
@[simp] def nameAt (gs : GameState) (i : Nat) : Option String :=
  match gs.Players[i]? with
  | some p => some p.Name
  | none => none

/-- The common opening of the card-playing executors: look the actor up and take the card out
of the hand.  `none` is the nil dereference of an unknown player id; `some none` is the error of
`RemoveFromHand`; otherwise the actor's position, the card and the state with the shorter
hand. -/
def takeCard (gs : GameState) (action : Action) : Option (Option (Nat × Card × GameState)) :=
  match gs.GetPlayer action.PlayerID with
  | none => none
  | some (i, player) =>
    match player.RemoveFromHand action.GetCardID with
    | none => some none
    | some (card, player1) => some (some (i, card, gs.setPlayer i player1))

def executePlayProperty (gs : GameState) (action : Action) : Option (ActionResult × GameState) :=
  match gs.takeCard action with
  | none => none
  | some none => some (ActionResult.failure errNotInHand, gs)
  | some (some (i, card, gs1)) =>
    match gs1.getPropertySetAt i card.playColor, gs1.nameAt i with
    | some (propertySet, gs2), some name =>
      some (ActionResult.ok (name ++ " played " ++ card.GetName),
        (gs2.setPropertySetAt i card.playColor (propertySet.AddCard card)).countAction)
    | _, _ => none

def executePlayMoney (gs : GameState) (action : Action) : Option (ActionResult × GameState) :=
  match gs.takeCard action with
  | none => none
  | some none => some (ActionResult.failure errNotInHand, gs)
  | some (some (i, card, gs1)) =>
    match gs1.nameAt i with
    | some name =>
      some (ActionResult.ok
          (name ++ " banked " ++ card.GetName ++ " ($" ++ toString card.GetValue ++ ")"),
        (gs1.modifyPlayer i fun p => p.AddToBank card).countAction)
    | none => none

/-- Swipe In; `rnd k` is the random source of the `k`-th call of `drawCard`. -/
def executeSwipeIn (gs : GameState) (action : Action) (rnd : Nat → Nat → Nat) :
    Option (ActionResult × GameState) :=
  match gs.takeCard action with
  | none => none
  | some none => some (ActionResult.failure errNotInHand, gs)
  | some (some (i, card, gs1)) =>
    match gs1.nameAt i with
    | some name =>
      some (ActionResult.ok (name ++ " used Swipe In and drew 2 cards"),
        ((((gs1.discard card).drawInto i (rnd 0)).drawInto i (rnd 1))).countAction)
    | none => none

/-- The shared body of `executeExpressService` and `executeNewStation`, which differ in the
improvement added and in the message. -/
def executeImprovement (gs : GameState) (action : Action) (improvement label : String) :
    Option (ActionResult × GameState) :=
  match gs.takeCard action with
  | none => none
  | some none => some (ActionResult.failure errNotInHand, gs)
  | some (some (i, card, gs1)) =>
    match gs1.getPropertySetAt i action.GetColor, gs1.nameAt i with
    | some (propertySet, gs2), some name =>
      match propertySet.AddImprovement improvement with
      | none =>
        some (ActionResult.failure "cannot add improvement",
          gs2.modifyPlayer i fun p => p.AddToHand card)
      | some propertySet1 =>
        some (ActionResult.ok (name ++ " added " ++ label ++ " to " ++ action.GetColor ++ " set ("
            ++ (if improvement = "express" then "+$3" else "+$4") ++ " rent)"),
          (gs2.setPropertySetAt i action.GetColor propertySet1).countAction)
    | _, _ => none

def executeExpressService (gs : GameState) (action : Action) : Option (ActionResult × GameState) :=
  gs.executeImprovement action "express" "Express Service"

def executeNewStation (gs : GameState) (action : Action) : Option (ActionResult × GameState) :=
  gs.executeImprovement action "station" "New Station"

end GameState

/-- The nested search of `executeFlipWildcard` and `validateFlipWildcard`: the first map entry
holding a card with the id, with that card.  Go leaves the iteration order of a map
unspecified; the association list is walked in order. -/
def findInSets : List (String × PropertySet) → String → Option (String × PropertySet × Card)
  | [], _ => none
  | (color, ps) :: rest, cardID =>
    match findByID ps.Cards cardID with
    | some card => some (color, ps, card)
    | none => findInSets rest cardID

namespace GameState

def executeFlipWildcard (gs : GameState) (action : Action) : Option (ActionResult × GameState) :=
  match gs.GetPlayer action.PlayerID with
  | none => none
  | some (i, player) =>
    match findInSets player.Properties action.GetCardID with
    | none => some (ActionResult.failure "wildcard not found", gs)
    | some (color, ps, Card.wildcard b colors current) =>
      let gs1 := gs.setPropertySetAt i color
        { ps with Cards := eraseFirstByID ps.Cards action.GetCardID }
      let wc := (Card.wildcard b colors current).FlipColor
      match gs1.getPropertySetAt i wc.playColor with
      | some (newSet, gs2) =>
        some (ActionResult.ok
            (player.Name ++ " flipped wildcard from " ++ color ++ " to " ++ wc.playColor),
          gs2.setPropertySetAt i wc.playColor (newSet.AddCard wc))
      | none => none
    | some _ => some (ActionResult.failure "card is not a wildcard", gs)

/-- A pending action without rent data (the zero values of the Go struct literal). -/
def plainPending (action : Action) (source : String) (targets : List String) (amount : Int) :
    SubwayDeal.PendingAction :=
  { Act := action, SourcePlayerID := source, TargetPlayerIDs := targets, RespondedIDs := [],
    RentMultiplier := 0, RentColor := "", RentAmount := amount }

/-- The optional Rush Hour step of `createPendingRent`: when `rushHourCardId` is not empty and
names a card of the hand, that card is discarded and the multiplier is 2. -/
def applyRushHour (gs : GameState) (i : Nat) (rushHourID : String) : Option (Int × GameState) :=
  if rushHourID ≠ "" then
    match gs.Players[i]? with
    | none => none
    | some player =>
      match player.RemoveFromHand rushHourID with
      | some (rushCard, player1) => some (2, (gs.setPlayer i player1).discard rushCard)
      | none => some (1, gs)
  else some (1, gs)

def createPendingRent (gs : GameState) (action : Action) : Option (ActionResult × GameState) :=
  match gs.takeCard action with
  | none => none
  | some none => some (ActionResult.failure errNotInHand, gs)
  | some (some (i, Card.rent b colors target, gs1)) =>
    match gs1.getPropertySetAt i action.GetColor with
    | none => none
    | some (propertySet, gs2) =>
      match gs2.applyRushHour i (action.data "rushHourCardId"), gs2.Players[i]? with
      | some (multiplier, gs3), some player =>
        let gs4 := gs3.discard (Card.rent b colors target)
        let targetIDs :=
          if target = "all" then gs4.otherPlayerIDs player.ID else [action.GetTargetPlayerID]
        some (ActionResult.pending
            (player.Name ++ " demands $" ++ toString (propertySet.GetRent * multiplier)
              ++ " rent on " ++ action.GetColor
              ++ (if multiplier = 2 then " (Rush Hour!)" else "")),
          (gs4.setPending
            { Act := action, SourcePlayerID := player.ID, TargetPlayerIDs := targetIDs,
              RespondedIDs := [], RentMultiplier := multiplier, RentColor := action.GetColor,
              RentAmount := propertySet.GetRent * multiplier }).countAction)
      | _, _ => none
  | some (some _) => none

/-- The shared body of `createPendingPowerBroker` (`stealComplete = false`) and
`createPendingLineClosure` (`stealComplete = true`), which differ in the completeness test, the
error text and the message. -/
def createPendingSteal (gs : GameState) (action : Action) (stealComplete : Bool) :
    Option (ActionResult × GameState) :=
  match gs.takeCard action with
  | none => none
  | some none => some (ActionResult.failure errNotInHand, gs)
  | some (some (i, card, gs1)) =>
    match gs1.GetPlayer action.GetTargetPlayerID with
    | none => none
    | some (j, targetPlayer) =>
      match gs1.getPropertySetAt j action.GetColor, gs1.Players[i]? with
      | some (targetSet, gs2), some player =>
        if targetSet.IsComplete ≠ stealComplete then
          some (ActionResult.failure
              (if stealComplete then "can only steal complete sets"
               else "cannot steal from complete set"),
            gs2.modifyPlayer i fun p => p.AddToHand card)
        else
          some (ActionResult.pending
              (if stealComplete then
                player.Name ++ " plays Line Closure against " ++ targetPlayer.Name ++ "'s "
                  ++ action.GetColor ++ " set!"
               else player.Name ++ " plays Power Broker against " ++ targetPlayer.Name),
            (((gs2.discard card).setPending
              (plainPending action player.ID [action.GetTargetPlayerID] 0))).countAction)
      | _, _ => none

def createPendingPowerBroker (gs : GameState) (action : Action) :
    Option (ActionResult × GameState) :=
  gs.createPendingSteal action false

def createPendingLineClosure (gs : GameState) (action : Action) :
    Option (ActionResult × GameState) :=
  gs.createPendingSteal action true

def createPendingServiceChange (gs : GameState) (action : Action) :
    Option (ActionResult × GameState) :=
  match gs.takeCard action with
  | none => none
  | some none => some (ActionResult.failure errNotInHand, gs)
  | some (some (i, card, gs1)) =>
    match gs1.getPropertySetAt i (action.data "playerColor") with
    | none => none
    | some (playerSet, gs2) =>
      match gs2.GetPlayer action.GetTargetPlayerID with
      | none => none
      | some (j, targetPlayer) =>
        match gs2.getPropertySetAt j action.GetColor, gs2.Players[i]? with
        | some (targetSet, gs3), some player =>
          if playerSet.IsComplete then
            some (ActionResult.failure "cannot swap from your complete set",
              gs3.modifyPlayer i fun p => p.AddToHand card)
          else if targetSet.IsComplete then
            some (ActionResult.failure "cannot swap from opponent's complete set",
              gs3.modifyPlayer i fun p => p.AddToHand card)
          else
            some (ActionResult.pending
                (player.Name ++ " plays Service Change against " ++ targetPlayer.Name),
              (((gs3.discard card).setPending
                (plainPending action player.ID [action.GetTargetPlayerID] 0))).countAction)
        | _, _ => none

def createPendingMissedTrain (gs : GameState) (action : Action) :
    Option (ActionResult × GameState) :=
  match gs.takeCard action with
  | none => none
  | some none => some (ActionResult.failure errNotInHand, gs)
  | some (some (i, card, gs1)) =>
    match gs1.GetPlayer action.GetTargetPlayerID, gs1.Players[i]? with
    | some (_, targetPlayer), some player =>
      some (ActionResult.pending
          (player.Name ++ " demands $5 from " ++ targetPlayer.Name ++ " (Missed Your Train)"),
        (((gs1.discard card).setPending
          (plainPending action player.ID [action.GetTargetPlayerID] 5))).countAction)
    | _, _ => none

def createPendingItsMyStop (gs : GameState) (action : Action) :
    Option (ActionResult × GameState) :=
  match gs.takeCard action with
  | none => none
  | some none => some (ActionResult.failure errNotInHand, gs)
  | some (some (i, card, gs1)) =>
    match gs1.Players[i]? with
    | some player =>
      some (ActionResult.pending (player.Name ++ " demands $2 from everyone (It's My Stop!)"),
        (((gs1.discard card).setPending
          (plainPending action player.ID ((gs1.discard card).otherPlayerIDs player.ID) 2))).countAction)
    | none => none

/-- The statement `player.GetPropertySet(color).AddCard(card)` for the player at position `i`. -/
def addCardAt (gs : GameState) (i : Nat) (color : String) (card : Card) : Option GameState :=
  match gs.getPropertySetAt i color with
  | some (ps, gs1) => some (gs1.setPropertySetAt i color (ps.AddCard card))
  | none => none

/-- The statement `set.RemoveCard(cardID)` on the set of `color` of the player at position `i`
(the set exists): the removed card and the state, `some none` when the card is not there. -/
def removeCardAt (gs : GameState) (i : Nat) (color cardID : String) :
    Option (Option (Card × GameState)) :=
  match gs.getPropertySetAt i color with
  | none => none
  | some (ps, gs1) =>
    match ps.RemoveCard cardID with
    | none => some none
    | some (card, ps1) => some (some (card, gs1.setPropertySetAt i color ps1))

/-- The monetary case of `resolveForPlayer` (rent, Missed Your Train, It's My Stop). -/
def resolveMoney [SliceSort] (gs : GameState) (pa : SubwayDeal.PendingAction) (playerID : String) :
    Option (ActionResult × GameState) :=
  match gs.GetPlayer playerID with
  | none => none
  | some (j, targetPlayer) =>
    let paid := (targetPlayer.PayMoney pa.RentAmount).1.1
    let total := (targetPlayer.PayMoney pa.RentAmount).1.2
    let gs1 := gs.setPlayer j (targetPlayer.PayMoney pa.RentAmount).2
    let result := ActionResult.paid targetPlayer.Name pa.RentAmount total
    match gs.GetPlayer pa.SourcePlayerID with
    | some (i, _) => some (result, gs1.modifyPlayer i fun p => paid.foldl Player.AddToBank p)
    | none => if paid = [] then some (result, gs1) else none

/-- The Power Broker case of `resolveForPlayer`. -/
def resolvePowerBroker (gs : GameState) (pa : SubwayDeal.PendingAction) (playerID : String) :
    Option (ActionResult × GameState) :=
  match gs.GetPlayer pa.SourcePlayerID, gs.GetPlayer playerID with
  | source, some (j, targetPlayer) =>
    match gs.removeCardAt j pa.Act.GetColor pa.Act.GetTargetCardID with
    | none => none
    | some none =>
      match gs.getPropertySetAt j pa.Act.GetColor with
      | some (_, gs1) => some (ActionResult.failure "target card not found", gs1)
      | none => none
    | some (some (stolenCard, gs1)) =>
      match source with
      | none => none
      | some (i, sourcePlayer) =>
        match gs1.addCardAt i stolenCard.playColor stolenCard with
        | some gs2 =>
          some (ActionResult.ok (sourcePlayer.Name ++ " stole " ++ stolenCard.GetName ++ " from "
              ++ targetPlayer.Name), gs2)
        | none => none
  | _, none => none

/-- The Line Closure case of `resolveForPlayer`. -/
def resolveLineClosure (gs : GameState) (pa : SubwayDeal.PendingAction) (playerID : String) :
    Option (ActionResult × GameState) :=
  match gs.GetPlayer pa.SourcePlayerID, gs.GetPlayer playerID with
  | some (i, sourcePlayer), some (j, targetPlayer) =>
    match gs.getPropertySetAt j pa.Act.GetColor with
    | none => none
    | some (targetSet, gs1) =>
      match gs1.getPropertySetAt i pa.Act.GetColor with
      | none => none
      | some (playerSet, gs2) =>
        let gs3 := gs2.setPropertySetAt i pa.Act.GetColor
          { playerSet with
            Cards := targetSet.Cards.foldl (fun cards c => cards ++ [c]) playerSet.Cards
            Improvements :=
              targetSet.Improvements.foldl (fun imps imp => imps ++ [imp]) playerSet.Improvements }
        some (ActionResult.ok (sourcePlayer.Name ++ " stole complete " ++ pa.Act.GetColor
            ++ " set from " ++ targetPlayer.Name),
          gs3.setPropertySetAt j pa.Act.GetColor { targetSet with Cards := [], Improvements := [] })
  | _, _ => none

/-- The Service Change case of `resolveForPlayer`.  A failed `RemoveCard` leaves a nil card
whose `GetName()` in the message panics, so both removals have to succeed. -/
def resolveServiceChange (gs : GameState) (pa : SubwayDeal.PendingAction) (playerID : String) :
    Option (ActionResult × GameState) :=
  match gs.GetPlayer pa.SourcePlayerID, gs.GetPlayer playerID with
  | some (i, _), some (j, _) =>
    match gs.getPropertySetAt i (pa.Act.data "playerColor") with
    | none => none
    | some (_, gs1) =>
      match gs1.getPropertySetAt j pa.Act.GetColor with
      | none => none
      | some (_, gs2) =>
        match gs2.removeCardAt i (pa.Act.data "playerColor") (pa.Act.data "playerCardId") with
        | some (some (playerCard, gs3)) =>
          match gs3.removeCardAt j pa.Act.GetColor pa.Act.GetTargetCardID with
          | some (some (targetCard, gs4)) =>
            match gs4.addCardAt i targetCard.playColor targetCard with
            | none => none
            | some gs5 =>
              match gs5.addCardAt j playerCard.playColor playerCard with
              | none => none
              | some gs6 =>
                some (ActionResult.ok
                  ("Swapped " ++ playerCard.GetName ++ " for " ++ targetCard.GetName), gs6)
          | _ => none
        | _ => none
  | _, _ => none

/-- `resolveForPlayer`: the effect of the pending action `pa` on a player who accepted. -/
def resolveForPlayer [SliceSort] (gs : GameState) (pa : SubwayDeal.PendingAction)
    (playerID : String) :
    Option (ActionResult × GameState) :=
  match pa.Act.Typ with
  | ActionType.PlayRent => gs.resolveMoney pa playerID
  | ActionType.MissedTrain => gs.resolveMoney pa playerID
  | ActionType.ItsMyStop => gs.resolveMoney pa playerID
  | ActionType.PowerBroker => gs.resolvePowerBroker pa playerID
  | ActionType.LineClosure => gs.resolveLineClosure pa playerID
  | ActionType.ServiceChange => gs.resolveServiceChange pa playerID
  | _ => some (ActionResult.failure "unknown pending action type", gs)

def executeAccept [SliceSort] (gs : GameState) (action : Action) :
    Option (ActionResult × GameState) :=
  match gs.PendingAction with
  | none => some (ActionResult.failure "no pending action", gs)
  | some _ =>
    match (gs.MarkResponded action.PlayerID).PendingAction with
    | none => none
    | some pa =>
      match (gs.MarkResponded action.PlayerID).resolveForPlayer pa action.PlayerID with
      | none => none
      | some (result, gs1) =>
        some (result, if gs1.AllTargetsResponded then gs1.ClearPendingAction else gs1)

def executeFareEvasion (gs : GameState) (action : Action) : Option (ActionResult × GameState) :=
  match gs.PendingAction with
  | none => some (ActionResult.failure "no pending action", gs)
  | some pending =>
    match gs.takeCard action with
    | none => none
    | some none => some (ActionResult.failure errNotInHand, gs)
    | some (some (i, card, gs1)) =>
      match gs1.nameAt i with
      | none => none
      | some name =>
        let gs2 := (gs1.discard card).MarkResponded action.PlayerID
        if pending.TargetPlayerIDs.length = 1 then
          some (ActionResult.ok (name ++ " blocked the action with Fare Evasion!"),
            gs2.ClearPendingAction)
        else
          some (ActionResult.ok (name ++ " blocked with Fare Evasion!"),
            if gs2.AllTargetsResponded then gs2.ClearPendingAction else gs2)

/-- `Executor.Execute`; `rnd k` is the random source of the `k`-th reshuffle. -/
def Execute [SliceSort] (gs : GameState) (action : Action) (rnd : Nat → Nat → Nat) :
    Option (ActionResult × GameState) :=
  match action.Typ with
  | ActionType.PlayProperty => gs.executePlayProperty action
  | ActionType.PlayMoney => gs.executePlayMoney action
  | ActionType.SwipeIn => gs.executeSwipeIn action rnd
  | ActionType.ExpressService => gs.executeExpressService action
  | ActionType.NewStation => gs.executeNewStation action
  | ActionType.FlipWildcard => gs.executeFlipWildcard action
  | ActionType.EndTurn => some (ActionResult.ok "turn ended", gs)
  | ActionType.PlayRent => gs.createPendingRent action
  | ActionType.PowerBroker => gs.createPendingPowerBroker action
  | ActionType.LineClosure => gs.createPendingLineClosure action
  | ActionType.ServiceChange => gs.createPendingServiceChange action
  | ActionType.MissedTrain => gs.createPendingMissedTrain action
  | ActionType.ItsMyStop => gs.createPendingItsMyStop action
  | ActionType.Accept => gs.executeAccept action
  | ActionType.PlayFareEvasion => gs.executeFareEvasion action
  | t => some (ActionResult.failure ("no executor for: " ++ t.name), gs)

end GameState

/-! ## validator.go -/

structure ValidationResult where
  Valid : Bool
  Error : String
  deriving DecidableEq, Repr

def Valid : ValidationResult := { Valid := true, Error := "" }

def Invalid (err : String) : ValidationResult := { Valid := false, Error := err }

/-- The error text of the action cap. -/
def errMaxActions : String := "maximum actions per turn exceeded"

namespace GameState

/-- The test `action.PlayerID != v.state.GetCurrentPlayer().ID`; `none` is the nil dereference
when there is no current player. -/
def notCurrentPlayer (gs : GameState) (action : Action) : Option Bool :=
  match gs.GetCurrentPlayer with
  | some (_, p) => some (decide (action.PlayerID ≠ p.ID))
  | none => none

/-- The validator returns its verdict together with the state, since `validatePlayRent` calls
`GetPropertySet`, which writes to the player's map. -/
def validateDrawCards (gs : GameState) (action : Action) : Option (ValidationResult × GameState) :=
  if gs.TurnPhase ≠ TurnPhase.draw then some (Invalid "can only draw cards at start of turn", gs)
  else
    match gs.notCurrentPlayer action with
    | none => none
    | some true => some (Invalid "not your turn", gs)
    | some false => some (Valid, gs)

def validatePlayProperty (gs : GameState) (action : Action) :
    Option (ValidationResult × GameState) :=
  if gs.TurnPhase ≠ TurnPhase.actions then
    some (Invalid "can only play cards during action phase", gs)
  else
    match gs.notCurrentPlayer action with
    | none => none
    | some true => some (Invalid "not your turn", gs)
    | some false =>
      match gs.GetPlayer action.PlayerID with
      | none => none
      | some (_, player) =>
        match player.GetCardFromHand action.GetCardID with
        | none => some (Invalid "card not in hand", gs)
        | some card =>
          if card.GetType ≠ CardType.property ∧ card.GetType ≠ CardType.wildcard then
            some (Invalid "card is not a property", gs)
          else if gs.ActionsPlayedThisTurn ≥ gs.MaxActionsPerTurn then
            some (Invalid errMaxActions, gs)
          else some (Valid, gs)

def validatePlayMoney (gs : GameState) (action : Action) :
    Option (ValidationResult × GameState) :=
  if gs.TurnPhase ≠ TurnPhase.actions then
    some (Invalid "can only play cards during action phase", gs)
  else
    match gs.notCurrentPlayer action with
    | none => none
    | some true => some (Invalid "not your turn", gs)
    | some false =>
      match gs.GetPlayer action.PlayerID with
      | none => none
      | some (_, player) =>
        match player.GetCardFromHand action.GetCardID with
        | none => some (Invalid "card not in hand", gs)
        | some card =>
          if card.GetValue ≤ 0 then some (Invalid "card has no money value", gs)
          else if gs.ActionsPlayedThisTurn ≥ gs.MaxActionsPerTurn then
            some (Invalid errMaxActions, gs)
          else some (Valid, gs)

def validatePlayRent (gs : GameState) (action : Action) :
    Option (ValidationResult × GameState) :=
  if gs.TurnPhase ≠ TurnPhase.actions then
    some (Invalid "can only play rent during action phase", gs)
  else
    match gs.notCurrentPlayer action with
    | none => none
    | some true => some (Invalid "not your turn", gs)
    | some false =>
      match gs.GetPlayer action.PlayerID with
      | none => none
      | some (i, player) =>
        match player.GetCardFromHand action.GetCardID with
        | none => some (Invalid "card not in hand", gs)
        | some (Card.rent b colors _) =>
          match gs.getPropertySetAt i action.GetColor with
          | none => none
          | some (propertySet, gs1) =>
            if propertySet.Cards.length = 0 ∧ ¬ Card.IsWildRent b.Name colors then
              some (Invalid ("you don't own any " ++ action.GetColor ++ " properties"), gs1)
            else if gs1.ActionsPlayedThisTurn ≥ gs1.MaxActionsPerTurn then
              some (Invalid errMaxActions, gs1)
            else some (Valid, gs1)
        | some _ => some (Invalid "not a rent card", gs)

def validatePlayAction (gs : GameState) (action : Action) :
    Option (ValidationResult × GameState) :=
  if gs.TurnPhase ≠ TurnPhase.actions then
    some (Invalid "can only play actions during action phase", gs)
  else
    match gs.notCurrentPlayer action with
    | none => none
    | some true => some (Invalid "not your turn", gs)
    | some false =>
      if gs.ActionsPlayedThisTurn ≥ gs.MaxActionsPerTurn then some (Invalid errMaxActions, gs)
      else some (Valid, gs)

def validateEndTurn (gs : GameState) (action : Action) : Option (ValidationResult × GameState) :=
  match gs.notCurrentPlayer action with
  | none => none
  | some true => some (Invalid "not your turn", gs)
  | some false => some (Valid, gs)

def validateFlipWildcard (gs : GameState) (action : Action) :
    Option (ValidationResult × GameState) :=
  match gs.notCurrentPlayer action with
  | none => none
  | some true => some (Invalid "not your turn", gs)
  | some false =>
    match gs.GetPlayer action.PlayerID with
    | none => none
    | some (_, player) =>
      match findInSets player.Properties action.GetCardID with
      | none => some (Invalid "wildcard not found in properties", gs)
      | some (_, ps, Card.wildcard _ _ _) =>
        if ps.IsComplete then some (Invalid "cannot flip wildcard in complete set", gs)
        else some (Valid, gs)
      | some _ => some (Invalid "card is not a wildcard", gs)

def validateResponse (gs : GameState) (action : Action) : Option (ValidationResult × GameState) :=
  if gs.TurnPhase ≠ TurnPhase.response then some (Invalid "no pending action to respond to", gs)
  else if !gs.HasPendingAction then some (Invalid "no pending action", gs)
  else if !(gs.GetPendingTargets.any fun targetID => targetID = action.PlayerID) then
    some (Invalid "you are not a target of this action", gs)
  else if action.Typ = ActionType.PlayFareEvasion then
    match gs.GetPlayer action.PlayerID with
    | none => none
    | some (_, player) =>
      match player.GetCardFromHand action.GetCardID with
      | none => some (Invalid "Fare Evasion card not in hand", gs)
      | some card =>
        if card.GetName ≠ "Fare Evasion" then some (Invalid "not a Fare Evasion card", gs)
        else some (Valid, gs)
  else some (Valid, gs)

/-- `Validator.Validate`: the verdict and the state afterwards (`none`: panic). -/
def Validate (gs : GameState) (action : Action) : Option (ValidationResult × GameState) :=
  if action.Typ = ActionType.Accept ∨ action.Typ = ActionType.PlayFareEvasion then
    gs.validateResponse action
  else if gs.TurnPhase = TurnPhase.response then
    some (Invalid "waiting for response to pending action", gs)
  else
    match action.Typ with
    | ActionType.DrawCards => gs.validateDrawCards action
    | ActionType.PlayProperty => gs.validatePlayProperty action
    | ActionType.PlayMoney => gs.validatePlayMoney action
    | ActionType.PlayRent => gs.validatePlayRent action
    | ActionType.PlayAction => gs.validatePlayAction action
    | ActionType.SwipeIn => gs.validatePlayAction action
    | ActionType.PowerBroker => gs.validatePlayAction action
    | ActionType.LineClosure => gs.validatePlayAction action
    | ActionType.ServiceChange => gs.validatePlayAction action
    | ActionType.MissedTrain => gs.validatePlayAction action
    | ActionType.ItsMyStop => gs.validatePlayAction action
    | ActionType.RushHour => gs.validatePlayAction action
    | ActionType.ExpressService => gs.validatePlayAction action
    | ActionType.NewStation => gs.validatePlayAction action
    | ActionType.EndTurn => gs.validateEndTurn action
    | ActionType.FlipWildcard => gs.validateFlipWildcard action
    | t => some (Invalid ("unknown action type: " ++ t.name), gs)

end GameState

/-! ## engine.go -/

/-- The draw loop shared by `dealInitialHands` and `StartTurn`: `n` rounds of
`if len(Deck) > 0 { pop the last card of the deck; AddToHand }`, on (deck, hand). -/
def dealLoop : Nat → List Card → List Card → List Card × List Card
  | 0, deck, hand => (deck, hand)
  | n + 1, deck, hand =>
    match deck.getLast? with
    | some card => dealLoop n deck.dropLast (hand ++ [card])
    | none => dealLoop n deck hand

/-- The hand-limit loop of `EndTurn`, `for len(player.Hand) > 7 { ... }`, unrolled `n` times on
(hand, discard pile); it runs `len(hand) - 7` times. -/
def discardLoop : Nat → List Card → List Card → List Card × List Card
  | 0, hand, pile => (hand, pile)
  | n + 1, hand, pile =>
    match hand.getLast? with
    | some card => discardLoop n hand.dropLast (pile ++ [card])
    | none => (hand, pile)

/-- The player-creation loop of `NewEngine`: ids `player_0`, `player_1`, ... from position
`i`. -/
def createPlayers : List String → Nat → List Player
  | [], _ => []
  | name :: rest, i => NewPlayer ("player_" ++ toString i) name :: createPlayers rest (i + 1)

/-- The loop of `dealInitialHands` over the players: five cards each, from (deck, players). -/
def dealInitialHands : List Player → List Card → List Card × List Player
  | [], deck => (deck, [])
  | p :: rest, deck =>
    let r := dealLoop 5 deck p.Hand
    let r2 := dealInitialHands rest r.1
    (r2.1, { p with Hand := r.2 } :: r2.2)

/-- `NewEngine`: the initial state; `rnd` is the random source of the shuffle. -/
def NewEngine (gameID : String) (playerNames : List String) (rnd : Nat → Nat) : GameState :=
  let dealt := dealInitialHands (createPlayers playerNames 0) (shuffle rnd CreateAllCards)
  { NewGameState gameID with Players := dealt.2, Deck := dealt.1, Phase := GamePhase.playing }

namespace GameState

/-- `Engine.ExecuteAction`: the result, the error (`none` is a nil error) and the state. -/
def ExecuteAction [SliceSort] (gs : GameState) (action : Action) (rnd : Nat → Nat → Nat) :
    Option ((ActionResult × Option String) × GameState) :=
  match gs.Validate action with
  | none => none
  | some (validation, gs1) =>
    if !validation.Valid then
      some ((ActionResult.failure validation.Error, some validation.Error), gs1)
    else
      match gs1.Execute action rnd with
      | none => none
      | some (result, gs2) => some ((result, none), gs2.CheckWinCondition.2)

/-- `Engine.StartTurn`. -/
def StartTurn (gs : GameState) : Option GameState :=
  match gs.GetCurrentPlayer with
  | none => none
  | some (i, player) =>
    let r := dealLoop (if player.Hand.length = 0 then 5 else 2) gs.Deck player.Hand
    some { gs with
      Players := gs.Players.set i { player with Hand := r.2 }
      Deck := r.1
      TurnPhase := TurnPhase.actions }

/-- `Engine.EndTurn`. -/
def EndTurn (gs : GameState) : Option GameState :=
  match gs.GetCurrentPlayer with
  | none => none
  | some (i, player) =>
    let r := discardLoop (player.Hand.length - 7) player.Hand gs.DiscardPile
    match ({ gs with
        Players := gs.Players.set i { player with Hand := r.1 }
        DiscardPile := r.2 } : GameState).NextPlayer with
    | none => none
    | some gs1 => gs1.StartTurn

end GameState

/-! ## Reference notions and sample data used by the statements below -/

instance : IsTotal Card valueLE := ⟨fun a b => le_total a.GetValue b.GetValue⟩

instance : IsTrans Card valueLE := ⟨fun _ _ _ hab hbc => le_trans hab hbc⟩

/-- The sort routine used where a concrete game is evaluated, and in every statement that does
not take a `SliceSort` of its own. -/
instance insertionSliceSort : SliceSort :=
  ⟨sortByValue, fun cards => List.perm_insertionSort valueLE cards,
    fun cards => List.sorted_insertionSort valueLE cards⟩

/-- The values of a bank in ascending order: the order in which the payment rule of the
specification ("sort bank cards ascending by value") considers them. -/
def ascendingValues (bank : List Card) : List Int :=
  (bank.map Card.GetValue).insertionSort (· ≤ ·)

/-- A money card as the tests build them: only id and value are set. -/
def testMoney (id : String) (value : Int) : Card :=
  Card.money ⟨id, CardType.other "", "", value⟩ 0

/-- The player of `TestPlayerPayMoney`: a bank of $1, $2 and $5. -/
def payTestPlayer : Player :=
  { NewPlayer "p1" "Alice" with Bank := [testMoney "m1" 1, testMoney "m2" 2, testMoney "m3" 5] }

/-- A player whose bank holds $1, $1 and $5. -/
def smallChangePlayer : Player :=
  { NewPlayer "p1" "Alice" with Bank := [testMoney "m1" 1, testMoney "m2" 1, testMoney "m3" 5] }

/-- Two states that differ at most in their players. -/
def PlayersOnly (gs gs1 : GameState) : Prop := gs1 = { gs with Players := gs1.Players }

/-- The monetary pending actions: rent, Missed Your Train and It's My Stop. -/
def isMonetary (t : ActionType) : Bool :=
  decide (t = ActionType.PlayRent ∨ t = ActionType.MissedTrain ∨ t = ActionType.ItsMyStop)

/-- The pending action after `MarkResponded playerID`. -/
def PendingAction.marked (pa : PendingAction) (playerID : String) : PendingAction :=
  { pa with RespondedIDs := pa.RespondedIDs ++ [playerID] }

/-- The actor of the executor tests after `alice.GetPropertySet("blue").AddCard(prop_a)`: one
blue property with the rent table 1, 2, 3. -/
def testAlice : Player :=
  { NewPlayer "player_0" "Alice" with
    Properties :=
      [("blue",
        { Color := "blue",
          Cards := [Card.property ⟨"prop_a", CardType.other "", "", 0⟩ "blue" 0
            [(1, 1), (2, 2), (3, 3)]],
          Improvements := [] })] }

/-- A pending rent of `amount` from `player_0` against `player_1`. -/
def testRentPending (amount : Int) : PendingAction :=
  { Act := ⟨ActionType.PlayRent, "player_0", [("cardId", "test_rent"), ("color", "blue")]⟩,
    SourcePlayerID := "player_0", TargetPlayerIDs := ["player_1"], RespondedIDs := [],
    RentMultiplier := 1, RentColor := "blue", RentAmount := amount }

/-- The state of `TestExecutorPlayRentWithResponse` after Alice has played her rent card, with
the given bank for Bob: the response phase of a rent of 1. -/
def rentResponseState (bobBank : List Card) : GameState :=
  { NewGameState "test-game" with
    Players := [testAlice, { NewPlayer "player_1" "Bob" with Bank := bobBank }]
    DiscardPile := [rentCard "test_rent" "" 1 ["blue"] "all"]
    Phase := GamePhase.playing
    TurnPhase := TurnPhase.response
    ActionsPlayedThisTurn := 1
    PendingAction := some (testRentPending 1) }

/-- Bob accepts. -/
def acceptBob : Action := ⟨ActionType.Accept, "player_1", []⟩

/-- The random source that makes every shuffle the identity (`j = i` at loop index `i`). -/
def noShuffle : Nat → Nat → Nat := fun _ i => i

/-- A player of `TestExecutorItsMyStopWithResponse` with two $1 cards banked. -/
def twoDollarPlayer (id name : String) : Player :=
  { NewPlayer id name with Bank := [testMoney (id ++ "_money_1") 1, testMoney (id ++ "_money_2") 1] }

/-- The pending action of `TestExecutorItsMyStopWithResponse`: $2 from Bob and Charlie. -/
def itsMyStopPending : PendingAction :=
  GameState.plainPending ⟨ActionType.ItsMyStop, "player_0", [("cardId", "its_my_stop")]⟩
    "player_0" ["player_1", "player_2"] 2

/-- The state of `TestExecutorItsMyStopWithResponse` after Alice has played It's My Stop. -/
def itsMyStopState : GameState :=
  { NewGameState "test-game" with
    Players :=
      [NewPlayer "player_0" "Alice", twoDollarPlayer "player_1" "Bob",
       twoDollarPlayer "player_2" "Charlie"]
    DiscardPile := [act "its_my_stop" "It's My Stop!" 2]
    Phase := GamePhase.playing
    TurnPhase := TurnPhase.response
    ActionsPlayedThisTurn := 1
    PendingAction := some itsMyStopPending }

/-- Charlie accepts. -/
def acceptCharlie : Action := ⟨ActionType.Accept, "player_2", []⟩

/-- The counter card of `TestExecutorFareEvasion`. -/
def fareEvasionCard : Card := act "fare_evasion" "Fare Evasion" 4

/-- Bob in `TestExecutorFareEvasion`: $10 banked and a Fare Evasion card in hand. -/
def fareEvasionBob : Player :=
  { NewPlayer "player_1" "Bob" with Hand := [fareEvasionCard], Bank := [testMoney "bob_money" 10] }

/-- The state of `TestExecutorFareEvasion` after Alice has played her rent card: a rent of 3
against Bob alone. -/
def fareEvasionState : GameState :=
  { rentResponseState [] with
    Players := [testAlice, fareEvasionBob], PendingAction := some (testRentPending 3) }

/-- Bob answers with his Fare Evasion card. -/
def playFareEvasion : Action :=
  ⟨ActionType.PlayFareEvasion, "player_1", [("cardId", "fare_evasion")]⟩

/-- The rent card of the executor tests. -/
def testRentCard : Card := rentCard "test_rent" "" 1 ["blue"] "all"

/-- The start of `TestExecutorRushHour`: Alice owns one blue property and holds a rent card and
a Rush Hour card, Bob has six $1 cards banked, and it is Alice's action phase. -/
def rushHourState : GameState :=
  { NewGameState "test-game" with
    Players :=
      [{ testAlice with Hand := [testRentCard, act "rush_hour" "Rush Hour" 1] },
       { NewPlayer "player_1" "Bob" with
         Bank := [testMoney "bob_money_a" 1, testMoney "bob_money_b" 1, testMoney "bob_money_c" 1,
                  testMoney "bob_money_d" 1, testMoney "bob_money_e" 1, testMoney "bob_money_f" 1] }]
    Phase := GamePhase.playing
    TurnPhase := TurnPhase.actions }

/-- Alice plays the rent card on blue and names `rush` as the companion card. -/
def playRentWith (rush : String) : Action :=
  ⟨ActionType.PlayRent, "player_0",
    [("cardId", "test_rent"), ("color", "blue"), ("rushHourCardId", rush)]⟩

/-- Two states that differ at most in players, deck, discard pile and action counter: what
the play of a card may change besides the pending action and the phases. -/
def PlayOnly (gs gs1 : GameState) : Prop :=
  gs1 = { gs with
    Players := gs1.Players, Deck := gs1.Deck, DiscardPile := gs1.DiscardPile,
    ActionsPlayedThisTurn := gs1.ActionsPlayedThisTurn }
/-- The pending-action invariant: a pending action exists only in the response phase. -/
def PendingOnlyInResponse (gs : GameState) : Prop :=
  gs.PendingAction.isSome = true → gs.TurnPhase = TurnPhase.response

/-- How one call of the executor may move the pending action and the turn phase: not at all;
a pending action is installed (response phase); the pending action is cleared (actions phase);
or an existing pending action stays, with the phase unchanged. -/
def ControlStep (gs gs1 : GameState) : Prop :=
  (gs1.PendingAction = gs.PendingAction ∧ gs1.TurnPhase = gs.TurnPhase) ∨
  (gs1.PendingAction.isSome = true ∧ gs1.TurnPhase = TurnPhase.response) ∨
  (gs1.PendingAction = none ∧ gs1.TurnPhase = TurnPhase.actions) ∨
  (gs.PendingAction.isSome = true ∧ gs1.PendingAction.isSome = true ∧
    gs1.TurnPhase = gs.TurnPhase)

/-- The states `NewEngine` returns, for any game id, player names and shuffle outcome. -/
def IsInitial (gs : GameState) : Prop :=
  ∃ (gameID : String) (playerNames : List String) (rnd : Nat → Nat),
    gs = NewEngine gameID playerNames rnd

/-- The states `NewEngine`, `StartTurn` and then any number of `Engine.ExecuteAction` calls
lead to (a call that panics leads nowhere). -/
inductive ReachableByActions [SliceSort] : GameState → Prop
  | start (gs0 gs : GameState) : IsInitial gs0 → gs0.StartTurn = some gs → ReachableByActions gs
  | step (gs : GameState) (action : Action) (rnd : Nat → Nat → Nat)
      (res : ActionResult × Option String) (gs1 : GameState) :
      ReachableByActions gs → gs.ExecuteAction action rnd = some (res, gs1) →
      ReachableByActions gs1

/-- The random source that leaves the deck in catalog order (`j = i` at every loop index). -/
def identityShuffle : Nat → Nat := fun i => i

/-- The current player plays It's My Stop, naming the card `cardID` of the hand. -/
def playItsMyStop (cardID : String) : Action :=
  ⟨ActionType.ItsMyStop, "player_0", [("cardId", cardID)]⟩

/-- Runs a list of actions through `Engine.ExecuteAction`, without reshuffles. -/
def runActions [SliceSort] : GameState → List Action → Option GameState
  | gs, [] => some gs
  | gs, action :: rest =>
    match gs.ExecuteAction action noShuffle with
    | none => none
    | some (_, gs1) => runActions gs1 rest

/-- A two-player game after `NewEngine` (deck in catalog order), `StartTurn`, and the first
player's It's My Stop played with the card `money_10_1` of the hand. -/
def openingTrace : Option GameState :=
  (NewEngine "game" ["Alice", "Bob"] identityShuffle).StartTurn.bind fun gs =>
    runActions gs [playItsMyStop "money_10_1"]

/-- The states `NewEngine` and any number of `StartTurn`, `EndTurn` and `ExecuteAction` calls
of the engine lead to (a call that panics leads nowhere). -/
inductive Reachable [SliceSort] : GameState → Prop
  | init (gs : GameState) : IsInitial gs → Reachable gs
  | startTurn (gs gs1 : GameState) : Reachable gs → gs.StartTurn = some gs1 → Reachable gs1
  | endTurn (gs gs1 : GameState) : Reachable gs → gs.EndTurn = some gs1 → Reachable gs1
  | executeAction (gs : GameState) (action : Action) (rnd : Nat → Nat → Nat)
      (res : ActionResult × Option String) (gs1 : GameState) :
      Reachable gs → gs.ExecuteAction action rnd = some (res, gs1) → Reachable gs1

/-- Every card of a state: deck, discard pile, and each player's hand, bank and property
sets. -/
def allCards (gs : GameState) : List Card :=
  gs.Deck ++ gs.DiscardPile
    ++ gs.Players.flatMap fun p => p.Hand ++ p.Bank ++ p.Properties.flatMap fun e => e.2.Cards

/-- A shuffle outcome that puts the two brown properties on top of the deck: the swap at loop
index 105 takes position 0 (`prop_j`), the swap at 104 takes position 1 (`prop_z`), every other
swap leaves its card in place. -/
def brownOnTop : Nat → Nat := fun i => if i = 105 then 0 else if i = 104 then 1 else i

/-- The first player plays the property card `cardID`. -/
def playProperty (cardID : String) : Action :=
  ⟨ActionType.PlayProperty, "player_0", [("cardId", cardID)]⟩

/-- The first player plays `EXPRESS_SERVICE` on `color`, naming the card `cardID`. -/
def playExpressService (cardID color : String) : Action :=
  ⟨ActionType.ExpressService, "player_0", [("cardId", cardID), ("color", color)]⟩

/-- A two-player game in which the first player is dealt both brown properties, plays them and
then plays `EXPRESS_SERVICE` on brown with the card `money_5_1`. -/
def lostCardTrace : Option GameState :=
  (NewEngine "game" ["Alice", "Bob"] brownOnTop).StartTurn.bind fun gs =>
    runActions gs
      [playProperty "prop_j", playProperty "prop_z", playExpressService "money_5_1" "brown"]

/-- The first player holds a rent card and owns no property; it is their action phase. -/
def noPropertyState : GameState :=
  { NewGameState "test-game" with
    Players := [{ NewPlayer "player_0" "Alice" with Hand := [testRentCard] },
                NewPlayer "player_1" "Bob"]
    Phase := GamePhase.playing
    TurnPhase := TurnPhase.actions }

/-- The player after `RemoveCard(cardID)` on the set `ps` they hold for `color`. -/
def Player.withoutCard (p : Player) (color : String) (ps : PropertySet) (cardID : String) :
    Player :=
  p.setPropertySet color { ps with Cards := eraseFirstByID ps.Cards cardID }

/-- The player after `GetPropertySet(colour of the card).AddCard(card)`. -/
def Player.withCard (p : Player) (card : Card) : Player :=
  (p.GetPropertySet card.playColor).2.setPropertySet card.playColor
    ((p.GetPropertySet card.playColor).1.AddCard card)

/-- The property card of `TestExecutorPowerBrokerWithResponse` in Bob's blue set. -/
def bobProp : Card := Card.property ⟨"bob_prop", CardType.property, "A", 1⟩ "blue" 0 []

/-- Alice's Power Broker play against the card `bob_prop` of Bob's blue set. -/
def powerBrokerPending : PendingAction :=
  GameState.plainPending
    ⟨ActionType.PowerBroker, "player_0",
      [("cardId", "power_broker"), ("targetPlayerId", "player_1"), ("color", "blue"),
       ("targetCardId", "bob_prop")]⟩
    "player_0" ["player_1"] 0

/-- Bob in `TestExecutorPowerBrokerWithResponse`: one property in his blue set. -/
def powerBrokerBob : Player :=
  { NewPlayer "player_1" "Bob" with
    Properties := [("blue", { Color := "blue", Cards := [bobProp], Improvements := [] })] }

/-- The state of `TestExecutorPowerBrokerWithResponse` after Alice has played Power Broker
(hands and deck left out). -/
def powerBrokerState : GameState :=
  { NewGameState "test-game" with
    Players := [NewPlayer "player_0" "Alice", powerBrokerBob]
    DiscardPile := [act "power_broker" "Power Broker" 3]
    Phase := GamePhase.playing
    TurnPhase := TurnPhase.response
    ActionsPlayedThisTurn := 1
    PendingAction := some powerBrokerPending }

/-- A card of the catalog that can lie in a set of `color`: a property card of that colour, or
a wildcard of the catalog that can take the colour and is currently set to it. -/
def catalogCardOfColour (color : String) : Card → Bool
  | Card.property b c size rent =>
    decide (Card.property b c size rent ∈ createPropertyCards) && decide (c = color)
  | Card.wildcard b colors current =>
    decide (current = color) && Card.CanBeColor colors color
      && createWildcardCards.any fun w =>
        match w with
        | Card.wildcard b1 colors1 _ => decide (b1 = b ∧ colors1 = colors)
        | _ => false
  | _ => false

/-- A property set built from catalog cards of its colour. -/
def builtFromCatalog (ps : PropertySet) : Prop :=
  ∀ c ∈ ps.Cards, catalogCardOfColour ps.Color c = true

instance (ps : PropertySet) : Decidable (builtFromCatalog ps) :=
  inferInstanceAs (Decidable (∀ c ∈ ps.Cards, catalogCardOfColour ps.Color c = true))

/-- Whether a list of cards holds a property card. -/
def hasPropertyCard (cards : List Card) : Bool :=
  cards.any fun c => match c with
    | Card.property _ _ _ _ => true
    | _ => false

/-- The brown set with both brown properties. -/
def fullBrownSet : PropertySet :=
  { Color := "brown",
    Cards := [prop "prop_j" "J" 1 "brown" 2 [(1, 1), (2, 2)],
              prop "prop_z" "Z" 1 "brown" 2 [(1, 1), (2, 2)]],
    Improvements := [] }

/-- The wildcard Broadway Junction (blue or brown) flipped to brown. -/
def broadwayAsBrown : Card := wild "wild_broadway" "Broadway Junction" 1 ["blue", "brown"] "brown"

/-- A blue set holding the property A of the catalog. -/
def oneBlueSet : PropertySet :=
  { Color := "blue", Cards := [prop "prop_a" "A" 1 "blue" 3 [(1, 1), (2, 2), (3, 3)]],
    Improvements := [] }

/-- One call of the engine's interface. -/
inductive EngineCall where
  | act (action : Action)
  | startTurn
  | endTurn
  deriving DecidableEq, Repr

/-- Runs a list of engine calls, without reshuffles. -/
def runCalls [SliceSort] : GameState → List EngineCall → Option GameState
  | gs, [] => some gs
  | gs, EngineCall.act action :: rest =>
    match gs.ExecuteAction action noShuffle with
    | none => none
    | some (_, gs1) => runCalls gs1 rest
  | gs, EngineCall.startTurn :: rest =>
    match gs.StartTurn with
    | none => none
    | some gs1 => runCalls gs1 rest
  | gs, EngineCall.endTurn :: rest =>
    match gs.EndTurn with
    | none => none
    | some gs1 => runCalls gs1 rest

/-- A shuffle outcome that deals the blue, pink and orange properties to the first player and
the brown, dark blue and utility properties to the second, over their first draws. -/
def riggedDeal : Nat → Nat := fun i =>
  match i with
  | 105 => 2 | 104 => 3 | 103 => 4 | 102 => 5 | 101 => 6
  | 100 => 0 | 99 => 1 | 98 => 20 | 97 => 21 | 96 => 26
  | 95 => 7 | 94 => 8 | 93 => 27 | 91 => 9 | 90 => 10
  | _ => i

/-- The player `playerID` plays the property card `cardID`. -/
def playPropertyBy (playerID cardID : String) : EngineCall :=
  EngineCall.act ⟨ActionType.PlayProperty, playerID, [("cardId", cardID)]⟩

/-- A two-player game up to the second player's win: each player plays three properties per
turn; the second player completes brown, dark blue and utility in the fourth turn. -/
def secondPlayerWins : Option GameState :=
  runCalls (NewEngine "game" ["Alice", "Bob"] riggedDeal)
    [EngineCall.startTurn,
     playPropertyBy "player_0" "prop_a", playPropertyBy "player_0" "prop_c",
     playPropertyBy "player_0" "prop_e", EngineCall.endTurn,
     playPropertyBy "player_1" "prop_j", playPropertyBy "player_1" "prop_z",
     playPropertyBy "player_1" "prop_citi_field", EngineCall.endTurn,
     playPropertyBy "player_0" "prop_42nd_shuttle", playPropertyBy "player_0" "prop_franklin_shuttle",
     playPropertyBy "player_0" "prop_rockaway_shuttle", EngineCall.endTurn,
     playPropertyBy "player_1" "prop_yankee_stadium", playPropertyBy "player_1" "prop_g",
     playPropertyBy "player_1" "prop_l", EngineCall.endTurn]

/-- The first player goes on after the second player's win and completes orange as a third
set. -/
def firstPlayerPlaysOn : List EngineCall :=
  [playPropertyBy "player_0" "prop_b", playPropertyBy "player_0" "prop_d",
   playPropertyBy "player_0" "prop_f"]

/-- The first player plays the property B. -/
def playB : Action := ⟨ActionType.PlayProperty, "player_0", [("cardId", "prop_b")]⟩


/-- The state with another game phase. -/
def GameState.withPhase (gs : GameState) (phase : GamePhase) : GameState :=
  { gs with Phase := phase }

/-- Two states that agree on the fields no executor writes: id, turn cursor, game phase,
action cap and winner. -/
def ExecutorOnly (gs gs1 : GameState) : Prop :=
  gs1 = { gs with
    Players := gs1.Players, Deck := gs1.Deck, DiscardPile := gs1.DiscardPile,
    ActionsPlayedThisTurn := gs1.ActionsPlayedThisTurn, PendingAction := gs1.PendingAction,
    TurnPhase := gs1.TurnPhase }

/-- The states that a sequence of `Engine.ExecuteAction`, `StartTurn` and `EndTurn` calls leads
to from `gs` (a call that panics leads nowhere). -/
inductive EngineRun [SliceSort] (gs : GameState) : GameState → Prop
  | done : EngineRun gs gs
  | executeAction (g : GameState) (action : Action) (rnd : Nat → Nat → Nat)
      (res : ActionResult × Option String) (g1 : GameState) :
      EngineRun gs g → g.ExecuteAction action rnd = some (res, g1) → EngineRun gs g1
  | startTurn (g g1 : GameState) : EngineRun gs g → g.StartTurn = some g1 → EngineRun gs g1
  | endTurn (g g1 : GameState) : EngineRun gs g → g.EndTurn = some g1 → EngineRun gs g1

/-- The executor refuses `action` with the error `msg`: `Execute` returns the failed result,
no pending action is created, turn phase, action counter, deck and discard pile are as before,
ids, names and banks of the players are as before, and the hand of the actor, at position `i`,
is `hand`.  When the validator has accepted the action, `Engine.ExecuteAction` returns the same
failed result, with a nil error. -/
def RefusedWith [SliceSort] (gs : GameState) (action : Action) (rnd : Nat → Nat → Nat) (i : Nat)
    (hand : List Card) (msg : String) : Prop :=
  ∃ gs1, gs.Execute action rnd = some (ActionResult.failure msg, gs1) ∧
    gs1.PendingAction = gs.PendingAction ∧ gs1.TurnPhase = gs.TurnPhase ∧
    gs1.ActionsPlayedThisTurn = gs.ActionsPlayedThisTurn ∧
    gs1.DiscardPile = gs.DiscardPile ∧ gs1.Deck = gs.Deck ∧
    gs1.Players.map (fun p => (p.ID, p.Name, p.Bank))
      = gs.Players.map (fun p => (p.ID, p.Name, p.Bank)) ∧
    (∃ p1, gs1.Players[i]? = some p1 ∧ p1.Hand = hand) ∧
    (gs.Validate action = some (Valid, gs) →
      ∃ gs2, gs.ExecuteAction action rnd = some ((ActionResult.failure msg, none), gs2) ∧
        gs2.Players = gs1.Players ∧ gs2.PendingAction = gs.PendingAction ∧
        gs2.TurnPhase = gs.TurnPhase ∧
        gs2.ActionsPlayedThisTurn = gs.ActionsPlayedThisTurn)

/-- A shuffle outcome that deals the three blue properties to the first player and Power
Broker, Line Closure, Service Change and the two brown properties to the second. -/
def stealDeal : Nat → Nat := fun i =>
  match i with
  | 105 => 2 | 104 => 3 | 103 => 4
  | 100 => 52 | 99 => 58 | 98 => 55 | 97 => 0 | 96 => 1
  | _ => i

/-- A two-player game in which the first player completes blue in the first turn and ends the
turn: the second player's action phase. -/
def blueCompleteTrace : Option GameState :=
  runCalls (NewEngine "game" ["Alice", "Bob"] stealDeal)
    [EngineCall.startTurn,
     playPropertyBy "player_0" "prop_a", playPropertyBy "player_0" "prop_c",
     playPropertyBy "player_0" "prop_e", EngineCall.endTurn]

/-- The second player plays Power Broker against the card A of the first player's blue set. -/
def powerBrokerOnBlue : Action :=
  ⟨ActionType.PowerBroker, "player_1",
    [("cardId", "action_power_broker_1"), ("targetPlayerId", "player_0"), ("color", "blue"),
     ("targetCardId", "prop_a")]⟩

/-- The second player plays Line Closure against the first player's pink set. -/
def lineClosureOnPink : Action :=
  ⟨ActionType.LineClosure, "player_1",
    [("cardId", "action_line_closure_1"), ("targetPlayerId", "player_0"), ("color", "pink")]⟩

/-- The second player plays Service Change: a brown card of theirs for the card A of the first
player's blue set. -/
def serviceChangeOnBlue : Action :=
  ⟨ActionType.ServiceChange, "player_1",
    [("cardId", "action_service_change_1"), ("targetPlayerId", "player_0"), ("color", "blue"),
     ("targetCardId", "prop_a"), ("playerColor", "brown"), ("playerCardId", "prop_j")]⟩

/-- The Power Broker card of the executor tests. -/
def testPowerBroker : Card := act "power_broker" "Power Broker" 3

/-- Bob in `TestExecutorPowerBrokerCompleteSet`: a complete blue set. -/
def completeSetBob : Player :=
  { NewPlayer "player_1" "Bob" with
    Properties :=
      [("blue",
        { Color := "blue",
          Cards := [Card.property ⟨"bob_blue_a", CardType.other "", "", 0⟩ "blue" 0 [],
                    Card.property ⟨"bob_blue_b", CardType.other "", "", 0⟩ "blue" 0 [],
                    Card.property ⟨"bob_blue_c", CardType.other "", "", 0⟩ "blue" 0 []],
          Improvements := [] })] }

/-- The state of `TestExecutorPowerBrokerCompleteSet` (other cards left out): Alice holds a
Power Broker card and Bob owns a complete blue set. -/
def completeSetState : GameState :=
  { NewGameState "test-game" with
    Players := [{ NewPlayer "player_0" "Alice" with Hand := [testPowerBroker] }, completeSetBob]
    Phase := GamePhase.playing
    TurnPhase := TurnPhase.actions }

/-- Alice plays Power Broker against the card `bob_blue_a` of Bob's blue set. -/
def powerBrokerOnComplete : Action :=
  ⟨ActionType.PowerBroker, "player_0",
    [("cardId", "power_broker"), ("targetPlayerId", "player_1"), ("color", "blue"),
     ("targetCardId", "bob_blue_a")]⟩


/-- The first player plays `SWIPE_IN` and names the money card `money_10_1` of the hand. -/
def swipeInWithMoney : Action := ⟨ActionType.SwipeIn, "player_0", [("cardId", "money_10_1")]⟩

/-- The first player plays the action type `typ` and names a card that is in no hand. -/
def playMissingCard (typ : ActionType) : Action := ⟨typ, "player_0", [("cardId", "no_such_card")]⟩

/-- The acting player is a target of the pending action who has not responded yet. -/
def isOpenTarget (gs : GameState) (playerID : String) : Prop :=
  ∃ pa, gs.PendingAction = some pa ∧ playerID ∈ pa.TargetPlayerIDs ∧ playerID ∉ pa.RespondedIDs

/-- The cards a player owns in the property set of a colour (none when there is no such
set). -/
def Player.cardsOfColour (p : Player) (color : String) : List Card :=
  match p.Properties.lookup color with
  | some ps => ps.Cards
  | none => []

/-- The wild rent card of `TestValidatorPlayRentWild`. -/
def testWildRent : Card := rentCard "wild_rent" "Wild Rent" 3 [] "one"

/-- Alice holds the wild rent card and owns no property; it is her action phase. -/
def wildRentState : GameState :=
  { noPropertyState with
    Players := [{ NewPlayer "player_0" "Alice" with Hand := [testWildRent] },
                NewPlayer "player_1" "Bob"] }

/-- Alice plays the card `cardID` as rent on `color`. -/
def playRentOn (cardID color : String) : Action :=
  ⟨ActionType.PlayRent, "player_0", [("cardId", cardID), ("color", color)]⟩

/-- The game of the engine tests: two players right after `NewEngine`, with the deck left in
catalog order by the shuffle. -/
def freshGame : GameState := NewEngine "test-game" ["Alice", "Bob"] identityShuffle

/-- The dynamic Go type of a card, named by the `CardType` constant of that kind of card. -/
def Card.kind : Card → CardType
  | Card.property _ _ _ _ => CardType.property
  | Card.wildcard _ _ _ => CardType.wildcard
  | Card.action _ => CardType.action
  | Card.rent _ _ _ => CardType.rent
  | Card.money _ _ => CardType.money

/-- How many cards of a list have the given kind, by their `Type` field. -/
def countOfType (t : CardType) (cards : List Card) : Nat :=
  cards.countP fun c => decide (c.GetType = t)

/-- How many property cards of a colour a list holds. -/
def countOfColour (color : String) (cards : List Card) : Nat :=
  cards.countP fun c =>
    match c with
    | Card.property _ col _ _ => decide (col = color)
    | _ => false

/-- How many rent cards of a list are wild. -/
def countWildRent (cards : List Card) : Nat :=
  cards.countP fun c =>
    match c with
    | Card.rent b colors _ => Card.IsWildRent b.Name colors
    | _ => false

/-- How many money cards of a denomination a list holds. -/
def countOfDenomination (d : Int) (cards : List Card) : Nat :=
  cards.countP fun c =>
    match c with
    | Card.money b den => decide (den = d ∧ b.Value = d)
    | _ => false

/-- The money cards of a list. -/
def moneyCards (cards : List Card) : List Card :=
  cards.filter fun c => decide (c.GetType = CardType.money)

/-- The action types the validator subjects to the per-turn action cap: the plays of a card
(`validatePlayProperty`, `validatePlayMoney`, `validatePlayRent`, `validatePlayAction`). -/
def isCardPlay : ActionType → Bool
  | ActionType.PlayProperty => true
  | ActionType.PlayMoney => true
  | ActionType.PlayRent => true
  | ActionType.PlayAction => true
  | ActionType.SwipeIn => true
  | ActionType.PowerBroker => true
  | ActionType.LineClosure => true
  | ActionType.ServiceChange => true
  | ActionType.MissedTrain => true
  | ActionType.ItsMyStop => true
  | ActionType.RushHour => true
  | ActionType.ExpressService => true
  | ActionType.NewStation => true
  | _ => false

/-- The state with the action counter set to `n`. -/
def GameState.withCounter (gs : GameState) (n : Int) : GameState :=
  { gs with ActionsPlayedThisTurn := n }

/-- Two states with the same number of players and the same action counter. -/
def Quiet (gs gs1 : GameState) : Prop :=
  gs1.Players.length = gs.Players.length ∧
  gs1.ActionsPlayedThisTurn = gs.ActionsPlayedThisTurn

/-- What one call of the executor does to the action counter: it keeps the number of players,
and the counter stays or, for an acting player who exists, goes up by one. -/
def CountStep (gs : GameState) (action : Action) (gs1 : GameState) : Prop :=
  gs1.Players.length = gs.Players.length ∧
  (gs1.ActionsPlayedThisTurn = gs.ActionsPlayedThisTurn ∨
    (gs1.ActionsPlayedThisTurn = gs.ActionsPlayedThisTurn + 1 ∧
      (gs.GetPlayer action.PlayerID).isSome = true))

/-- The invariant behind the action cap: the counter lies between 0 and the cap, the cap is 3,
and the turn cursor points at a player unless the game has no players (and then nothing has
been played). -/
def CapInvariant (gs : GameState) : Prop :=
  0 ≤ gs.ActionsPlayedThisTurn ∧ gs.ActionsPlayedThisTurn ≤ 3 ∧ gs.MaxActionsPerTurn = 3 ∧
  (gs.CurrentPlayerIndex < gs.Players.length ∨
    (gs.Players = [] ∧ gs.ActionsPlayedThisTurn = 0))

/-- The player `playerID` banks the money card `cardID`. -/
def playMoneyBy (playerID cardID : String) : EngineCall :=
  EngineCall.act ⟨ActionType.PlayMoney, playerID, [("cardId", cardID)]⟩

/-- A two-player game, deck in catalog order, in which the first player has banked three money
cards: the action counter is 3. -/
def threePlaysTrace : Option GameState :=
  runCalls (NewEngine "game" ["Alice", "Bob"] identityShuffle)
    [EngineCall.startTurn, playMoneyBy "player_0" "money_10_1", playMoneyBy "player_0" "money_5_2",
     playMoneyBy "player_0" "money_5_1"]

/-- The first player tries to bank a card that is in no hand. -/
def playNoCard : Action := ⟨ActionType.PlayMoney, "player_0", [("cardId", "no_such_card")]⟩

/-- The second player tries to bank a card of their hand during the first player's turn. -/
def playOutOfTurn : Action := ⟨ActionType.PlayMoney, "player_1", [("cardId", "money_4_1")]⟩

/-- The first player tries to bank a fourth card, `money_4_3`. -/
def fourthPlay : Action := ⟨ActionType.PlayMoney, "player_0", [("cardId", "money_4_3")]⟩

/-- The improvements on a player's property set of a colour (none when there is no such
set). -/
def Player.improvementsOfColour (p : Player) (color : String) : List String :=
  match p.Properties.lookup color with
  | some ps => ps.Improvements
  | none => []

/-- What a player holds apart from the hand: id, name, bank, and for every colour the cards and
the improvements of the property set of that colour. -/
def Player.holdings (p : Player) :
    String × String × List Card × (String → List Card) × (String → List String) :=
  (p.ID, p.Name, p.Bank, p.cardsOfColour, p.improvementsOfColour)

/-- The players of `gs1` hold what the players of `gs` hold: same ids, names, banks and
property-set contents, and hands with the same cards. -/
def KeepsHoldings (gs gs1 : GameState) : Prop :=
  gs1.Players.map Player.holdings = gs.Players.map Player.holdings ∧
  List.Forall₂ (fun p p1 => p1.Hand.Perm p.Hand) gs.Players gs1.Players

/-- Two states that differ at most in property sets that have been looked up (and so created
empty): everything but the players is equal, and the players have the same holdings and the
same hands. -/
def SetsLookedUp (gs gs1 : GameState) : Prop :=
  PlayersOnly gs gs1 ∧
  gs1.Players.map Player.holdings = gs.Players.map Player.holdings ∧
  gs1.Players.map (fun p => p.Hand) = gs.Players.map (fun p => p.Hand)

/-- A shuffle outcome that deals the card Power Broker to the first player. -/
def brokerDeal : Nat → Nat := fun i => if i = 105 then 52 else i

/-- The first player plays Power Broker against the second player's blue set and names the
card `prop_a`, which the second player does not own. -/
def powerBrokerOnNothing : Action :=
  ⟨ActionType.PowerBroker, "player_0",
    [("cardId", "action_power_broker_1"), ("targetPlayerId", "player_1"), ("color", "blue"),
     ("targetCardId", "prop_a")]⟩

/-- A two-player game in which the first player is dealt Power Broker and plays it against a
card the second player does not own: the response phase of that Power Broker. -/
def emptyStealTrace : Option GameState :=
  runCalls (NewEngine "game" ["Alice", "Bob"] brokerDeal)
    [EngineCall.startTurn, EngineCall.act powerBrokerOnNothing]

/-- A two-player game played without any action: `StartTurn` and then 47 times `EndTurn`.  Each
turn start draws two cards, so the 96 cards of the deck are gone; from the third `EndTurn` on
each call discards two cards of a hand of nine. -/
def drawnOutTrace : Option GameState :=
  runCalls freshGame (EngineCall.startTurn :: List.replicate 47 EngineCall.endTurn)

/-- A player holding ten numbered money cards. -/
def tenCardPlayer (id name : String) : Player :=
  { NewPlayer id name with
    Hand := (List.range 10).map fun k => testMoney ("m" ++ toString k) 1 }

/-- The situation of `TestEngineHandLimit` with three players: the last player, holding ten
cards, is the current player; the deck holds three cards and the discard pile one. -/
def handLimitState : GameState :=
  { NewGameState "test-game" with
    Players := [NewPlayer "player_0" "Alice", NewPlayer "player_1" "Bob",
                tenCardPlayer "player_2" "Carol"]
    Deck := [testMoney "d0" 1, testMoney "d1" 2, testMoney "d2" 3]
    DiscardPile := [testMoney "x" 5]
    CurrentPlayerIndex := 2
    Phase := GamePhase.playing
    TurnPhase := TurnPhase.actions
    ActionsPlayedThisTurn := 2 }

/-- A shuffle outcome that deals the card It's My Stop to the first player. -/
def stopDeal : Nat → Nat := fun i => if i = 105 then 63 else i

/-- A two-player game in which the first player is dealt It's My Stop and plays it: the
response phase of that action, the second player's answer outstanding. -/
def stopTrace : Option GameState :=
  runCalls (NewEngine "game" ["Alice", "Bob"] stopDeal)
    [EngineCall.startTurn, EngineCall.act (playItsMyStop "action_its_my_stop_1")]

/-- A shuffle outcome that deals the card Service Change to the first player. -/
def serviceChangeDeal : Nat → Nat := fun i => if i = 105 then 55 else i

/-- The first player plays Service Change: the card J of their brown set for the card A of the
second player's blue set.  Neither player owns any property. -/
def serviceChangeOnNothing : Action :=
  ⟨ActionType.ServiceChange, "player_0",
    [("cardId", "action_service_change_1"), ("targetPlayerId", "player_1"), ("color", "blue"),
     ("targetCardId", "prop_a"), ("playerColor", "brown"), ("playerCardId", "prop_j")]⟩

/-- A two-player game in which the first player is dealt Service Change: the first player's
action phase, nobody owning a property. -/
def serviceChangeTrace : Option GameState :=
  runCalls (NewEngine "game" ["Alice", "Bob"] serviceChangeDeal) [EngineCall.startTurn]

/-- A shuffle outcome that deals the brown property J, the blue-brown rent card and the pink
42nd St Shuttle to the first player, next to the money cards `money_4_3` and `money_4_2`. -/
def rentDeal : Nat → Nat := fun i =>
  if i = 105 then 0 else if i = 104 then 73 else if i = 103 then 5 else i

/-- The first player charges rent on `color` with the card `cardID` and names `rush` as the
Rush Hour card. -/
def playRentRush (cardID color rush : String) : Action :=
  ⟨ActionType.PlayRent, "player_0",
    [("cardId", cardID), ("color", color), ("rushHourCardId", rush)]⟩

/-- A two-player game in which the first player is dealt J and a blue-brown rent card and plays
J: the first player's action phase with one brown property. -/
def brownRentTrace : Option GameState :=
  runCalls (NewEngine "game" ["Alice", "Bob"] rentDeal)
    [EngineCall.startTurn, playPropertyBy "player_0" "prop_j"]

/-- The same game with the 42nd St Shuttle played instead: one pink property. -/
def pinkRentTrace : Option GameState :=
  runCalls (NewEngine "game" ["Alice", "Bob"] rentDeal)
    [EngineCall.startTurn, playPropertyBy "player_0" "prop_42nd_shuttle"]

/-- The first player sends an action of type `typ` that carries no data. -/
def bareAction (typ : ActionType) : Action := ⟨typ, "player_0", []⟩

/-- The improvement rules on one property set: a set that carries an improvement is complete,
is neither railroad nor utility, and carries station only together with express. -/
def PropertySet.improvementsSound (ps : PropertySet) : Prop :=
  ps.Improvements ≠ [] →
    ps.IsComplete = true ∧ ps.Color ≠ "railroad" ∧ ps.Color ≠ "utility" ∧
    (ps.hasImprovement "station" = true → ps.hasImprovement "express" = true)

/-- Every entry of the player's property map is stored under the colour of its set and obeys
the improvement rules. -/
def Player.setsSound (p : Player) : Prop :=
  ∀ e ∈ p.Properties, e.2.Color = e.1 ∧ e.2.improvementsSound

/-- All players of a list have sound property sets. -/
def SoundPlayers (l : List Player) : Prop := ∀ p ∈ l, p.setsSound

/-- A player's id with the improvements of their sets, colour by colour. -/
def Player.improvementView (p : Player) : String × (String → List String) :=
  (p.ID, p.improvementsOfColour)

/-- The set of `color` of the player `GetPlayer` finds for `playerID` carries no improvement
(or has not been created). -/
def GameState.noImprovementsAt (gs : GameState) (playerID color : String) : Prop :=
  ∀ j t, gs.GetPlayer playerID = some (j, t) → t.improvementsOfColour color = []

/-- What the executor has checked when a Power Broker or a Service Change waits for its answer:
the action has one target, nobody has responded, and the sets it will take a card from carry no
improvement. -/
def PendingGuard (gs : GameState) : Prop :=
  gs.TurnPhase = TurnPhase.response → ∀ pa, gs.PendingAction = some pa →
    (pa.Act.Typ = ActionType.PowerBroker ∨ pa.Act.Typ = ActionType.ServiceChange) →
      pa.TargetPlayerIDs = [pa.Act.GetTargetPlayerID] ∧ pa.RespondedIDs = [] ∧
      gs.noImprovementsAt pa.Act.GetTargetPlayerID pa.Act.GetColor ∧
      (pa.Act.Typ = ActionType.ServiceChange →
        gs.noImprovementsAt pa.SourcePlayerID (pa.Act.data "playerColor"))

/-- The invariant behind the improvement rules: sound sets, and the guard of a waiting steal or
swap. -/
def SetsInvariant (gs : GameState) : Prop := SoundPlayers gs.Players ∧ PendingGuard gs

/-- An answer of the player `playerID`. -/
def acceptBy (playerID : String) : Action := ⟨ActionType.Accept, playerID, []⟩

/-- The number of cards in a player's property sets. -/
def Player.propertyCount (p : Player) : Nat :=
  (p.Properties.map fun e => e.2.Cards.length).sum

/-- The wildcard of `TestExecutorFlipWildcard`: Broadway Junction, blue or brown, played as
blue. -/
def testWildcard : Card :=
  Card.wildcard ⟨"test_wild", CardType.wildcard, "Broadway Junction", 1⟩ ["blue", "brown"] "blue"

/-- Alice in `TestExecutorFlipWildcard`: the wildcard in her blue set, next to the property A. -/
def flipAlice : Player :=
  { NewPlayer "player_0" "Alice" with
    Properties :=
      [("blue", { Color := "blue",
                  Cards := [prop "prop_a" "A" 1 "blue" 3 [(1, 1), (2, 2), (3, 3)], testWildcard],
                  Improvements := [] })] }

/-- The state of `TestExecutorFlipWildcard` (other cards left out). -/
def flipState : GameState :=
  { NewGameState "test-game" with
    Players := [flipAlice, NewPlayer "player_1" "Bob"]
    Phase := GamePhase.playing
    TurnPhase := TurnPhase.actions }

/-- Alice flips the wildcard `test_wild`. -/
def flipTestWild : Action :=
  ⟨ActionType.FlipWildcard, "player_0", [("cardId", "test_wild")]⟩

/-- A shuffle outcome for three players that deals It's My Stop to the first player and a $1
card next to a $2 card to the second. -/
def overpayDeal : Nat → Nat := fun i => if i = 105 then 63 else if i = 100 then 86 else i

/-- A three-player game: the second player banks $1 and $2, the third player banks $2, and in
the next round the first player plays It's My Stop.  The response phase of that action. -/
def overpayTrace : Option GameState :=
  runCalls (NewEngine "game" ["Alice", "Bob", "Charlie"] overpayDeal)
    [EngineCall.startTurn, EngineCall.endTurn,
     playMoneyBy "player_1" "money_1_1", playMoneyBy "player_1" "money_2_5", EngineCall.endTurn,
     playMoneyBy "player_2" "money_2_4", EngineCall.endTurn,
     EngineCall.act (playItsMyStop "action_its_my_stop_1")]

/-! # Theorems -/

/-! ## Payment -/

theorem totalValue_append (a b : List Card) :
    totalValue (a ++ b) = totalValue a + totalValue b := by
  simp [totalValue]

theorem totalValue_perm {a b : List Card} (h : a.Perm b) : totalValue a = totalValue b :=
  (h.map Card.GetValue).sum_eq

theorem sortByValue_perm (l : List Card) : (sortByValue l).Perm l :=
  List.perm_insertionSort valueLE l

theorem sortByValue_sorted (l : List Card) : (sortByValue l).Sorted valueLE :=
  List.sorted_insertionSort valueLE l

/-- The payment loop takes a prefix of the sorted cards: the shortest one that brings the
running total to the amount, or all of them. -/
theorem payLoop_spec (amount : Int) :
    ∀ (rest payment : List Card) (total : Int) (bank : List Card),
      ∃ k, k ≤ rest.length ∧
        payLoop amount rest payment total bank
          = (payment ++ rest.take k, total + totalValue (rest.take k),
              (rest.take k).foldl (fun b c => eraseFirstByID b c.GetID) bank) ∧
        (∀ j, j < k → total + totalValue (rest.take j) < amount) ∧
        (k = rest.length ∨ amount ≤ total + totalValue (rest.take k)) := by
  intro rest
  induction rest with
  | nil =>
    intro payment total bank
    exact ⟨0, le_refl _, by simp [payLoop, totalValue], by simp, Or.inl rfl⟩
  | cons card rest ih =>
    intro payment total bank
    by_cases h : total ≥ amount
    · refine ⟨0, Nat.zero_le _, by simp [payLoop, h, totalValue], by simp, Or.inr ?_⟩
      simpa [totalValue] using h
    · obtain ⟨k, hk, heq, hlt, hend⟩ :=
        ih (payment ++ [card]) (total + card.GetValue) (eraseFirstByID bank card.GetID)
      refine ⟨k + 1, by simpa using hk, ?_, ?_, ?_⟩
      · simp only [payLoop, h, if_false, heq, List.take_succ_cons, List.foldl_cons]
        simp [totalValue, add_assoc]
      · intro j hj
        cases j with
        | zero => simpa [totalValue] using lt_of_not_ge h
        | succ j =>
          have := hlt j (by omega)
          simpa [totalValue, add_assoc] using this
      · rcases hend with hend | hend
        · exact Or.inl (by simp [hend])
        · exact Or.inr (by simpa [totalValue, add_assoc] using hend)

/-- With distinct ids, erasing by id is filtering by id. -/
theorem eraseFirstByID_eq_filter (cardID : String) :
    ∀ l : List Card, (l.map Card.GetID).Nodup →
      eraseFirstByID l cardID = l.filter fun x => decide (x.GetID ≠ cardID) := by
  intro l
  induction l with
  | nil => intro _; rfl
  | cons c cs ih =>
    intro hnd
    simp only [List.map_cons, List.nodup_cons] at hnd
    by_cases h : c.GetID = cardID
    · have hall : ∀ x ∈ cs, x.GetID ≠ cardID := by
        intro x hx hxe
        exact hnd.1 (List.mem_map.mpr ⟨x, hx, hxe.trans h.symm⟩)
      simp only [eraseFirstByID, h, if_true, List.filter_cons, ne_eq, not_true_eq_false,
        decide_False]
      symm
      simpa using hall
    · simp [eraseFirstByID, h, List.filter_cons, ih hnd.2]

theorem nodup_ids_filter (q : Card → Bool) (l : List Card) (h : (l.map Card.GetID).Nodup) :
    ((l.filter q).map Card.GetID).Nodup :=
  (List.Sublist.map _ (List.filter_sublist l)).nodup h

/-- Erasing the ids of several cards from a bank with distinct ids. -/
theorem foldl_erase_eq_filter :
    ∀ (ts bank : List Card), (bank.map Card.GetID).Nodup →
      ts.foldl (fun b c => eraseFirstByID b c.GetID) bank
        = bank.filter fun x => decide (x.GetID ∉ ts.map Card.GetID) := by
  intro ts
  induction ts with
  | nil => intro bank _; simp
  | cons t ts ih =>
    intro bank hnd
    rw [List.foldl_cons, eraseFirstByID_eq_filter _ _ hnd, ih _ (nodup_ids_filter _ _ hnd),
      List.filter_filter]
    apply List.filter_congr
    intro x _
    simp only [List.map_cons, List.mem_cons, not_or, ne_eq]
    by_cases h1 : x.GetID = t.GetID <;> simp [h1]

/-- Prefix sums of an ascending list never exceed the larger of 0 and the whole sum. -/
theorem sorted_take_sum_le :
    ∀ (vals : List Int), vals.Sorted (· ≤ ·) → ∀ k, (vals.take k).sum ≤ max 0 vals.sum := by
  intro vals
  induction vals with
  | nil => intro _ k; simp
  | cons a rest ih =>
    intro hs k
    cases k with
    | zero => simp
    | succ k =>
      have hrest := ih (List.Sorted.of_cons hs) k
      simp only [List.take_succ_cons, List.sum_cons]
      by_cases ha : 0 ≤ a
      · have hnn : 0 ≤ rest.sum :=
          List.sum_nonneg fun x hx => le_trans ha (List.rel_of_sorted_cons hs x hx)
        rw [max_eq_right hnn] at hrest
        exact le_trans (by linarith) (le_max_right _ _)
      · rcases le_max_iff.mp hrest with h0 | h1
        · exact le_trans (by linarith) (le_max_left _ _)
        · exact le_trans (by linarith) (le_max_right _ _)

/-- Paying a positive amount with any sorting routine: the payment is a prefix of the sorted
copy, the shortest that reaches the amount or else the whole of it. -/
theorem payMoneyWith_prefix (sortFn : List Card → List Card) (p : Player) (amount : Int)
    (hpos : 0 < amount) :
    ∃ k, k ≤ (sortFn p.Bank).length ∧
      (p.PayMoneyWith sortFn amount).1.1 = (sortFn p.Bank).take k ∧
      (p.PayMoneyWith sortFn amount).1.2 = totalValue ((sortFn p.Bank).take k) ∧
      (p.PayMoneyWith sortFn amount).2
        = { p with
            Bank := ((sortFn p.Bank).take k).foldl (fun b c => eraseFirstByID b c.GetID) p.Bank } ∧
      (∀ j, j < k → totalValue ((sortFn p.Bank).take j) < amount) ∧
      (k = (sortFn p.Bank).length ∨ amount ≤ totalValue ((sortFn p.Bank).take k)) := by
  obtain ⟨k, hk, heq, hlt, hend⟩ := payLoop_spec amount (sortFn p.Bank) [] 0 p.Bank
  refine ⟨k, hk, ?_, ?_, ?_, ?_, ?_⟩
  · simp [Player.PayMoneyWith, not_le.mpr hpos, heq]
  · simp [Player.PayMoneyWith, not_le.mpr hpos, heq]
  · simp [Player.PayMoneyWith, not_le.mpr hpos, heq]
  · intro j hj
    simpa using hlt j hj
  · rcases hend with h | h
    · exact Or.inl h
    · exact Or.inr (by simpa using h)

/-- With distinct ids, the cards erased from the bank are exactly the cards taken. -/
theorem foldl_erase_taken (sorted bank : List Card) (k : Nat) (hperm : sorted.Perm bank)
    (hids : (bank.map Card.GetID).Nodup) :
    (sorted.take k).foldl (fun b c => eraseFirstByID b c.GetID) bank
      = bank.filter fun c => decide (c ∉ sorted.take k) := by
  rw [foldl_erase_eq_filter _ _ hids]
  apply List.filter_congr
  intro x hx
  have hiff : x.GetID ∈ (sorted.take k).map Card.GetID ↔ x ∈ sorted.take k := by
    constructor
    · intro hmem
      obtain ⟨t, ht, hte⟩ := List.mem_map.mp hmem
      have htb : t ∈ bank := hperm.subset (List.mem_of_mem_take ht)
      have : t = x := List.inj_on_of_nodup_map hids htb hx hte
      exact this ▸ ht
    · intro hmem
      exact List.mem_map.mpr ⟨x, hmem, rfl⟩
  simp only [hiff]

/-- The values of a bank sorted by any routine are the ascending values of the bank. -/
theorem map_value_sorted (sorted bank : List Card) (hperm : sorted.Perm bank)
    (hsorted : sorted.Sorted valueLE) : sorted.map Card.GetValue = ascendingValues bank := by
  apply List.eq_of_perm_of_sorted (r := fun a b : Int => a ≤ b)
  · exact (hperm.map _).trans (List.perm_insertionSort _ _).symm
  · exact List.pairwise_map.mpr hsorted
  · exact List.sorted_insertionSort _ _

theorem totalValue_take_sorted (sorted bank : List Card) (hperm : sorted.Perm bank)
    (hsorted : sorted.Sorted valueLE) (j : Nat) :
    totalValue (sorted.take j) = ((ascendingValues bank).take j).sum := by
  rw [← map_value_sorted sorted bank hperm hsorted, ← List.map_take]
  rfl

/-- The cards taken from a bank of distinct cards, followed by the cards left, are the bank. -/
theorem taken_append_rest_perm (sorted bank : List Card) (k : Nat) (hperm : sorted.Perm bank)
    (hids : (bank.map Card.GetID).Nodup) :
    (sorted.take k ++ bank.filter fun c => decide (c ∉ sorted.take k)).Perm bank := by
  have hnd : bank.Nodup := List.Nodup.of_map _ hids
  have hnds : (sorted.take k).Nodup := ((List.take_sublist k sorted).nodup (hperm.nodup_iff.mpr hnd))
  have h1 : (bank.filter fun c => decide (c ∈ sorted.take k)).Perm (sorted.take k) := by
    apply (List.perm_ext_iff_of_nodup (hnd.filter _) hnds).mpr
    intro a
    simp only [List.mem_filter, decide_eq_true_eq]
    exact ⟨fun h => h.2, fun h => ⟨hperm.subset (List.mem_of_mem_take h), h⟩⟩
  have h2 := List.filter_append_perm (fun c => decide (c ∈ sorted.take k)) bank
  have h3 : (bank.filter fun x => !decide (x ∈ sorted.take k))
      = bank.filter fun c => decide (c ∉ sorted.take k) := by
    apply List.filter_congr
    intro x _
    simp
  rw [h3] at h2
  exact (List.Perm.append_right _ h1.symm).trans h2

/-- C3: `PayMoney` is the ascending-greedy payment, whatever order the sorting routine gives to
cards of equal value (`Player.PayMoney` is the instance `sortFn = SliceSort.sort`, the routine
of the runtime; `sortByValue` is one such routine).  For a bank with distinct card ids: an amount `≤ 0` removes nothing and returns no cards and 0; for a positive
amount the values paid are the shortest prefix of the ascending values whose sum reaches the
amount (the whole bank when its total is smaller), the returned total is the sum of the values
paid, and the bank afterwards is the old bank without exactly the cards paid. -/
theorem PayMoney_ascending_greedy (sortFn : List Card → List Card) (p : Player) (amount : Int)
    (hperm : (sortFn p.Bank).Perm p.Bank) (hsorted : (sortFn p.Bank).Sorted valueLE)
    (hids : (p.Bank.map Card.GetID).Nodup) :
    (amount ≤ 0 → p.PayMoneyWith sortFn amount = (([], 0), p)) ∧
    (0 < amount →
      ∃ k, k ≤ p.Bank.length ∧
        (p.PayMoneyWith sortFn amount).1.1.map Card.GetValue = (ascendingValues p.Bank).take k ∧
        (∀ j, j < k → ((ascendingValues p.Bank).take j).sum < amount) ∧
        (k = p.Bank.length ∨ amount ≤ ((ascendingValues p.Bank).take k).sum) ∧
        (totalValue p.Bank < amount → k = p.Bank.length) ∧
        (p.PayMoneyWith sortFn amount).1.2
          = ((p.PayMoneyWith sortFn amount).1.1.map Card.GetValue).sum ∧
        (p.PayMoneyWith sortFn amount).2
          = { p with
              Bank := p.Bank.filter fun c => decide (c ∉ (p.PayMoneyWith sortFn amount).1.1) } ∧
        ((p.PayMoneyWith sortFn amount).1.1 ++ (p.PayMoneyWith sortFn amount).2.Bank).Perm
          p.Bank) := by
  constructor
  · intro h
    simp [Player.PayMoneyWith, h]
  · intro hpos
    obtain ⟨k, hk, hpaid, htotal, hplayer, hlt, hend⟩ := payMoneyWith_prefix sortFn p amount hpos
    have hlen : (sortFn p.Bank).length = p.Bank.length := hperm.length_eq
    have hsum := totalValue_take_sorted (sortFn p.Bank) p.Bank hperm hsorted
    have hend2 : k = p.Bank.length ∨ amount ≤ ((ascendingValues p.Bank).take k).sum := by
      rcases hend with h | h
      · exact Or.inl (h.trans hlen)
      · exact Or.inr (by rw [← hsum]; exact h)
    have hasc : (ascendingValues p.Bank).Sorted (· ≤ ·) := List.sorted_insertionSort _ _
    have hascsum : (ascendingValues p.Bank).sum = totalValue p.Bank :=
      (List.perm_insertionSort _ _).sum_eq
    refine ⟨k, hlen ▸ hk, ?_, ?_, hend2, ?_, ?_, ?_, ?_⟩
    · rw [hpaid, List.map_take, map_value_sorted _ _ hperm hsorted]
    · intro j hj
      rw [← hsum]
      exact hlt j hj
    · intro hsmall
      rcases hend2 with h | h
      · exact h
      · have := sorted_take_sum_le _ hasc k
        rw [hascsum] at this
        rcases le_max_iff.mp this with h0 | h1 <;> omega
    · rw [htotal, hpaid]
      rfl
    · rw [hplayer, hpaid, foldl_erase_taken _ _ _ hperm hids]
    · rw [hplayer, hpaid, foldl_erase_taken _ _ _ hperm hids]
      exact taken_append_rest_perm _ _ _ hperm hids

/-- C3, at the bank of `TestPlayerPayMoney` ($1, $2, $5) paying 3 with the insertion sort. -/
theorem PayMoney_ascending_greedy_witness :
    (sortByValue payTestPlayer.Bank).Perm payTestPlayer.Bank ∧
    (sortByValue payTestPlayer.Bank).Sorted valueLE ∧
    (payTestPlayer.Bank.map Card.GetID).Nodup ∧
    payTestPlayer.PayMoney 3
      = (([testMoney "m1" 1, testMoney "m2" 2], 3),
          { payTestPlayer with Bank := [testMoney "m3" 5] }) ∧
    ∃ k, k ≤ payTestPlayer.Bank.length ∧
      (payTestPlayer.PayMoneyWith sortByValue 3).1.1.map Card.GetValue
        = (ascendingValues payTestPlayer.Bank).take k ∧
      (∀ j, j < k → ((ascendingValues payTestPlayer.Bank).take j).sum < 3) ∧
      (k = payTestPlayer.Bank.length ∨ 3 ≤ ((ascendingValues payTestPlayer.Bank).take k).sum) ∧
      (totalValue payTestPlayer.Bank < 3 → k = payTestPlayer.Bank.length) ∧
      (payTestPlayer.PayMoneyWith sortByValue 3).1.2
        = ((payTestPlayer.PayMoneyWith sortByValue 3).1.1.map Card.GetValue).sum ∧
      (payTestPlayer.PayMoneyWith sortByValue 3).2
        = { payTestPlayer with
            Bank := payTestPlayer.Bank.filter fun c =>
              decide (c ∉ (payTestPlayer.PayMoneyWith sortByValue 3).1.1) } ∧
      ((payTestPlayer.PayMoneyWith sortByValue 3).1.1
          ++ (payTestPlayer.PayMoneyWith sortByValue 3).2.Bank).Perm payTestPlayer.Bank :=
  ⟨sortByValue_perm _, sortByValue_sorted _, by decide, by decide,
    (PayMoney_ascending_greedy sortByValue payTestPlayer 3 (sortByValue_perm _)
      (sortByValue_sorted _) (by decide)).2 (by decide)⟩

/-- C4 as stated fails: from a bank of $1, $1 and $5 the amount 2 is paid with the two $1
cards, although the single $5 card covers it. -/
theorem PayMoney_minimal_count_counterexample :
    ¬ ∀ (p : Player) (amount : Int), 0 < amount → amount ≤ totalValue p.Bank →
        ∀ s : List Card, s.Sublist p.Bank → s.length < (p.PayMoney amount).1.1.length →
          totalValue s < amount := by
  intro h
  have h1 := h smallChangePlayer 2 (by decide) (by decide) [testMoney "m3" 5]
    (by decide) (by decide)
  exact absurd h1 (by decide)

/-- C4, amended: the payment is the shortest covering prefix of the ascending order.  For an
amount `> 0` that the bank total covers, the values paid are the first `n` ascending values of
the bank, they sum to at least the amount, and no shorter prefix of the ascending values does. -/
theorem PayMoney_shortest_ascending_prefix (sortFn : List Card → List Card) (p : Player)
    (amount : Int) (hperm : (sortFn p.Bank).Perm p.Bank)
    (hsorted : (sortFn p.Bank).Sorted valueLE) (hpos : 0 < amount)
    (hcover : amount ≤ totalValue p.Bank) :
    (p.PayMoneyWith sortFn amount).1.1.map Card.GetValue
        = (ascendingValues p.Bank).take (p.PayMoneyWith sortFn amount).1.1.length ∧
      amount ≤ totalValue (p.PayMoneyWith sortFn amount).1.1 ∧
      (p.PayMoneyWith sortFn amount).1.2 = totalValue (p.PayMoneyWith sortFn amount).1.1 ∧
      ∀ m, m < (p.PayMoneyWith sortFn amount).1.1.length →
        ((ascendingValues p.Bank).take m).sum < amount := by
  obtain ⟨k, hk, hpaid, htotal, _, hlt, hend⟩ := payMoneyWith_prefix sortFn p amount hpos
  have hsum := totalValue_take_sorted (sortFn p.Bank) p.Bank hperm hsorted
  have hlenk : (p.PayMoneyWith sortFn amount).1.1.length = k := by
    rw [hpaid, List.length_take]
    exact min_eq_left hk
  refine ⟨?_, ?_, ?_, ?_⟩
  · rw [hlenk, hpaid, List.map_take, map_value_sorted _ _ hperm hsorted]
  · rw [hpaid]
    rcases hend with h | h
    · rw [h, List.take_length, totalValue_perm hperm]
      exact hcover
    · exact h
  · rw [htotal, hpaid]
  · intro m hm
    rw [← hsum]
    exact hlt m (hlenk ▸ hm)

/-- C4 amended, at the bank $1, $1, $5 paying 2: the two $1 cards are paid. -/
theorem PayMoney_shortest_ascending_prefix_witness :
    (sortByValue smallChangePlayer.Bank).Perm smallChangePlayer.Bank ∧
    (sortByValue smallChangePlayer.Bank).Sorted valueLE ∧
    (0 : Int) < 2 ∧ 2 ≤ totalValue smallChangePlayer.Bank ∧
    (smallChangePlayer.PayMoney 2).1.1 = [testMoney "m1" 1, testMoney "m2" 1] ∧
    ((smallChangePlayer.PayMoneyWith sortByValue 2).1.1.map Card.GetValue
        = (ascendingValues smallChangePlayer.Bank).take
            (smallChangePlayer.PayMoneyWith sortByValue 2).1.1.length ∧
      2 ≤ totalValue (smallChangePlayer.PayMoneyWith sortByValue 2).1.1 ∧
      (smallChangePlayer.PayMoneyWith sortByValue 2).1.2
        = totalValue (smallChangePlayer.PayMoneyWith sortByValue 2).1.1 ∧
      ∀ m, m < (smallChangePlayer.PayMoneyWith sortByValue 2).1.1.length →
        ((ascendingValues smallChangePlayer.Bank).take m).sum < 2) :=
  ⟨sortByValue_perm _, sortByValue_sorted _, by decide, by decide, by decide,
    PayMoney_shortest_ascending_prefix sortByValue smallChangePlayer 2 (sortByValue_perm _)
      (sortByValue_sorted _) (by decide) (by decide)⟩

/-! ## Lists of cards and players -/

theorem removeFirstByID_of_find :
    ∀ (l : List Card) (cardID : String) (c : Card), findByID l cardID = some c →
      removeFirstByID l cardID = some (c, eraseFirstByID l cardID) := by
  intro l cardID c
  induction l with
  | nil => intro h; simp [findByID] at h
  | cons x xs ih =>
    intro h
    by_cases hx : x.GetID = cardID
    · simp only [findByID, hx, if_true, Option.some.injEq] at h
      subst h
      simp [removeFirstByID, eraseFirstByID, hx]
    · simp only [findByID, hx, if_false] at h
      simp [removeFirstByID, eraseFirstByID, hx, ih h]

theorem removeFirstByID_some :
    ∀ (l : List Card) (cardID : String) (c : Card) (rest : List Card),
      removeFirstByID l cardID = some (c, rest) →
        findByID l cardID = some c ∧ rest = eraseFirstByID l cardID := by
  intro l cardID
  induction l with
  | nil => intro c rest h; simp [removeFirstByID] at h
  | cons x xs ih =>
    intro c rest h
    by_cases hx : x.GetID = cardID
    · simp only [removeFirstByID, hx, if_true, Option.some.injEq, Prod.mk.injEq] at h
      obtain ⟨rfl, rfl⟩ := h
      simp [findByID, eraseFirstByID, hx]
    · simp only [removeFirstByID, hx, if_false] at h
      split at h
      · next r rest1 heq =>
        simp only [Option.some.injEq, Prod.mk.injEq] at h
        obtain ⟨h1, h2⟩ := ih r rest1 heq
        simp [findByID, eraseFirstByID, hx, h1, ← h.1, ← h.2, h2]
      · simp at h

theorem indexOfID_get :
    ∀ (l : List Player) (playerID : String) (i : Nat), indexOfID l playerID = some i →
      ∃ p, l[i]? = some p ∧ p.ID = playerID := by
  intro l playerID
  induction l with
  | nil => intro i h; simp [indexOfID] at h
  | cons x xs ih =>
    intro i h
    by_cases hx : x.ID = playerID
    · simp only [indexOfID, hx, if_true, Option.some.injEq] at h
      subst h
      exact ⟨x, by simp, hx⟩
    · simp only [indexOfID, hx, if_false] at h
      split at h
      · next j heq =>
        simp only [Option.some.injEq] at h
        subst h
        obtain ⟨p, hp, hid⟩ := ih j heq
        exact ⟨p, by simpa using hp, hid⟩
      · simp at h

/-- The position found for an id depends only on the ids of the players. -/
theorem indexOfID_congr :
    ∀ (l l1 : List Player) (playerID : String), l.map Player.ID = l1.map Player.ID →
      indexOfID l playerID = indexOfID l1 playerID := by
  intro l
  induction l with
  | nil =>
    intro l1 playerID h
    cases l1 with
    | nil => rfl
    | cons y ys => simp at h
  | cons x xs ih =>
    intro l1 playerID h
    cases l1 with
    | nil => simp at h
    | cons y ys =>
      simp only [List.map_cons, List.cons.injEq] at h
      simp [indexOfID, h.1, ih ys playerID h.2]

theorem map_set_of_eq {β : Type} (f : Player → β) :
    ∀ (l : List Player) (i : Nat) (p p1 : Player), l[i]? = some p → f p1 = f p →
      (l.set i p1).map f = l.map f := by
  intro l
  induction l with
  | nil => intro i p p1 h _; simp at h
  | cons x xs ih =>
    intro i p p1 h hf
    cases i with
    | zero =>
      simp only [List.getElem?_cons_zero, Option.some.injEq] at h
      subst h
      simp [hf]
    | succ i =>
      simp only [List.getElem?_cons_succ] at h
      simp [ih i p p1 h hf]

namespace GameState

theorem GetPlayer_some (gs : GameState) (playerID : String) (i : Nat) (p : Player)
    (h : gs.GetPlayer playerID = some (i, p)) :
    indexOfID gs.Players playerID = some i ∧ gs.Players[i]? = some p ∧ p.ID = playerID := by
  unfold GetPlayer at h
  split at h
  · next j hj =>
    split at h
    · next q hq =>
      simp only [Option.some.injEq, Prod.mk.injEq] at h
      obtain ⟨rfl, rfl⟩ := h
      obtain ⟨p1, hp1, hid⟩ := indexOfID_get _ _ _ hj
      rw [hq] at hp1
      simp only [Option.some.injEq] at hp1
      subst hp1
      exact ⟨hj, hq, hid⟩
    · simp at h
  · simp at h

end GameState

theorem getElem?_set_same (l : List Player) (i : Nat) (p p1 : Player) (h : l[i]? = some p) :
    (l.set i p1)[i]? = some p1 := by
  have hlt : i < l.length := (List.getElem?_eq_some.mp h).1
  simp [hlt]

namespace GameState

theorem takeCard_of_find (gs : GameState) (action : Action) (i : Nat) (player : Player)
    (card : Card) (hp : gs.GetPlayer action.PlayerID = some (i, player))
    (hc : player.GetCardFromHand action.GetCardID = some card) :
    gs.takeCard action
      = some (some (i, card,
          gs.setPlayer i { player with Hand := eraseFirstByID player.Hand action.GetCardID })) := by
  simp [takeCard, hp, Player.RemoveFromHand, removeFirstByID_of_find _ _ _ hc]

theorem CheckWinCondition_frame (gs : GameState) :
    gs.CheckWinCondition.2.PendingAction = gs.PendingAction ∧
    gs.CheckWinCondition.2.TurnPhase = gs.TurnPhase ∧
    gs.CheckWinCondition.2.Players = gs.Players ∧
    gs.CheckWinCondition.2.Deck = gs.Deck ∧
    gs.CheckWinCondition.2.DiscardPile = gs.DiscardPile ∧
    gs.CheckWinCondition.2.ActionsPlayedThisTurn = gs.ActionsPlayedThisTurn ∧
    gs.CheckWinCondition.2.MaxActionsPerTurn = gs.MaxActionsPerTurn ∧
    gs.CheckWinCondition.2.CurrentPlayerIndex = gs.CurrentPlayerIndex := by
  unfold CheckWinCondition
  split <;> simp

end GameState

/-- C6: when the one target of a pending action plays `PLAY_FARE_EVASION` with a Fare Evasion
card of their hand, the executor returns success, no pending action is left, the turn phase is
actions, the card is on top of the discard pile, and every player's bank and property sets are
as before.  In the response phase, with the target not yet marked as responded, the same holds
for `Engine.ExecuteAction`, which accepts the action. -/
theorem single_target_cancel [SliceSort] (gs : GameState) (action : Action) (rnd : Nat → Nat → Nat)
    (pa : PendingAction) (i : Nat) (player : Player) (card : Card)
    (hpa : gs.PendingAction = some pa) (hone : pa.TargetPlayerIDs = [action.PlayerID])
    (htyp : action.Typ = ActionType.PlayFareEvasion)
    (hplayer : gs.GetPlayer action.PlayerID = some (i, player))
    (hcard : player.GetCardFromHand action.GetCardID = some card)
    (hname : card.GetName = "Fare Evasion") :
    ∃ res gs1, gs.Execute action rnd = some (res, gs1) ∧ res.Success = true ∧
      gs1.PendingAction = none ∧ gs1.TurnPhase = TurnPhase.actions ∧
      gs1.DiscardPile = gs.DiscardPile ++ [card] ∧
      gs1.Players.map (fun p => (p.ID, p.Bank, p.Properties))
        = gs.Players.map (fun p => (p.ID, p.Bank, p.Properties)) ∧
      (gs.TurnPhase = TurnPhase.response → action.PlayerID ∉ pa.RespondedIDs →
        ∃ gs2, gs.ExecuteAction action rnd = some ((res, none), gs2) ∧
          gs2.PendingAction = none ∧ gs2.TurnPhase = TurnPhase.actions ∧
          gs2.DiscardPile = gs.DiscardPile ++ [card] ∧
          gs2.Players.map (fun p => (p.ID, p.Bank, p.Properties))
            = gs.Players.map (fun p => (p.ID, p.Bank, p.Properties))) := by
  obtain ⟨_, hget, _⟩ := GameState.GetPlayer_some _ _ _ _ hplayer
  have hexec : gs.Execute action rnd
      = some (ActionResult.ok (player.Name ++ " blocked the action with Fare Evasion!"),
          ((((gs.setPlayer i
            { player with Hand := eraseFirstByID player.Hand action.GetCardID }).discard
              card).MarkResponded action.PlayerID).ClearPendingAction)) := by
    simp [GameState.Execute, htyp, GameState.executeFareEvasion, hpa,
      GameState.takeCard_of_find gs action i player card hplayer hcard,
      getElem?_set_same _ _ _ _ hget, hone]
  have hplayers : (gs.Players.set i
      { player with Hand := eraseFirstByID player.Hand action.GetCardID }).map
        (fun p => (p.ID, p.Bank, p.Properties))
      = gs.Players.map (fun p => (p.ID, p.Bank, p.Properties)) :=
    map_set_of_eq _ _ _ _ _ hget rfl
  have hfields : ∀ g : GameState, g = ((((gs.setPlayer i
            { player with Hand := eraseFirstByID player.Hand action.GetCardID }).discard
              card).MarkResponded action.PlayerID).ClearPendingAction) →
      g.PendingAction = none ∧ g.TurnPhase = TurnPhase.actions ∧
      g.DiscardPile = gs.DiscardPile ++ [card] ∧
      g.Players.map (fun p => (p.ID, p.Bank, p.Properties))
        = gs.Players.map (fun p => (p.ID, p.Bank, p.Properties)) := by
    intro g hg
    subst hg
    refine ⟨rfl, rfl, ?_, ?_⟩
    · simp [hpa]
    · simpa [hpa] using hplayers
  obtain ⟨h1, h2, h3, h4⟩ := hfields _ rfl
  refine ⟨_, _, hexec, rfl, h1, h2, h3, h4, ?_⟩
  intro hphase hnot
  have hvalid : gs.Validate action = some (Valid, gs) := by
    have hnr2 : (pa.RespondedIDs.any fun respID => decide (respID = action.PlayerID)) = false := by
      rw [Bool.eq_false_iff]
      intro h
      simp only [List.any_eq_true, decide_eq_true_eq] at h
      obtain ⟨x, hx, rfl⟩ := h
      exact hnot hx
    simp [GameState.Validate, htyp, GameState.validateResponse, hphase,
      GameState.HasPendingAction, GameState.GetPendingTargets, hpa,
      PendingAction.pendingTargets, hone, hplayer, hcard, hname, hnr2]
  obtain ⟨c1, c2, c3, _, c5, _⟩ := GameState.CheckWinCondition_frame
    ((((gs.setPlayer i
            { player with Hand := eraseFirstByID player.Hand action.GetCardID }).discard
              card).MarkResponded action.PlayerID).ClearPendingAction)
  refine ⟨_, ?_, c1.trans h1, c2.trans h2, c5.trans h3, ?_⟩
  · simp [GameState.ExecuteAction, hvalid, Valid, hexec]
  · rw [c3]
    exact h4

/-! ## Operations that touch only the players -/

theorem PlayersOnly.refl (gs : GameState) : PlayersOnly gs gs := rfl

theorem PlayersOnly.trans {a b c : GameState} (h1 : PlayersOnly a b) (h2 : PlayersOnly b c) :
    PlayersOnly a c := by
  unfold PlayersOnly at *
  rw [h2, h1]

theorem PlayersOnly.pending {a b : GameState} (h : PlayersOnly a b) :
    b.PendingAction = a.PendingAction := by
  rw [h]

theorem PlayersOnly.turnPhase {a b : GameState} (h : PlayersOnly a b) :
    b.TurnPhase = a.TurnPhase := by
  rw [h]

theorem PlayersOnly.discardPile {a b : GameState} (h : PlayersOnly a b) :
    b.DiscardPile = a.DiscardPile := by
  rw [h]

theorem PlayersOnly.deck {a b : GameState} (h : PlayersOnly a b) : b.Deck = a.Deck := by
  rw [h]

theorem PlayersOnly.counter {a b : GameState} (h : PlayersOnly a b) :
    b.ActionsPlayedThisTurn = a.ActionsPlayedThisTurn := by
  rw [h]

theorem PlayersOnly.maxActions {a b : GameState} (h : PlayersOnly a b) :
    b.MaxActionsPerTurn = a.MaxActionsPerTurn := by
  rw [h]

namespace GameState

theorem setPlayer_playersOnly (gs : GameState) (i : Nat) (p : Player) :
    PlayersOnly gs (gs.setPlayer i p) := rfl

theorem modifyPlayer_playersOnly (gs : GameState) (i : Nat) (f : Player → Player) :
    PlayersOnly gs (gs.modifyPlayer i f) := by
  unfold modifyPlayer
  split <;> rfl

theorem setPropertySetAt_playersOnly (gs : GameState) (i : Nat) (color : String)
    (ps : PropertySet) : PlayersOnly gs (gs.setPropertySetAt i color ps) :=
  modifyPlayer_playersOnly _ _ _

theorem getPropertySetAt_playersOnly (gs : GameState) (i : Nat) (color : String)
    (ps : PropertySet) (gs1 : GameState) (h : gs.getPropertySetAt i color = some (ps, gs1)) :
    PlayersOnly gs gs1 := by
  unfold getPropertySetAt at h
  split at h
  · simp only [Option.some.injEq, Prod.mk.injEq] at h
    rw [← h.2]
    rfl
  · simp at h

theorem addCardAt_playersOnly (gs : GameState) (i : Nat) (color : String) (card : Card)
    (gs1 : GameState) (h : gs.addCardAt i color card = some gs1) : PlayersOnly gs gs1 := by
  unfold addCardAt at h
  split at h
  · next ps gs2 heq =>
    simp only [Option.some.injEq] at h
    rw [← h]
    exact (getPropertySetAt_playersOnly _ _ _ _ _ heq).trans (setPropertySetAt_playersOnly _ _ _ _)
  · simp at h

theorem removeCardAt_playersOnly (gs : GameState) (i : Nat) (color cardID : String) (card : Card)
    (gs1 : GameState) (h : gs.removeCardAt i color cardID = some (some (card, gs1))) :
    PlayersOnly gs gs1 := by
  unfold removeCardAt at h
  split at h
  · simp at h
  · next ps gs2 heq =>
    split at h
    · simp at h
    · simp only [Option.some.injEq, Prod.mk.injEq] at h
      rw [← h.2]
      exact (getPropertySetAt_playersOnly _ _ _ _ _ heq).trans
        (setPropertySetAt_playersOnly _ _ _ _)

theorem resolveMoney_playersOnly [SliceSort] (gs : GameState) (pa : SubwayDeal.PendingAction)
    (playerID : String)
    (r : ActionResult) (gs1 : GameState) (h : gs.resolveMoney pa playerID = some (r, gs1)) :
    PlayersOnly gs gs1 := by
  unfold resolveMoney at h
  split at h
  · simp at h
  · simp only at h
    split at h
    · simp only [Option.some.injEq, Prod.mk.injEq] at h
      rw [← h.2]
      exact (setPlayer_playersOnly _ _ _).trans (modifyPlayer_playersOnly _ _ _)
    · split at h
      · simp only [Option.some.injEq, Prod.mk.injEq] at h
        rw [← h.2]
        exact setPlayer_playersOnly _ _ _
      · simp at h

theorem resolvePowerBroker_playersOnly (gs : GameState) (pa : SubwayDeal.PendingAction) (playerID : String)
    (r : ActionResult) (gs1 : GameState) (h : gs.resolvePowerBroker pa playerID = some (r, gs1)) :
    PlayersOnly gs gs1 := by
  unfold resolvePowerBroker at h
  split at h
  · split at h
    · simp at h
    · split at h
      · next ps gs2 heq =>
        simp only [Option.some.injEq, Prod.mk.injEq] at h
        rw [← h.2]
        exact getPropertySetAt_playersOnly _ _ _ _ _ heq
      · simp at h
    · next stolen gs2 heq =>
      split at h
      · simp at h
      · split at h
        · next gs3 heq3 =>
          simp only [Option.some.injEq, Prod.mk.injEq] at h
          rw [← h.2]
          exact (removeCardAt_playersOnly _ _ _ _ _ _ heq).trans
            (addCardAt_playersOnly _ _ _ _ _ heq3)
        · simp at h
  · simp at h

theorem resolveLineClosure_playersOnly (gs : GameState) (pa : SubwayDeal.PendingAction) (playerID : String)
    (r : ActionResult) (gs1 : GameState) (h : gs.resolveLineClosure pa playerID = some (r, gs1)) :
    PlayersOnly gs gs1 := by
  unfold resolveLineClosure at h
  split at h
  · split at h
    · simp at h
    · next targetSet gs2 heq2 =>
      split at h
      · simp at h
      · next playerSet gs3 heq3 =>
        simp only [Option.some.injEq, Prod.mk.injEq] at h
        rw [← h.2]
        exact ((getPropertySetAt_playersOnly _ _ _ _ _ heq2).trans
          (getPropertySetAt_playersOnly _ _ _ _ _ heq3)).trans
          ((setPropertySetAt_playersOnly _ _ _ _).trans (setPropertySetAt_playersOnly _ _ _ _))
  · simp at h

theorem resolveServiceChange_playersOnly (gs : GameState) (pa : SubwayDeal.PendingAction)
    (playerID : String) (r : ActionResult) (gs1 : GameState)
    (h : gs.resolveServiceChange pa playerID = some (r, gs1)) : PlayersOnly gs gs1 := by
  unfold resolveServiceChange at h
  split at h
  · split at h
    · simp at h
    · next x1 g1 h1 =>
      split at h
      · simp at h
      · next x2 g2 h2 =>
        split at h
        · next c3 g3 h3 =>
          split at h
          · next c4 g4 h4 =>
            split at h
            · simp at h
            · next g5 h5 =>
              split at h
              · simp at h
              · next g6 h6 =>
                simp only [Option.some.injEq, Prod.mk.injEq] at h
                rw [← h.2]
                exact (((((getPropertySetAt_playersOnly _ _ _ _ _ h1).trans
                  (getPropertySetAt_playersOnly _ _ _ _ _ h2)).trans
                  (removeCardAt_playersOnly _ _ _ _ _ _ h3)).trans
                  (removeCardAt_playersOnly _ _ _ _ _ _ h4)).trans
                  (addCardAt_playersOnly _ _ _ _ _ h5)).trans
                  (addCardAt_playersOnly _ _ _ _ _ h6)
          · simp at h
        · simp at h
  · simp at h

theorem resolveForPlayer_playersOnly [SliceSort] (gs : GameState) (pa : SubwayDeal.PendingAction)
    (playerID : String)
    (r : ActionResult) (gs1 : GameState) (h : gs.resolveForPlayer pa playerID = some (r, gs1)) :
    PlayersOnly gs gs1 := by
  unfold resolveForPlayer at h
  split at h
  · exact resolveMoney_playersOnly _ _ _ _ _ h
  · exact resolveMoney_playersOnly _ _ _ _ _ h
  · exact resolveMoney_playersOnly _ _ _ _ _ h
  · exact resolvePowerBroker_playersOnly _ _ _ _ _ h
  · exact resolveLineClosure_playersOnly _ _ _ _ _ h
  · exact resolveServiceChange_playersOnly _ _ _ _ _ h
  · simp only [Option.some.injEq, Prod.mk.injEq] at h
    rw [← h.2]
    exact PlayersOnly.refl _

end GameState

/-! ## Responses -/

theorem pendingTargets_length_zero_iff (pa : PendingAction) :
    pa.pendingTargets.length = 0 ↔ ∀ t ∈ pa.TargetPlayerIDs, t ∈ pa.RespondedIDs := by
  rw [List.length_eq_zero, PendingAction.pendingTargets, List.filter_eq_nil_iff]
  constructor
  · intro h t ht
    have h1 := h t ht
    by_contra hn
    apply h1
    simp only [Bool.not_eq_true', Bool.eq_false_iff, ne_eq, List.any_eq_true, decide_eq_true_eq,
      not_exists, not_and]
    intro x hx hxe
    exact hn (hxe ▸ hx)
  · intro h t ht hc
    simp only [Bool.not_eq_true', Bool.eq_false_iff, ne_eq, List.any_eq_true, decide_eq_true_eq,
      not_exists, not_and] at hc
    exact hc t (h t ht) rfl

theorem foldl_AddToBank (paid : List Card) :
    ∀ p : Player, paid.foldl Player.AddToBank p = { p with Bank := p.Bank ++ paid } := by
  induction paid with
  | nil => intro p; simp
  | cons c cs ih => intro p; simp [ih, Player.AddToBank]

namespace GameState

/-- Whether a state with pending action `pa` counts all targets as responded. -/
theorem allTargetsResponded_iff (gs : GameState) (pa : SubwayDeal.PendingAction)
    (hpa : gs.PendingAction = some pa) :
    gs.AllTargetsResponded = true ↔ ∀ t ∈ pa.TargetPlayerIDs, t ∈ pa.RespondedIDs := by
  simp only [AllTargetsResponded, GetPendingTargets, hpa, decide_eq_true_eq]
  exact pendingTargets_length_zero_iff pa

/-- The shape of `executeAccept` when a pending action exists. -/
theorem executeAccept_eq [SliceSort] (gs : GameState) (action : Action)
    (pa : SubwayDeal.PendingAction)
    (hpa : gs.PendingAction = some pa) :
    gs.executeAccept action
      = match (gs.MarkResponded action.PlayerID).resolveForPlayer (pa.marked action.PlayerID)
            action.PlayerID with
        | none => none
        | some (result, gs1) =>
          some (result, if gs1.AllTargetsResponded then gs1.ClearPendingAction else gs1) := by
  simp [executeAccept, hpa, PendingAction.marked]

/-- The monetary resolution when both players exist. -/
theorem resolveMoney_eq [SliceSort] (gs : GameState) (pa : SubwayDeal.PendingAction)
    (playerID : String)
    (i j : Nat) (sp tp : Player) (ht : gs.GetPlayer playerID = some (j, tp))
    (hs : gs.GetPlayer pa.SourcePlayerID = some (i, sp)) :
    gs.resolveMoney pa playerID
      = some
          (ActionResult.paid tp.Name pa.RentAmount (tp.PayMoney pa.RentAmount).1.2,
            (gs.setPlayer j (tp.PayMoney pa.RentAmount).2).modifyPlayer i fun p =>
              { p with Bank := p.Bank ++ (tp.PayMoney pa.RentAmount).1.1 }) := by
  simp [resolveMoney, ht, hs, foldl_AddToBank]

theorem resolveForPlayer_monetary [SliceSort] (gs : GameState) (pa : SubwayDeal.PendingAction)
    (playerID : String) (hm : isMonetary pa.Act.Typ = true) :
    gs.resolveForPlayer pa playerID = gs.resolveMoney pa playerID := by
  simp only [isMonetary, decide_eq_true_eq] at hm
  rcases hm with h | h | h <;> simp [resolveForPlayer, h]

end GameState

namespace GameState

theorem takeCard_playersOnly (gs : GameState) (action : Action) (i : Nat) (card : Card)
    (gs1 : GameState) (h : gs.takeCard action = some (some (i, card, gs1))) :
    PlayersOnly gs gs1 := by
  unfold takeCard at h
  split at h
  · simp at h
  · split at h
    · simp at h
    · simp only [Option.some.injEq, Prod.mk.injEq] at h
      obtain ⟨_, _, rfl⟩ := h
      rfl

/-- The closing step of both responses: clear the pending action if every target responded. -/
theorem finish_response (g : GameState) (pa : SubwayDeal.PendingAction)
    (hpa : g.PendingAction = some pa) (hphase : g.TurnPhase = TurnPhase.response) :
    ((∀ t ∈ pa.TargetPlayerIDs, t ∈ pa.RespondedIDs) →
      (if g.AllTargetsResponded then g.ClearPendingAction else g).PendingAction = none ∧
      (if g.AllTargetsResponded then g.ClearPendingAction else g).TurnPhase
        = TurnPhase.actions) ∧
    (¬ (∀ t ∈ pa.TargetPlayerIDs, t ∈ pa.RespondedIDs) →
      (if g.AllTargetsResponded then g.ClearPendingAction else g).PendingAction = some pa ∧
      (if g.AllTargetsResponded then g.ClearPendingAction else g).TurnPhase
        = TurnPhase.response) := by
  have hiff := allTargetsResponded_iff g pa hpa
  constructor
  · intro hall
    rw [if_pos (hiff.mpr hall)]
    exact ⟨rfl, rfl⟩
  · intro hnot
    rw [if_neg (fun h => hnot (hiff.mp h))]
    exact ⟨hpa, hphase⟩

end GameState

theorem marked_all_iff (pa : PendingAction) (playerID : String) :
    (∀ t ∈ (pa.marked playerID).TargetPlayerIDs, t ∈ (pa.marked playerID).RespondedIDs)
      ↔ ∀ t ∈ pa.TargetPlayerIDs, t ∈ pa.RespondedIDs ∨ t = playerID := by
  simp [PendingAction.marked]

/-- C7: after an `ACCEPT` or a successful `PLAY_FARE_EVASION` on a pending action with two or
more targets, the pending action is cleared and the turn phase is actions if every target is
now among the responded ids; otherwise the pending action remains, with the responder added to
the responded ids, and the turn phase stays response.  (Neither distinctness of the targets nor
the responder being an open target is needed.)  The response returns a result: an accept of a
monetary pending action between existing players, and a Fare Evasion played from the hand. -/
theorem multi_target_resolution [SliceSort] (gs : GameState) (action : Action)
    (rnd : Nat → Nat → Nat)
    (pa : PendingAction) (hpa : gs.PendingAction = some pa)
    (hphase : gs.TurnPhase = TurnPhase.response) (hmulti : 2 ≤ pa.TargetPlayerIDs.length) :
    (∀ res gs1, gs.Execute action rnd = some (res, gs1) →
      (action.Typ = ActionType.Accept ∨
        (action.Typ = ActionType.PlayFareEvasion ∧ res.Success = true)) →
      ((∀ t ∈ pa.TargetPlayerIDs, t ∈ pa.RespondedIDs ∨ t = action.PlayerID) →
          gs1.PendingAction = none ∧ gs1.TurnPhase = TurnPhase.actions) ∧
      (¬ (∀ t ∈ pa.TargetPlayerIDs, t ∈ pa.RespondedIDs ∨ t = action.PlayerID) →
          gs1.PendingAction = some (pa.marked action.PlayerID) ∧
          gs1.TurnPhase = TurnPhase.response)) ∧
    (∀ j tp, gs.GetPlayer action.PlayerID = some (j, tp) →
      ((action.Typ = ActionType.Accept ∧ isMonetary pa.Act.Typ = true ∧
          ∃ i sp, gs.GetPlayer pa.SourcePlayerID = some (i, sp)) ∨
        (action.Typ = ActionType.PlayFareEvasion ∧
          (tp.GetCardFromHand action.GetCardID).isSome = true)) →
      ∃ res gs1, gs.Execute action rnd = some (res, gs1) ∧ res.Success = true) := by
  have hmark : (gs.MarkResponded action.PlayerID).PendingAction
      = some (pa.marked action.PlayerID) := by
    simp [hpa, PendingAction.marked]
  have hmarkphase : (gs.MarkResponded action.PlayerID).TurnPhase = TurnPhase.response := by
    simp only [GameState.MarkResponded, hpa]
    exact hphase
  constructor
  · intro res gs1 hexec htyp
    rw [← marked_all_iff]
    rcases htyp with htyp | ⟨htyp, hsucc⟩
    · simp only [GameState.Execute, htyp] at hexec
      rw [GameState.executeAccept_eq gs action pa hpa] at hexec
      split at hexec
      · simp at hexec
      · next result g heq =>
        simp only [Option.some.injEq, Prod.mk.injEq] at hexec
        have hpo := GameState.resolveForPlayer_playersOnly _ _ _ _ _ heq
        rw [← hexec.2]
        exact GameState.finish_response g _ (hpo.pending.trans hmark)
          (hpo.turnPhase.trans hmarkphase)
    · simp only [GameState.Execute, htyp, GameState.executeFareEvasion, hpa] at hexec
      split at hexec
      · simp at hexec
      · simp only [Option.some.injEq, Prod.mk.injEq] at hexec
        rw [← hexec.1] at hsucc
        simp [ActionResult.failure] at hsucc
      · next i card g1 htake =>
        have hpo := GameState.takeCard_playersOnly _ _ _ _ _ htake
        split at hexec
        · simp at hexec
        · have hne : ¬ pa.TargetPlayerIDs.length = 1 := by omega
          simp only [hne, if_false, Option.some.injEq, Prod.mk.injEq] at hexec
          rw [← hexec.2]
          apply GameState.finish_response
          · simp [hpo.pending, hpa, PendingAction.marked]
          · simp only [GameState.MarkResponded, GameState.discard, hpo.pending, hpa,
              hpo.turnPhase]
            exact hphase
  · intro j tp hplayer hcase
    rcases hcase with ⟨htyp, hmon, i, sp, hsrc⟩ | ⟨htyp, hcard⟩
    · have hres : (gs.MarkResponded action.PlayerID).resolveForPlayer
          (pa.marked action.PlayerID) action.PlayerID
          = (gs.MarkResponded action.PlayerID).resolveMoney (pa.marked action.PlayerID)
              action.PlayerID :=
        GameState.resolveForPlayer_monetary _ _ _ hmon
      have ht1 : (gs.MarkResponded action.PlayerID).GetPlayer action.PlayerID = some (j, tp) := by
        simpa [GameState.GetPlayer, hpa] using hplayer
      have hs1 : (gs.MarkResponded action.PlayerID).GetPlayer
          (pa.marked action.PlayerID).SourcePlayerID = some (i, sp) := by
        simpa [GameState.GetPlayer, hpa, PendingAction.marked] using hsrc
      simp only [GameState.Execute, htyp]
      rw [GameState.executeAccept_eq gs action pa hpa, hres,
        GameState.resolveMoney_eq _ _ _ i j sp tp ht1 hs1]
      exact ⟨_, _, rfl, rfl⟩
    · obtain ⟨card, hc⟩ := Option.isSome_iff_exists.mp hcard
      obtain ⟨_, hget, _⟩ := GameState.GetPlayer_some _ _ _ _ hplayer
      have hne : ¬ pa.TargetPlayerIDs.length = 1 := by omega
      simp only [GameState.Execute, htyp, GameState.executeFareEvasion, hpa,
        GameState.takeCard_of_find gs action j tp card hplayer hc]
      simp [getElem?_set_same _ _ _ _ hget, hne, ActionResult.ok]

/-- The effect of `PayMoney` on a bank with distinct ids, for every amount: the cards returned
are exactly the cards that leave the bank, and the total is their value. -/
theorem payMoney_effect [SliceSort] (p : Player) (amount : Int) (hids :
    (p.Bank.map Card.GetID).Nodup) :
    (p.PayMoney amount).2
        = { p with Bank := p.Bank.filter fun c => decide (c ∉ (p.PayMoney amount).1.1) } ∧
      ((p.PayMoney amount).1.1
        ++ p.Bank.filter fun c => decide (c ∉ (p.PayMoney amount).1.1)).Perm p.Bank ∧
      (p.PayMoney amount).1.2 = totalValue (p.PayMoney amount).1.1 := by
  by_cases hpos : 0 < amount
  · obtain ⟨k, _, hpaid, htotal, hplayer, _, _⟩ :=
      payMoneyWith_prefix SliceSort.sort p amount hpos
    have hperm := SliceSort.perm p.Bank
    unfold Player.PayMoney
    refine ⟨?_, ?_, ?_⟩
    · rw [hplayer, hpaid, foldl_erase_taken _ _ _ hperm hids]
    · rw [hpaid]
      exact taken_append_rest_perm _ _ _ hperm hids
    · rw [htotal, hpaid]
  · have hle : amount ≤ 0 := not_lt.mp hpos
    simp [Player.PayMoney, Player.PayMoneyWith, hle, totalValue]

theorem getElem?_set_diff (l : List Player) (i j : Nat) (p1 : Player) (h : i ≠ j) :
    (l.set i p1)[j]? = l[j]? := by
  simp [h]

namespace GameState

/-- Players found under different ids sit at different positions. -/
theorem GetPlayer_index_ne (gs : GameState) (a b : String) (i j : Nat) (p q : Player)
    (ha : gs.GetPlayer a = some (i, p)) (hb : gs.GetPlayer b = some (j, q)) (hab : a ≠ b) :
    i ≠ j := by
  obtain ⟨_, hi, hpa⟩ := GetPlayer_some _ _ _ _ ha
  obtain ⟨_, hj, hqb⟩ := GetPlayer_some _ _ _ _ hb
  intro hij
  subst hij
  rw [hi] at hj
  simp only [Option.some.injEq] at hj
  subst hj
  exact hab (hpa.symm.trans hqb)

/-- `Execute` of an accept of a monetary pending action between two different existing players:
the result and the state, in closed form. -/
theorem accept_money_eq [SliceSort] (gs : GameState) (action : Action) (rnd : Nat → Nat → Nat)
    (pa : SubwayDeal.PendingAction) (i j : Nat) (sp tp : Player)
    (hpa : gs.PendingAction = some pa) (hmon : isMonetary pa.Act.Typ = true)
    (htyp : action.Typ = ActionType.Accept)
    (ht : gs.GetPlayer action.PlayerID = some (j, tp))
    (hs : gs.GetPlayer pa.SourcePlayerID = some (i, sp)) (hij : i ≠ j) :
    gs.Execute action rnd
      = some (ActionResult.paid tp.Name pa.RentAmount (tp.PayMoney pa.RentAmount).1.2,
          if ∀ t ∈ pa.TargetPlayerIDs, t ∈ pa.RespondedIDs ∨ t = action.PlayerID then
            { gs with
              Players := (gs.Players.set j (tp.PayMoney pa.RentAmount).2).set i
                { sp with Bank := sp.Bank ++ (tp.PayMoney pa.RentAmount).1.1 }
              PendingAction := none
              TurnPhase := TurnPhase.actions }
          else
            { gs with
              Players := (gs.Players.set j (tp.PayMoney pa.RentAmount).2).set i
                { sp with Bank := sp.Bank ++ (tp.PayMoney pa.RentAmount).1.1 }
              PendingAction := some (pa.marked action.PlayerID) }) := by
  have ht1 : (gs.MarkResponded action.PlayerID).GetPlayer action.PlayerID = some (j, tp) := by
    simpa [GetPlayer, hpa] using ht
  have hs1 : (gs.MarkResponded action.PlayerID).GetPlayer
      (pa.marked action.PlayerID).SourcePlayerID = some (i, sp) := by
    simpa [GetPlayer, hpa, PendingAction.marked] using hs
  have hmon1 : isMonetary (pa.marked action.PlayerID).Act.Typ = true := hmon
  obtain ⟨_, hi, _⟩ := GetPlayer_some _ _ _ _ hs
  have h1 : (gs.Players.set j (tp.PayMoney pa.RentAmount).2)[i]? = some sp := by
    rw [getElem?_set_diff _ _ _ _ (Ne.symm hij)]
    exact hi
  have hstate : (((gs.MarkResponded action.PlayerID).setPlayer j
        (tp.PayMoney (pa.marked action.PlayerID).RentAmount).2).modifyPlayer i fun p =>
        { p with Bank := p.Bank ++ (tp.PayMoney (pa.marked action.PlayerID).RentAmount).1.1 })
      = { gs with
          Players := (gs.Players.set j (tp.PayMoney pa.RentAmount).2).set i
            { sp with Bank := sp.Bank ++ (tp.PayMoney pa.RentAmount).1.1 }
          PendingAction := some (pa.marked action.PlayerID) } := by
    simp [modifyPlayer, hpa, PendingAction.marked, h1]
  simp only [Execute, htyp]
  rw [executeAccept_eq gs action pa hpa, resolveForPlayer_monetary _ _ _ hmon1,
    resolveMoney_eq _ _ _ i j sp tp ht1 hs1, hstate]
  have hiff := (allTargetsResponded_iff
    ({ gs with
        Players := (gs.Players.set j (tp.PayMoney pa.RentAmount).2).set i
          { sp with Bank := sp.Bank ++ (tp.PayMoney pa.RentAmount).1.1 }
        PendingAction := some (pa.marked action.PlayerID) } : GameState)
    (pa.marked action.PlayerID) rfl).trans (marked_all_iff pa action.PlayerID)
  by_cases hall : ∀ t ∈ pa.TargetPlayerIDs, t ∈ pa.RespondedIDs ∨ t = action.PlayerID
  · simp only [if_pos hall, if_pos (hiff.mpr hall)]
    rfl
  · simp only [if_neg hall, if_neg (fun h => hall (hiff.mp h))]
    rfl

end GameState

/-- C8: monetary accept.  When a target other than the source accepts a pending rent, Missed
Your Train or It's My Stop, the executor returns success; the cards leaving the target's bank
are exactly those `PayMoney(RentAmount)` returns, they are appended to the source's bank in that
order, no other player changes, the source's total rises and the target's total falls by the
total paid, and the reported payment has that total as `Amount` and `max(0, RentAmount - total)`
as `Shortfall`.  This holds for every order the sort routine gives to cards of equal value; the
cards of the target's bank have pairwise distinct ids, as the cards of a game have. -/
theorem monetary_accept [SliceSort] (gs : GameState) (action : Action) (rnd : Nat → Nat → Nat)
    (pa : PendingAction) (i j : Nat) (sp tp : Player)
    (hpa : gs.PendingAction = some pa) (hmon : isMonetary pa.Act.Typ = true)
    (htyp : action.Typ = ActionType.Accept)
    (ht : gs.GetPlayer action.PlayerID = some (j, tp))
    (hs : gs.GetPlayer pa.SourcePlayerID = some (i, sp))
    (hne : action.PlayerID ≠ pa.SourcePlayerID)
    (hids : (tp.Bank.map Card.GetID).Nodup) :
    ∃ res gs1, gs.Execute action rnd = some (res, gs1) ∧ res.Success = true ∧
      gs1.Players[j]?
        = some { tp with
            Bank := tp.Bank.filter fun c => decide (c ∉ (tp.PayMoney pa.RentAmount).1.1) } ∧
      ((tp.PayMoney pa.RentAmount).1.1
        ++ tp.Bank.filter fun c => decide (c ∉ (tp.PayMoney pa.RentAmount).1.1)).Perm tp.Bank ∧
      gs1.Players[i]? = some { sp with Bank := sp.Bank ++ (tp.PayMoney pa.RentAmount).1.1 } ∧
      (∀ n, n ≠ i → n ≠ j → gs1.Players[n]? = gs.Players[n]?) ∧
      (tp.PayMoney pa.RentAmount).1.2 = totalValue (tp.PayMoney pa.RentAmount).1.1 ∧
      totalValue (sp.Bank ++ (tp.PayMoney pa.RentAmount).1.1)
        = sp.GetTotalMoney + (tp.PayMoney pa.RentAmount).1.2 ∧
      totalValue (tp.Bank.filter fun c => decide (c ∉ (tp.PayMoney pa.RentAmount).1.1))
        = tp.GetTotalMoney - (tp.PayMoney pa.RentAmount).1.2 ∧
      res.Payments =
        [{ FromPlayer := tp.Name, Amount := (tp.PayMoney pa.RentAmount).1.2,
           Shortfall := max 0 (pa.RentAmount - (tp.PayMoney pa.RentAmount).1.2) }] := by
  have hij : i ≠ j := GameState.GetPlayer_index_ne gs _ _ i j sp tp hs ht (Ne.symm hne)
  obtain ⟨_, hi, _⟩ := GameState.GetPlayer_some _ _ _ _ hs
  obtain ⟨_, hj, _⟩ := GameState.GetPlayer_some _ _ _ _ ht
  have hjlt : j < gs.Players.length := (List.getElem?_eq_some.mp hj).1
  have hilt : i < gs.Players.length := (List.getElem?_eq_some.mp hi).1
  obtain ⟨hbank, hperm, htotal⟩ := payMoney_effect tp pa.RentAmount hids
  have hexec := GameState.accept_money_eq gs action rnd pa i j sp tp hpa hmon htyp ht hs hij
  have hplayers : ∀ g : GameState,
      g = (if ∀ t ∈ pa.TargetPlayerIDs, t ∈ pa.RespondedIDs ∨ t = action.PlayerID then
            ({ gs with
              Players := (gs.Players.set j (tp.PayMoney pa.RentAmount).2).set i
                { sp with Bank := sp.Bank ++ (tp.PayMoney pa.RentAmount).1.1 }
              PendingAction := none
              TurnPhase := TurnPhase.actions } : GameState)
          else
            { gs with
              Players := (gs.Players.set j (tp.PayMoney pa.RentAmount).2).set i
                { sp with Bank := sp.Bank ++ (tp.PayMoney pa.RentAmount).1.1 }
              PendingAction := some (pa.marked action.PlayerID) }) →
      g.Players = (gs.Players.set j (tp.PayMoney pa.RentAmount).2).set i
                { sp with Bank := sp.Bank ++ (tp.PayMoney pa.RentAmount).1.1 } := by
    intro g hg
    rw [hg]
    split <;> rfl
  have hP := hplayers _ rfl
  have hsum := totalValue_perm hperm
  rw [totalValue_append] at hsum
  refine ⟨_, _, hexec, rfl, ?_, hperm, ?_, ?_, htotal, ?_, ?_, rfl⟩
  · rw [hP, getElem?_set_diff _ _ _ _ hij, ← hbank]
    simp [hjlt]
  · rw [hP]
    simp [hilt]
  · intro n hni hnj
    rw [hP, getElem?_set_diff _ _ _ _ (Ne.symm hni), getElem?_set_diff _ _ _ _ (Ne.symm hnj)]
  · rw [totalValue_append, htotal]
    rfl
  · rw [htotal]
    unfold Player.GetTotalMoney
    omega

/-- C8, at `TestExecutorPlayRentWithResponse`: Bob, with $5 banked, accepts a rent
of 1. -/
theorem monetary_accept_witness :
    ∃ res gs1, (rentResponseState [testMoney "bob_money" 5]).Execute acceptBob noShuffle
        = some (res, gs1) ∧ res.Success = true ∧
      gs1.Players.map Player.Bank = [[testMoney "bob_money" 5], []] ∧
      res.Payments = [⟨"Bob", 5, 0⟩] :=
  match monetary_accept (rentResponseState [testMoney "bob_money" 5]) acceptBob noShuffle
      (testRentPending 1) 0 1 testAlice
      { NewPlayer "player_1" "Bob" with Bank := [testMoney "bob_money" 5] }
      rfl (by decide) rfl (by decide) (by decide) (by decide) (by decide) with
  | ⟨res, gs1, hexec, hsucc, _, _, _, _, _, _, _, hpay⟩ =>
    ⟨res, gs1, hexec, hsucc, by
      have h : some (res, gs1) = some (_, _) := hexec.symm.trans
        (by decide : (rentResponseState [testMoney "bob_money" 5]).Execute acceptBob noShuffle
          = some (ActionResult.paid "Bob" 1 5,
              { rentResponseState [] with
                Players :=
                  [{ testAlice with Bank := [testMoney "bob_money" 5] }, NewPlayer "player_1" "Bob"]
                TurnPhase := TurnPhase.actions
                PendingAction := none }))
      simp only [Option.some.injEq, Prod.mk.injEq] at h
      rw [h.2]
      decide, by rw [hpay]; decide⟩

theorem payMoney_ID [SliceSort] (p : Player) (amount : Int) : (p.PayMoney amount).2.ID = p.ID := by
  unfold Player.PayMoney Player.PayMoneyWith
  split <;> rfl

namespace GameState

/-- Looking a player up after the players were replaced by players with the same ids. -/
theorem GetPlayer_congr (gs gs1 : GameState) (playerID : String) (i : Nat) (p p1 : Player)
    (hid : gs1.Players.map Player.ID = gs.Players.map Player.ID)
    (h : gs.GetPlayer playerID = some (i, p)) (hget : gs1.Players[i]? = some p1) :
    gs1.GetPlayer playerID = some (i, p1) := by
  obtain ⟨hidx, _, _⟩ := GetPlayer_some _ _ _ _ h
  simp [GetPlayer, indexOfID_congr _ _ playerID hid, hidx, hget]

end GameState

/-- The ids of the players after a payment from position `j` to position `i`. -/
theorem payment_ids [SliceSort] (l : List Player) (i j : Nat) (sp tp : Player) (amount : Int)
    (bank : List Card) (hi : l[i]? = some sp) (hj : l[j]? = some tp) (hij : i ≠ j) :
    ((l.set j (tp.PayMoney amount).2).set i { sp with Bank := bank }).map Player.ID
      = l.map Player.ID := by
  have h1 : (l.set j (tp.PayMoney amount).2)[i]? = some sp := by
    rw [getElem?_set_diff _ _ _ _ (Ne.symm hij)]
    exact hi
  rw [map_set_of_eq Player.ID _ i sp { sp with Bank := bank } h1 rfl,
    map_set_of_eq Player.ID _ j tp _ hj (payMoney_ID _ _)]

/-- Two accepts of a monetary pending action with the targets `b` and `c`, first `b` then `c`:
the results and the final state in closed form. -/
theorem two_accepts [SliceSort] (gs : GameState) (rnd : Nat → Nat → Nat) (pa : PendingAction)
    (accB accC : Action) (ia ib ic : Nat) (A B C : Player)
    (hpa : gs.PendingAction = some pa) (hmon : isMonetary pa.Act.Typ = true)
    (htargets : ∀ t ∈ pa.TargetPlayerIDs, t = accB.PlayerID ∨ t = accC.PlayerID)
    (hctarget : accC.PlayerID ∈ pa.TargetPlayerIDs)
    (hcnot : accC.PlayerID ∉ pa.RespondedIDs)
    (hB : accB.Typ = ActionType.Accept) (hC : accC.Typ = ActionType.Accept)
    (ha : gs.GetPlayer pa.SourcePlayerID = some (ia, A))
    (hb : gs.GetPlayer accB.PlayerID = some (ib, B))
    (hc : gs.GetPlayer accC.PlayerID = some (ic, C))
    (hab : pa.SourcePlayerID ≠ accB.PlayerID) (hac : pa.SourcePlayerID ≠ accC.PlayerID)
    (hbc : accB.PlayerID ≠ accC.PlayerID) :
    ∃ r1 s1 r2 s2, gs.Execute accB rnd = some (r1, s1) ∧ s1.Execute accC rnd = some (r2, s2) ∧
      s1.PendingAction = some (pa.marked accB.PlayerID) ∧
      s2.PendingAction = none ∧ s2.TurnPhase = TurnPhase.actions ∧
      s2.Players
        = (((gs.Players.set ib (B.PayMoney pa.RentAmount).2).set ia
              { A with Bank := A.Bank ++ (B.PayMoney pa.RentAmount).1.1 }).set ic
              (C.PayMoney pa.RentAmount).2).set ia
            { A with
              Bank := (A.Bank ++ (B.PayMoney pa.RentAmount).1.1)
                ++ (C.PayMoney pa.RentAmount).1.1 } := by
  have hiab : ia ≠ ib := GameState.GetPlayer_index_ne gs _ _ ia ib A B ha hb hab
  have hiac : ia ≠ ic := GameState.GetPlayer_index_ne gs _ _ ia ic A C ha hc hac
  have hibc : ib ≠ ic := GameState.GetPlayer_index_ne gs _ _ ib ic B C hb hc hbc
  obtain ⟨_, hia, _⟩ := GameState.GetPlayer_some _ _ _ _ ha
  obtain ⟨_, hib, _⟩ := GameState.GetPlayer_some _ _ _ _ hb
  obtain ⟨_, hic, _⟩ := GameState.GetPlayer_some _ _ _ _ hc
  have hialt : ia < gs.Players.length := (List.getElem?_eq_some.mp hia).1
  have h1 := GameState.accept_money_eq gs accB rnd pa ia ib A B hpa hmon hB hb ha hiab
  have hnotall : ¬ ∀ t ∈ pa.TargetPlayerIDs, t ∈ pa.RespondedIDs ∨ t = accB.PlayerID := by
    intro hall
    rcases hall _ hctarget with h | h
    · exact hcnot h
    · exact hbc h.symm
  rw [if_neg hnotall] at h1
  have hids := payment_ids gs.Players ia ib A B pa.RentAmount
    (A.Bank ++ (B.PayMoney pa.RentAmount).1.1) hia hib hiab
  have hmon2 : isMonetary (pa.marked accB.PlayerID).Act.Typ = true := hmon
  have hc2 := GameState.GetPlayer_congr gs
    { gs with
      Players := (gs.Players.set ib (B.PayMoney pa.RentAmount).2).set ia
        { A with Bank := A.Bank ++ (B.PayMoney pa.RentAmount).1.1 }
      PendingAction := some (pa.marked accB.PlayerID) }
    accC.PlayerID ic C C hids hc (by
      show ((gs.Players.set ib (B.PayMoney pa.RentAmount).2).set ia _)[ic]? = some C
      rw [getElem?_set_diff _ _ _ _ hiac, getElem?_set_diff _ _ _ _ hibc]
      exact hic)
  have ha2 := GameState.GetPlayer_congr gs
    { gs with
      Players := (gs.Players.set ib (B.PayMoney pa.RentAmount).2).set ia
        { A with Bank := A.Bank ++ (B.PayMoney pa.RentAmount).1.1 }
      PendingAction := some (pa.marked accB.PlayerID) }
    (pa.marked accB.PlayerID).SourcePlayerID ia A
    { A with Bank := A.Bank ++ (B.PayMoney pa.RentAmount).1.1 } hids ha (by
      show ((gs.Players.set ib (B.PayMoney pa.RentAmount).2).set ia _)[ia]? = some _
      simp [hialt])
  have h2 := GameState.accept_money_eq _ accC rnd (pa.marked accB.PlayerID) ia ic _ C rfl hmon2
    hC hc2 ha2 hiac
  have hall2 : ∀ t ∈ (pa.marked accB.PlayerID).TargetPlayerIDs,
      t ∈ (pa.marked accB.PlayerID).RespondedIDs ∨ t = accC.PlayerID := by
    intro t ht
    rcases htargets t ht with h | h
    · exact Or.inl (by simp [PendingAction.marked, h])
    · exact Or.inr h
  rw [if_pos hall2] at h2
  exact ⟨_, _, _, _, h1, h2, rfl, rfl, rfl, rfl⟩

/-- The total returned by `PayMoney` is the value of the cards returned. -/
theorem payMoneyWith_total [SliceSort] (p : Player) (amount : Int) :
    (p.PayMoney amount).1.2 = totalValue (p.PayMoney amount).1.1 := by
  by_cases hpos : 0 < amount
  · obtain ⟨k, _, hpaid, htotal, _, _, _⟩ := payMoneyWith_prefix SliceSort.sort p amount hpos
    unfold Player.PayMoney
    rw [htotal, hpaid]
  · have hle : amount ≤ 0 := not_lt.mp hpos
    simp [Player.PayMoney, Player.PayMoneyWith, hle, totalValue]

/-- Prefix sums of non-negative numbers grow with the length of the prefix. -/
theorem take_sum_mono :
    ∀ (l : List Int), (∀ x ∈ l, 0 ≤ x) → ∀ m n : Nat, m ≤ n → (l.take m).sum ≤ (l.take n).sum := by
  intro l
  induction l with
  | nil => intro _ m n _; simp
  | cons x xs ih =>
    intro h m n hmn
    cases m with
    | zero =>
      simp only [List.take_zero, List.sum_nil]
      apply List.sum_nonneg
      intro y hy
      exact h y (List.mem_of_mem_take hy)
    | succ m =>
      cases n with
      | zero => omega
      | succ n =>
        simp only [List.take_succ_cons, List.sum_cons]
        have := ih (fun y hy => h y (List.mem_cons_of_mem _ hy)) m n (by omega)
        omega

/-- A bank whose cheapest cards add up to exactly the amount pays exactly the amount, whatever
order the sort routine gives to cards of equal value. -/
theorem payMoney_exact [SliceSort] (p : Player) (amount : Int) (hpos : 0 < amount)
    (hvalues : ∀ c ∈ p.Bank, 0 ≤ c.GetValue)
    (hexact : ∃ k, ((ascendingValues p.Bank).take k).sum = amount) :
    (p.PayMoney amount).1.2 = amount := by
  obtain ⟨k, hk⟩ := hexact
  obtain ⟨k0, hk0, _, htotal, _, hlt, hend⟩ := payMoneyWith_prefix SliceSort.sort p amount hpos
  have hsum := totalValue_take_sorted (SliceSort.sort p.Bank) p.Bank (SliceSort.perm p.Bank)
    (SliceSort.sorted p.Bank)
  have hnn : ∀ x ∈ ascendingValues p.Bank, 0 ≤ x := by
    intro x hx
    have hx1 : x ∈ p.Bank.map Card.GetValue :=
      (List.perm_insertionSort _ _).subset hx
    obtain ⟨c, hc, rfl⟩ := List.mem_map.mp hx1
    exact hvalues c hc
  have hmono := take_sum_mono (ascendingValues p.Bank) hnn
  have hlen : (ascendingValues p.Bank).length = (SliceSort.sort p.Bank).length := by
    rw [← map_value_sorted _ _ (SliceSort.perm p.Bank) (SliceSort.sorted p.Bank), List.length_map]
  unfold Player.PayMoney
  rw [htotal, hsum]
  have hle : k0 ≤ k := by
    by_contra hcon
    have := hlt k (by omega)
    rw [hsum, hk] at this
    omega
  have h1 := hmono k0 k hle
  rw [hk] at h1
  rcases hend with h | h
  · have h2 : ((ascendingValues p.Bank).take k).sum
        ≤ ((ascendingValues p.Bank).take k0).sum := by
      rw [h, ← hlen, List.take_length]
      have := hmono k (max k (ascendingValues p.Bank).length) (le_max_left _ _)
      rw [List.take_of_length_le (le_max_right _ _)] at this
      exact this
    rw [hk] at h2
    omega
  · rw [hsum] at h
    omega

/-- C9 amended: with an It's My Stop pending action from A against B and C, the accepts of B and
C can be executed in either order; the pending action is still present after the first accept
and cleared (turn phase actions) after the second; both orders leave every player with the same
bank total; A's bank total has risen by the two totals `PayMoney` returns; and when the demand
is 2 and, in B's bank and in C's bank, the cheapest cards add up to exactly 2 (card values not
negative), A's bank total has risen by exactly 4.  This holds for every order the sort routine
gives to cards of equal value. -/
theorem accept_order_independent [SliceSort] (gs : GameState) (rnd : Nat → Nat → Nat)
    (pa : PendingAction) (accB accC : Action) (ia ib ic : Nat) (A B C : Player)
    (hpa : gs.PendingAction = some pa) (htyp : pa.Act.Typ = ActionType.ItsMyStop)
    (htargets : pa.TargetPlayerIDs = [accB.PlayerID, accC.PlayerID])
    (hresp : pa.RespondedIDs = [])
    (hB : accB.Typ = ActionType.Accept) (hC : accC.Typ = ActionType.Accept)
    (ha : gs.GetPlayer pa.SourcePlayerID = some (ia, A))
    (hb : gs.GetPlayer accB.PlayerID = some (ib, B))
    (hc : gs.GetPlayer accC.PlayerID = some (ic, C))
    (hab : pa.SourcePlayerID ≠ accB.PlayerID) (hac : pa.SourcePlayerID ≠ accC.PlayerID)
    (hbc : accB.PlayerID ≠ accC.PlayerID) :
    ∃ r1 s1 r2 s2 q1 t1 q2 t2,
      gs.Execute accB rnd = some (r1, s1) ∧ s1.Execute accC rnd = some (r2, s2) ∧
      gs.Execute accC rnd = some (q1, t1) ∧ t1.Execute accB rnd = some (q2, t2) ∧
      s1.PendingAction.isSome = true ∧ t1.PendingAction.isSome = true ∧
      s2.PendingAction = none ∧ t2.PendingAction = none ∧
      s2.TurnPhase = TurnPhase.actions ∧ t2.TurnPhase = TurnPhase.actions ∧
      s2.Players.map Player.GetTotalMoney = t2.Players.map Player.GetTotalMoney ∧
      s2.Players[ia]?.map Player.GetTotalMoney
        = some (A.GetTotalMoney + (B.PayMoney pa.RentAmount).1.2
            + (C.PayMoney pa.RentAmount).1.2) ∧
      (pa.RentAmount = 2 →
        (∀ c ∈ B.Bank, 0 ≤ c.GetValue) → (∃ k, ((ascendingValues B.Bank).take k).sum = 2) →
        (∀ c ∈ C.Bank, 0 ≤ c.GetValue) → (∃ k, ((ascendingValues C.Bank).take k).sum = 2) →
        s2.Players[ia]?.map Player.GetTotalMoney = some (A.GetTotalMoney + 4) ∧
        t2.Players[ia]?.map Player.GetTotalMoney = some (A.GetTotalMoney + 4)) := by
  have hmon : isMonetary pa.Act.Typ = true := by simp [isMonetary, htyp]
  obtain ⟨r1, s1, r2, s2, e1, e2, p1, p2, p3, p4⟩ :=
    two_accepts gs rnd pa accB accC ia ib ic A B C hpa hmon
      (by simp [htargets]) (by simp [htargets]) (by simp [hresp]) hB hC ha hb hc hab hac hbc
  obtain ⟨q1, t1, q2, t2, f1, f2, u1, u2, u3, u4⟩ :=
    two_accepts gs rnd pa accC accB ia ic ib A C B hpa hmon
      (by simp [htargets]) (by simp [htargets]) (by simp [hresp]) hC hB ha hc hb hac hab
      (Ne.symm hbc)
  have hiab : ia ≠ ib := GameState.GetPlayer_index_ne gs _ _ ia ib A B ha hb hab
  have hiac : ia ≠ ic := GameState.GetPlayer_index_ne gs _ _ ia ic A C ha hc hac
  have hibc : ib ≠ ic := GameState.GetPlayer_index_ne gs _ _ ib ic B C hb hc hbc
  obtain ⟨_, hia, _⟩ := GameState.GetPlayer_some _ _ _ _ ha
  have hialt : ia < gs.Players.length := (List.getElem?_eq_some.mp hia).1
  have hB2 := (payMoneyWith_total B pa.RentAmount)
  have hC2 := (payMoneyWith_total C pa.RentAmount)
  refine ⟨r1, s1, r2, s2, q1, t1, q2, t2, e1, e2, f1, f2, by simp [p1], by simp [u1], p2, u2, p3,
    u3, ?_, ?_, ?_⟩
  · rw [p4, u4]
    apply List.ext_getElem?
    intro n
    simp only [List.getElem?_map, List.getElem?_set, List.length_set]
    by_cases h1 : ia = n
    · subst h1
      simp [hialt, Player.GetTotalMoney, totalValue_append]
      omega
    · by_cases h2 : ib = n
      · subst h2
        simp [h1, hibc, Ne.symm hibc]
      · by_cases h3 : ic = n
        · subst h3
          simp [h1, h2]
        · simp [h1, h2, h3]
  · rw [p4]
    simp only [if_true, Option.map_some', Option.some.injEq, Player.GetTotalMoney,
      totalValue_append, List.getElem?_set, List.length_set, if_pos hialt]
    omega
  · intro hamt hbv hbe hcv hce
    have hpb := payMoney_exact B 2 (by decide) hbv hbe
    have hpc := payMoney_exact C 2 (by decide) hcv hce
    rw [hamt] at hB2 hC2
    rw [hpb] at hB2
    rw [hpc] at hC2
    rw [p4, u4, hamt]
    simp only [if_true, Option.map_some', Option.some.injEq, Player.GetTotalMoney,
      totalValue_append, List.getElem?_set, List.length_set, if_pos hialt]
    constructor <;> omega

/-- C9 amended, at `TestExecutorItsMyStopWithResponse`: Bob and Charlie hold two $1 cards each,
the demand is 2, and after both accepts, in either order, Alice's bank total is 0 + 4. -/
theorem accept_order_independent_witness :
    itsMyStopPending.RentAmount = 2 ∧
    (twoDollarPlayer "player_1" "Bob").Bank.map Card.GetValue = [1, 1] ∧
    (twoDollarPlayer "player_2" "Charlie").Bank.map Card.GetValue = [1, 1] ∧
    ∃ r1 s1 r2 s2 q1 t1 q2 t2,
      itsMyStopState.Execute acceptBob noShuffle = some (r1, s1) ∧
      s1.Execute acceptCharlie noShuffle = some (r2, s2) ∧
      itsMyStopState.Execute acceptCharlie noShuffle = some (q1, t1) ∧
      t1.Execute acceptBob noShuffle = some (q2, t2) ∧
      s1.PendingAction.isSome = true ∧ t1.PendingAction.isSome = true ∧
      s2.PendingAction = none ∧ t2.PendingAction = none ∧
      s2.TurnPhase = TurnPhase.actions ∧ t2.TurnPhase = TurnPhase.actions ∧
      s2.Players.map Player.GetTotalMoney = t2.Players.map Player.GetTotalMoney ∧
      s2.Players[0]?.map Player.GetTotalMoney = some (0 + 4) ∧
      t2.Players[0]?.map Player.GetTotalMoney = some (0 + 4) := by
  obtain ⟨r1, s1, r2, s2, q1, t1, q2, t2, e1, e2, e3, e4, e5, e6, e7, e8, e9, e10, e11, _, hfour⟩ :=
    accept_order_independent itsMyStopState noShuffle itsMyStopPending acceptBob acceptCharlie
      0 1 2 (NewPlayer "player_0" "Alice") (twoDollarPlayer "player_1" "Bob")
      (twoDollarPlayer "player_2" "Charlie") rfl rfl rfl rfl rfl rfl (by decide) (by decide)
      (by decide) (by decide) (by decide) (by decide)
  obtain ⟨h1, h2⟩ := hfour rfl (by decide) ⟨2, by decide⟩ (by decide) ⟨2, by decide⟩
  exact ⟨rfl, by decide, by decide, r1, s1, r2, s2, q1, t1, q2, t2, e1, e2, e3, e4, e5, e6, e7,
    e8, e9, e10, e11, h1, h2⟩

/-- C6, at `TestExecutorFareEvasion`. -/
theorem single_target_cancel_witness :
    ∃ res gs1, fareEvasionState.Execute playFareEvasion noShuffle = some (res, gs1) ∧
      res.Success = true ∧ gs1.PendingAction = none ∧ gs1.TurnPhase = TurnPhase.actions ∧
      gs1.DiscardPile = fareEvasionState.DiscardPile ++ [fareEvasionCard] ∧
      gs1.Players.map (fun p => (p.ID, p.Bank, p.Properties))
        = fareEvasionState.Players.map (fun p => (p.ID, p.Bank, p.Properties)) ∧
      (fareEvasionState.TurnPhase = TurnPhase.response →
        playFareEvasion.PlayerID ∉ (testRentPending 3).RespondedIDs →
        ∃ gs2, fareEvasionState.ExecuteAction playFareEvasion noShuffle = some ((res, none), gs2) ∧
          gs2.PendingAction = none ∧ gs2.TurnPhase = TurnPhase.actions ∧
          gs2.DiscardPile = fareEvasionState.DiscardPile ++ [fareEvasionCard] ∧
          gs2.Players.map (fun p => (p.ID, p.Bank, p.Properties))
            = fareEvasionState.Players.map (fun p => (p.ID, p.Bank, p.Properties))) :=
  single_target_cancel fareEvasionState playFareEvasion noShuffle (testRentPending 3) 1
    fareEvasionBob fareEvasionCard rfl rfl rfl (by decide) (by decide) (by decide)

/-- C7, at `TestExecutorItsMyStopWithResponse` when Bob responds first. -/
theorem multi_target_resolution_witness :
    itsMyStopState.PendingAction = some itsMyStopPending ∧
    itsMyStopState.TurnPhase = TurnPhase.response ∧
    2 ≤ itsMyStopPending.TargetPlayerIDs.length ∧
    (itsMyStopState.Execute acceptBob noShuffle).map (fun r => (r.2.PendingAction, r.2.TurnPhase))
      = some (some (itsMyStopPending.marked "player_1"), TurnPhase.response) ∧
    ((∀ res gs1, itsMyStopState.Execute acceptBob noShuffle = some (res, gs1) →
      (acceptBob.Typ = ActionType.Accept ∨
        (acceptBob.Typ = ActionType.PlayFareEvasion ∧ res.Success = true)) →
      ((∀ t ∈ itsMyStopPending.TargetPlayerIDs,
            t ∈ itsMyStopPending.RespondedIDs ∨ t = acceptBob.PlayerID) →
          gs1.PendingAction = none ∧ gs1.TurnPhase = TurnPhase.actions) ∧
      (¬ (∀ t ∈ itsMyStopPending.TargetPlayerIDs,
            t ∈ itsMyStopPending.RespondedIDs ∨ t = acceptBob.PlayerID) →
          gs1.PendingAction = some (itsMyStopPending.marked acceptBob.PlayerID) ∧
          gs1.TurnPhase = TurnPhase.response)) ∧
    (∀ j tp, itsMyStopState.GetPlayer acceptBob.PlayerID = some (j, tp) →
      ((acceptBob.Typ = ActionType.Accept ∧ isMonetary itsMyStopPending.Act.Typ = true ∧
          ∃ i sp, itsMyStopState.GetPlayer itsMyStopPending.SourcePlayerID = some (i, sp)) ∨
        (acceptBob.Typ = ActionType.PlayFareEvasion ∧
          (tp.GetCardFromHand acceptBob.GetCardID).isSome = true)) →
      ∃ res gs1, itsMyStopState.Execute acceptBob noShuffle = some (res, gs1) ∧
        res.Success = true)) :=
  ⟨rfl, rfl, by decide, by decide,
    multi_target_resolution itsMyStopState acceptBob noShuffle itsMyStopPending rfl rfl
      (by decide)⟩

/-! ## Rent -/

theorem removeFirstByID_of_find_none :
    ∀ (l : List Card) (cardID : String), findByID l cardID = none →
      removeFirstByID l cardID = none := by
  intro l cardID
  induction l with
  | nil => intro _; rfl
  | cons x xs ih =>
    intro h
    by_cases hx : x.GetID = cardID
    · simp [findByID, hx] at h
    · simp only [findByID, hx, if_false] at h
      simp [removeFirstByID, hx, ih h]

theorem RemoveFromHand_some (p p1 : Player) (cardID : String) (c : Card)
    (h : p.RemoveFromHand cardID = some (c, p1)) :
    p1 = { p with Hand := eraseFirstByID p.Hand cardID } ∧ findByID p.Hand cardID = some c := by
  unfold Player.RemoveFromHand at h
  split at h
  · next removed rest heq =>
    simp only [Option.some.injEq, Prod.mk.injEq] at h
    obtain ⟨hf, hr⟩ := removeFirstByID_some _ _ _ _ heq
    rw [← h.2, ← h.1, hr]
    exact ⟨rfl, hf⟩
  · simp at h

/-- The ids of the players other than `x` depend only on the ids of the players. -/
theorem otherIDs_congr :
    ∀ (l l1 : List Player) (x : String), l.map Player.ID = l1.map Player.ID →
      (l.filter fun p => !decide (p.ID = x)).map (fun p => p.ID)
        = (l1.filter fun p => !decide (p.ID = x)).map (fun p => p.ID) := by
  intro l
  induction l with
  | nil =>
    intro l1 x h
    cases l1 with
    | nil => rfl
    | cons y ys => simp at h
  | cons a as ih =>
    intro l1 x h
    cases l1 with
    | nil => simp at h
    | cons y ys =>
      simp only [List.map_cons, List.cons.injEq] at h
      simp only [List.filter_cons, h.1]
      split
      · simp [h.1, ih ys x h.2]
      · exact ih ys x h.2

namespace GameState

/-- `createPendingRent` for a rent card of the actor's hand, in closed form up to the Rush Hour
multiplier `m`: `m` is 2 exactly when `rushHourCardId` is not empty and names a card of the hand
left after the rent card was taken out, and 1 otherwise. -/
theorem createPendingRent_spec (gs : GameState) (action : Action) (i : Nat)
    (player player1 : Player) (b : BaseCard) (colors : List String) (target : String)
    (hplayer : gs.GetPlayer action.PlayerID = some (i, player))
    (hcard : player.RemoveFromHand action.GetCardID = some (Card.rent b colors target, player1)) :
    ∃ res gs1 pa1,
      gs.createPendingRent action = some (res, gs1) ∧ res.Success = true ∧
      gs1.PendingAction = some pa1 ∧ gs1.TurnPhase = TurnPhase.response ∧
      pa1.Act = action ∧ pa1.SourcePlayerID = player.ID ∧
      pa1.TargetPlayerIDs
        = (if target = "all" then gs.otherPlayerIDs player.ID else [action.GetTargetPlayerID]) ∧
      pa1.RespondedIDs = [] ∧
      pa1.RentAmount = (player.GetPropertySet action.GetColor).1.GetRent * pa1.RentMultiplier ∧
      pa1.RentMultiplier
        = (if action.data "rushHourCardId" ≠ "" ∧
              (findByID player1.Hand (action.data "rushHourCardId")).isSome = true
            then 2 else 1) ∧
      gs1.Players.map Player.ID = gs.Players.map Player.ID := by
  obtain ⟨_, hget, _⟩ := GetPlayer_some _ _ _ _ hplayer
  obtain ⟨hp1, _⟩ := RemoveFromHand_some _ _ _ _ hcard
  have htake : gs.takeCard action
      = some (some (i, Card.rent b colors target, gs.setPlayer i player1)) := by
    simp [takeCard, hplayer, hcard]
  have hset : (gs.Players.set i player1)[i]? = some player1 := getElem?_set_same _ _ _ _ hget
  have hprops : (player1.GetPropertySet action.GetColor).1
      = (player.GetPropertySet action.GetColor).1 := by
    rw [hp1]
    simp only [Player.GetPropertySet]
    split <;> rfl
  have hid1 : player1.ID = player.ID := by rw [hp1]
  have hname1 : player1.Name = player.Name := by rw [hp1]
  have hid2 : (player1.GetPropertySet action.GetColor).2.ID = player.ID := by
    rw [← hid1]
    simp only [Player.GetPropertySet]
    split <;> rfl
  have hhand2 : (player1.GetPropertySet action.GetColor).2.Hand = player1.Hand := by
    simp only [Player.GetPropertySet]
    split <;> rfl
  have hlt : i < gs.Players.length := (List.getElem?_eq_some.mp hget).1
  have hids : ∀ q : Player, q.ID = player.ID →
      (gs.Players.set i q).map Player.ID = gs.Players.map Player.ID :=
    fun q hq => map_set_of_eq Player.ID _ i player q hget hq
  have hother : ∀ q : Player, q.ID = player.ID →
      (List.filter (fun p => !decide (p.ID = player.ID)) (gs.Players.set i q)).map
          (fun p => p.ID)
        = (gs.Players.filter fun p => !decide (p.ID = player.ID)).map (fun p => p.ID) :=
    fun q hq => otherIDs_congr _ _ _ (hids q hq)
  have hidsset : (gs.Players.map Player.ID).set i player.ID = gs.Players.map Player.ID := by
    rw [← List.map_set]
    exact hids player rfl
  by_cases hr : action.data "rushHourCardId" = ""
  · simp [createPendingRent, htake, getPropertySetAt, hset, applyRushHour, hr, hlt, hprops,
      ActionResult.pending, hid2, otherPlayerIDs]
    refine ⟨_, _, ⟨rfl, rfl⟩, ?_⟩
    simp [hother, hid2, hidsset]
  · cases hf : findByID player1.Hand (action.data "rushHourCardId") with
    | none =>
      have hrm : (player1.GetPropertySet action.GetColor).2.RemoveFromHand
          (action.data "rushHourCardId") = none := by
        simp [Player.RemoveFromHand, hhand2, removeFirstByID_of_find_none _ _ hf]
      simp [createPendingRent, htake, getPropertySetAt, hset, applyRushHour, hr, hlt, hprops,
        ActionResult.pending, hid2, otherPlayerIDs, hrm]
      refine ⟨_, _, ⟨rfl, rfl⟩, ?_⟩
      simp [hother, hid2, hidsset]
    | some rc =>
      have hrm : (player1.GetPropertySet action.GetColor).2.RemoveFromHand
          (action.data "rushHourCardId")
          = some (rc, { (player1.GetPropertySet action.GetColor).2 with
              Hand := eraseFirstByID player1.Hand (action.data "rushHourCardId") }) := by
        simp [Player.RemoveFromHand, hhand2, removeFirstByID_of_find _ _ _ hf]
      simp [createPendingRent, htake, getPropertySetAt, hset, applyRushHour, hr, hlt, hprops,
        ActionResult.pending, hid2, otherPlayerIDs, hrm]
      refine ⟨_, _, ⟨rfl, rfl⟩, ?_⟩
      simp [hother, hid2, hidsset]

end GameState

namespace GameState

/-- `Execute` of an accept of a monetary pending action between existing players: the result
is the payment of `PayMoney(RentAmount)`, and the pending action is cleared or marked. -/
theorem accept_money_result [SliceSort] (gs : GameState) (action : Action) (rnd : Nat → Nat → Nat)
    (pa : SubwayDeal.PendingAction) (i j : Nat) (sp tp : Player)
    (hpa : gs.PendingAction = some pa) (hmon : isMonetary pa.Act.Typ = true)
    (htyp : action.Typ = ActionType.Accept)
    (ht : gs.GetPlayer action.PlayerID = some (j, tp))
    (hs : gs.GetPlayer pa.SourcePlayerID = some (i, sp)) :
    ∃ gs1, gs.Execute action rnd
        = some (ActionResult.paid tp.Name pa.RentAmount (tp.PayMoney pa.RentAmount).1.2, gs1) ∧
      (gs1.PendingAction = none ∨ gs1.PendingAction = some (pa.marked action.PlayerID)) := by
  have ht1 : (gs.MarkResponded action.PlayerID).GetPlayer action.PlayerID = some (j, tp) := by
    simpa [GetPlayer, hpa] using ht
  have hs1 : (gs.MarkResponded action.PlayerID).GetPlayer
      (pa.marked action.PlayerID).SourcePlayerID = some (i, sp) := by
    simpa [GetPlayer, hpa, PendingAction.marked] using hs
  have hmon1 : isMonetary (pa.marked action.PlayerID).Act.Typ = true := hmon
  have hmark : (gs.MarkResponded action.PlayerID).PendingAction
      = some (pa.marked action.PlayerID) := by
    simp [hpa, PendingAction.marked]
  have hres := resolveMoney_eq _ _ _ i j sp tp ht1 hs1
  have hpo := resolveMoney_playersOnly _ _ _ _ _ hres
  simp only [Execute, htyp]
  rw [executeAccept_eq gs action pa hpa, resolveForPlayer_monetary _ _ _ hmon1, hres]
  refine ⟨_, rfl, ?_⟩
  split
  · exact Or.inl rfl
  · exact Or.inr (hpo.pending.trans hmark)

end GameState

/-- C10 as stated fails when `rushHourCardId` names the rent card itself: it names a card of
the actor's hand, the action passes validation, but the rent card has left the hand when the
companion is looked up, so the rent of 1 is charged once. -/
theorem rent_doubling_counterexample :
    (rushHourState.Players[0]?.bind fun p => p.GetCardFromHand "test_rent") = some testRentCard ∧
    (rushHourState.Players[0]?.map fun p => (p.GetPropertySet "blue").1.GetRent) = some 1 ∧
    (rushHourState.ExecuteAction (playRentWith "test_rent") noShuffle).map
        (fun r => (r.1.1.Success, r.1.2,
          r.2.PendingAction.map fun pa => (pa.RentAmount, pa.RentMultiplier)))
      = some (true, none, some (1, 1)) := by
  decide

/-- C10, amended: an executed `PLAY_RENT` creates a pending action whose `RentAmount` is exactly
twice `GetRent()` of the actor's property set of the claimed colour when `rushHourCardId` names
a card that is in the actor's hand once the rent card has been taken out of it, and exactly
`GetRent()` when no companion card is named; a later accept by a target pays
`PayMoney(RentAmount)` with that stored amount and leaves the stored amount as it is. -/
theorem rent_doubling [SliceSort] (gs : GameState) (action : Action) (rnd : Nat → Nat → Nat)
    (i : Nat)
    (player player1 : Player) (b : BaseCard) (colors : List String) (target : String)
    (htyp : action.Typ = ActionType.PlayRent)
    (hplayer : gs.GetPlayer action.PlayerID = some (i, player))
    (hcard : player.RemoveFromHand action.GetCardID = some (Card.rent b colors target, player1)) :
    ∃ res gs1 pa1, gs.Execute action rnd = some (res, gs1) ∧ res.Success = true ∧
      gs1.PendingAction = some pa1 ∧
      (action.data "rushHourCardId" ≠ "" →
        (player1.GetCardFromHand (action.data "rushHourCardId")).isSome = true →
        pa1.RentAmount = 2 * (player.GetPropertySet action.GetColor).1.GetRent ∧
        pa1.RentMultiplier = 2) ∧
      (action.data "rushHourCardId" = "" →
        pa1.RentAmount = (player.GetPropertySet action.GetColor).1.GetRent ∧
        pa1.RentMultiplier = 1) ∧
      (∀ (acc : Action) (j : Nat) (tp : Player) (i1 : Nat) (sp : Player),
        acc.Typ = ActionType.Accept → gs1.GetPlayer acc.PlayerID = some (j, tp) →
        gs1.GetPlayer pa1.SourcePlayerID = some (i1, sp) →
        ∃ res2 gs2, gs1.Execute acc rnd = some (res2, gs2) ∧
          res2.Payments =
            [{ FromPlayer := tp.Name, Amount := (tp.PayMoney pa1.RentAmount).1.2,
               Shortfall := max 0 (pa1.RentAmount - (tp.PayMoney pa1.RentAmount).1.2) }] ∧
          ∀ pa2, gs2.PendingAction = some pa2 → pa2.RentAmount = pa1.RentAmount) := by
  obtain ⟨res, gs1, pa1, hexec, hsucc, hpa1, _, hact, _, _, _, hamount, hmult, _⟩ :=
    GameState.createPendingRent_spec gs action i player player1 b colors target hplayer hcard
  refine ⟨res, gs1, pa1, by simp only [GameState.Execute, htyp]; exact hexec, hsucc, hpa1, ?_, ?_,
    ?_⟩
  · intro hne hin
    have hm : pa1.RentMultiplier = 2 := by
      rw [hmult, if_pos ⟨hne, hin⟩]
    rw [hamount, hm]
    exact ⟨by ring, rfl⟩
  · intro he
    have hm : pa1.RentMultiplier = 1 := by
      rw [hmult, if_neg (fun h => h.1 he)]
    rw [hamount, hm]
    exact ⟨by ring, rfl⟩
  · intro acc j tp i1 sp hacc ht hs
    have hmon : isMonetary pa1.Act.Typ = true := by
      rw [hact, htyp]
      rfl
    obtain ⟨gs2, he2, hp2⟩ :=
      GameState.accept_money_result gs1 acc rnd pa1 i1 j sp tp hpa1 hmon hacc ht hs
    refine ⟨_, gs2, he2, rfl, ?_⟩
    intro pa2 h2
    rcases hp2 with h | h
    · rw [h] at h2
      simp at h2
    · rw [h] at h2
      simp only [Option.some.injEq] at h2
      rw [← h2]
      rfl

/-- C10 amended, at `TestExecutorRushHour`: the rent of 1 on blue is doubled to 2. -/
theorem rent_doubling_witness :
    (playRentWith "rush_hour").Typ = ActionType.PlayRent ∧
    rushHourState.GetPlayer (playRentWith "rush_hour").PlayerID
      = some (0, { testAlice with Hand := [testRentCard, act "rush_hour" "Rush Hour" 1] }) ∧
    ({ testAlice with Hand := [testRentCard, act "rush_hour" "Rush Hour" 1] } :
        Player).RemoveFromHand (playRentWith "rush_hour").GetCardID
      = some (Card.rent ⟨"test_rent", CardType.rent, "", 1⟩ ["blue"] "all",
          { testAlice with Hand := [act "rush_hour" "Rush Hour" 1] }) ∧
    (rushHourState.Execute (playRentWith "rush_hour") noShuffle).map
        (fun r => r.2.PendingAction.map fun pa => (pa.RentAmount, pa.RentMultiplier))
      = some (some (2, 2)) ∧
    ∃ res gs1 pa1, rushHourState.Execute (playRentWith "rush_hour") noShuffle = some (res, gs1) ∧
      res.Success = true ∧ gs1.PendingAction = some pa1 ∧
      ((playRentWith "rush_hour").data "rushHourCardId" ≠ "" →
        (({ testAlice with Hand := [act "rush_hour" "Rush Hour" 1] } : Player).GetCardFromHand
          ((playRentWith "rush_hour").data "rushHourCardId")).isSome = true →
        pa1.RentAmount
          = 2 * (({ testAlice with Hand := [testRentCard, act "rush_hour" "Rush Hour" 1] } :
              Player).GetPropertySet (playRentWith "rush_hour").GetColor).1.GetRent ∧
        pa1.RentMultiplier = 2) ∧
      ((playRentWith "rush_hour").data "rushHourCardId" = "" →
        pa1.RentAmount
          = (({ testAlice with Hand := [testRentCard, act "rush_hour" "Rush Hour" 1] } :
              Player).GetPropertySet (playRentWith "rush_hour").GetColor).1.GetRent ∧
        pa1.RentMultiplier = 1) ∧
      (∀ (acc : Action) (j : Nat) (tp : Player) (i1 : Nat) (sp : Player),
        acc.Typ = ActionType.Accept → gs1.GetPlayer acc.PlayerID = some (j, tp) →
        gs1.GetPlayer pa1.SourcePlayerID = some (i1, sp) →
        ∃ res2 gs2, gs1.Execute acc noShuffle = some (res2, gs2) ∧
          res2.Payments =
            [{ FromPlayer := tp.Name, Amount := (tp.PayMoney pa1.RentAmount).1.2,
               Shortfall := max 0 (pa1.RentAmount - (tp.PayMoney pa1.RentAmount).1.2) }] ∧
          ∀ pa2, gs2.PendingAction = some pa2 → pa2.RentAmount = pa1.RentAmount) :=
  ⟨rfl, by decide, by decide, by decide,
    rent_doubling rushHourState (playRentWith "rush_hour") noShuffle 0
      { testAlice with Hand := [testRentCard, act "rush_hour" "Rush Hour" 1] }
      { testAlice with Hand := [act "rush_hour" "Rush Hour" 1] }
      ⟨"test_rent", CardType.rent, "", 1⟩ ["blue"] "all" rfl (by decide) (by decide)⟩

/-! ## Frames of the executors -/

theorem PlayOnly.same (gs : GameState) : PlayOnly gs gs := rfl

theorem PlayOnly.andThen {a b c : GameState} (h1 : PlayOnly a b) (h2 : PlayOnly b c) :
    PlayOnly a c := by
  unfold PlayOnly at *
  rw [h2, h1]

theorem PlayersOnly.playOnly {a b : GameState} (h : PlayersOnly a b) : PlayOnly a b := by
  unfold PlayersOnly at h
  unfold PlayOnly
  rw [h]

theorem PlayOnly.pendingEq {a b : GameState} (h : PlayOnly a b) :
    b.PendingAction = a.PendingAction := by
  rw [h]

theorem PlayOnly.turnPhaseEq {a b : GameState} (h : PlayOnly a b) : b.TurnPhase = a.TurnPhase := by
  rw [h]

theorem PlayOnly.phase {a b : GameState} (h : PlayOnly a b) : b.Phase = a.Phase := by
  rw [h]

theorem PlayOnly.maxActionsEq {a b : GameState} (h : PlayOnly a b) :
    b.MaxActionsPerTurn = a.MaxActionsPerTurn := by
  rw [h]

namespace GameState

theorem discard_playOnly (gs : GameState) (card : Card) : PlayOnly gs (gs.discard card) := rfl

theorem countAction_playOnly (gs : GameState) : PlayOnly gs gs.countAction := rfl

theorem refill_playOnly (gs : GameState) (rnd : Nat → Nat) : PlayOnly gs (gs.refill rnd) := by
  unfold refill
  split <;> rfl

theorem drawCard_playOnly (gs : GameState) (rnd : Nat → Nat) : PlayOnly gs (gs.drawCard rnd).2 := by
  unfold drawCard
  split
  · exact refill_playOnly gs rnd
  · exact (refill_playOnly gs rnd).andThen rfl

theorem drawInto_playOnly (gs : GameState) (i : Nat) (rnd : Nat → Nat) :
    PlayOnly gs (gs.drawInto i rnd) := by
  unfold drawInto
  split
  · exact (drawCard_playOnly gs rnd).andThen (modifyPlayer_playersOnly _ _ _).playOnly
  · exact drawCard_playOnly gs rnd

theorem executePlayProperty_playOnly (gs : GameState) (action : Action) (r : ActionResult)
    (gs1 : GameState) (h : gs.executePlayProperty action = some (r, gs1)) : PlayOnly gs gs1 := by
  unfold executePlayProperty at h
  split at h
  · simp at h
  · simp only [Option.some.injEq, Prod.mk.injEq] at h
    rw [← h.2]
    exact PlayOnly.same _
  · next i card g1 htake =>
    have h1 := (takeCard_playersOnly _ _ _ _ _ htake).playOnly
    split at h
    · next ps g2 name hg hn =>
      simp only [Option.some.injEq, Prod.mk.injEq] at h
      rw [← h.2]
      exact h1.andThen ((getPropertySetAt_playersOnly _ _ _ _ _ hg).playOnly.andThen
        ((setPropertySetAt_playersOnly _ _ _ _).playOnly.andThen (countAction_playOnly _)))
    · simp at h

theorem executePlayMoney_playOnly (gs : GameState) (action : Action) (r : ActionResult)
    (gs1 : GameState) (h : gs.executePlayMoney action = some (r, gs1)) : PlayOnly gs gs1 := by
  unfold executePlayMoney at h
  split at h
  · simp at h
  · simp only [Option.some.injEq, Prod.mk.injEq] at h
    rw [← h.2]
    exact PlayOnly.same _
  · next i card g1 htake =>
    have h1 := (takeCard_playersOnly _ _ _ _ _ htake).playOnly
    split at h
    · simp only [Option.some.injEq, Prod.mk.injEq] at h
      rw [← h.2]
      exact h1.andThen ((modifyPlayer_playersOnly _ _ _).playOnly.andThen (countAction_playOnly _))
    · simp at h

theorem executeSwipeIn_playOnly (gs : GameState) (action : Action) (rnd : Nat → Nat → Nat)
    (r : ActionResult) (gs1 : GameState) (h : gs.executeSwipeIn action rnd = some (r, gs1)) :
    PlayOnly gs gs1 := by
  unfold executeSwipeIn at h
  split at h
  · simp at h
  · simp only [Option.some.injEq, Prod.mk.injEq] at h
    rw [← h.2]
    exact PlayOnly.same _
  · next i card g1 htake =>
    have h1 := (takeCard_playersOnly _ _ _ _ _ htake).playOnly
    split at h
    · simp only [Option.some.injEq, Prod.mk.injEq] at h
      rw [← h.2]
      exact h1.andThen ((discard_playOnly _ _).andThen ((drawInto_playOnly _ _ _).andThen
        ((drawInto_playOnly _ _ _).andThen (countAction_playOnly _))))
    · simp at h

theorem executeImprovement_playOnly (gs : GameState) (action : Action)
    (improvement label : String) (r : ActionResult) (gs1 : GameState)
    (h : gs.executeImprovement action improvement label = some (r, gs1)) : PlayOnly gs gs1 := by
  unfold executeImprovement at h
  split at h
  · simp at h
  · simp only [Option.some.injEq, Prod.mk.injEq] at h
    rw [← h.2]
    exact PlayOnly.same _
  · next i card g1 htake =>
    have h1 := (takeCard_playersOnly _ _ _ _ _ htake).playOnly
    split at h
    · next ps g2 name hg hn =>
      have h2 := h1.andThen (getPropertySetAt_playersOnly _ _ _ _ _ hg).playOnly
      split at h
      · simp only [Option.some.injEq, Prod.mk.injEq] at h
        rw [← h.2]
        exact h2.andThen (modifyPlayer_playersOnly _ _ _).playOnly
      · simp only [Option.some.injEq, Prod.mk.injEq] at h
        rw [← h.2]
        exact h2.andThen ((setPropertySetAt_playersOnly _ _ _ _).playOnly.andThen
          (countAction_playOnly _))
    · simp at h

theorem executeFlipWildcard_playOnly (gs : GameState) (action : Action) (r : ActionResult)
    (gs1 : GameState) (h : gs.executeFlipWildcard action = some (r, gs1)) : PlayOnly gs gs1 := by
  unfold executeFlipWildcard at h
  split at h
  · simp at h
  · split at h
    · simp only [Option.some.injEq, Prod.mk.injEq] at h
      rw [← h.2]
      exact PlayOnly.same _
    · simp only at h
      split at h
      · next ps g2 hg =>
        simp only [Option.some.injEq, Prod.mk.injEq] at h
        rw [← h.2]
        exact (setPropertySetAt_playersOnly _ _ _ _).playOnly.andThen
          ((getPropertySetAt_playersOnly _ _ _ _ _ hg).playOnly.andThen
            (setPropertySetAt_playersOnly _ _ _ _).playOnly)
      · simp at h
    · simp only [Option.some.injEq, Prod.mk.injEq] at h
      rw [← h.2]
      exact PlayOnly.same _

end GameState

theorem PlayOnly.controlStep {a b : GameState} (h : PlayOnly a b) : ControlStep a b :=
  Or.inl ⟨h.pendingEq, h.turnPhaseEq⟩

theorem ControlStep.preserves {a b : GameState} (h : ControlStep a b)
    (ha : PendingOnlyInResponse a) : PendingOnlyInResponse b := by
  intro hb
  rcases h with ⟨h1, h2⟩ | ⟨_, h2⟩ | ⟨h1, _⟩ | ⟨h1, _, h3⟩
  · rw [h2]
    exact ha (h1 ▸ hb)
  · exact h2
  · rw [h1] at hb
    simp at hb
  · rw [h3]
    exact ha h1

namespace GameState

theorem createPendingRent_control (gs : GameState) (action : Action) (r : ActionResult)
    (gs1 : GameState) (h : gs.createPendingRent action = some (r, gs1)) : ControlStep gs gs1 := by
  unfold createPendingRent at h
  split at h
  · simp at h
  · simp only [Option.some.injEq, Prod.mk.injEq] at h
    rw [← h.2]
    exact (PlayOnly.same _).controlStep
  · split at h
    · simp at h
    · split at h
      · simp only [Option.some.injEq, Prod.mk.injEq] at h
        rw [← h.2]
        exact Or.inr (Or.inl ⟨rfl, rfl⟩)
      · simp at h
  · simp at h

theorem createPendingSteal_control (gs : GameState) (action : Action) (stealComplete : Bool)
    (r : ActionResult) (gs1 : GameState)
    (h : gs.createPendingSteal action stealComplete = some (r, gs1)) : ControlStep gs gs1 := by
  unfold createPendingSteal at h
  split at h
  · simp at h
  · simp only [Option.some.injEq, Prod.mk.injEq] at h
    rw [← h.2]
    exact (PlayOnly.same _).controlStep
  · next i card g1 htake =>
    have h1 := (takeCard_playersOnly _ _ _ _ _ htake).playOnly
    split at h
    · simp at h
    · split at h
      · next ps g2 player hg hp =>
        have h2 := h1.andThen (getPropertySetAt_playersOnly _ _ _ _ _ hg).playOnly
        split at h
        · simp only [Option.some.injEq, Prod.mk.injEq] at h
          rw [← h.2]
          exact (h2.andThen (modifyPlayer_playersOnly _ _ _).playOnly).controlStep
        · simp only [Option.some.injEq, Prod.mk.injEq] at h
          rw [← h.2]
          exact Or.inr (Or.inl ⟨rfl, rfl⟩)
      · simp at h

theorem createPendingServiceChange_control (gs : GameState) (action : Action)
    (r : ActionResult) (gs1 : GameState)
    (h : gs.createPendingServiceChange action = some (r, gs1)) : ControlStep gs gs1 := by
  unfold createPendingServiceChange at h
  split at h
  · simp at h
  · simp only [Option.some.injEq, Prod.mk.injEq] at h
    rw [← h.2]
    exact (PlayOnly.same _).controlStep
  · next i card g1 htake =>
    have h1 := (takeCard_playersOnly _ _ _ _ _ htake).playOnly
    split at h
    · simp at h
    · next ps g2 hg =>
      have h2 := h1.andThen (getPropertySetAt_playersOnly _ _ _ _ _ hg).playOnly
      split at h
      · simp at h
      · split at h
        · next ts g3 player hg3 hp =>
          have h3 := h2.andThen (getPropertySetAt_playersOnly _ _ _ _ _ hg3).playOnly
          split at h
          · simp only [Option.some.injEq, Prod.mk.injEq] at h
            rw [← h.2]
            exact (h3.andThen (modifyPlayer_playersOnly _ _ _).playOnly).controlStep
          · split at h
            · simp only [Option.some.injEq, Prod.mk.injEq] at h
              rw [← h.2]
              exact (h3.andThen (modifyPlayer_playersOnly _ _ _).playOnly).controlStep
            · simp only [Option.some.injEq, Prod.mk.injEq] at h
              rw [← h.2]
              exact Or.inr (Or.inl ⟨rfl, rfl⟩)
        · simp at h

theorem createPendingMissedTrain_control (gs : GameState) (action : Action) (r : ActionResult)
    (gs1 : GameState) (h : gs.createPendingMissedTrain action = some (r, gs1)) :
    ControlStep gs gs1 := by
  unfold createPendingMissedTrain at h
  split at h
  · simp at h
  · simp only [Option.some.injEq, Prod.mk.injEq] at h
    rw [← h.2]
    exact (PlayOnly.same _).controlStep
  · split at h
    · simp only [Option.some.injEq, Prod.mk.injEq] at h
      rw [← h.2]
      exact Or.inr (Or.inl ⟨rfl, rfl⟩)
    · simp at h

theorem createPendingItsMyStop_control (gs : GameState) (action : Action) (r : ActionResult)
    (gs1 : GameState) (h : gs.createPendingItsMyStop action = some (r, gs1)) :
    ControlStep gs gs1 := by
  unfold createPendingItsMyStop at h
  split at h
  · simp at h
  · simp only [Option.some.injEq, Prod.mk.injEq] at h
    rw [← h.2]
    exact (PlayOnly.same _).controlStep
  · split at h
    · simp only [Option.some.injEq, Prod.mk.injEq] at h
      rw [← h.2]
      exact Or.inr (Or.inl ⟨rfl, rfl⟩)
    · simp at h

theorem executeAccept_control [SliceSort] (gs : GameState) (action : Action) (r : ActionResult)
    (gs1 : GameState) (h : gs.executeAccept action = some (r, gs1)) : ControlStep gs gs1 := by
  cases hpa : gs.PendingAction with
  | none =>
    simp only [executeAccept, hpa, Option.some.injEq, Prod.mk.injEq] at h
    rw [← h.2]
    exact (PlayOnly.same _).controlStep
  | some pa =>
    rw [executeAccept_eq gs action pa hpa] at h
    split at h
    · simp at h
    · next result g heq =>
      simp only [Option.some.injEq, Prod.mk.injEq] at h
      have hpo := resolveForPlayer_playersOnly _ _ _ _ _ heq
      have hp : g.PendingAction = some (pa.marked action.PlayerID) := by
        rw [hpo.pending]
        simp [hpa, PendingAction.marked]
      have ht : g.TurnPhase = gs.TurnPhase := by
        rw [hpo.turnPhase]
        simp [hpa]
      rw [← h.2]
      split
      · exact Or.inr (Or.inr (Or.inl ⟨rfl, rfl⟩))
      · exact Or.inr (Or.inr (Or.inr ⟨by rw [hpa]; rfl, by simp [hp], ht⟩))

theorem executeFareEvasion_control (gs : GameState) (action : Action) (r : ActionResult)
    (gs1 : GameState) (h : gs.executeFareEvasion action = some (r, gs1)) :
    ControlStep gs gs1 := by
  cases hpa : gs.PendingAction with
  | none =>
    simp only [executeFareEvasion, hpa, Option.some.injEq, Prod.mk.injEq] at h
    rw [← h.2]
    exact (PlayOnly.same _).controlStep
  | some pa =>
    simp only [executeFareEvasion, hpa] at h
    split at h
    · simp at h
    · simp only [Option.some.injEq, Prod.mk.injEq] at h
      rw [← h.2]
      exact Or.inl ⟨hpa.symm ▸ rfl, rfl⟩
    · next i card g1 htake =>
      have hpo := takeCard_playersOnly _ _ _ _ _ htake
      split at h
      · simp at h
      · split at h
        · simp only [Option.some.injEq, Prod.mk.injEq] at h
          rw [← h.2]
          exact Or.inr (Or.inr (Or.inl ⟨rfl, rfl⟩))
        · simp only [Option.some.injEq, Prod.mk.injEq] at h
          rw [← h.2]
          split
          · exact Or.inr (Or.inr (Or.inl ⟨rfl, rfl⟩))
          · refine Or.inr (Or.inr (Or.inr ⟨by rw [hpa]; rfl, ?_, ?_⟩))
            · simp [hpo.pending, hpa]
            · simp only [MarkResponded, discard, hpo.pending, hpa, hpo.turnPhase]

/-- Every call of the executor moves the pending action and the turn phase in one of the four
ways of `ControlStep`. -/
theorem Execute_control [SliceSort] (gs : GameState) (action : Action) (rnd : Nat → Nat → Nat)
    (r : ActionResult) (gs1 : GameState) (h : gs.Execute action rnd = some (r, gs1)) :
    ControlStep gs gs1 := by
  unfold Execute at h
  split at h
  · exact (executePlayProperty_playOnly _ _ _ _ h).controlStep
  · exact (executePlayMoney_playOnly _ _ _ _ h).controlStep
  · exact (executeSwipeIn_playOnly _ _ _ _ _ h).controlStep
  · exact (executeImprovement_playOnly _ _ _ _ _ _ h).controlStep
  · exact (executeImprovement_playOnly _ _ _ _ _ _ h).controlStep
  · exact (executeFlipWildcard_playOnly _ _ _ _ h).controlStep
  · simp only [Option.some.injEq, Prod.mk.injEq] at h
    rw [← h.2]
    exact (PlayOnly.same _).controlStep
  · exact createPendingRent_control _ _ _ _ h
  · exact createPendingSteal_control _ _ _ _ _ h
  · exact createPendingSteal_control _ _ _ _ _ h
  · exact createPendingServiceChange_control _ _ _ _ h
  · exact createPendingMissedTrain_control _ _ _ _ h
  · exact createPendingItsMyStop_control _ _ _ _ h
  · exact executeAccept_control _ _ _ _ h
  · exact executeFareEvasion_control _ _ _ _ h
  · simp only [Option.some.injEq, Prod.mk.injEq] at h
    rw [← h.2]
    exact (PlayOnly.same _).controlStep

end GameState

/-! ## The validator's effect on the state -/

namespace GameState

theorem validateDrawCards_state (gs : GameState) (action : Action) (v : ValidationResult)
    (gs1 : GameState) (h : gs.validateDrawCards action = some (v, gs1)) : gs1 = gs := by
  unfold validateDrawCards at h
  repeat' split at h
  all_goals first
    | (simp only [Option.some.injEq, Prod.mk.injEq] at h; exact h.2.symm)
    | simp at h

theorem validatePlayProperty_state (gs : GameState) (action : Action) (v : ValidationResult)
    (gs1 : GameState) (h : gs.validatePlayProperty action = some (v, gs1)) : gs1 = gs := by
  unfold validatePlayProperty at h
  repeat' split at h
  all_goals first
    | (simp only [Option.some.injEq, Prod.mk.injEq] at h; exact h.2.symm)
    | simp at h

theorem validatePlayMoney_state (gs : GameState) (action : Action) (v : ValidationResult)
    (gs1 : GameState) (h : gs.validatePlayMoney action = some (v, gs1)) : gs1 = gs := by
  unfold validatePlayMoney at h
  repeat' split at h
  all_goals first
    | (simp only [Option.some.injEq, Prod.mk.injEq] at h; exact h.2.symm)
    | simp at h

theorem validatePlayAction_state (gs : GameState) (action : Action) (v : ValidationResult)
    (gs1 : GameState) (h : gs.validatePlayAction action = some (v, gs1)) : gs1 = gs := by
  unfold validatePlayAction at h
  repeat' split at h
  all_goals first
    | (simp only [Option.some.injEq, Prod.mk.injEq] at h; exact h.2.symm)
    | simp at h

theorem validateEndTurn_state (gs : GameState) (action : Action) (v : ValidationResult)
    (gs1 : GameState) (h : gs.validateEndTurn action = some (v, gs1)) : gs1 = gs := by
  unfold validateEndTurn at h
  repeat' split at h
  all_goals first
    | (simp only [Option.some.injEq, Prod.mk.injEq] at h; exact h.2.symm)
    | simp at h

theorem validateFlipWildcard_state (gs : GameState) (action : Action) (v : ValidationResult)
    (gs1 : GameState) (h : gs.validateFlipWildcard action = some (v, gs1)) : gs1 = gs := by
  unfold validateFlipWildcard at h
  repeat' split at h
  all_goals first
    | (simp only [Option.some.injEq, Prod.mk.injEq] at h; exact h.2.symm)
    | simp at h

theorem validateResponse_state (gs : GameState) (action : Action) (v : ValidationResult)
    (gs1 : GameState) (h : gs.validateResponse action = some (v, gs1)) : gs1 = gs := by
  unfold validateResponse at h
  repeat' split at h
  all_goals first
    | (simp only [Option.some.injEq, Prod.mk.injEq] at h; exact h.2.symm)
    | simp at h

/-- `validatePlayRent` returns the state untouched or with the actor's property set of the
claimed colour looked up, which creates a missing set. -/
theorem validatePlayRent_state (gs : GameState) (action : Action) (v : ValidationResult)
    (gs1 : GameState) (h : gs.validatePlayRent action = some (v, gs1)) :
    gs1 = gs ∨ ∃ i ps, gs.getPropertySetAt i action.GetColor = some (ps, gs1) := by
  unfold validatePlayRent at h
  split at h
  · simp only [Option.some.injEq, Prod.mk.injEq] at h
    exact Or.inl h.2.symm
  · split at h
    · simp at h
    · simp only [Option.some.injEq, Prod.mk.injEq] at h
      exact Or.inl h.2.symm
    · split at h
      · simp at h
      · next i player hp =>
        split at h
        · simp only [Option.some.injEq, Prod.mk.injEq] at h
          exact Or.inl h.2.symm
        · split at h
          · simp at h
          · next ps g hg =>
            refine Or.inr ⟨i, ps, ?_⟩
            rw [hg]
            repeat' split at h
            all_goals
              simp only [Option.some.injEq, Prod.mk.injEq] at h
              rw [h.2]
        · simp only [Option.some.injEq, Prod.mk.injEq] at h
          exact Or.inl h.2.symm

/-- The validator changes the players at most. -/
theorem Validate_playersOnly (gs : GameState) (action : Action) (v : ValidationResult)
    (gs1 : GameState) (h : gs.Validate action = some (v, gs1)) : PlayersOnly gs gs1 := by
  unfold Validate at h
  split at h
  · rw [validateResponse_state _ _ _ _ h]
    exact PlayersOnly.refl _
  · split at h
    · simp only [Option.some.injEq, Prod.mk.injEq] at h
      rw [← h.2]
      exact PlayersOnly.refl _
    · split at h
      · rw [validateDrawCards_state _ _ _ _ h]; exact PlayersOnly.refl _
      · rw [validatePlayProperty_state _ _ _ _ h]; exact PlayersOnly.refl _
      · rw [validatePlayMoney_state _ _ _ _ h]; exact PlayersOnly.refl _
      · rcases validatePlayRent_state _ _ _ _ h with h1 | ⟨i, ps, h1⟩
        · rw [h1]; exact PlayersOnly.refl _
        · exact getPropertySetAt_playersOnly _ _ _ _ _ h1
      · rw [validatePlayAction_state _ _ _ _ h]; exact PlayersOnly.refl _
      · rw [validatePlayAction_state _ _ _ _ h]; exact PlayersOnly.refl _
      · rw [validatePlayAction_state _ _ _ _ h]; exact PlayersOnly.refl _
      · rw [validatePlayAction_state _ _ _ _ h]; exact PlayersOnly.refl _
      · rw [validatePlayAction_state _ _ _ _ h]; exact PlayersOnly.refl _
      · rw [validatePlayAction_state _ _ _ _ h]; exact PlayersOnly.refl _
      · rw [validatePlayAction_state _ _ _ _ h]; exact PlayersOnly.refl _
      · rw [validatePlayAction_state _ _ _ _ h]; exact PlayersOnly.refl _
      · rw [validatePlayAction_state _ _ _ _ h]; exact PlayersOnly.refl _
      · rw [validatePlayAction_state _ _ _ _ h]; exact PlayersOnly.refl _
      · rw [validateEndTurn_state _ _ _ _ h]; exact PlayersOnly.refl _
      · rw [validateFlipWildcard_state _ _ _ _ h]; exact PlayersOnly.refl _
      · simp only [Option.some.injEq, Prod.mk.injEq] at h
        rw [← h.2]
        exact PlayersOnly.refl _

/-- `Engine.ExecuteAction` keeps the pending-action invariant. -/
theorem ExecuteAction_preserves [SliceSort] (gs : GameState) (action : Action)
    (rnd : Nat → Nat → Nat)
    (res : ActionResult × Option String) (gs1 : GameState)
    (h : gs.ExecuteAction action rnd = some (res, gs1)) (hinv : PendingOnlyInResponse gs) :
    PendingOnlyInResponse gs1 := by
  unfold ExecuteAction at h
  split at h
  · simp at h
  · next v g hv =>
    have hpo := Validate_playersOnly _ _ _ _ hv
    have hg : PendingOnlyInResponse g := by
      intro hs
      rw [hpo.turnPhase]
      exact hinv (hpo.pending ▸ hs)
    split at h
    · simp only [Option.some.injEq, Prod.mk.injEq] at h
      rw [← h.2]
      exact hg
    · split at h
      · simp at h
      · next r g2 he =>
        simp only [Option.some.injEq, Prod.mk.injEq] at h
        have h2 := (Execute_control _ _ _ _ _ he).preserves hg
        obtain ⟨c1, c2, _⟩ := CheckWinCondition_frame g2
        rw [← h.2]
        intro hs
        rw [c2]
        exact h2 (c1 ▸ hs)

theorem StartTurn_pending (gs gs1 : GameState) (h : gs.StartTurn = some gs1) :
    gs1.PendingAction = gs.PendingAction := by
  unfold StartTurn at h
  split at h
  · simp at h
  · simp only [Option.some.injEq] at h
    rw [← h]

end GameState

theorem reachableByActions_invariant [SliceSort] (gs : GameState) (hreach : ReachableByActions gs) :
    PendingOnlyInResponse gs := by
  induction hreach with
  | start gs0 gs h0 hstart =>
    obtain ⟨gameID, playerNames, rnd, h0⟩ := h0
    intro hs
    rw [GameState.StartTurn_pending _ _ hstart, h0] at hs
    simp [NewEngine, NewGameState] at hs
  | step gs action rnd res gs1 _ hexec ih =>
    exact GameState.ExecuteAction_preserves gs action rnd res gs1 hexec ih

/-- C5: in every state reached from `NewEngine` and `StartTurn` by `Engine.ExecuteAction`
calls, a pending action exists only while the turn phase is response. -/
theorem pending_only_in_response [SliceSort] (gs : GameState) (hreach : ReachableByActions gs)
    (pa : PendingAction) (hpa : gs.PendingAction = some pa) :
    gs.TurnPhase = TurnPhase.response :=
  reachableByActions_invariant gs hreach (by rw [hpa]; rfl)

set_option maxRecDepth 100000

theorem runActions_byActions [SliceSort] :
    ∀ (actions : List Action) (gs gs1 : GameState), ReachableByActions gs →
      runActions gs actions = some gs1 → ReachableByActions gs1 := by
  intro actions
  induction actions with
  | nil =>
    intro gs gs1 hr h
    simp only [runActions, Option.some.injEq] at h
    exact h ▸ hr
  | cons a rest ih =>
    intro gs gs1 hr h
    simp only [runActions] at h
    split at h
    · simp at h
    · next res g he => exact ih g gs1 (ReachableByActions.step _ _ _ _ _ hr he) h

theorem openingTrace_reachable (gs : GameState) (h : openingTrace = some gs) :
    ReachableByActions gs := by
  obtain ⟨g0, h0, h1⟩ := Option.bind_eq_some.mp h
  exact runActions_byActions _ g0 gs (ReachableByActions.start _ _ ⟨_, _, _, rfl⟩ h0) h1

/-- C5, at the state after the first player's It's My Stop in a fresh two-player game. -/
theorem pending_only_in_response_witness :
    ∃ gs pa, openingTrace = some gs ∧ ReachableByActions gs ∧ gs.PendingAction = some pa ∧
      gs.TurnPhase = TurnPhase.response := by
  have h : (openingTrace.bind fun gs => gs.PendingAction).isSome = true := by decide
  obtain ⟨pa, hpa⟩ := Option.isSome_iff_exists.mp h
  obtain ⟨gs, hgs, hpa2⟩ := Option.bind_eq_some.mp hpa
  exact ⟨gs, pa, hgs, openingTrace_reachable gs hgs, hpa2,
    pending_only_in_response gs (openingTrace_reachable gs hgs) pa hpa2⟩

/-! ## Where the code departs from the specification -/

theorem runActions_reachable [SliceSort] :
    ∀ (actions : List Action) (gs gs1 : GameState), Reachable gs →
      runActions gs actions = some gs1 → Reachable gs1 := by
  intro actions
  induction actions with
  | nil =>
    intro gs gs1 hr h
    simp only [runActions, Option.some.injEq] at h
    exact h ▸ hr
  | cons a rest ih =>
    intro gs gs1 hr h
    simp only [runActions] at h
    split at h
    · simp at h
    · next res g he => exact ih g gs1 (Reachable.executeAction _ _ _ _ _ hr he) h

theorem lostCardTrace_reachable (gs : GameState) (h : lostCardTrace = some gs) :
    Reachable gs := by
  obtain ⟨g0, h0, h1⟩ := Option.bind_eq_some.mp h
  exact runActions_reachable _ g0 gs (Reachable.startTurn _ _ (Reachable.init _ ⟨_, _, _, rfl⟩) h0) h1

/-- C1 fails on the code: after a successful `EXPRESS_SERVICE` the card played is in no pile,
hand, bank or property set.  In the reachable state `lostCardTrace`, 105 cards are left, the
card `money_5_1` is gone, and the brown set carries the improvement. -/
theorem express_service_loses_card :
    ∃ gs, lostCardTrace = some gs ∧ Reachable gs ∧ (allCards gs).length = 105 ∧
      ((allCards gs).map Card.GetID).count "money_5_1" = 0 ∧
      (gs.Players.map fun p => p.Properties.map fun e => (e.1, e.2.Improvements))
        = [[("brown", ["express"])], []] := by
  have h1 : (lostCardTrace.map fun gs => (allCards gs).length) = some 105 := by decide
  have h2 : (lostCardTrace.map fun gs => ((allCards gs).map Card.GetID).count "money_5_1")
      = some 0 := by decide
  have h3 : (lostCardTrace.map fun gs =>
      gs.Players.map fun p => p.Properties.map fun e => (e.1, e.2.Improvements))
      = some [[("brown", ["express"])], []] := by decide
  obtain ⟨gs, hgs, hval⟩ := Option.map_eq_some'.mp h1
  rw [hgs] at h2 h3
  simp only [Option.map_some', Option.some.injEq] at h2 h3
  exact ⟨gs, hgs, lostCardTrace_reachable gs hgs, hval, h2, h3⟩

/-- C2 fails on the code: validating a `PLAY_RENT` on a colour the actor has no set of rejects
the action and leaves an empty property set of that colour in the actor's map, also through
`Engine.ExecuteAction`. -/
theorem validate_writes_property_map :
    noPropertyState.Validate (playRentWith "")
      = some (Invalid "you don't own any blue properties",
          { noPropertyState with
            Players := [{ NewPlayer "player_0" "Alice" with
                          Hand := [testRentCard], Properties := [("blue", NewPropertySet "blue")] },
                        NewPlayer "player_1" "Bob"] }) ∧
    (noPropertyState.ExecuteAction (playRentWith "") noShuffle).map (fun r => r.2)
      ≠ some noPropertyState ∧
    (noPropertyState.ExecuteAction (playRentWith "") noShuffle).map
        (fun r => (r.1.1.Success, r.2.Players.map fun p => p.Properties))
      = some (false, [[("blue", NewPropertySet "blue")], []]) := by
  decide

/-! ## Power Broker -/

theorem lookup_mapSet_same :
    ∀ (props : List (String × PropertySet)) (key : String) (ps : PropertySet),
      (mapSet props key ps).lookup key = some ps := by
  intro props key ps
  induction props with
  | nil => simp [mapSet, List.lookup]
  | cons e rest ih =>
    obtain ⟨k, v⟩ := e
    by_cases hk : k = key
    · subst hk
      simp [mapSet, List.lookup]
    · have hb : (key == k) = false := by simpa using (Ne.symm hk)
      simp [mapSet, hk, List.lookup, hb, ih]

theorem lookup_mapSet_ne :
    ∀ (props : List (String × PropertySet)) (key c : String) (ps : PropertySet), c ≠ key →
      (mapSet props key ps).lookup c = props.lookup c := by
  intro props key c ps hc
  induction props with
  | nil =>
    have hb : (c == key) = false := by simpa using hc
    simp [mapSet, List.lookup, hb]
  | cons e rest ih =>
    obtain ⟨k, v⟩ := e
    by_cases hk : k = key
    · subst hk
      have hb : (c == k) = false := by simpa using hc
      simp [mapSet, List.lookup, hb]
    · by_cases hck : c = k
      · subst hck
        simp [mapSet, hk, List.lookup]
      · have hb : (c == k) = false := by simpa using hck
        simp [mapSet, hk, List.lookup, hb, ih]

theorem lookup_append_one :
    ∀ (props : List (String × PropertySet)) (key c : String) (ps : PropertySet),
      (props ++ [(key, ps)]).lookup c
        = match props.lookup c with
          | some v => some v
          | none => if c = key then some ps else none := by
  intro props key c ps
  induction props with
  | nil =>
    by_cases hc : c = key
    · subst hc; simp [List.lookup]
    · have hb : (c == key) = false := by simpa using hc
      simp [List.lookup, hb, hc]
  | cons e rest ih =>
    obtain ⟨k, v⟩ := e
    by_cases hck : c = k
    · subst hck
      simp [List.lookup]
    · have hb : (c == k) = false := by simpa using hck
      simp [List.lookup, hb, ih]

/-- The set a player holds for the colour of a card after receiving it: the old set, or a new
one, with the card appended; every other colour is untouched, and so are hand and bank. -/
theorem withCard_spec (p : Player) (card : Card) :
    (p.withCard card).Properties.lookup card.playColor
      = some { (p.GetPropertySet card.playColor).1 with
          Cards := (p.GetPropertySet card.playColor).1.Cards ++ [card] } ∧
    (∀ c, c ≠ card.playColor →
      (p.withCard card).Properties.lookup c = p.Properties.lookup c) ∧
    (p.withCard card).Hand = p.Hand ∧ (p.withCard card).Bank = p.Bank ∧
    (p.withCard card).ID = p.ID ∧ (p.withCard card).Name = p.Name := by
  refine ⟨?_, ?_, ?_, ?_, ?_, ?_⟩
  · simp [Player.withCard, Player.setPropertySet, lookup_mapSet_same, PropertySet.AddCard]
  · intro c hc
    simp only [Player.withCard, Player.setPropertySet, lookup_mapSet_ne _ _ _ _ hc]
    unfold Player.GetPropertySet
    split
    · rfl
    · simp only [lookup_append_one, hc, if_false]
      cases List.lookup c p.Properties <;> rfl
  all_goals
    unfold Player.withCard Player.setPropertySet Player.GetPropertySet
    split <;> rfl

theorem withoutCard_spec (p : Player) (color : String) (ps : PropertySet) (cardID : String) :
    (p.withoutCard color ps cardID).Properties.lookup color
      = some { ps with Cards := eraseFirstByID ps.Cards cardID } ∧
    (∀ c, c ≠ color → (p.withoutCard color ps cardID).Properties.lookup c = p.Properties.lookup c) ∧
    (p.withoutCard color ps cardID).Hand = p.Hand ∧
    (p.withoutCard color ps cardID).Bank = p.Bank ∧
    (p.withoutCard color ps cardID).ID = p.ID ∧ (p.withoutCard color ps cardID).Name = p.Name :=
  ⟨lookup_mapSet_same _ _ _, fun _ hc => lookup_mapSet_ne _ _ _ _ hc, rfl, rfl, rfl, rfl⟩


namespace GameState

/-- The Power Broker resolution in closed form, for a card held in the target's set. -/
theorem resolvePowerBroker_eq (gs : GameState) (pa : SubwayDeal.PendingAction) (playerID : String)
    (i j : Nat) (sp tp : Player) (ps : PropertySet) (card : Card)
    (hs : gs.GetPlayer pa.SourcePlayerID = some (i, sp))
    (ht : gs.GetPlayer playerID = some (j, tp))
    (hset : tp.Properties.lookup pa.Act.GetColor = some ps)
    (hcard : findByID ps.Cards pa.Act.GetTargetCardID = some card) :
    gs.resolvePowerBroker pa playerID
      = some (ActionResult.ok (sp.Name ++ " stole " ++ card.GetName ++ " from " ++ tp.Name),
          { gs with
            Players :=
              (gs.Players.set j (tp.withoutCard pa.Act.GetColor ps pa.Act.GetTargetCardID)).set i
                ((if i = j then tp.withoutCard pa.Act.GetColor ps pa.Act.GetTargetCardID
                  else sp).withCard card) }) := by
  obtain ⟨_, hi, _⟩ := GetPlayer_some _ _ _ _ hs
  obtain ⟨_, hj, _⟩ := GetPlayer_some _ _ _ _ ht
  have hjlt : j < gs.Players.length := (List.getElem?_eq_some.mp hj).1
  have hilt : i < gs.Players.length := (List.getElem?_eq_some.mp hi).1
  have hget : tp.GetPropertySet pa.Act.GetColor = (ps, tp) := by
    simp [Player.GetPropertySet, hset]
  have hrem : gs.removeCardAt j pa.Act.GetColor pa.Act.GetTargetCardID
      = some (some (card,
          { gs with
            Players := gs.Players.set j
              (tp.withoutCard pa.Act.GetColor ps pa.Act.GetTargetCardID) })) := by
    simp [removeCardAt, getPropertySetAt, hj, hget, PropertySet.RemoveCard,
      removeFirstByID_of_find _ _ _ hcard, setPropertySetAt, modifyPlayer, hjlt,
      Player.withoutCard]
  have hi1 : (gs.Players.set j (tp.withoutCard pa.Act.GetColor ps pa.Act.GetTargetCardID))[i]?
      = some (if i = j then tp.withoutCard pa.Act.GetColor ps pa.Act.GetTargetCardID else sp) := by
    by_cases hij : i = j
    · subst hij
      simp [hjlt]
    · rw [getElem?_set_diff _ _ _ _ (Ne.symm hij), if_neg hij]
      exact hi
  simp only [resolvePowerBroker, hs, ht, hrem]
  simp [addCardAt, getPropertySetAt, hi1, setPropertySetAt, modifyPlayer, hilt, Player.withCard]

end GameState


theorem map_set_set_of_eq {β : Type} (f : Player → β) (l : List Player) (i j : Nat)
    (p q p1 q1 : Player) (hj : l[j]? = some q) (hq : f q1 = f q)
    (hi : (l.set j q1)[i]? = some p) (hp : f p1 = f p) :
    ((l.set j q1).set i p1).map f = l.map f := by
  rw [map_set_of_eq f _ _ _ _ hi hp, map_set_of_eq f _ _ _ _ hj hq]

/-- C11: when the one target of a Power Broker pending action accepts and the card named by
the action lies in the target's set of the named colour (complete or not), the executor returns
success; the card is removed from that set and appended to the source's set for the card's
colour (the current colour of a wildcard; the set is created when the source has none); the
pending action is cleared and the turn phase is actions; ids, names, hands and banks of all
players, every other player and every property set of another colour are as before.  In the
response phase, with the target not yet marked as responded, `Engine.ExecuteAction` accepts the
action and gives the same players. -/
theorem power_broker_accept [SliceSort] (gs : GameState) (action : Action) (rnd : Nat → Nat → Nat)
    (pa : PendingAction) (i j : Nat) (sp tp : Player) (ps : PropertySet) (card : Card)
    (hpa : gs.PendingAction = some pa) (hpb : pa.Act.Typ = ActionType.PowerBroker)
    (hone : pa.TargetPlayerIDs = [action.PlayerID])
    (htyp : action.Typ = ActionType.Accept)
    (hs : gs.GetPlayer pa.SourcePlayerID = some (i, sp))
    (ht : gs.GetPlayer action.PlayerID = some (j, tp))
    (hset : tp.Properties.lookup pa.Act.GetColor = some ps)
    (hcard : findByID ps.Cards pa.Act.GetTargetCardID = some card) :
    ∃ res gs1, gs.Execute action rnd = some (res, gs1) ∧ res.Success = true ∧
      gs1 = { gs with
              Players :=
                (gs.Players.set j (tp.withoutCard pa.Act.GetColor ps pa.Act.GetTargetCardID)).set i
                  ((if i = j then tp.withoutCard pa.Act.GetColor ps pa.Act.GetTargetCardID
                    else sp).withCard card)
              PendingAction := none
              TurnPhase := TurnPhase.actions } ∧
      gs1.Players.map (fun p => (p.ID, p.Name, p.Hand, p.Bank))
        = gs.Players.map (fun p => (p.ID, p.Name, p.Hand, p.Bank)) ∧
      (∀ n, n ≠ i → n ≠ j → gs1.Players[n]? = gs.Players[n]?) ∧
      (i ≠ j →
        (∃ tp1, gs1.Players[j]? = some tp1 ∧
          tp1.Properties.lookup pa.Act.GetColor
            = some { ps with Cards := eraseFirstByID ps.Cards pa.Act.GetTargetCardID } ∧
          ∀ c, c ≠ pa.Act.GetColor → tp1.Properties.lookup c = tp.Properties.lookup c) ∧
        (∃ sp1, gs1.Players[i]? = some sp1 ∧
          sp1.Properties.lookup card.playColor
            = some { (sp.GetPropertySet card.playColor).1 with
                Cards := (sp.GetPropertySet card.playColor).1.Cards ++ [card] } ∧
          ∀ c, c ≠ card.playColor → sp1.Properties.lookup c = sp.Properties.lookup c)) ∧
      (gs.TurnPhase = TurnPhase.response → action.PlayerID ∉ pa.RespondedIDs →
        ∃ gs2, gs.ExecuteAction action rnd = some ((res, none), gs2) ∧
          gs2.Players = gs1.Players ∧ gs2.PendingAction = none ∧
          gs2.TurnPhase = TurnPhase.actions ∧ gs2.Deck = gs.Deck ∧
          gs2.DiscardPile = gs.DiscardPile) := by
  obtain ⟨_, hi, _⟩ := GameState.GetPlayer_some _ _ _ _ hs
  obtain ⟨_, hj, _⟩ := GameState.GetPlayer_some _ _ _ _ ht
  have hjlt : j < gs.Players.length := (List.getElem?_eq_some.mp hj).1
  have hilt : i < gs.Players.length := (List.getElem?_eq_some.mp hi).1
  have ht1 : (gs.MarkResponded action.PlayerID).GetPlayer action.PlayerID = some (j, tp) := by
    simpa [GameState.GetPlayer, hpa] using ht
  have hs1 : (gs.MarkResponded action.PlayerID).GetPlayer
      (pa.marked action.PlayerID).SourcePlayerID = some (i, sp) := by
    simpa [GameState.GetPlayer, hpa, PendingAction.marked] using hs
  have hres := GameState.resolvePowerBroker_eq (gs.MarkResponded action.PlayerID)
    (pa.marked action.PlayerID) action.PlayerID i j sp tp ps card hs1 ht1 hset hcard
  have hresolve : (gs.MarkResponded action.PlayerID).resolveForPlayer
      (pa.marked action.PlayerID) action.PlayerID
        = (gs.MarkResponded action.PlayerID).resolvePowerBroker (pa.marked action.PlayerID)
            action.PlayerID := by
    have : (pa.marked action.PlayerID).Act.Typ = ActionType.PowerBroker := hpb
    simp [GameState.resolveForPlayer, this]
  have hall : ∀ t ∈ (pa.marked action.PlayerID).TargetPlayerIDs,
      t ∈ (pa.marked action.PlayerID).RespondedIDs := by
    rw [marked_all_iff]
    intro t htm
    rw [hone] at htm
    exact Or.inr (List.mem_singleton.mp htm)
  have hexec : gs.Execute action rnd
      = some (ActionResult.ok (sp.Name ++ " stole " ++ card.GetName ++ " from " ++ tp.Name),
          { gs with
            Players :=
              (gs.Players.set j (tp.withoutCard pa.Act.GetColor ps pa.Act.GetTargetCardID)).set i
                ((if i = j then tp.withoutCard pa.Act.GetColor ps pa.Act.GetTargetCardID
                  else sp).withCard card)
            PendingAction := none
            TurnPhase := TurnPhase.actions }) := by
    simp only [GameState.Execute, htyp]
    rw [GameState.executeAccept_eq gs action pa hpa, hresolve, hres]
    have hpa2 : ({ gs.MarkResponded action.PlayerID with
        Players :=
          ((gs.MarkResponded action.PlayerID).Players.set j
            (tp.withoutCard (pa.marked action.PlayerID).Act.GetColor ps
              (pa.marked action.PlayerID).Act.GetTargetCardID)).set i
            ((if i = j then tp.withoutCard (pa.marked action.PlayerID).Act.GetColor ps
                (pa.marked action.PlayerID).Act.GetTargetCardID
              else sp).withCard card) } : GameState).PendingAction
        = some (pa.marked action.PlayerID) := by
      simp [hpa, PendingAction.marked]
    simp only [if_pos ((GameState.allTargetsResponded_iff _ _ hpa2).mpr hall)]
    simp [hpa, PendingAction.marked]
  have hi1 : (gs.Players.set j (tp.withoutCard pa.Act.GetColor ps pa.Act.GetTargetCardID))[i]?
      = some (if i = j then tp.withoutCard pa.Act.GetColor ps pa.Act.GetTargetCardID else sp) := by
    by_cases hij : i = j
    · subst hij
      simp [hjlt]
    · rw [getElem?_set_diff _ _ _ _ (Ne.symm hij), if_neg hij]
      exact hi
  have hsame : ((gs.Players.set j (tp.withoutCard pa.Act.GetColor ps
        pa.Act.GetTargetCardID)).set i
          ((if i = j then tp.withoutCard pa.Act.GetColor ps pa.Act.GetTargetCardID
            else sp).withCard card)).map (fun p => (p.ID, p.Name, p.Hand, p.Bank))
      = gs.Players.map (fun p => (p.ID, p.Name, p.Hand, p.Bank)) := by
    refine map_set_set_of_eq _ _ _ _ _ _ _ _ hj rfl hi1 ?_
    obtain ⟨_, _, h3, h4, h5, h6⟩ := withCard_spec
      (if i = j then tp.withoutCard pa.Act.GetColor ps pa.Act.GetTargetCardID else sp) card
    simp only [h3, h4, h5, h6]
  refine ⟨_, _, hexec, rfl, rfl, hsame, ?_, ?_, ?_⟩
  · intro n hni hnj
    show ((gs.Players.set j _).set i _)[n]? = _
    rw [getElem?_set_diff _ _ _ _ (Ne.symm hni), getElem?_set_diff _ _ _ _ (Ne.symm hnj)]
  · intro hij
    constructor
    · refine ⟨tp.withoutCard pa.Act.GetColor ps pa.Act.GetTargetCardID, ?_, ?_, ?_⟩
      · show ((gs.Players.set j _).set i _)[j]? = _
        rw [getElem?_set_diff _ _ _ _ hij]
        simp [hjlt]
      · exact (withoutCard_spec tp _ ps _).1
      · exact (withoutCard_spec tp _ ps _).2.1
    · refine ⟨sp.withCard card, ?_, (withCard_spec sp card).1, (withCard_spec sp card).2.1⟩
      show ((gs.Players.set j _).set i _)[i]? = _
      simp [hilt, hjlt, hij]
  · intro hphase hnot
    have hvalid : gs.Validate action = some (Valid, gs) := by
      have hnr2 : (pa.RespondedIDs.any fun respID => decide (respID = action.PlayerID)) = false := by
        rw [Bool.eq_false_iff]
        intro h
        simp only [List.any_eq_true, decide_eq_true_eq] at h
        obtain ⟨x, hx, rfl⟩ := h
        exact hnot hx
      simp [GameState.Validate, htyp, GameState.validateResponse, hphase,
        GameState.HasPendingAction, GameState.GetPendingTargets, hpa,
        PendingAction.pendingTargets, hone, hnr2]
    obtain ⟨c1, c2, c3, c4, c5, _⟩ := GameState.CheckWinCondition_frame
      ({ gs with
            Players :=
              (gs.Players.set j (tp.withoutCard pa.Act.GetColor ps pa.Act.GetTargetCardID)).set i
                ((if i = j then tp.withoutCard pa.Act.GetColor ps pa.Act.GetTargetCardID
                  else sp).withCard card)
            PendingAction := none
            TurnPhase := TurnPhase.actions } : GameState)
    refine ⟨_, ?_, c3, c1, c2, c4, c5⟩
    simp [GameState.ExecuteAction, hvalid, Valid, hexec]

/-- C11, at `TestExecutorPowerBrokerWithResponse`: Bob accepts and his only blue property moves
to a new blue set of Alice. -/
theorem power_broker_accept_witness :
    ∃ res gs1, powerBrokerState.Execute acceptBob noShuffle = some (res, gs1) ∧
      res.Success = true ∧ gs1.PendingAction = none ∧ gs1.TurnPhase = TurnPhase.actions ∧
      gs1.Players.map (fun p => p.Properties)
        = [[("blue", { Color := "blue", Cards := [bobProp], Improvements := [] })],
           [("blue", { Color := "blue", Cards := [], Improvements := [] })]] :=
  match power_broker_accept powerBrokerState acceptBob noShuffle powerBrokerPending 0 1
      (NewPlayer "player_0" "Alice") powerBrokerBob
      { Color := "blue", Cards := [bobProp], Improvements := [] } bobProp
      rfl rfl rfl rfl (by decide) (by decide) (by decide) (by decide) with
  | ⟨res, gs1, hexec, hsucc, hgs1, _⟩ =>
    ⟨res, gs1, hexec, hsucc, by rw [hgs1], by rw [hgs1], by rw [hgs1]; decide⟩

/-! ## Property sets: rent, improvements, completion -/

theorem lookup_cons_if (k a : Int) (b : Int) (es : List (Int × Int)) :
    ((k, b) :: es).lookup a = if a = k then some b else es.lookup a := by
  by_cases h : a = k
  · simp [List.lookup, h]
  · have : (a == k) = false := by simpa using h
    simp [List.lookup, h, this]

theorem propertyRent_nil (a : Int) : Card.propertyRent [] a = 0 := rfl

theorem propertyRent_cons (k v : Int) (r : List (Int × Int)) (a : Int) :
    Card.propertyRent ((k, v) :: r) a = if a = k then v else Card.propertyRent r a := by
  unfold Card.propertyRent
  rw [lookup_cons_if]
  split_ifs <;> rfl

/-- The ten rent tables of the catalog with the set size of their colour. -/
theorem catalog_tables (b : BaseCard) (col : String) (size : Int) (rent : List (Int × Int))
    (h : Card.property b col size rent ∈ createPropertyCards) (ps : PropertySet)
    (hc : ps.Color = col) :
    (ps.SetSize, rent) ∈
      [((2 : Int), [((1 : Int), (1 : Int)), (2, 2)]), (3, [(1, 1), (2, 2), (3, 3)]),
       (3, [(1, 1), (2, 2), (3, 4)]), (3, [(1, 1), (2, 3), (3, 5)]),
       (3, [(1, 2), (2, 3), (3, 6)]), (3, [(1, 2), (2, 4), (3, 6)]),
       (3, [(1, 2), (2, 4), (3, 7)]), (2, [(1, 3), (2, 8)]),
       (4, [(1, 1), (2, 2), (3, 3), (4, 4)])] := by
  simp only [createPropertyCards, prop, List.mem_cons, Card.property.injEq, List.mem_singleton,
    List.not_mem_nil, or_false] at h
  rcases h with h | h | h | h | h | h | h | h | h | h | h | h | h | h | h | h | h | h | h | h | h
    | h | h | h | h | h | h | h
  all_goals
    obtain ⟨_, hcol, hsize, hrent⟩ := h
    have hs : ps.SetSize = size := by
      rw [hsize]
      simp [PropertySet.SetSize, SetSizes, List.lookup, hc, hcol]
    rw [hs, hrent, hsize]
    decide

/-- The rent tables of the catalog: non-negative, non-decreasing in the count except past the
size of the colour, where the entry is missing and the rent is 0. -/
theorem catalog_rent_table (b : BaseCard) (col : String) (size : Int) (rent : List (Int × Int))
    (h : Card.property b col size rent ∈ createPropertyCards) (ps : PropertySet)
    (hc : ps.Color = col) (n : Nat) :
    0 ≤ Card.propertyRent rent n ∧
    ((n : Int) ≠ ps.SetSize → Card.propertyRent rent n ≤ Card.propertyRent rent ((n : Int) + 1)) ∧
    ((n : Int) = ps.SetSize →
      Card.propertyRent rent ((n : Int) + 1) = 0 ∧ 0 < Card.propertyRent rent n) := by
  have ht := catalog_tables b col size rent h ps hc
  generalize ps.SetSize = S at ht ⊢
  simp only [List.mem_cons, Prod.mk.injEq, List.mem_singleton, List.not_mem_nil, or_false] at ht
  by_cases hn5 : 5 ≤ n
  · have e1 : ∀ j : Int, j ≤ 4 → ¬ ((n : Int) = j) := fun j hj => by omega
    have e2 : ∀ j : Int, j ≤ 4 → ¬ ((n : Int) + 1 = j) := fun j hj => by omega
    rcases ht with h | h | h | h | h | h | h | h | h
    all_goals
      obtain ⟨rfl, rfl⟩ := h
      simp only [propertyRent_cons, propertyRent_nil, e1 1 (by decide), e1 2 (by decide),
        e1 3 (by decide), e1 4 (by decide), e2 1 (by decide), e2 2 (by decide),
        e2 3 (by decide), e2 4 (by decide), if_false]
      simp [e1]
  · have hn : n < 5 := Nat.lt_of_not_le hn5
    interval_cases n
    all_goals
      rcases ht with h | h | h | h | h | h | h | h | h
      all_goals
        obtain ⟨rfl, rfl⟩ := h
        decide

theorem hasImprovement_iff (ps : PropertySet) (t : String) :
    ps.hasImprovement t = true ↔ t ∈ ps.Improvements := by
  simp [PropertySet.hasImprovement]

theorem hasImprovement_false_iff (ps : PropertySet) (t : String) :
    ps.hasImprovement t = false ↔ t ∉ ps.Improvements := by
  rw [← hasImprovement_iff, Bool.not_eq_true]

theorem IsComplete_iff (ps : PropertySet) :
    ps.IsComplete = true ↔ ps.SetSize ≤ (ps.Cards.length : Int) := by
  simp [PropertySet.IsComplete]

theorem SetSize_table (ps : PropertySet) :
    ((ps.Color = "brown" ∨ ps.Color = "darkblue" ∨ ps.Color = "utility") → ps.SetSize = 2) ∧
    (ps.Color = "railroad" → ps.SetSize = 4) ∧
    ((ps.Color ≠ "brown" ∧ ps.Color ≠ "darkblue" ∧ ps.Color ≠ "utility" ∧ ps.Color ≠ "railroad")
      → ps.SetSize = 3) := by
  refine ⟨?_, ?_, ?_⟩
  · rintro (h | h | h) <;> simp [PropertySet.SetSize, SetSizes, List.lookup, h]
  · intro h
    simp [PropertySet.SetSize, SetSizes, List.lookup, h]
  · rintro ⟨h1, h2, h3, h4⟩
    have e1 : (ps.Color == "brown") = false := by simpa using h1
    have e2 : (ps.Color == "darkblue") = false := by simpa using h2
    have e3 : (ps.Color == "utility") = false := by simpa using h3
    have e4 : (ps.Color == "railroad") = false := by simpa using h4
    simp only [PropertySet.SetSize, SetSizes, List.lookup, e1, e2, e3, e4]
    split
    · rename_i r heq
      repeat' split at heq
      all_goals first | (simp only [Option.some.injEq] at heq; exact heq.symm) | simp at heq
    · rfl

theorem CanAddImprovement_iff (ps : PropertySet) (t : String) :
    ps.CanAddImprovement t = true ↔
      (ps.SetSize ≤ (ps.Cards.length : Int) ∧ ps.Color ≠ "railroad" ∧ ps.Color ≠ "utility" ∧
        ((t = "express" ∧ "express" ∉ ps.Improvements) ∨
         (t = "station" ∧ "express" ∈ ps.Improvements ∧ "station" ∉ ps.Improvements))) := by
  have hne : ("station" : String) ≠ "express" := by decide
  unfold PropertySet.CanAddImprovement
  by_cases hc : ps.IsComplete = true
  · have hc2 := (IsComplete_iff ps).mp hc
    by_cases hr : ps.Color = "railroad"
    · simp [hc, hr]
    · by_cases hu : ps.Color = "utility"
      · simp [hc, hu]
      · by_cases he : t = "express"
        · subst he
          simp [hc, hr, hu, hc2, hasImprovement_iff, hasImprovement_false_iff]
        · by_cases hs : t = "station"
          · subst hs
            simp [hc, hr, hu, hc2, hasImprovement_iff, hasImprovement_false_iff, hne]
          · simp [hc, hr, hu, he, hs]
  · have hc2 : ¬ ps.SetSize ≤ (ps.Cards.length : Int) := fun h => hc ((IsComplete_iff ps).mpr h)
    simp [hc, hc2]

/-- The base rent is read from the first property card: with one in the list, cards added at
the end do not matter and the table is that of a property card of the list; without one, the
base rent is 0 and it is decided by the cards added. -/
theorem baseRent_append :
    ∀ cards : List Card,
      (hasPropertyCard cards = true →
        ∃ b color size rent, Card.property b color size rent ∈ cards ∧
          ∀ (k : Int) (extra : List Card),
            PropertySet.baseRent k (cards ++ extra) = Card.propertyRent rent k) ∧
      (hasPropertyCard cards = false →
        ∀ (k : Int) (extra : List Card),
          PropertySet.baseRent k (cards ++ extra) = PropertySet.baseRent k extra) := by
  intro cards
  induction cards with
  | nil =>
    constructor
    · intro h; simp [hasPropertyCard] at h
    · intro _ k extra; rfl
  | cons c cs ih =>
    cases c with
    | property b color size rent =>
      constructor
      · intro _
        exact ⟨b, color, size, rent, by simp, fun k extra => rfl⟩
      · intro h; simp [hasPropertyCard] at h
    | wildcard b colors current =>
      have e : hasPropertyCard (Card.wildcard b colors current :: cs) = hasPropertyCard cs := by
        simp [hasPropertyCard]
      rw [e]
      constructor
      · intro h
        obtain ⟨b1, c1, s1, r1, hm, hk⟩ := ih.1 h
        exact ⟨b1, c1, s1, r1, List.mem_cons_of_mem _ hm, fun k extra => hk k extra⟩
      · intro h k extra
        exact ih.2 h k extra
    | action b =>
      have e : hasPropertyCard (Card.action b :: cs) = hasPropertyCard cs := by
        simp [hasPropertyCard]
      rw [e]
      constructor
      · intro h
        obtain ⟨b1, c1, s1, r1, hm, hk⟩ := ih.1 h
        exact ⟨b1, c1, s1, r1, List.mem_cons_of_mem _ hm, fun k extra => hk k extra⟩
      · intro h k extra
        exact ih.2 h k extra
    | rent b colors target =>
      have e : hasPropertyCard (Card.rent b colors target :: cs) = hasPropertyCard cs := by
        simp [hasPropertyCard]
      rw [e]
      constructor
      · intro h
        obtain ⟨b1, c1, s1, r1, hm, hk⟩ := ih.1 h
        exact ⟨b1, c1, s1, r1, List.mem_cons_of_mem _ hm, fun k extra => hk k extra⟩
      · intro h k extra
        exact ih.2 h k extra
    | money b d =>
      have e : hasPropertyCard (Card.money b d :: cs) = hasPropertyCard cs := by
        simp [hasPropertyCard]
      rw [e]
      constructor
      · intro h
        obtain ⟨b1, c1, s1, r1, hm, hk⟩ := ih.1 h
        exact ⟨b1, c1, s1, r1, List.mem_cons_of_mem _ hm, fun k extra => hk k extra⟩
      · intro h k extra
        exact ih.2 h k extra

theorem GetRent_eq (ps : PropertySet) (h : ps.Cards ≠ []) :
    ps.GetRent = PropertySet.baseRent ps.Cards.length ps.Cards
      + ((if "express" ∈ ps.Improvements then 3 else 0)
        + (if "station" ∈ ps.Improvements then 4 else 0)) := by
  have hl : ps.Cards.length ≠ 0 := fun h0 => h (List.length_eq_zero.mp h0)
  simp only [PropertySet.GetRent, hl, if_false, hasImprovement_iff]

theorem bonus_nonneg (ps : PropertySet) :
    (0 : Int) ≤ (if "express" ∈ ps.Improvements then 3 else 0)
      + (if "station" ∈ ps.Improvements then 4 else 0) := by
  split_ifs <;> decide

theorem catalog_property_of_colour (color : String) (b : BaseCard) (c : String) (size : Int)
    (rent : List (Int × Int))
    (h : catalogCardOfColour color (Card.property b c size rent) = true) :
    Card.property b c size rent ∈ createPropertyCards ∧ c = color := by
  simpa [catalogCardOfColour] using h

/-- C12 as stated fails: the brown set with both brown properties has rent 2; with the
wildcard Broadway Junction added as a third brown card the count 3 is not in the rent table of
brown and the rent is 0. -/
theorem rent_monotone_counterexample :
    ¬ ∀ (ps : PropertySet) (card : Card), builtFromCatalog ps →
        catalogCardOfColour ps.Color card = true → ps.GetRent ≤ (ps.AddCard card).GetRent := by
  intro h
  exact absurd (h fullBrownSet broadwayAsBrown (by decide) (by decide)) (by decide)

/-- C12, amended: for a set built from catalog cards of its colour and one more such card,
`GetRent` after `AddCard` is at least `GetRent` before, unless the set holds a property card
and exactly the number of cards that completes its colour; in that case the count leaves the
rent table and the rent after `AddCard` is strictly smaller. -/
theorem rent_monotone_until_full (ps : PropertySet) (card : Card) (hps : builtFromCatalog ps)
    (hcard : catalogCardOfColour ps.Color card = true) :
    (¬ ((ps.Cards.length : Int) = ps.SetSize ∧ hasPropertyCard ps.Cards = true) →
      ps.GetRent ≤ (ps.AddCard card).GetRent) ∧
    (((ps.Cards.length : Int) = ps.SetSize ∧ hasPropertyCard ps.Cards = true) →
      (ps.AddCard card).GetRent < ps.GetRent) := by
  have hadd : (ps.AddCard card).Cards ≠ [] := by simp [PropertySet.AddCard]
  have hlen : (ps.AddCard card).Cards.length = ps.Cards.length + 1 := by
    simp [PropertySet.AddCard]
  have hbonus := bonus_nonneg ps
  rw [GetRent_eq _ hadd, hlen]
  simp only [PropertySet.AddCard, Nat.cast_add, Nat.cast_one]
  by_cases hp : hasPropertyCard ps.Cards = true
  · obtain ⟨b, c, s, r, hm, hk⟩ := (baseRent_append ps.Cards).1 hp
    have hne : ps.Cards ≠ [] := List.ne_nil_of_mem hm
    obtain ⟨hcat, hcol⟩ := catalog_property_of_colour _ _ _ _ _ (hps _ hm)
    obtain ⟨_, hstep, hfull⟩ := catalog_rent_table b c s r hcat ps hcol.symm ps.Cards.length
    have h0 := hk ps.Cards.length []
    rw [List.append_nil] at h0
    rw [GetRent_eq ps hne, hk, h0]
    constructor
    · intro hnot
      have hn : (ps.Cards.length : Int) ≠ ps.SetSize := fun h => hnot ⟨h, hp⟩
      have := hstep hn
      omega
    · rintro ⟨hfullset, _⟩
      obtain ⟨hz, hpos⟩ := hfull hfullset
      omega
  · have hp2 : hasPropertyCard ps.Cards = false := by simpa using hp
    have hk := (baseRent_append ps.Cards).2 hp2
    rw [hk]
    constructor
    · intro _
      have hbase : (0 : Int) ≤ PropertySet.baseRent ((ps.Cards.length : Int) + 1) [card] := by
        cases card with
        | property b c s r =>
          obtain ⟨hcat, hcol⟩ := catalog_property_of_colour _ _ _ _ _ hcard
          have := (catalog_rent_table b c s r hcat ps hcol.symm (ps.Cards.length + 1)).1
          simpa [PropertySet.baseRent] using this
        | wildcard b colors current => simp [PropertySet.baseRent]
        | action b => simp [PropertySet.baseRent]
        | rent b colors target => simp [PropertySet.baseRent]
        | money b d => simp [PropertySet.baseRent]
      by_cases hnil : ps.Cards = []
      · have : ps.GetRent = 0 := by simp [PropertySet.GetRent, hnil]
        rw [this]
        omega
      · have h0 := hk ps.Cards.length []
        rw [List.append_nil] at h0
        rw [GetRent_eq ps hnil, h0]
        simp only [PropertySet.baseRent]
        omega
    · rintro ⟨_, h⟩
      exact absurd h hp

/-- C12 amended, at a blue set with one property that receives a second one (rent 1, then 2)
and at the full brown set that receives a wildcard (rent 2, then 0). -/
theorem rent_monotone_until_full_witness :
    (builtFromCatalog oneBlueSet ∧
      catalogCardOfColour oneBlueSet.Color (prop "prop_c" "C" 1 "blue" 3 [(1, 1), (2, 2), (3, 3)])
        = true ∧
      oneBlueSet.GetRent ≤
        (oneBlueSet.AddCard (prop "prop_c" "C" 1 "blue" 3 [(1, 1), (2, 2), (3, 3)])).GetRent) ∧
    (builtFromCatalog fullBrownSet ∧ catalogCardOfColour fullBrownSet.Color broadwayAsBrown = true ∧
      (fullBrownSet.AddCard broadwayAsBrown).GetRent < fullBrownSet.GetRent) :=
  ⟨⟨by decide, by decide,
      (rent_monotone_until_full oneBlueSet _ (by decide) (by decide)).1 (by decide)⟩,
    ⟨by decide, by decide,
      (rent_monotone_until_full fullBrownSet broadwayAsBrown (by decide) (by decide)).2
        (by decide)⟩⟩

/-- C14: `AddImprovement(t)` succeeds, appending `t` to the improvements, exactly when the set
is complete, its colour is neither railroad nor utility, and `t` is "express" with express not
yet applied or `t` is "station" with express applied and station not; in every other case, in
particular for any other `t`, it returns the error (`none`) and the set is not written. -/
theorem AddImprovement_gate (ps : PropertySet) (t : String) :
    ((ps.SetSize ≤ (ps.Cards.length : Int) ∧ ps.Color ≠ "railroad" ∧ ps.Color ≠ "utility" ∧
        ((t = "express" ∧ "express" ∉ ps.Improvements) ∨
         (t = "station" ∧ "express" ∈ ps.Improvements ∧ "station" ∉ ps.Improvements))) →
      ps.AddImprovement t
        = some { Color := ps.Color, Cards := ps.Cards, Improvements := ps.Improvements ++ [t] }) ∧
    (¬ (ps.SetSize ≤ (ps.Cards.length : Int) ∧ ps.Color ≠ "railroad" ∧ ps.Color ≠ "utility" ∧
        ((t = "express" ∧ "express" ∉ ps.Improvements) ∨
         (t = "station" ∧ "express" ∈ ps.Improvements ∧ "station" ∉ ps.Improvements))) →
      ps.AddImprovement t = none) ∧
    (t ≠ "express" → t ≠ "station" → ps.AddImprovement t = none) := by
  refine ⟨fun h => ?_, fun h => ?_, fun h1 h2 => ?_⟩
  · simp [PropertySet.AddImprovement, (CanAddImprovement_iff ps t).mpr h]
  · have : ps.CanAddImprovement t = false := by
      rw [Bool.eq_false_iff]
      exact fun hc => h ((CanAddImprovement_iff ps t).mp hc)
    simp [PropertySet.AddImprovement, this]
  · have : ps.CanAddImprovement t = false := by
      rw [Bool.eq_false_iff]
      intro hc
      rcases ((CanAddImprovement_iff ps t).mp hc).2.2.2 with h | h
      · exact h1 h.1
      · exact h2 h.1
    simp [PropertySet.AddImprovement, this]

/-- C15: `IsComplete` holds exactly when the number of cards is at least the required size of
the colour, which is 2 for brown, darkblue and utility, 4 for railroad and 3 for every other
colour, listed or not. -/
theorem IsComplete_iff_required_size (ps : PropertySet) :
    ((ps.Color = "brown" ∨ ps.Color = "darkblue" ∨ ps.Color = "utility") →
      (ps.IsComplete = true ↔ 2 ≤ ps.Cards.length)) ∧
    (ps.Color = "railroad" → (ps.IsComplete = true ↔ 4 ≤ ps.Cards.length)) ∧
    ((ps.Color ≠ "brown" ∧ ps.Color ≠ "darkblue" ∧ ps.Color ≠ "utility" ∧ ps.Color ≠ "railroad")
      → (ps.IsComplete = true ↔ 3 ≤ ps.Cards.length)) ∧
    (ps.IsComplete = true ↔ ps.SetSize ≤ (ps.Cards.length : Int)) := by
  obtain ⟨h2, h4, h3⟩ := SetSize_table ps
  refine ⟨fun h => ?_, fun h => ?_, fun h => ?_, ?_⟩
  · simp [PropertySet.IsComplete, h2 h]
  · simp [PropertySet.IsComplete, h4 h]
  · simp [PropertySet.IsComplete, h3 h]
  · simp [PropertySet.IsComplete]

/-! ## Win condition -/

/-- The first winner of a list: its position, the player there, and nobody before has won. -/
theorem indexOfWinner_some :
    ∀ (players : List Player) (i : Nat), indexOfWinner players = some i →
      ∃ p, players[i]? = some p ∧ p.HasWon = true ∧
        ∀ k q, k < i → players[k]? = some q → q.HasWon = false := by
  intro players
  induction players with
  | nil => intro i h; simp [indexOfWinner] at h
  | cons p ps ih =>
    intro i h
    unfold indexOfWinner at h
    by_cases hp : p.HasWon = true
    · simp only [hp, if_true, Option.some.injEq] at h
      subst h
      exact ⟨p, by simp, hp, fun k q hk _ => absurd hk (Nat.not_lt_zero k)⟩
    · simp only [hp, Bool.false_eq_true, if_false] at h
      cases hr : indexOfWinner ps with
      | none => simp [hr] at h
      | some j =>
        simp only [hr, Option.some.injEq] at h
        subst h
        obtain ⟨q, hq, hw, hbefore⟩ := ih j hr
        refine ⟨q, by simpa using hq, hw, ?_⟩
        intro k r hk hr2
        cases k with
        | zero =>
          simp only [List.getElem?_cons_zero, Option.some.injEq] at hr2
          subst hr2
          simpa using hp
        | succ k =>
          simp only [List.getElem?_cons_succ] at hr2
          exact hbefore k r (Nat.lt_of_succ_lt_succ hk) hr2

theorem indexOfWinner_none :
    ∀ players : List Player, indexOfWinner players = none ↔ ∀ p ∈ players, p.HasWon = false := by
  intro players
  induction players with
  | nil => simp [indexOfWinner]
  | cons p ps ih =>
    unfold indexOfWinner
    by_cases hp : p.HasWon = true
    · simp [hp]
    · have hp2 : p.HasWon = false := by simpa using hp
      cases hr : indexOfWinner ps with
      | none =>
        have := ih.mp hr
        simpa [hp2] using this
      | some j =>
        simp only [hp2, Bool.false_eq_true, if_false, reduceCtorEq, List.mem_cons, forall_eq_or_imp,
          true_and, false_iff]
        intro hall
        rw [ih.mpr hall] at hr
        simp at hr

/-- C16: `HasWon` holds exactly when the player has at least 3 complete property sets.  When
some player has, `CheckWinCondition` returns true, sets the phase to finished and records as
`Winner` the first such player in seating order, changing nothing else; when nobody has, it
returns false and leaves the state as it is. -/
theorem win_condition (gs : GameState) :
    (∀ p : Player, p.HasWon = true ↔ 3 ≤ p.Properties.countP fun e => e.2.IsComplete) ∧
    ((∃ p ∈ gs.Players, 3 ≤ p.Properties.countP fun e => e.2.IsComplete) →
      gs.CheckWinCondition.1 = true ∧
      gs.CheckWinCondition.2.Phase = GamePhase.finished ∧
      ∃ i p, gs.CheckWinCondition.2.Winner = some i ∧ gs.Players[i]? = some p ∧
        p.HasWon = true ∧ (∀ k q, k < i → gs.Players[k]? = some q → q.HasWon = false) ∧
        gs.CheckWinCondition.2 = { gs with Winner := some i, Phase := GamePhase.finished }) ∧
    ((¬ ∃ p ∈ gs.Players, 3 ≤ p.Properties.countP fun e => e.2.IsComplete) →
      gs.CheckWinCondition = (false, gs)) := by
  have hwon : ∀ p : Player, p.HasWon = true ↔ 3 ≤ p.Properties.countP fun e => e.2.IsComplete := by
    intro p
    simp [Player.HasWon, Player.GetCompleteSetCount, List.countP_eq_length_filter]
  refine ⟨hwon, ?_, ?_⟩
  · rintro ⟨p, hp, h3⟩
    cases hr : indexOfWinner gs.Players with
    | none =>
      have := (indexOfWinner_none gs.Players).mp hr p hp
      rw [(hwon p).mpr h3] at this
      simp at this
    | some i =>
      obtain ⟨q, hq, hw, hbefore⟩ := indexOfWinner_some gs.Players i hr
      simp only [GameState.CheckWinCondition, hr]
      exact ⟨trivial, trivial, i, q, rfl, hq, hw, hbefore, rfl⟩
  · intro hno
    have hall : ∀ p ∈ gs.Players, p.HasWon = false := by
      intro p hp
      rw [Bool.eq_false_iff]
      exact fun hw => hno ⟨p, hp, (hwon p).mp hw⟩
    simp [GameState.CheckWinCondition, (indexOfWinner_none gs.Players).mpr hall]

/-! ## Fields the executor does not write -/

theorem ExecutorOnly.self (gs : GameState) : ExecutorOnly gs gs := rfl

theorem ExecutorOnly.next {a b c : GameState} (h1 : ExecutorOnly a b) (h2 : ExecutorOnly b c) :
    ExecutorOnly a c := by
  unfold ExecutorOnly at *
  rw [h2, h1]

theorem PlayOnly.executorOnly {a b : GameState} (h : PlayOnly a b) : ExecutorOnly a b := by
  unfold PlayOnly at h
  unfold ExecutorOnly
  rw [h]

theorem ExecutorOnly.phaseEq {a b : GameState} (h : ExecutorOnly a b) : b.Phase = a.Phase := by
  rw [h]

theorem ExecutorOnly.winnerEq {a b : GameState} (h : ExecutorOnly a b) : b.Winner = a.Winner := by
  rw [h]

theorem ExecutorOnly.cursorEq {a b : GameState} (h : ExecutorOnly a b) :
    b.CurrentPlayerIndex = a.CurrentPlayerIndex := by
  rw [h]

theorem ExecutorOnly.capEq {a b : GameState} (h : ExecutorOnly a b) :
    b.MaxActionsPerTurn = a.MaxActionsPerTurn := by
  rw [h]

namespace GameState

theorem setPending_executorOnly (gs : GameState) (pa : SubwayDeal.PendingAction) :
    ExecutorOnly gs (gs.setPending pa) := rfl

theorem ClearPendingAction_executorOnly (gs : GameState) : ExecutorOnly gs gs.ClearPendingAction :=
  rfl

theorem MarkResponded_executorOnly (gs : GameState) (playerID : String) :
    ExecutorOnly gs (gs.MarkResponded playerID) := by
  unfold MarkResponded
  split <;> rfl

theorem applyRushHour_playOnly (gs : GameState) (i : Nat) (rushHourID : String) (m : Int)
    (gs1 : GameState) (h : gs.applyRushHour i rushHourID = some (m, gs1)) : PlayOnly gs gs1 := by
  unfold applyRushHour at h
  split at h
  · split at h
    · simp at h
    · split at h
      · simp only [Option.some.injEq, Prod.mk.injEq] at h
        rw [← h.2]
        rfl
      · simp only [Option.some.injEq, Prod.mk.injEq] at h
        rw [← h.2]
        exact PlayOnly.same _
  · simp only [Option.some.injEq, Prod.mk.injEq] at h
    rw [← h.2]
    exact PlayOnly.same _

theorem createPendingRent_executorOnly (gs : GameState) (action : Action) (r : ActionResult)
    (gs1 : GameState) (h : gs.createPendingRent action = some (r, gs1)) : ExecutorOnly gs gs1 := by
  unfold createPendingRent at h
  split at h
  · simp at h
  · simp only [Option.some.injEq, Prod.mk.injEq] at h
    rw [← h.2]
    exact ExecutorOnly.self _
  · next i b colors target g1 htake =>
    have h1 := (takeCard_playersOnly _ _ _ _ _ htake).playOnly
    split at h
    · simp at h
    · next ps g2 hg =>
      have h2 := h1.andThen (getPropertySetAt_playersOnly _ _ _ _ _ hg).playOnly
      split at h
      · next m g3 player hr hp =>
        have h3 := h2.andThen (applyRushHour_playOnly _ _ _ _ _ hr)
        simp only [Option.some.injEq, Prod.mk.injEq] at h
        rw [← h.2]
        exact h3.executorOnly.next rfl
      · simp at h
  · simp at h

theorem createPendingSteal_executorOnly (gs : GameState) (action : Action) (stealComplete : Bool)
    (r : ActionResult) (gs1 : GameState)
    (h : gs.createPendingSteal action stealComplete = some (r, gs1)) : ExecutorOnly gs gs1 := by
  unfold createPendingSteal at h
  split at h
  · simp at h
  · simp only [Option.some.injEq, Prod.mk.injEq] at h
    rw [← h.2]
    exact ExecutorOnly.self _
  · next i card g1 htake =>
    have h1 := (takeCard_playersOnly _ _ _ _ _ htake).playOnly
    split at h
    · simp at h
    · split at h
      · next ps g2 player hg hp =>
        have h2 := h1.andThen (getPropertySetAt_playersOnly _ _ _ _ _ hg).playOnly
        split at h
        · simp only [Option.some.injEq, Prod.mk.injEq] at h
          rw [← h.2]
          exact (h2.andThen (modifyPlayer_playersOnly _ _ _).playOnly).executorOnly
        · simp only [Option.some.injEq, Prod.mk.injEq] at h
          rw [← h.2]
          exact h2.executorOnly.next rfl
      · simp at h

theorem createPendingServiceChange_executorOnly (gs : GameState) (action : Action)
    (r : ActionResult) (gs1 : GameState)
    (h : gs.createPendingServiceChange action = some (r, gs1)) : ExecutorOnly gs gs1 := by
  unfold createPendingServiceChange at h
  split at h
  · simp at h
  · simp only [Option.some.injEq, Prod.mk.injEq] at h
    rw [← h.2]
    exact ExecutorOnly.self _
  · next i card g1 htake =>
    have h1 := (takeCard_playersOnly _ _ _ _ _ htake).playOnly
    split at h
    · simp at h
    · next ps g2 hg =>
      have h2 := h1.andThen (getPropertySetAt_playersOnly _ _ _ _ _ hg).playOnly
      split at h
      · simp at h
      · split at h
        · next ts g3 player hg3 hp =>
          have h3 := h2.andThen (getPropertySetAt_playersOnly _ _ _ _ _ hg3).playOnly
          split at h
          · simp only [Option.some.injEq, Prod.mk.injEq] at h
            rw [← h.2]
            exact (h3.andThen (modifyPlayer_playersOnly _ _ _).playOnly).executorOnly
          · split at h
            · simp only [Option.some.injEq, Prod.mk.injEq] at h
              rw [← h.2]
              exact (h3.andThen (modifyPlayer_playersOnly _ _ _).playOnly).executorOnly
            · simp only [Option.some.injEq, Prod.mk.injEq] at h
              rw [← h.2]
              exact h3.executorOnly.next rfl
        · simp at h

theorem createPendingMissedTrain_executorOnly (gs : GameState) (action : Action)
    (r : ActionResult) (gs1 : GameState)
    (h : gs.createPendingMissedTrain action = some (r, gs1)) : ExecutorOnly gs gs1 := by
  unfold createPendingMissedTrain at h
  split at h
  · simp at h
  · simp only [Option.some.injEq, Prod.mk.injEq] at h
    rw [← h.2]
    exact ExecutorOnly.self _
  · next i card g1 htake =>
    have h1 := (takeCard_playersOnly _ _ _ _ _ htake).playOnly
    split at h
    · simp only [Option.some.injEq, Prod.mk.injEq] at h
      rw [← h.2]
      exact h1.executorOnly.next rfl
    · simp at h

theorem createPendingItsMyStop_executorOnly (gs : GameState) (action : Action)
    (r : ActionResult) (gs1 : GameState)
    (h : gs.createPendingItsMyStop action = some (r, gs1)) : ExecutorOnly gs gs1 := by
  unfold createPendingItsMyStop at h
  split at h
  · simp at h
  · simp only [Option.some.injEq, Prod.mk.injEq] at h
    rw [← h.2]
    exact ExecutorOnly.self _
  · next i card g1 htake =>
    have h1 := (takeCard_playersOnly _ _ _ _ _ htake).playOnly
    split at h
    · simp only [Option.some.injEq, Prod.mk.injEq] at h
      rw [← h.2]
      exact h1.executorOnly.next rfl
    · simp at h

theorem executeAccept_executorOnly [SliceSort] (gs : GameState) (action : Action) (r : ActionResult)
    (gs1 : GameState) (h : gs.executeAccept action = some (r, gs1)) : ExecutorOnly gs gs1 := by
  cases hpa : gs.PendingAction with
  | none =>
    simp only [executeAccept, hpa, Option.some.injEq, Prod.mk.injEq] at h
    rw [← h.2]
    exact ExecutorOnly.self _
  | some pa =>
    rw [executeAccept_eq gs action pa hpa] at h
    split at h
    · simp at h
    · next result g heq =>
      simp only [Option.some.injEq, Prod.mk.injEq] at h
      have hpo := (MarkResponded_executorOnly gs action.PlayerID).next
        (resolveForPlayer_playersOnly _ _ _ _ _ heq).playOnly.executorOnly
      rw [← h.2]
      split
      · exact hpo.next (ClearPendingAction_executorOnly _)
      · exact hpo

theorem executeFareEvasion_executorOnly (gs : GameState) (action : Action) (r : ActionResult)
    (gs1 : GameState) (h : gs.executeFareEvasion action = some (r, gs1)) :
    ExecutorOnly gs gs1 := by
  cases hpa : gs.PendingAction with
  | none =>
    simp only [executeFareEvasion, hpa, Option.some.injEq, Prod.mk.injEq] at h
    rw [← h.2]
    exact ExecutorOnly.self _
  | some pa =>
    simp only [executeFareEvasion, hpa] at h
    split at h
    · simp at h
    · simp only [Option.some.injEq, Prod.mk.injEq] at h
      rw [← h.2]
      exact ExecutorOnly.self _
    · next i card g1 htake =>
      have hpo := ((takeCard_playersOnly _ _ _ _ _ htake).playOnly.andThen
        (discard_playOnly g1 card)).executorOnly.next
          (MarkResponded_executorOnly (g1.discard card) action.PlayerID)
      split at h
      · simp at h
      · split at h
        · simp only [Option.some.injEq, Prod.mk.injEq] at h
          rw [← h.2]
          exact hpo.next (ClearPendingAction_executorOnly _)
        · simp only [Option.some.injEq, Prod.mk.injEq] at h
          rw [← h.2]
          split
          · exact hpo.next (ClearPendingAction_executorOnly _)
          · exact hpo

/-- No call of the executor writes the id, the turn cursor, the game phase, the action cap or
the winner. -/
theorem Execute_executorOnly [SliceSort] (gs : GameState) (action : Action) (rnd : Nat → Nat → Nat)
    (r : ActionResult) (gs1 : GameState) (h : gs.Execute action rnd = some (r, gs1)) :
    ExecutorOnly gs gs1 := by
  unfold Execute at h
  split at h
  · exact (executePlayProperty_playOnly _ _ _ _ h).executorOnly
  · exact (executePlayMoney_playOnly _ _ _ _ h).executorOnly
  · exact (executeSwipeIn_playOnly _ _ _ _ _ h).executorOnly
  · exact (executeImprovement_playOnly _ _ _ _ _ _ h).executorOnly
  · exact (executeImprovement_playOnly _ _ _ _ _ _ h).executorOnly
  · exact (executeFlipWildcard_playOnly _ _ _ _ h).executorOnly
  · simp only [Option.some.injEq, Prod.mk.injEq] at h
    rw [← h.2]
    exact ExecutorOnly.self _
  · exact createPendingRent_executorOnly _ _ _ _ h
  · exact createPendingSteal_executorOnly _ _ _ _ _ h
  · exact createPendingSteal_executorOnly _ _ _ _ _ h
  · exact createPendingServiceChange_executorOnly _ _ _ _ h
  · exact createPendingMissedTrain_executorOnly _ _ _ _ h
  · exact createPendingItsMyStop_executorOnly _ _ _ _ h
  · exact executeAccept_executorOnly _ _ _ _ h
  · exact executeFareEvasion_executorOnly _ _ _ _ h
  · simp only [Option.some.injEq, Prod.mk.injEq] at h
    rw [← h.2]
    exact ExecutorOnly.self _

end GameState

/-! ## After the game has ended -/

theorem runCalls_reachable [SliceSort] :
    ∀ (calls : List EngineCall) (gs gs1 : GameState), Reachable gs →
      runCalls gs calls = some gs1 → Reachable gs1 := by
  intro calls
  induction calls with
  | nil =>
    intro gs gs1 hr h
    simp only [runCalls, Option.some.injEq] at h
    exact h ▸ hr
  | cons c rest ih =>
    intro gs gs1 hr h
    cases c with
    | act action =>
      simp only [runCalls] at h
      split at h
      · simp at h
      · next res g he => exact ih g gs1 (Reachable.executeAction _ _ _ _ _ hr he) h
    | startTurn =>
      simp only [runCalls] at h
      split at h
      · simp at h
      · next g he => exact ih g gs1 (Reachable.startTurn _ _ hr he) h
    | endTurn =>
      simp only [runCalls] at h
      split at h
      · simp at h
      · next g he => exact ih g gs1 (Reachable.endTurn _ _ hr he) h

theorem runCalls_run [SliceSort] :
    ∀ (calls : List EngineCall) (g0 gs gs1 : GameState), EngineRun g0 gs →
      runCalls gs calls = some gs1 → EngineRun g0 gs1 := by
  intro calls
  induction calls with
  | nil =>
    intro g0 gs gs1 hr h
    simp only [runCalls, Option.some.injEq] at h
    exact h ▸ hr
  | cons c rest ih =>
    intro g0 gs gs1 hr h
    cases c with
    | act action =>
      simp only [runCalls] at h
      split at h
      · simp at h
      · next res g he => exact ih g0 g gs1 (EngineRun.executeAction _ _ _ _ _ hr he) h
    | startTurn =>
      simp only [runCalls] at h
      split at h
      · simp at h
      · next g he => exact ih g0 g gs1 (EngineRun.startTurn _ _ hr he) h
    | endTurn =>
      simp only [runCalls] at h
      split at h
      · simp at h
      · next g he => exact ih g0 g gs1 (EngineRun.endTurn _ _ hr he) h

/-- The game `secondPlayerWins` evaluated: it is finished with the second player as winner;
the validator then accepts the first player's next property, the engine executes it, and after
the first player's third property the first player is the recorded winner. -/
theorem secondPlayerWins_eval :
    ∃ gs gs1 gs2, secondPlayerWins = some gs ∧ runCalls gs firstPlayerPlaysOn = some gs2 ∧
      gs.Phase = GamePhase.finished ∧ gs.Winner = some 1 ∧
      gs.Validate playB = some (Valid, gs) ∧
      gs.ExecuteAction playB noShuffle = some ((ActionResult.ok "Alice played B", none), gs1) ∧
      gs1 ≠ gs ∧ gs2.Phase = GamePhase.finished ∧ gs2.Winner = some 0 := by
  have h : (secondPlayerWins.bind fun gs =>
      (gs.ExecuteAction playB noShuffle).bind fun r1 =>
        (runCalls gs firstPlayerPlaysOn).map fun gs2 =>
          decide (gs.Phase = GamePhase.finished ∧ gs.Winner = some 1 ∧
            gs.Validate playB = some (Valid, gs) ∧
            r1.1 = (ActionResult.ok "Alice played B", none) ∧ r1.2 ≠ gs ∧
            gs2.Phase = GamePhase.finished ∧ gs2.Winner = some 0)) = some true := by
    decide
  obtain ⟨gs, hgs, h1⟩ := Option.bind_eq_some.mp h
  obtain ⟨r1, hr1, h2⟩ := Option.bind_eq_some.mp h1
  obtain ⟨gs2, hgs2, h3⟩ := Option.map_eq_some'.mp h2
  obtain ⟨a, b, c, d, e, f, g⟩ := of_decide_eq_true h3
  refine ⟨gs, r1.2, gs2, hgs, hgs2, a, b, c, ?_, e, f, g⟩
  rw [hr1, ← d]

theorem secondPlayerWins_reachable (gs : GameState) (h : secondPlayerWins = some gs) :
    Reachable gs :=
  runCalls_reachable _ _ gs (Reachable.init _ ⟨_, _, _, rfl⟩) h

/-- C17 as stated fails: in a game that is finished, reached by the engine's own calls, the
validator accepts the next `PLAY_PROPERTY` of the player whose turn it is and the engine
executes it, changing the state. -/
theorem no_play_after_finish_counterexample :
    ∃ gs gs1, secondPlayerWins = some gs ∧ Reachable gs ∧ gs.Phase = GamePhase.finished ∧
      gs.Validate playB = some (Valid, gs) ∧
      gs.ExecuteAction playB noShuffle = some ((ActionResult.ok "Alice played B", none), gs1) ∧
      gs1 ≠ gs := by
  obtain ⟨gs, gs1, _, hgs, _, hfin, _, hvalid, hexec, hne, _⟩ := secondPlayerWins_eval
  exact ⟨gs, gs1, hgs, secondPlayerWins_reachable gs hgs, hfin, hvalid, hexec, hne⟩

namespace GameState

theorem validateDrawCards_withPhase (gs : GameState) (action : Action) (phase : GamePhase) :
    (gs.withPhase phase).validateDrawCards action
      = (gs.validateDrawCards action).map fun r => (r.1, r.2.withPhase phase) := by
  have h1 : (gs.withPhase phase).TurnPhase = gs.TurnPhase := rfl
  have h2 : (gs.withPhase phase).notCurrentPlayer action = gs.notCurrentPlayer action := rfl
  have h3 : (gs.withPhase phase).GetPlayer action.PlayerID = gs.GetPlayer action.PlayerID := rfl
  have h4 : (gs.withPhase phase).ActionsPlayedThisTurn = gs.ActionsPlayedThisTurn := rfl
  have h5 : (gs.withPhase phase).MaxActionsPerTurn = gs.MaxActionsPerTurn := rfl
  simp only [validateDrawCards, h1, h2, h3, h4, h5]
  repeat' split
  all_goals rfl

theorem validatePlayProperty_withPhase (gs : GameState) (action : Action) (phase : GamePhase) :
    (gs.withPhase phase).validatePlayProperty action
      = (gs.validatePlayProperty action).map fun r => (r.1, r.2.withPhase phase) := by
  have h1 : (gs.withPhase phase).TurnPhase = gs.TurnPhase := rfl
  have h2 : (gs.withPhase phase).notCurrentPlayer action = gs.notCurrentPlayer action := rfl
  have h3 : (gs.withPhase phase).GetPlayer action.PlayerID = gs.GetPlayer action.PlayerID := rfl
  have h4 : (gs.withPhase phase).ActionsPlayedThisTurn = gs.ActionsPlayedThisTurn := rfl
  have h5 : (gs.withPhase phase).MaxActionsPerTurn = gs.MaxActionsPerTurn := rfl
  simp only [validatePlayProperty, h1, h2, h3, h4, h5]
  repeat' split
  all_goals rfl

theorem validatePlayMoney_withPhase (gs : GameState) (action : Action) (phase : GamePhase) :
    (gs.withPhase phase).validatePlayMoney action
      = (gs.validatePlayMoney action).map fun r => (r.1, r.2.withPhase phase) := by
  have h1 : (gs.withPhase phase).TurnPhase = gs.TurnPhase := rfl
  have h2 : (gs.withPhase phase).notCurrentPlayer action = gs.notCurrentPlayer action := rfl
  have h3 : (gs.withPhase phase).GetPlayer action.PlayerID = gs.GetPlayer action.PlayerID := rfl
  have h4 : (gs.withPhase phase).ActionsPlayedThisTurn = gs.ActionsPlayedThisTurn := rfl
  have h5 : (gs.withPhase phase).MaxActionsPerTurn = gs.MaxActionsPerTurn := rfl
  simp only [validatePlayMoney, h1, h2, h3, h4, h5]
  repeat' split
  all_goals rfl

theorem getPropertySetAt_withPhase (gs : GameState) (i : Nat) (color : String)
    (phase : GamePhase) :
    (gs.withPhase phase).getPropertySetAt i color
      = (gs.getPropertySetAt i color).map fun r => (r.1, r.2.withPhase phase) := by
  simp only [getPropertySetAt, withPhase]
  split <;> rfl

theorem validatePlayRent_withPhase (gs : GameState) (action : Action) (phase : GamePhase) :
    (gs.withPhase phase).validatePlayRent action
      = (gs.validatePlayRent action).map fun r => (r.1, r.2.withPhase phase) := by
  have h1 : (gs.withPhase phase).TurnPhase = gs.TurnPhase := rfl
  have h2 : (gs.withPhase phase).notCurrentPlayer action = gs.notCurrentPlayer action := rfl
  have h3 : (gs.withPhase phase).GetPlayer action.PlayerID = gs.GetPlayer action.PlayerID := rfl
  simp only [validatePlayRent, h1, h2, h3, getPropertySetAt_withPhase]
  split
  · rfl
  · split
    · rfl
    · rfl
    · split
      · rfl
      · split
        · rfl
        · cases hg : gs.getPropertySetAt _ action.GetColor with
          | none => rfl
          | some r =>
            obtain ⟨ps, g1⟩ := r
            have e1 : (g1.withPhase phase).ActionsPlayedThisTurn = g1.ActionsPlayedThisTurn := rfl
            have e2 : (g1.withPhase phase).MaxActionsPerTurn = g1.MaxActionsPerTurn := rfl
            simp only [Option.map_some', e1, e2]
            split
            · rfl
            · split <;> rfl
        · rfl

theorem validatePlayAction_withPhase (gs : GameState) (action : Action) (phase : GamePhase) :
    (gs.withPhase phase).validatePlayAction action
      = (gs.validatePlayAction action).map fun r => (r.1, r.2.withPhase phase) := by
  have h1 : (gs.withPhase phase).TurnPhase = gs.TurnPhase := rfl
  have h2 : (gs.withPhase phase).notCurrentPlayer action = gs.notCurrentPlayer action := rfl
  have h3 : (gs.withPhase phase).GetPlayer action.PlayerID = gs.GetPlayer action.PlayerID := rfl
  have h4 : (gs.withPhase phase).ActionsPlayedThisTurn = gs.ActionsPlayedThisTurn := rfl
  have h5 : (gs.withPhase phase).MaxActionsPerTurn = gs.MaxActionsPerTurn := rfl
  simp only [validatePlayAction, h1, h2, h3, h4, h5]
  repeat' split
  all_goals rfl

theorem validateEndTurn_withPhase (gs : GameState) (action : Action) (phase : GamePhase) :
    (gs.withPhase phase).validateEndTurn action
      = (gs.validateEndTurn action).map fun r => (r.1, r.2.withPhase phase) := by
  have h1 : (gs.withPhase phase).TurnPhase = gs.TurnPhase := rfl
  have h2 : (gs.withPhase phase).notCurrentPlayer action = gs.notCurrentPlayer action := rfl
  have h3 : (gs.withPhase phase).GetPlayer action.PlayerID = gs.GetPlayer action.PlayerID := rfl
  have h4 : (gs.withPhase phase).ActionsPlayedThisTurn = gs.ActionsPlayedThisTurn := rfl
  have h5 : (gs.withPhase phase).MaxActionsPerTurn = gs.MaxActionsPerTurn := rfl
  simp only [validateEndTurn, h1, h2, h3, h4, h5]
  repeat' split
  all_goals rfl

theorem validateFlipWildcard_withPhase (gs : GameState) (action : Action) (phase : GamePhase) :
    (gs.withPhase phase).validateFlipWildcard action
      = (gs.validateFlipWildcard action).map fun r => (r.1, r.2.withPhase phase) := by
  have h1 : (gs.withPhase phase).TurnPhase = gs.TurnPhase := rfl
  have h2 : (gs.withPhase phase).notCurrentPlayer action = gs.notCurrentPlayer action := rfl
  have h3 : (gs.withPhase phase).GetPlayer action.PlayerID = gs.GetPlayer action.PlayerID := rfl
  have h4 : (gs.withPhase phase).ActionsPlayedThisTurn = gs.ActionsPlayedThisTurn := rfl
  have h5 : (gs.withPhase phase).MaxActionsPerTurn = gs.MaxActionsPerTurn := rfl
  simp only [validateFlipWildcard, h1, h2, h3, h4, h5]
  repeat' split
  all_goals rfl

theorem validateResponse_withPhase (gs : GameState) (action : Action) (phase : GamePhase) :
    (gs.withPhase phase).validateResponse action
      = (gs.validateResponse action).map fun r => (r.1, r.2.withPhase phase) := by
  have h1 : (gs.withPhase phase).TurnPhase = gs.TurnPhase := rfl
  have h2 : (gs.withPhase phase).HasPendingAction = gs.HasPendingAction := rfl
  have h3 : (gs.withPhase phase).GetPlayer action.PlayerID = gs.GetPlayer action.PlayerID := rfl
  have h4 : (gs.withPhase phase).GetPendingTargets = gs.GetPendingTargets := rfl
  simp only [validateResponse, h1, h2, h3, h4]
  repeat' split
  all_goals rfl

theorem Validate_withPhase (gs : GameState) (action : Action) (phase : GamePhase) :
    (gs.withPhase phase).Validate action
      = (gs.Validate action).map fun r => (r.1, r.2.withPhase phase) := by
  unfold Validate
  have ht : (gs.withPhase phase).TurnPhase = gs.TurnPhase := rfl
  rw [ht]
  split
  · exact validateResponse_withPhase _ _ _
  · split
    · rfl
    · split
      · exact validateDrawCards_withPhase _ _ _
      · exact validatePlayProperty_withPhase _ _ _
      · exact validatePlayMoney_withPhase _ _ _
      · exact validatePlayRent_withPhase _ _ _
      · exact validatePlayAction_withPhase _ _ _
      · exact validatePlayAction_withPhase _ _ _
      · exact validatePlayAction_withPhase _ _ _
      · exact validatePlayAction_withPhase _ _ _
      · exact validatePlayAction_withPhase _ _ _
      · exact validatePlayAction_withPhase _ _ _
      · exact validatePlayAction_withPhase _ _ _
      · exact validatePlayAction_withPhase _ _ _
      · exact validatePlayAction_withPhase _ _ _
      · exact validatePlayAction_withPhase _ _ _
      · exact validateEndTurn_withPhase _ _ _
      · exact validateFlipWildcard_withPhase _ _ _
      · rfl

end GameState

/-- C17, amended: the validator does not test the game phase.  For every state and action its
verdict is the same whatever the game phase is set to, finished included, so a finished game
accepts exactly the actions the turn rules accept; and whenever the validator rejects,
`Engine.ExecuteAction` returns the validator's error and the executor does not run. -/
theorem validate_ignores_game_phase [SliceSort] (gs : GameState) (action : Action)
    (phase : GamePhase)
    (rnd : Nat → Nat → Nat) :
    (gs.withPhase phase).Validate action
      = (gs.Validate action).map (fun r => (r.1, r.2.withPhase phase)) ∧
    ∀ v gs1, gs.Validate action = some (v, gs1) → v.Valid = false →
      gs.ExecuteAction action rnd
        = some ((ActionResult.failure v.Error, some v.Error), gs1) := by
  refine ⟨GameState.Validate_withPhase gs action phase, ?_⟩
  intro v gs1 hv hfalse
  simp [GameState.ExecuteAction, hv, hfalse]


namespace GameState

/-- What one `Engine.ExecuteAction` does to game phase and winner: a rejected action leaves
both; an executed one leaves both when nobody has won afterwards, and otherwise ends the game
with the first player in seating order who has won as the winner. -/
theorem ExecuteAction_outcome [SliceSort] (gs : GameState) (action : Action) (rnd : Nat → Nat → Nat)
    (res : ActionResult × Option String) (gs1 : GameState)
    (h : gs.ExecuteAction action rnd = some (res, gs1)) :
    (gs1.Phase = gs.Phase ∧ gs1.Winner = gs.Winner ∧
      (res.2 = none → ∀ p ∈ gs1.Players, p.HasWon = false)) ∨
    (res.2 = none ∧ gs1.Phase = GamePhase.finished ∧
      ∃ i p, gs1.Winner = some i ∧ gs1.Players[i]? = some p ∧ p.HasWon = true ∧
        ∀ k q, k < i → gs1.Players[k]? = some q → q.HasWon = false) := by
  unfold ExecuteAction at h
  split at h
  · simp at h
  · next v g hv =>
    have hpo := Validate_playersOnly _ _ _ _ hv
    split at h
    · simp only [Option.some.injEq, Prod.mk.injEq] at h
      obtain ⟨hres, hg⟩ := h
      refine Or.inl ⟨?_, ?_, ?_⟩
      · rw [← hg, hpo]
      · rw [← hg, hpo]
      · intro hn
        rw [← hres] at hn
        simp at hn
    · split at h
      · simp at h
      · next r g2 he =>
        simp only [Option.some.injEq, Prod.mk.injEq] at h
        obtain ⟨hres, hg⟩ := h
        have hex := Execute_executorOnly _ _ _ _ _ he
        have hphase : g2.Phase = gs.Phase := by rw [hex.phaseEq, hpo]
        have hwinner : g2.Winner = gs.Winner := by rw [hex.winnerEq, hpo]
        cases hw : indexOfWinner g2.Players with
        | none =>
          have hc : g2.CheckWinCondition.2 = g2 := by simp [CheckWinCondition, hw]
          refine Or.inl ⟨?_, ?_, ?_⟩
          · rw [← hg, hc, hphase]
          · rw [← hg, hc, hwinner]
          · intro _
            rw [← hg, hc]
            exact (indexOfWinner_none _).mp hw
        | some i =>
          have hc : g2.CheckWinCondition.2
              = { g2 with Winner := some i, Phase := GamePhase.finished } := by
            simp [CheckWinCondition, hw]
          obtain ⟨p, hp, hwon, hfirst⟩ := indexOfWinner_some _ _ hw
          refine Or.inr ⟨by rw [← hres], by rw [← hg, hc], i, p, by rw [← hg, hc], ?_, hwon, ?_⟩
          · rw [← hg, hc]
            exact hp
          · rw [← hg, hc]
            exact hfirst

theorem StartTurn_outcome (gs gs1 : GameState) (h : gs.StartTurn = some gs1) :
    gs1.Phase = gs.Phase ∧ gs1.Winner = gs.Winner := by
  unfold StartTurn at h
  split at h
  · simp at h
  · simp only [Option.some.injEq] at h
    rw [← h]
    exact ⟨rfl, rfl⟩

theorem EndTurn_outcome (gs gs1 : GameState) (h : gs.EndTurn = some gs1) :
    gs1.Phase = gs.Phase ∧ gs1.Winner = gs.Winner := by
  unfold EndTurn at h
  split at h
  · simp at h
  · simp only at h
    split at h
    · simp at h
    · next g hn =>
      unfold NextPlayer at hn
      split at hn
      · simp at hn
      · simp only [Option.some.injEq] at hn
        obtain ⟨h1, h2⟩ := StartTurn_outcome _ _ h
        rw [h1, h2, ← hn]
        exact ⟨rfl, rfl⟩

end GameState

/-- C18, amended: once the game phase is finished with a winner recorded, every sequence of
`Engine.ExecuteAction`, `StartTurn` and `EndTurn` calls leaves the phase finished and a winner
recorded.  The recorded winner is recomputed by every executed action: it stays as it was when
no player has won afterwards, and otherwise it is the first player in seating order who has. -/
theorem finished_is_permanent [SliceSort] (gs gs1 : GameState) (hrun : EngineRun gs gs1)
    (hfin : gs.Phase = GamePhase.finished) (hw : gs.Winner.isSome = true) :
    gs1.Phase = GamePhase.finished ∧ gs1.Winner.isSome = true ∧
    ∀ (action : Action) (rnd : Nat → Nat → Nat) (res : ActionResult × Option String)
      (gs2 : GameState), gs1.ExecuteAction action rnd = some (res, gs2) →
        (gs2.Winner = gs1.Winner ∧ (res.2 = none → ∀ p ∈ gs2.Players, p.HasWon = false)) ∨
        (res.2 = none ∧
          ∃ i p, gs2.Winner = some i ∧ gs2.Players[i]? = some p ∧ p.HasWon = true ∧
            ∀ k q, k < i → gs2.Players[k]? = some q → q.HasWon = false) := by
  have hinv : gs1.Phase = GamePhase.finished ∧ gs1.Winner.isSome = true := by
    induction hrun with
    | done => exact ⟨hfin, hw⟩
    | executeAction g action rnd res g1 _ hstep ih =>
      rcases GameState.ExecuteAction_outcome _ _ _ _ _ hstep with ⟨h1, h2, _⟩ | ⟨_, h1, i, p, h2, _⟩
      · exact ⟨h1.trans ih.1, by rw [h2]; exact ih.2⟩
      · exact ⟨h1, by rw [h2]; rfl⟩
    | startTurn g g1 _ hstep ih =>
      obtain ⟨h1, h2⟩ := GameState.StartTurn_outcome _ _ hstep
      exact ⟨h1.trans ih.1, by rw [h2]; exact ih.2⟩
    | endTurn g g1 _ hstep ih =>
      obtain ⟨h1, h2⟩ := GameState.EndTurn_outcome _ _ hstep
      exact ⟨h1.trans ih.1, by rw [h2]; exact ih.2⟩
  refine ⟨hinv.1, hinv.2, ?_⟩
  intro action rnd res gs2 hstep
  rcases GameState.ExecuteAction_outcome _ _ _ _ _ hstep with ⟨_, h2, h3⟩ | ⟨h0, _, h⟩
  · exact Or.inl ⟨h2, h3⟩
  · exact Or.inr ⟨h0, h⟩

/-- C18 as stated fails: after the second player has won, the first player goes on playing,
completes a third set, and is then the recorded winner. -/
theorem winner_final_counterexample :
    ∃ gs gs2, secondPlayerWins = some gs ∧ Reachable gs ∧ gs.Phase = GamePhase.finished ∧
      gs.Winner = some 1 ∧ EngineRun gs gs2 ∧ gs2.Winner = some 0 := by
  obtain ⟨gs, _, gs2, hgs, hrun, hfin, hwin, _, _, _, _, hwin2⟩ := secondPlayerWins_eval
  exact ⟨gs, gs2, hgs, secondPlayerWins_reachable gs hgs, hfin, hwin,
    runCalls_run _ gs gs gs2 EngineRun.done hrun, hwin2⟩

/-- C18 amended, at the game `secondPlayerWins` followed by three more plays of the first
player: the phase is still finished and a winner is recorded. -/
theorem finished_is_permanent_witness :
    ∃ gs gs2, secondPlayerWins = some gs ∧ runCalls gs firstPlayerPlaysOn = some gs2 ∧
      gs.Phase = GamePhase.finished ∧ gs.Winner.isSome = true ∧
      gs2.Phase = GamePhase.finished ∧ gs2.Winner.isSome = true := by
  obtain ⟨gs, _, gs2, hgs, hrun, hfin, hwin, _⟩ := secondPlayerWins_eval
  have hw : gs.Winner.isSome = true := by rw [hwin]; rfl
  have h := finished_is_permanent gs gs2 (runCalls_run _ gs gs gs2 EngineRun.done hrun) hfin hw
  exact ⟨gs, gs2, hgs, hrun, hfin, hw, h.1, h.2.1⟩

/-! ## Completeness rules of the steal and swap actions -/

theorem GetPropertySet_frame (p : Player) (color : String) :
    (p.GetPropertySet color).2.ID = p.ID ∧ (p.GetPropertySet color).2.Name = p.Name ∧
    (p.GetPropertySet color).2.Hand = p.Hand ∧ (p.GetPropertySet color).2.Bank = p.Bank := by
  unfold Player.GetPropertySet
  split <;> exact ⟨rfl, rfl, rfl, rfl⟩

/-- The set looked up depends only on the property map. -/
theorem GetPropertySet_congr (p q : Player) (color : String) (h : p.Properties = q.Properties) :
    (p.GetPropertySet color).1 = (q.GetPropertySet color).1 := by
  unfold Player.GetPropertySet
  rw [h]
  split <;> rfl

/-- Looking a set up after another lookup: the first lookup creates at most an empty set of
its own colour. -/
theorem GetPropertySet_twice (p : Player) (a b : String) :
    ((p.GetPropertySet a).2.GetPropertySet b).1 = (p.GetPropertySet b).1 := by
  cases ha : p.Properties.lookup a with
  | some v =>
    have : (p.GetPropertySet a).2 = p := by simp [Player.GetPropertySet, ha]
    rw [this]
  | none =>
    have h2 : (p.GetPropertySet a).2
        = { p with Properties := p.Properties ++ [(a, NewPropertySet a)] } := by
      simp [Player.GetPropertySet, ha]
    rw [h2]
    cases hb : p.Properties.lookup b with
    | some w =>
      simp [Player.GetPropertySet, lookup_append_one, hb]
    | none =>
      by_cases hab : b = a
      · subst hab
        simp [Player.GetPropertySet, lookup_append_one, hb]
      · simp [Player.GetPropertySet, lookup_append_one, hb, hab]

namespace GameState

/-- `createPendingPowerBroker` and `createPendingLineClosure` for a card of the actor's hand and
an existing target, when the completeness test fails: the error result, and the state in which
the target's set has been looked up and the card is back at the end of the actor's hand. -/
theorem createPendingSteal_refused (gs : GameState) (action : Action) (stealComplete : Bool)
    (i j : Nat) (player target : Player) (card : Card)
    (hplayer : gs.GetPlayer action.PlayerID = some (i, player))
    (hcard : player.GetCardFromHand action.GetCardID = some card)
    (htarget : gs.GetPlayer action.GetTargetPlayerID = some (j, target))
    (hcomplete : (target.GetPropertySet action.GetColor).1.IsComplete ≠ stealComplete) :
    ∃ gs1, gs.createPendingSteal action stealComplete
        = some (ActionResult.failure
            (if stealComplete then "can only steal complete sets"
             else "cannot steal from complete set"), gs1) ∧
      PlayersOnly gs gs1 ∧
      gs1.Players.map (fun p => (p.ID, p.Name, p.Bank))
        = gs.Players.map (fun p => (p.ID, p.Name, p.Bank)) ∧
      ∃ p1, gs1.Players[i]? = some p1 ∧
        p1.Hand = eraseFirstByID player.Hand action.GetCardID ++ [card] := by
  obtain ⟨_, hi, _⟩ := GetPlayer_some _ _ _ _ hplayer
  obtain ⟨_, hj, _⟩ := GetPlayer_some _ _ _ _ htarget
  have hilt : i < gs.Players.length := (List.getElem?_eq_some.mp hi).1
  have hjlt : j < gs.Players.length := (List.getElem?_eq_some.mp hj).1
  have htake := takeCard_of_find gs action i player card hplayer hcard
  by_cases hij : j = i
  · subst hij
    rw [hi] at hj
    simp only [Option.some.injEq] at hj
    subst hj
    have ht1 : (gs.setPlayer j
        { player with Hand := eraseFirstByID player.Hand action.GetCardID }).GetPlayer
          action.GetTargetPlayerID
        = some (j, { player with Hand := eraseFirstByID player.Hand action.GetCardID }) :=
      GetPlayer_congr gs _ _ j player _ (map_set_of_eq Player.ID _ _ _ _ hi rfl) htarget
        (by simp [hjlt])
    have hset : ((({ player with Hand := eraseFirstByID player.Hand action.GetCardID } :
        Player).GetPropertySet action.GetColor).1)
        = (player.GetPropertySet action.GetColor).1 := GetPropertySet_congr _ _ _ rfl
    obtain ⟨f1, f2, f3, f4⟩ := GetPropertySet_frame
      ({ player with Hand := eraseFirstByID player.Hand action.GetCardID } : Player)
      action.GetColor
    refine ⟨{ gs with
        Players := gs.Players.set j
          ((({ player with Hand := eraseFirstByID player.Hand action.GetCardID } :
            Player).GetPropertySet action.GetColor).2.AddToHand card) }, ?_, rfl, ?_, ?_⟩
    · simp only [setPlayer] at ht1
      simp [createPendingSteal, htake, ht1, getPropertySetAt, hjlt, hset, hcomplete,
        modifyPlayer]
    · exact map_set_of_eq _ _ _ _ _ hi (by simp only [Player.AddToHand, f1, f2, f4])
    · exact ⟨_, getElem?_set_same _ _ _ _ hi, by simp only [Player.AddToHand, f3]⟩
  · have hp1 : (gs.Players.set i
        { player with Hand := eraseFirstByID player.Hand action.GetCardID })[j]? = some target := by
      rw [getElem?_set_diff _ _ _ _ (Ne.symm hij)]
      exact hj
    have ht1 : (gs.setPlayer i
        { player with Hand := eraseFirstByID player.Hand action.GetCardID }).GetPlayer
          action.GetTargetPlayerID = some (j, target) :=
      GetPlayer_congr gs _ _ j target _ (map_set_of_eq Player.ID _ _ _ _ hi rfl) htarget hp1
    obtain ⟨f1, f2, f3, f4⟩ := GetPropertySet_frame target action.GetColor
    refine ⟨{ gs with
        Players := ((gs.Players.set i
          { player with Hand := eraseFirstByID player.Hand action.GetCardID }).set j
            (target.GetPropertySet action.GetColor).2).set i
              { player with Hand := eraseFirstByID player.Hand action.GetCardID ++ [card] } },
      ?_, rfl, ?_, ?_⟩
    · have hii : ((gs.Players.set i
          { player with Hand := eraseFirstByID player.Hand action.GetCardID }).set j
            (target.GetPropertySet action.GetColor).2)[i]?
          = some { player with Hand := eraseFirstByID player.Hand action.GetCardID } := by
        rw [getElem?_set_diff _ _ _ _ hij]
        simp [hilt]
      simp only [setPlayer] at ht1
      simp [createPendingSteal, htake, ht1, getPropertySetAt, hp1, hilt, hcomplete,
        modifyPlayer, hii, Player.AddToHand]
    · have hjj : (gs.Players.set i
          { player with Hand := eraseFirstByID player.Hand action.GetCardID })[j]?
          = some target := hp1
      have hii : ((gs.Players.set i
          { player with Hand := eraseFirstByID player.Hand action.GetCardID }).set j
            (target.GetPropertySet action.GetColor).2)[i]?
          = some { player with Hand := eraseFirstByID player.Hand action.GetCardID } := by
        rw [getElem?_set_diff _ _ _ _ hij]
        simp [hilt]
      dsimp only
      rw [map_set_of_eq (fun p => (p.ID, p.Name, p.Bank)) _ _ _
          { player with Hand := eraseFirstByID player.Hand action.GetCardID ++ [card] } hii rfl,
        map_set_of_eq (fun p => (p.ID, p.Name, p.Bank)) _ _ _ _ hjj (by simp only [f1, f2, f4]),
        map_set_of_eq (fun p => (p.ID, p.Name, p.Bank)) _ _ _
          { player with Hand := eraseFirstByID player.Hand action.GetCardID } hi rfl]
    · have hii : ((gs.Players.set i
          { player with Hand := eraseFirstByID player.Hand action.GetCardID }).set j
            (target.GetPropertySet action.GetColor).2)[i]?
          = some { player with Hand := eraseFirstByID player.Hand action.GetCardID } := by
        rw [getElem?_set_diff _ _ _ _ hij]
        simp [hilt]
      exact ⟨_, getElem?_set_same _ _ _ _ hii, rfl⟩


/-- `createPendingServiceChange` for a card of the actor's hand and an existing target, when the
actor's named set or the target's named set is complete: an error result, and the state in
which both sets have been looked up and the card is back at the end of the actor's hand. -/
theorem createPendingServiceChange_refused (gs : GameState) (action : Action)
    (i j : Nat) (player target : Player) (card : Card)
    (hplayer : gs.GetPlayer action.PlayerID = some (i, player))
    (hcard : player.GetCardFromHand action.GetCardID = some card)
    (htarget : gs.GetPlayer action.GetTargetPlayerID = some (j, target))
    (hcomplete : (player.GetPropertySet (action.data "playerColor")).1.IsComplete = true ∨
      (target.GetPropertySet action.GetColor).1.IsComplete = true) :
    ∃ gs1, gs.createPendingServiceChange action
        = some (ActionResult.failure
            (if (player.GetPropertySet (action.data "playerColor")).1.IsComplete
             then "cannot swap from your complete set"
             else "cannot swap from opponent's complete set"), gs1) ∧
      PlayersOnly gs gs1 ∧
      gs1.Players.map (fun p => (p.ID, p.Name, p.Bank))
        = gs.Players.map (fun p => (p.ID, p.Name, p.Bank)) ∧
      ∃ p1, gs1.Players[i]? = some p1 ∧
        p1.Hand = eraseFirstByID player.Hand action.GetCardID ++ [card] := by
  obtain ⟨_, hi, _⟩ := GetPlayer_some _ _ _ _ hplayer
  obtain ⟨_, hj, _⟩ := GetPlayer_some _ _ _ _ htarget
  have hilt : i < gs.Players.length := (List.getElem?_eq_some.mp hi).1
  have hjlt : j < gs.Players.length := (List.getElem?_eq_some.mp hj).1
  have htake := takeCard_of_find gs action i player card hplayer hcard
  have hpset : ((({ player with Hand := eraseFirstByID player.Hand action.GetCardID } :
      Player).GetPropertySet (action.data "playerColor")).1)
      = (player.GetPropertySet (action.data "playerColor")).1 := GetPropertySet_congr _ _ _ rfl
  obtain ⟨e1, e2, e3, e4⟩ := GetPropertySet_frame
    ({ player with Hand := eraseFirstByID player.Hand action.GetCardID } : Player)
    (action.data "playerColor")
  have hids2 : (gs.Players.set i
      (({ player with Hand := eraseFirstByID player.Hand action.GetCardID } :
        Player).GetPropertySet (action.data "playerColor")).2).map Player.ID
      = gs.Players.map Player.ID := map_set_of_eq Player.ID _ _ _ _ hi e1
  by_cases hij : j = i
  · subst hij
    rw [hi] at hj
    simp only [Option.some.injEq] at hj
    subst hj
    have ht2 : ({ gs with
        Players := gs.Players.set j
          (({ player with Hand := eraseFirstByID player.Hand action.GetCardID } :
            Player).GetPropertySet (action.data "playerColor")).2 } : GameState).GetPlayer
          action.GetTargetPlayerID
        = some (j, (({ player with Hand := eraseFirstByID player.Hand action.GetCardID } :
            Player).GetPropertySet (action.data "playerColor")).2) :=
      GetPlayer_congr gs _ _ j player _ hids2 htarget (by simp [hjlt])
    have htset : ((({ player with Hand := eraseFirstByID player.Hand action.GetCardID } :
        Player).GetPropertySet (action.data "playerColor")).2.GetPropertySet action.GetColor).1
        = (player.GetPropertySet action.GetColor).1 := by
      rw [GetPropertySet_twice]
      exact GetPropertySet_congr _ _ _ rfl
    obtain ⟨f1, f2, f3, f4⟩ := GetPropertySet_frame
      (({ player with Hand := eraseFirstByID player.Hand action.GetCardID } :
        Player).GetPropertySet (action.data "playerColor")).2 action.GetColor
    refine ⟨{ gs with
        Players := gs.Players.set j
          (((({ player with Hand := eraseFirstByID player.Hand action.GetCardID } :
            Player).GetPropertySet (action.data "playerColor")).2.GetPropertySet
              action.GetColor).2.AddToHand card) }, ?_, rfl, ?_, ?_⟩
    · by_cases hA : (player.GetPropertySet (action.data "playerColor")).1.IsComplete = true
      · simp [createPendingServiceChange, htake, ht2, getPropertySetAt, hjlt, hpset, htset,
          hA, modifyPlayer]
      · have hB : (player.GetPropertySet action.GetColor).1.IsComplete = true := by
          rcases hcomplete with h | h
          · exact absurd h hA
          · exact h
        simp [createPendingServiceChange, htake, ht2, getPropertySetAt, hjlt, hpset, htset,
          hA, hB, modifyPlayer]
    · exact map_set_of_eq (fun p => (p.ID, p.Name, p.Bank)) _ _ _ _ hi
        (by simp only [Player.AddToHand, f1, f2, f4, e1, e2, e4])
    · exact ⟨_, getElem?_set_same _ _ _ _ hi, by simp only [Player.AddToHand, f3, e3]⟩
  · have hp2 : (gs.Players.set i
        (({ player with Hand := eraseFirstByID player.Hand action.GetCardID } :
          Player).GetPropertySet (action.data "playerColor")).2)[j]? = some target := by
      rw [getElem?_set_diff _ _ _ _ (Ne.symm hij)]
      exact hj
    have ht2 : ({ gs with
        Players := gs.Players.set i
          (({ player with Hand := eraseFirstByID player.Hand action.GetCardID } :
            Player).GetPropertySet (action.data "playerColor")).2 } : GameState).GetPlayer
          action.GetTargetPlayerID = some (j, target) :=
      GetPlayer_congr gs _ _ j target _ hids2 htarget hp2
    obtain ⟨f1, f2, f3, f4⟩ := GetPropertySet_frame target action.GetColor
    have hii : ((gs.Players.set i
        (({ player with Hand := eraseFirstByID player.Hand action.GetCardID } :
          Player).GetPropertySet (action.data "playerColor")).2).set j
            (target.GetPropertySet action.GetColor).2)[i]?
        = some (({ player with Hand := eraseFirstByID player.Hand action.GetCardID } :
          Player).GetPropertySet (action.data "playerColor")).2 := by
      rw [getElem?_set_diff _ _ _ _ hij]
      simp [hilt]
    refine ⟨{ gs with
        Players := ((gs.Players.set i
          (({ player with Hand := eraseFirstByID player.Hand action.GetCardID } :
            Player).GetPropertySet (action.data "playerColor")).2).set j
              (target.GetPropertySet action.GetColor).2).set i
                ((({ player with Hand := eraseFirstByID player.Hand action.GetCardID } :
                  Player).GetPropertySet (action.data "playerColor")).2.AddToHand card) },
      ?_, rfl, ?_, ?_⟩
    · by_cases hA : (player.GetPropertySet (action.data "playerColor")).1.IsComplete = true
      · simp [createPendingServiceChange, htake, ht2, getPropertySetAt, hp2, hilt, hpset,
          hA, modifyPlayer, hii]
      · have hB : (target.GetPropertySet action.GetColor).1.IsComplete = true := by
          rcases hcomplete with h | h
          · exact absurd h hA
          · exact h
        simp [createPendingServiceChange, htake, ht2, getPropertySetAt, hp2, hilt, hpset,
          hA, hB, modifyPlayer, hii]
    · dsimp only
      rw [map_set_of_eq (fun p => (p.ID, p.Name, p.Bank)) _ _ _ _ hii
          (by simp only [Player.AddToHand]),
        map_set_of_eq (fun p => (p.ID, p.Name, p.Bank)) _ _ _ _ hp2 (by simp only [f1, f2, f4]),
        map_set_of_eq (fun p => (p.ID, p.Name, p.Bank)) _ _ _ _ hi (by simp only [e1, e2, e4])]
    · exact ⟨_, getElem?_set_same _ _ _ _ hii, by simp only [Player.AddToHand, e3]⟩

end GameState

/-- From the closed form of a failing executor branch to `RefusedWith`. -/
theorem refusedWith_of [SliceSort] (gs : GameState) (action : Action) (rnd : Nat → Nat → Nat)
    (i : Nat)
    (hand : List Card) (msg : String) (gs1 : GameState)
    (hexec : gs.Execute action rnd = some (ActionResult.failure msg, gs1))
    (hpo : PlayersOnly gs gs1)
    (hmap : gs1.Players.map (fun p => (p.ID, p.Name, p.Bank))
      = gs.Players.map (fun p => (p.ID, p.Name, p.Bank)))
    (hhand : ∃ p1, gs1.Players[i]? = some p1 ∧ p1.Hand = hand) :
    RefusedWith gs action rnd i hand msg := by
  refine ⟨gs1, hexec, hpo.pending, hpo.turnPhase, hpo.counter, hpo.discardPile, hpo.deck, hmap,
    hhand, ?_⟩
  intro hvalid
  obtain ⟨c1, c2, c3, _, _, c6, _⟩ := GameState.CheckWinCondition_frame gs1
  refine ⟨_, ?_, c3, c1.trans hpo.pending, c2.trans hpo.turnPhase, c6.trans hpo.counter⟩
  simp [GameState.ExecuteAction, hvalid, Valid, hexec]

/-- C19, amended: the completeness rules are enforced by the executor, not by the validator.
For an actor who holds the named card and an existing target, `Execute` refuses a
`POWER_BROKER` whose named target set is complete, a `LINE_CLOSURE` whose named target set is
not complete, and a `SERVICE_CHANGE` when the actor's named set or the target's named set is
complete: it returns a failed result with the reason, creates no pending action, leaves turn
phase, action counter, deck and discard pile as they were, and puts the card back at the end of
the actor's hand.  The validator accepts these three action types from the current player in
the action phase under the action cap, whatever the sets are. -/
theorem completeness_rules_in_executor [SliceSort] (gs : GameState) (action : Action)
    (rnd : Nat → Nat → Nat) (i j : Nat) (player target : Player) (card : Card)
    (hplayer : gs.GetPlayer action.PlayerID = some (i, player))
    (hcard : player.GetCardFromHand action.GetCardID = some card)
    (htarget : gs.GetPlayer action.GetTargetPlayerID = some (j, target)) :
    (action.Typ = ActionType.PowerBroker →
      (target.GetPropertySet action.GetColor).1.IsComplete = true →
      RefusedWith gs action rnd i (eraseFirstByID player.Hand action.GetCardID ++ [card])
        "cannot steal from complete set") ∧
    (action.Typ = ActionType.LineClosure →
      (target.GetPropertySet action.GetColor).1.IsComplete = false →
      RefusedWith gs action rnd i (eraseFirstByID player.Hand action.GetCardID ++ [card])
        "can only steal complete sets") ∧
    (action.Typ = ActionType.ServiceChange →
      (player.GetPropertySet (action.data "playerColor")).1.IsComplete = true →
      RefusedWith gs action rnd i (eraseFirstByID player.Hand action.GetCardID ++ [card])
        "cannot swap from your complete set") ∧
    (action.Typ = ActionType.ServiceChange →
      (player.GetPropertySet (action.data "playerColor")).1.IsComplete = false →
      (target.GetPropertySet action.GetColor).1.IsComplete = true →
      RefusedWith gs action rnd i (eraseFirstByID player.Hand action.GetCardID ++ [card])
        "cannot swap from opponent's complete set") ∧
    ((action.Typ = ActionType.PowerBroker ∨ action.Typ = ActionType.LineClosure ∨
        action.Typ = ActionType.ServiceChange) →
      gs.TurnPhase = TurnPhase.actions → gs.notCurrentPlayer action = some false →
      gs.ActionsPlayedThisTurn < gs.MaxActionsPerTurn →
      gs.Validate action = some (Valid, gs)) := by
  refine ⟨?_, ?_, ?_, ?_, ?_⟩
  · intro htyp hc
    obtain ⟨gs1, h1, h2, h3, h4⟩ := GameState.createPendingSteal_refused gs action false i j
      player target card hplayer hcard htarget (by rw [hc]; decide)
    exact refusedWith_of _ _ _ _ _ _ gs1
      (by simpa [GameState.Execute, htyp, GameState.createPendingPowerBroker] using h1) h2 h3 h4
  · intro htyp hc
    obtain ⟨gs1, h1, h2, h3, h4⟩ := GameState.createPendingSteal_refused gs action true i j
      player target card hplayer hcard htarget (by rw [hc]; decide)
    exact refusedWith_of _ _ _ _ _ _ gs1
      (by simpa [GameState.Execute, htyp, GameState.createPendingLineClosure] using h1) h2 h3 h4
  · intro htyp hc
    obtain ⟨gs1, h1, h2, h3, h4⟩ := GameState.createPendingServiceChange_refused gs action i j
      player target card hplayer hcard htarget (Or.inl hc)
    exact refusedWith_of _ _ _ _ _ _ gs1
      (by simpa [GameState.Execute, htyp, hc] using h1) h2 h3 h4
  · intro htyp hc hc2
    obtain ⟨gs1, h1, h2, h3, h4⟩ := GameState.createPendingServiceChange_refused gs action i j
      player target card hplayer hcard htarget (Or.inr hc2)
    exact refusedWith_of _ _ _ _ _ _ gs1
      (by simpa [GameState.Execute, htyp, hc] using h1) h2 h3 h4
  · intro htyp hphase hcur hcap
    have hnot : ¬ gs.ActionsPlayedThisTurn ≥ gs.MaxActionsPerTurn := by omega
    rcases htyp with h | h | h <;>
      simp [GameState.Validate, h, hphase, GameState.validatePlayAction, hcur, hnot]

/-- C19 as stated fails: in the second player's action phase of a game in which the first
player owns a complete blue set and no pink set, the validator accepts a `POWER_BROKER` on the
complete blue set, a `LINE_CLOSURE` on the incomplete pink set and a `SERVICE_CHANGE` against
the complete blue set; the engine returns the executor's failure with a nil error. -/
theorem validator_completeness_counterexample :
    ∃ gs, blueCompleteTrace = some gs ∧ Reachable gs ∧ gs.TurnPhase = TurnPhase.actions ∧
      (gs.GetPlayer "player_0").map (fun r => (r.2.GetPropertySet "blue").1.IsComplete)
        = some true ∧
      (gs.GetPlayer "player_0").map (fun r => (r.2.GetPropertySet "pink").1.IsComplete)
        = some false ∧
      gs.Validate powerBrokerOnBlue = some (Valid, gs) ∧
      gs.Validate lineClosureOnPink = some (Valid, gs) ∧
      gs.Validate serviceChangeOnBlue = some (Valid, gs) ∧
      (gs.ExecuteAction powerBrokerOnBlue noShuffle).map (fun r => r.1)
        = some (ActionResult.failure "cannot steal from complete set", none) ∧
      (gs.ExecuteAction lineClosureOnPink noShuffle).map (fun r => r.1)
        = some (ActionResult.failure "can only steal complete sets", none) ∧
      (gs.ExecuteAction serviceChangeOnBlue noShuffle).map (fun r => r.1)
        = some (ActionResult.failure "cannot swap from opponent's complete set", none) := by
  have h : (blueCompleteTrace.map fun gs =>
      decide (gs.TurnPhase = TurnPhase.actions ∧
        (gs.GetPlayer "player_0").map (fun r => (r.2.GetPropertySet "blue").1.IsComplete)
          = some true ∧
        (gs.GetPlayer "player_0").map (fun r => (r.2.GetPropertySet "pink").1.IsComplete)
          = some false ∧
        gs.Validate powerBrokerOnBlue = some (Valid, gs) ∧
        gs.Validate lineClosureOnPink = some (Valid, gs) ∧
        gs.Validate serviceChangeOnBlue = some (Valid, gs) ∧
        (gs.ExecuteAction powerBrokerOnBlue noShuffle).map (fun r => r.1)
          = some (ActionResult.failure "cannot steal from complete set", none) ∧
        (gs.ExecuteAction lineClosureOnPink noShuffle).map (fun r => r.1)
          = some (ActionResult.failure "can only steal complete sets", none) ∧
        (gs.ExecuteAction serviceChangeOnBlue noShuffle).map (fun r => r.1)
          = some (ActionResult.failure "cannot swap from opponent's complete set", none)))
      = some true := by
    decide
  obtain ⟨gs, hgs, hval⟩ := Option.map_eq_some'.mp h
  exact ⟨gs, hgs, runCalls_reachable _ _ gs (Reachable.init _ ⟨_, _, _, rfl⟩) hgs,
    of_decide_eq_true hval⟩

/-- C19 amended, at `TestExecutorPowerBrokerCompleteSet`: the Power Broker against Bob's
complete blue set is refused by the executor and the card stays in Alice's hand. -/
theorem completeness_rules_in_executor_witness :
    completeSetState.GetPlayer powerBrokerOnComplete.PlayerID
      = some (0, { NewPlayer "player_0" "Alice" with Hand := [testPowerBroker] }) ∧
    completeSetState.GetPlayer powerBrokerOnComplete.GetTargetPlayerID
      = some (1, completeSetBob) ∧
    (completeSetBob.GetPropertySet powerBrokerOnComplete.GetColor).1.IsComplete = true ∧
    RefusedWith completeSetState powerBrokerOnComplete noShuffle 0 [testPowerBroker]
      "cannot steal from complete set" ∧
    completeSetState.Validate powerBrokerOnComplete = some (Valid, completeSetState) :=
  ⟨by decide, by decide, by decide,
    (completeness_rules_in_executor completeSetState powerBrokerOnComplete noShuffle 0 1
      { NewPlayer "player_0" "Alice" with Hand := [testPowerBroker] } completeSetBob
      testPowerBroker (by decide) (by decide) (by decide)).1 rfl (by decide),
    (completeness_rules_in_executor completeSetState powerBrokerOnComplete noShuffle 0 1
      { NewPlayer "player_0" "Alice" with Hand := [testPowerBroker] } completeSetBob
      testPowerBroker (by decide) (by decide) (by decide)).2.2.2.2 (Or.inl rfl) rfl (by decide)
      (by decide)⟩

/-! ## Cards named by action-card plays -/

/-- C20 fails on the code for the action-card plays: after `NewEngine` and `StartTurn` the
first player holds the money card `money_10_1`; the validator accepts `SWIPE_IN` naming it, and
the engine discards the money card and draws two cards for the player.  The validator also
accepts `SWIPE_IN` and `POWER_BROKER` naming a card that is in no hand, where it rejects
`PLAY_PROPERTY`, `PLAY_MONEY` and `PLAY_RENT` with "card not in hand". -/
theorem action_card_not_checked :
    ∃ gs, (NewEngine "game" ["Alice", "Bob"] identityShuffle).StartTurn = some gs ∧
      Reachable gs ∧
      (gs.GetPlayer "player_0").bind (fun r => r.2.GetCardFromHand "money_10_1")
        = some (moneyCard "money_10_1" "$10" 10) ∧
      (gs.GetPlayer "player_0").map (fun r => r.2.GetCardFromHand "no_such_card") = some none ∧
      gs.Validate swipeInWithMoney = some (Valid, gs) ∧
      (gs.ExecuteAction swipeInWithMoney noShuffle).map
          (fun r => (r.1.1.Success, r.1.2, r.2.DiscardPile.map Card.GetID,
            r.2.Players.map fun p => p.Hand.length))
        = some (true, none, ["money_10_1"], [8, 5]) ∧
      gs.Validate (playMissingCard ActionType.SwipeIn) = some (Valid, gs) ∧
      gs.Validate (playMissingCard ActionType.PowerBroker) = some (Valid, gs) ∧
      gs.Validate (playMissingCard ActionType.PlayProperty)
        = some (Invalid "card not in hand", gs) ∧
      gs.Validate (playMissingCard ActionType.PlayMoney) = some (Invalid "card not in hand", gs) ∧
      gs.Validate (playMissingCard ActionType.PlayRent)
        = some (Invalid "card not in hand", gs) := by
  have h : ((NewEngine "game" ["Alice", "Bob"] identityShuffle).StartTurn.map fun gs =>
      decide (
        (gs.GetPlayer "player_0").bind (fun r => r.2.GetCardFromHand "money_10_1")
          = some (moneyCard "money_10_1" "$10" 10) ∧
        (gs.GetPlayer "player_0").map (fun r => r.2.GetCardFromHand "no_such_card")
          = some none ∧
        gs.Validate swipeInWithMoney = some (Valid, gs) ∧
        (gs.ExecuteAction swipeInWithMoney noShuffle).map
            (fun r => (r.1.1.Success, r.1.2, r.2.DiscardPile.map Card.GetID,
              r.2.Players.map fun p => p.Hand.length))
          = some (true, none, ["money_10_1"], [8, 5]) ∧
        gs.Validate (playMissingCard ActionType.SwipeIn) = some (Valid, gs) ∧
        gs.Validate (playMissingCard ActionType.PowerBroker) = some (Valid, gs) ∧
        gs.Validate (playMissingCard ActionType.PlayProperty)
          = some (Invalid "card not in hand", gs) ∧
        gs.Validate (playMissingCard ActionType.PlayMoney)
          = some (Invalid "card not in hand", gs) ∧
        gs.Validate (playMissingCard ActionType.PlayRent)
          = some (Invalid "card not in hand", gs))) = some true := by
    decide
  obtain ⟨gs, hgs, hval⟩ := Option.map_eq_some'.mp h
  exact ⟨gs, hgs, Reachable.startTurn _ _ (Reachable.init _ ⟨_, _, _, rfl⟩) hgs,
    of_decide_eq_true hval⟩

/-! ## The response gate and turn ownership -/

theorem pendingTargets_any (pa : PendingAction) (playerID : String) :
    (pa.pendingTargets.any fun targetID => targetID = playerID) = true
      ↔ playerID ∈ pa.TargetPlayerIDs ∧ playerID ∉ pa.RespondedIDs := by
  simp only [PendingAction.pendingTargets, List.any_eq_true, List.mem_filter, decide_eq_true_eq,
    Bool.not_eq_true_eq_eq_false, Bool.not_eq_true', List.any_eq_false]
  constructor
  · rintro ⟨x, ⟨hx, hn⟩, rfl⟩
    refine ⟨hx, ?_⟩
    intro hmem
    exact hn x hmem rfl
  · rintro ⟨hx, hn⟩
    refine ⟨playerID, ⟨hx, ?_⟩, rfl⟩
    intro y hy hyx
    exact hn (hyx ▸ hy)

/-- In a list of cards with distinct ids, the lookup by id finds exactly the card of the list
with that id. -/
theorem findByID_some_iff (cardID : String) (c : Card) :
    ∀ (l : List Card), (l.map Card.GetID).Nodup →
      (findByID l cardID = some c ↔ c ∈ l ∧ c.GetID = cardID) := by
  intro l
  induction l with
  | nil => intro _; simp [findByID]
  | cons x xs ih =>
    intro hids
    simp only [List.map_cons, List.nodup_cons, List.mem_map, not_exists, not_and] at hids
    by_cases hx : x.GetID = cardID
    · simp only [findByID, hx, if_true, Option.some.injEq, List.mem_cons]
      constructor
      · rintro rfl
        exact ⟨Or.inl rfl, hx⟩
      · rintro ⟨h | h, hc⟩
        · exact h.symm
        · exact absurd (hc.trans hx.symm) (hids.1 c h)
    · simp only [findByID, hx, if_false, List.mem_cons]
      rw [ih hids.2]
      constructor
      · rintro ⟨h, hc⟩
        exact ⟨Or.inr h, hc⟩
      · rintro ⟨h | h, hc⟩
        · exact absurd (h ▸ hc) hx
        · exact ⟨h, hc⟩

namespace GameState

/-- The three gate tests of `validateResponse` pass exactly for an open target in the response
phase. -/
theorem validateResponse_gate (gs : GameState) (action : Action) :
    (gs.TurnPhase = TurnPhase.response ∧ isOpenTarget gs action.PlayerID) ↔
      (¬ gs.TurnPhase ≠ TurnPhase.response ∧ (!gs.HasPendingAction) = false ∧
        (!(gs.GetPendingTargets.any fun targetID => targetID = action.PlayerID)) = false) := by
  unfold isOpenTarget HasPendingAction GetPendingTargets
  cases hpa : gs.PendingAction with
  | none => simp
  | some pa =>
    simp only [ne_eq, not_not, Option.some.injEq, exists_eq_left', Option.isSome_some,
      Bool.not_true, Bool.not_eq_false', true_and]
    rw [pendingTargets_any]

theorem validateResponse_closed (gs : GameState) (action : Action)
    (hgate : ¬ (gs.TurnPhase = TurnPhase.response ∧ isOpenTarget gs action.PlayerID)) :
    ∃ err, gs.validateResponse action = some (Invalid err, gs) := by
  rw [validateResponse_gate] at hgate
  unfold validateResponse
  split
  · exact ⟨_, rfl⟩
  · next h1 =>
    split
    · exact ⟨_, rfl⟩
    · next h2 =>
      split
      · exact ⟨_, rfl⟩
      · next h3 =>
        exfalso
        apply hgate
        refine ⟨h1, ?_, ?_⟩
        · simpa using h2
        · simpa using h3

theorem validateResponse_open (gs : GameState) (action : Action)
    (hgate : gs.TurnPhase = TurnPhase.response ∧ isOpenTarget gs action.PlayerID) :
    gs.validateResponse action =
      if action.Typ = ActionType.PlayFareEvasion then
        match gs.GetPlayer action.PlayerID with
        | none => none
        | some (_, player) =>
          match player.GetCardFromHand action.GetCardID with
          | none => some (Invalid "Fare Evasion card not in hand", gs)
          | some card =>
            if card.GetName ≠ "Fare Evasion" then some (Invalid "not a Fare Evasion card", gs)
            else some (Valid, gs)
      else some (Valid, gs) := by
  rw [validateResponse_gate] at hgate
  obtain ⟨h1, h2, h3⟩ := hgate
  unfold validateResponse
  rw [if_neg h1, h2, h3]
  simp only [Bool.false_eq_true, if_false]

end GameState

/-- C21: the response gate.  An `ACCEPT` is accepted by `Validate` when the turn phase is
response, a pending action exists and the acting player is one of its targets that has not
responded, and is rejected in every other case.  A `PLAY_FARE_EVASION` is accepted exactly when,
in addition, the acting player exists and the card that `cardId` names in their hand (the lookup
of `GetCardFromHand`) has the name Fare Evasion; it is rejected when the gate is closed, and when
the acting player exists and the card is missing or has another name.  (An open target that is no
player of the game makes the lookup of `PLAY_FARE_EVASION` dereference nil.)  When the ids of
the hand are distinct, the card named is the card of the hand with that id.  The state is the
same afterwards. -/
theorem response_gate (gs : GameState) (action : Action) :
    (action.Typ = ActionType.Accept →
      ((gs.TurnPhase = TurnPhase.response ∧ isOpenTarget gs action.PlayerID) →
        gs.Validate action = some (Valid, gs)) ∧
      (¬ (gs.TurnPhase = TurnPhase.response ∧ isOpenTarget gs action.PlayerID) →
        ∃ err, gs.Validate action = some (Invalid err, gs))) ∧
    (action.Typ = ActionType.PlayFareEvasion →
      (gs.Validate action = some (Valid, gs) ↔
        (gs.TurnPhase = TurnPhase.response ∧ isOpenTarget gs action.PlayerID) ∧
          ∃ i player card, gs.GetPlayer action.PlayerID = some (i, player) ∧
            player.GetCardFromHand action.GetCardID = some card ∧
            card.GetName = "Fare Evasion") ∧
      (¬ (gs.TurnPhase = TurnPhase.response ∧ isOpenTarget gs action.PlayerID) →
        ∃ err, gs.Validate action = some (Invalid err, gs)) ∧
      (∀ i player, gs.GetPlayer action.PlayerID = some (i, player) →
        ¬ (∃ card, player.GetCardFromHand action.GetCardID = some card ∧
            card.GetName = "Fare Evasion") →
        ∃ err, gs.Validate action = some (Invalid err, gs)) ∧
      (∀ i player, gs.GetPlayer action.PlayerID = some (i, player) →
        (player.Hand.map Card.GetID).Nodup →
        ((∃ card, player.GetCardFromHand action.GetCardID = some card ∧
            card.GetName = "Fare Evasion") ↔
          ∃ card ∈ player.Hand, card.GetID = action.GetCardID ∧
            card.GetName = "Fare Evasion"))) := by
  constructor
  · intro ht
    have hv : gs.Validate action = gs.validateResponse action := by
      simp [GameState.Validate, ht]
    rw [hv]
    constructor
    · intro hgate
      rw [GameState.validateResponse_open gs action hgate]
      simp [ht]
    · exact GameState.validateResponse_closed gs action
  · intro ht
    have hv : gs.Validate action = gs.validateResponse action := by
      simp [GameState.Validate, ht]
    rw [hv]
    refine ⟨?_, GameState.validateResponse_closed gs action, ?_, ?_⟩
    · constructor
      · intro h
        by_cases hgate : gs.TurnPhase = TurnPhase.response ∧ isOpenTarget gs action.PlayerID
        · refine ⟨hgate, ?_⟩
          rw [GameState.validateResponse_open gs action hgate, if_pos ht] at h
          cases hp : gs.GetPlayer action.PlayerID with
          | none => simp [hp] at h
          | some ip =>
            obtain ⟨i, player⟩ := ip
            simp only [hp] at h
            cases hc : player.GetCardFromHand action.GetCardID with
            | none => simp [hc, Valid, Invalid] at h
            | some card =>
              simp only [hc] at h
              by_cases hn : card.GetName = "Fare Evasion"
              · exact ⟨i, player, card, rfl, hc, hn⟩
              · simp [hn, Valid, Invalid] at h
        · obtain ⟨err, herr⟩ := GameState.validateResponse_closed gs action hgate
          rw [herr] at h
          simp [Valid, Invalid] at h
      · rintro ⟨hgate, i, player, card, hp, hc, hn⟩
        rw [GameState.validateResponse_open gs action hgate, if_pos ht]
        simp [hp, hc, hn]
    · intro i player hp hcard
      by_cases hgate : gs.TurnPhase = TurnPhase.response ∧ isOpenTarget gs action.PlayerID
      · rw [GameState.validateResponse_open gs action hgate, if_pos ht]
        simp only [hp]
        cases hc : player.GetCardFromHand action.GetCardID with
        | none => exact ⟨_, rfl⟩
        | some card =>
          have hn : card.GetName ≠ "Fare Evasion" := fun hn => hcard ⟨card, hc, hn⟩
          simp only [hc]
          rw [if_pos hn]
          exact ⟨_, rfl⟩
      · exact GameState.validateResponse_closed gs action hgate
    · intro i player _ hids
      unfold Player.GetCardFromHand
      constructor
      · rintro ⟨card, hc, hn⟩
        rw [findByID_some_iff _ _ _ hids] at hc
        exact ⟨card, hc.1, hc.2, hn⟩
      · rintro ⟨card, hmem, hc, hn⟩
        exact ⟨card, (findByID_some_iff _ _ _ hids).mpr ⟨hmem, hc⟩, hn⟩

/-- C21 at `TestExecutorFareEvasion`: Bob, the open target of Alice's rent, may accept and may
play his Fare Evasion card; Alice may do neither. -/
theorem response_gate_witness :
    fareEvasionState.Validate acceptBob = some (Valid, fareEvasionState) ∧
    fareEvasionState.Validate playFareEvasion = some (Valid, fareEvasionState) ∧
    (∃ err, fareEvasionState.Validate ⟨ActionType.Accept, "player_0", []⟩
      = some (Invalid err, fareEvasionState)) := by
  have hopen : fareEvasionState.TurnPhase = TurnPhase.response ∧
      isOpenTarget fareEvasionState "player_1" :=
    ⟨rfl, testRentPending 3, rfl, by decide, by decide⟩
  refine ⟨((response_gate fareEvasionState acceptBob).1 rfl).1 hopen,
    ((response_gate fareEvasionState playFareEvasion).2 rfl).1.mpr
      ⟨hopen, 1, fareEvasionBob, fareEvasionCard, by decide, by decide, by decide⟩, ?_⟩
  refine ((response_gate fareEvasionState ⟨ActionType.Accept, "player_0", []⟩).1 rfl).2 ?_
  rintro ⟨_, pa, hpa, hmem, _⟩
  have : pa = testRentPending 3 := by
    have h : fareEvasionState.PendingAction = some (testRentPending 3) := rfl
    rw [h] at hpa
    exact (Option.some.inj hpa).symm
  subst this
  revert hmem
  decide

/-- C22: a pending action blocks ordinary play.  In the response phase every action whose type
is neither `ACCEPT` nor `PLAY_FARE_EVASION` is rejected by `Validate`, and `Engine.ExecuteAction`
returns that rejection as its error and leaves the whole state (hands, banks, property sets,
piles, counters and the pending action among it) as it was. -/
theorem pending_blocks_play [SliceSort] (gs : GameState) (action : Action) (rnd : Nat → Nat → Nat)
    (hphase : gs.TurnPhase = TurnPhase.response)
    (ha : action.Typ ≠ ActionType.Accept) (hf : action.Typ ≠ ActionType.PlayFareEvasion) :
    gs.Validate action = some (Invalid "waiting for response to pending action", gs) ∧
    gs.ExecuteAction action rnd =
      some ((ActionResult.failure "waiting for response to pending action",
        some "waiting for response to pending action"), gs) := by
  have hv : gs.Validate action = some (Invalid "waiting for response to pending action", gs) := by
    simp [GameState.Validate, ha, hf, hphase]
  refine ⟨hv, ?_⟩
  simp [GameState.ExecuteAction, hv, Invalid]

/-- C22 at the response phase of `TestExecutorPlayRentWithResponse`: Alice's `END_TURN`,
`FLIP_WILDCARD` and `DRAW_CARDS` are rejected and change nothing. -/
theorem pending_blocks_play_witness :
    (rentResponseState []).TurnPhase = TurnPhase.response ∧
    (rentResponseState []).ExecuteAction ⟨ActionType.EndTurn, "player_0", []⟩ noShuffle =
      some ((ActionResult.failure "waiting for response to pending action",
        some "waiting for response to pending action"), rentResponseState []) ∧
    (rentResponseState []).ExecuteAction ⟨ActionType.FlipWildcard, "player_0", []⟩ noShuffle =
      some ((ActionResult.failure "waiting for response to pending action",
        some "waiting for response to pending action"), rentResponseState []) ∧
    (rentResponseState []).ExecuteAction ⟨ActionType.DrawCards, "player_0", []⟩ noShuffle =
      some ((ActionResult.failure "waiting for response to pending action",
        some "waiting for response to pending action"), rentResponseState []) :=
  ⟨rfl,
    (pending_blocks_play (rentResponseState []) ⟨ActionType.EndTurn, "player_0", []⟩
      noShuffle rfl (by decide) (by decide)).2,
    (pending_blocks_play (rentResponseState []) ⟨ActionType.FlipWildcard, "player_0", []⟩
      noShuffle rfl (by decide) (by decide)).2,
    (pending_blocks_play (rentResponseState []) ⟨ActionType.DrawCards, "player_0", []⟩
      noShuffle rfl (by decide) (by decide)).2⟩

namespace GameState

theorem notCurrentPlayer_of (gs : GameState) (action : Action) (i : Nat) (current : Player)
    (hcur : gs.GetCurrentPlayer = some (i, current)) :
    gs.notCurrentPlayer action = some (decide (action.PlayerID ≠ current.ID)) := by
  simp [notCurrentPlayer, hcur]

end GameState

/-- C23: turn ownership.  Whenever the acting player's id differs from the id of the current
player, `Validate` rejects every action that is not a response (`ACCEPT`,
`PLAY_FARE_EVASION`), leaving the state as it was, and `Engine.ExecuteAction` returns the
rejection as its error. -/
theorem turn_ownership [SliceSort] (gs : GameState) (action : Action) (rnd : Nat → Nat → Nat)
    (i : Nat)
    (current : Player) (hcur : gs.GetCurrentPlayer = some (i, current))
    (ha : action.Typ ≠ ActionType.Accept) (hf : action.Typ ≠ ActionType.PlayFareEvasion)
    (hid : action.PlayerID ≠ current.ID) :
    ∃ err, gs.Validate action = some (Invalid err, gs) ∧
      gs.ExecuteAction action rnd = some ((ActionResult.failure err, some err), gs) := by
  have hn : gs.notCurrentPlayer action = some true := by
    rw [GameState.notCurrentPlayer_of gs action i current hcur]
    simp [hid]
  have hv : ∃ err, gs.Validate action = some (Invalid err, gs) := by
    unfold GameState.Validate
    rw [if_neg (by simp [ha, hf])]
    split
    · exact ⟨_, rfl⟩
    · split
      · unfold GameState.validateDrawCards
        rw [hn]
        split <;> exact ⟨_, rfl⟩
      · unfold GameState.validatePlayProperty
        rw [hn]
        split <;> exact ⟨_, rfl⟩
      · unfold GameState.validatePlayMoney
        rw [hn]
        split <;> exact ⟨_, rfl⟩
      · unfold GameState.validatePlayRent
        rw [hn]
        split <;> exact ⟨_, rfl⟩
      all_goals first
        | (unfold GameState.validatePlayAction
           rw [hn]
           split <;> exact ⟨_, rfl⟩)
        | (unfold GameState.validateEndTurn
           rw [hn]
           exact ⟨_, rfl⟩)
        | (unfold GameState.validateFlipWildcard
           rw [hn]
           exact ⟨_, rfl⟩)
        | exact ⟨_, rfl⟩
  obtain ⟨err, herr⟩ := hv
  refine ⟨err, herr, ?_⟩
  simp [GameState.ExecuteAction, herr, Invalid]

/-- C23 at the start of `TestExecutorRushHour` (Alice's action phase): Bob's `END_TURN` is
rejected. -/
theorem turn_ownership_witness :
    ∃ err, rushHourState.Validate ⟨ActionType.EndTurn, "player_1", []⟩
        = some (Invalid err, rushHourState) ∧
      rushHourState.ExecuteAction ⟨ActionType.EndTurn, "player_1", []⟩ noShuffle
        = some ((ActionResult.failure err, some err), rushHourState) :=
  turn_ownership rushHourState ⟨ActionType.EndTurn, "player_1", []⟩ noShuffle 0
    { testAlice with Hand := [testRentCard, act "rush_hour" "Rush Hour" 1] } rfl
    (by decide) (by decide) (by decide)

/-! ## Rent requires ownership -/

theorem GetPropertySet_cards (p : Player) (color : String) :
    (p.GetPropertySet color).1.Cards = p.cardsOfColour color := by
  cases h : p.Properties.lookup color <;>
    simp [Player.GetPropertySet, Player.cardsOfColour, h, NewPropertySet]

/-- C25: rent requires ownership.  In the action phase, when the current player plays
`PLAY_RENT` naming a rent card of their hand, `Validate` rejects the action if the card is not a
wild rent and the player owns no card in the property set of the claimed colour; if the player
owns a card of that set or the card is a wild rent, the action is accepted below the action cap
(and rejected for the cap at it).  The state afterwards is the one in which the set of the
claimed colour has been looked up. -/
theorem rent_requires_ownership (gs : GameState) (action : Action) (k i : Nat)
    (current player : Player) (b : BaseCard) (colors : List String) (target : String)
    (hphase : gs.TurnPhase = TurnPhase.actions) (htyp : action.Typ = ActionType.PlayRent)
    (hcur : gs.GetCurrentPlayer = some (k, current)) (hid : action.PlayerID = current.ID)
    (hplayer : gs.GetPlayer action.PlayerID = some (i, player))
    (hcard : player.GetCardFromHand action.GetCardID = some (Card.rent b colors target)) :
    ((player.cardsOfColour action.GetColor = [] ∧ Card.IsWildRent b.Name colors = false) →
      gs.Validate action
        = some (Invalid ("you don't own any " ++ action.GetColor ++ " properties"),
            gs.setPlayer i (player.GetPropertySet action.GetColor).2)) ∧
    ((player.cardsOfColour action.GetColor ≠ [] ∨ Card.IsWildRent b.Name colors = true) →
      (gs.ActionsPlayedThisTurn < gs.MaxActionsPerTurn →
        gs.Validate action
          = some (Valid, gs.setPlayer i (player.GetPropertySet action.GetColor).2)) ∧
      (gs.MaxActionsPerTurn ≤ gs.ActionsPlayedThisTurn →
        gs.Validate action
          = some (Invalid errMaxActions,
              gs.setPlayer i (player.GetPropertySet action.GetColor).2))) := by
  have hp := (GameState.GetPlayer_some gs _ _ _ hplayer).2.1
  have hn : gs.notCurrentPlayer action = some false := by
    simp [GameState.notCurrentPlayer, hcur, hid]
  have hset : gs.getPropertySetAt i action.GetColor
      = some ((player.GetPropertySet action.GetColor).1,
          gs.setPlayer i (player.GetPropertySet action.GetColor).2) := by
    simp [GameState.getPropertySetAt, hp]
  have hv : gs.Validate action = gs.validatePlayRent action := by
    simp [GameState.Validate, htyp, hphase]
  rw [hv]
  unfold GameState.validatePlayRent
  rw [if_neg (by simp [hphase]), hn]
  simp only [hplayer, hcard, hset, GetPropertySet_cards, List.length_eq_zero]
  refine ⟨?_, ?_⟩
  · rintro ⟨h1, h2⟩
    rw [if_pos ⟨h1, by simp [h2]⟩]
  · intro h
    have hneg : ¬ (player.cardsOfColour action.GetColor = [] ∧
        ¬ Card.IsWildRent b.Name colors = true) := by
      rintro ⟨h1, h2⟩
      rcases h with h | h
      · exact h h1
      · exact h2 h
    rw [if_neg hneg]
    refine ⟨?_, ?_⟩
    · intro hlt
      rw [if_neg]
      simpa using hlt
    · intro hge
      rw [if_pos]
      simpa using hge

/-- C25 on the cases of `TestValidatorPlayRent` and `TestValidatorPlayRentWild`: with no
property Alice's blue rent is rejected; with one blue property it is accepted; a wild rent is
accepted without any property. -/
theorem rent_requires_ownership_witness :
    (noPropertyState.Validate (playRentOn "test_rent" "blue")
      = some (Invalid "you don't own any blue properties",
          noPropertyState.setPlayer 0
            (({ NewPlayer "player_0" "Alice" with Hand := [testRentCard] } : Player).GetPropertySet
              "blue").2)) ∧
    (∃ gs1, rushHourState.Validate (playRentOn "test_rent" "blue") = some (Valid, gs1)) ∧
    (∃ gs1, wildRentState.Validate (playRentOn "wild_rent" "blue") = some (Valid, gs1)) := by
  have h1 := (rent_requires_ownership noPropertyState (playRentOn "test_rent" "blue") 0 0
      { NewPlayer "player_0" "Alice" with Hand := [testRentCard] }
      { NewPlayer "player_0" "Alice" with Hand := [testRentCard] }
      ⟨"test_rent", CardType.rent, "", 1⟩ ["blue"] "all" rfl rfl rfl rfl (by decide)
      (by decide)).1 ⟨by decide, by decide⟩
  have h2 := ((rent_requires_ownership rushHourState (playRentOn "test_rent" "blue") 0 0
      { testAlice with Hand := [testRentCard, act "rush_hour" "Rush Hour" 1] }
      { testAlice with Hand := [testRentCard, act "rush_hour" "Rush Hour" 1] }
      ⟨"test_rent", CardType.rent, "", 1⟩ ["blue"] "all" rfl rfl rfl rfl (by decide)
      (by decide)).2 (Or.inl (by decide))).1 (by decide)
  have h3 := ((rent_requires_ownership wildRentState (playRentOn "wild_rent" "blue") 0 0
      { NewPlayer "player_0" "Alice" with Hand := [testWildRent] }
      { NewPlayer "player_0" "Alice" with Hand := [testWildRent] }
      ⟨"wild_rent", CardType.rent, "Wild Rent", 3⟩ [] "one" rfl rfl rfl rfl (by decide)
      (by decide)).2 (Or.inr (by decide))).1 (by decide)
  exact ⟨h1, ⟨_, h2⟩, ⟨_, h3⟩⟩

/-! ## Dealing and drawing -/

theorem swapAt_length (deck : List Card) (i j : Nat) : (swapAt deck i j).length = deck.length := by
  unfold swapAt
  split <;> simp

theorem shuffleLoop_length (rnd : Nat → Nat) :
    ∀ (n : Nat) (deck : List Card), (shuffleLoop rnd n deck).length = deck.length := by
  intro n
  induction n with
  | zero => intro deck; rfl
  | succ n ih =>
    intro deck
    simp only [shuffleLoop]
    rw [ih, swapAt_length]

theorem shuffle_length (rnd : Nat → Nat) (deck : List Card) :
    (shuffle rnd deck).length = deck.length :=
  shuffleLoop_length rnd _ deck

/-- The draw loop in closed form: `n` rounds move the last `n` cards of the deck (all of them
when the deck is shorter), last card first, to the end of the hand. -/
theorem dealLoop_eq :
    ∀ (n : Nat) (deck hand : List Card),
      dealLoop n deck hand
        = (deck.take (deck.length - n), hand ++ (deck.drop (deck.length - n)).reverse) := by
  intro n
  induction n with
  | zero => intro deck hand; simp [dealLoop]
  | succ n ih =>
    intro deck hand
    rcases List.eq_nil_or_concat deck with rfl | ⟨init, card, rfl⟩
    · simp [dealLoop, ih]
    · simp only [List.concat_eq_append]
      have hl : (init ++ [card]).getLast? = some card := by simp
      simp only [dealLoop, hl, List.dropLast_concat, ih]
      have h1 : (init ++ [card]).length - (n + 1) = init.length - n := by simp
      rw [h1]
      have h2 : init.length - n ≤ init.length := Nat.sub_le _ _
      rw [List.take_append_of_le_length h2, List.drop_append_of_le_length h2]
      simp

theorem createPlayers_length :
    ∀ (names : List String) (i : Nat), (createPlayers names i).length = names.length := by
  intro names
  induction names with
  | nil => intro i; rfl
  | cons n rest ih => intro i; simp [createPlayers, ih]

theorem createPlayers_hand :
    ∀ (names : List String) (i : Nat), ∀ p ∈ createPlayers names i, p.Hand = [] := by
  intro names
  induction names with
  | nil => intro i p hp; simp [createPlayers] at hp
  | cons n rest ih =>
    intro i p hp
    simp only [createPlayers, List.mem_cons] at hp
    rcases hp with rfl | hp
    · rfl
    · exact ih _ p hp

/-- The deal over players with empty hands, when the deck holds five cards for each. -/
theorem dealInitialHands_spec :
    ∀ (players : List Player) (deck : List Card), (∀ p ∈ players, p.Hand = []) →
      5 * players.length ≤ deck.length →
      (dealInitialHands players deck).1.length = deck.length - 5 * players.length ∧
      (dealInitialHands players deck).2.length = players.length ∧
      ∀ p ∈ (dealInitialHands players deck).2, p.Hand.length = 5 := by
  intro players
  induction players with
  | nil => intro deck _ _; simp [dealInitialHands]
  | cons q rest ih =>
    intro deck hempty hlen
    simp only [List.length_cons] at hlen
    have hq : q.Hand = [] := hempty q (List.mem_cons_self _ _)
    have hrest : ∀ p ∈ rest, p.Hand = [] := fun p hp => hempty p (List.mem_cons_of_mem _ hp)
    have h5 : 5 ≤ deck.length := by omega
    have hd : (dealLoop 5 deck q.Hand).1.length = deck.length - 5 := by
      rw [dealLoop_eq]
      simp
    have hh : (dealLoop 5 deck q.Hand).2.length = 5 := by
      rw [dealLoop_eq, hq]
      simp
      omega
    obtain ⟨i1, i2, i3⟩ := ih (dealLoop 5 deck q.Hand).1 hrest (by rw [hd]; omega)
    simp only [dealInitialHands, List.length_cons, List.mem_cons]
    refine ⟨?_, ?_, ?_⟩
    · rw [i1, hd]; omega
    · rw [i2]
    · rintro p (rfl | hp)
      · exact hh
      · exact i3 p hp

theorem CreateAllCards_length : CreateAllCards.length = 106 := by decide

/-- C27: the initial deal.  For every list of N player names with 5·N ≤ 106 (N ≤ 21, so in
particular for 2 ≤ N ≤ 5) and every shuffle outcome, the state `NewEngine` returns has N
players, each with a hand of exactly 5 cards, a deck of exactly 106 − 5·N cards, an empty
discard pile and the game phase playing. -/
theorem initial_deal (gameID : String) (playerNames : List String) (rnd : Nat → Nat)
    (hN : playerNames.length ≤ 21) :
    (NewEngine gameID playerNames rnd).Players.length = playerNames.length ∧
    (∀ p ∈ (NewEngine gameID playerNames rnd).Players, p.Hand.length = 5) ∧
    (NewEngine gameID playerNames rnd).Deck.length = 106 - 5 * playerNames.length ∧
    (NewEngine gameID playerNames rnd).DiscardPile = [] ∧
    (NewEngine gameID playerNames rnd).Phase = GamePhase.playing := by
  have hlen : (shuffle rnd CreateAllCards).length = 106 := by
    rw [shuffle_length, CreateAllCards_length]
  obtain ⟨h1, h2, h3⟩ := dealInitialHands_spec (createPlayers playerNames 0)
    (shuffle rnd CreateAllCards) (createPlayers_hand playerNames 0)
    (by rw [createPlayers_length, hlen]; omega)
  rw [createPlayers_length] at h1 h2
  rw [hlen] at h1
  exact ⟨h2, h3, h1, rfl, rfl⟩

/-- C27 for a game of two players and a game of five. -/
theorem initial_deal_witness :
    ((NewEngine "game" ["A", "B"] identityShuffle).Players.length = 2 ∧
      (∀ p ∈ (NewEngine "game" ["A", "B"] identityShuffle).Players, p.Hand.length = 5) ∧
      (NewEngine "game" ["A", "B"] identityShuffle).Deck.length = 96 ∧
      (NewEngine "game" ["A", "B"] identityShuffle).DiscardPile = [] ∧
      (NewEngine "game" ["A", "B"] identityShuffle).Phase = GamePhase.playing) ∧
    ((NewEngine "game" ["A", "B", "C", "D", "E"] brownOnTop).Players.length = 5 ∧
      (∀ p ∈ (NewEngine "game" ["A", "B", "C", "D", "E"] brownOnTop).Players,
        p.Hand.length = 5) ∧
      (NewEngine "game" ["A", "B", "C", "D", "E"] brownOnTop).Deck.length = 81 ∧
      (NewEngine "game" ["A", "B", "C", "D", "E"] brownOnTop).DiscardPile = [] ∧
      (NewEngine "game" ["A", "B", "C", "D", "E"] brownOnTop).Phase = GamePhase.playing) :=
  ⟨initial_deal "game" ["A", "B"] identityShuffle (by decide),
    initial_deal "game" ["A", "B", "C", "D", "E"] brownOnTop (by decide)⟩

namespace GameState

/-- `StartTurn` in closed form. -/
theorem StartTurn_eq (gs : GameState) (i : Nat) (player : Player)
    (hcur : gs.GetCurrentPlayer = some (i, player)) (k : Nat)
    (hk : k = if player.Hand.length = 0 then 5 else 2) :
    gs.StartTurn = some { gs with
      Players := gs.Players.set i
        { player with Hand := player.Hand ++ (gs.Deck.drop (gs.Deck.length - k)).reverse }
      Deck := gs.Deck.take (gs.Deck.length - k)
      TurnPhase := TurnPhase.actions } := by
  subst hk
  simp only [StartTurn, hcur, dealLoop_eq]

end GameState

/-- C30: start of turn.  With a current player and at least 5 cards in the deck,
`Engine.StartTurn` moves exactly k cards, k = 5 for an empty hand and k = 2 otherwise, from the
end of the deck (its top) to the end of the current player's hand, the top card first; the turn
phase is actions afterwards; the other players, and the current player's id, name, bank and
property sets, are as before, and so is the rest of the state. -/
theorem start_turn_draw (gs : GameState) (i : Nat) (player : Player)
    (hcur : gs.GetCurrentPlayer = some (i, player)) (hdeck : 5 ≤ gs.Deck.length) :
    ∃ (k : Nat) (gs1 : GameState) (player1 : Player) (drawn : List Card),
      k = (if player.Hand.length = 0 then 5 else 2) ∧
      gs.StartTurn = some gs1 ∧
      drawn.length = k ∧ gs1.Deck ++ drawn = gs.Deck ∧
      gs1.Players[i]? = some player1 ∧ player1.Hand = player.Hand ++ drawn.reverse ∧
      player1.ID = player.ID ∧ player1.Name = player.Name ∧ player1.Bank = player.Bank ∧
      player1.Properties = player.Properties ∧
      gs1.TurnPhase = TurnPhase.actions ∧
      gs1.Players.length = gs.Players.length ∧
      (∀ j, j ≠ i → gs1.Players[j]? = gs.Players[j]?) ∧
      gs1 = { gs with Players := gs1.Players, Deck := gs1.Deck, TurnPhase := TurnPhase.actions } := by
  have hp : gs.Players[i]? = some player := by
    unfold GameState.GetCurrentPlayer at hcur
    split at hcur
    · next q hq =>
      simp only [Option.some.injEq, Prod.mk.injEq] at hcur
      rw [← hcur.1, ← hcur.2]
      exact hq
    · simp at hcur
  have hk : (if player.Hand.length = 0 then 5 else 2) ≤ gs.Deck.length := by
    split <;> omega
  refine ⟨_, _,
    { player with
      Hand := player.Hand
        ++ (gs.Deck.drop (gs.Deck.length - (if player.Hand.length = 0 then 5 else 2))).reverse },
    gs.Deck.drop (gs.Deck.length - (if player.Hand.length = 0 then 5 else 2)), rfl,
    GameState.StartTurn_eq gs i player hcur _ rfl, ?_, ?_, ?_, rfl, rfl, rfl, rfl, rfl, rfl, ?_,
    ?_, rfl⟩
  · simp only [List.length_drop]
    omega
  · exact List.take_append_drop _ _
  · exact getElem?_set_same _ _ _ _ hp
  · simp
  · intro j hj
    exact getElem?_set_diff _ _ _ _ (Ne.symm hj)

/-- C30 in a fresh two-player game: the first player, holding the five cards dealt, draws two;
a player with an empty hand draws five. -/
theorem start_turn_draw_witness :
    (∃ gs1 p1, freshGame.StartTurn = some gs1 ∧ gs1.Players[0]? = some p1 ∧
      p1.Hand.length = 7 ∧ gs1.Deck.length = 94 ∧ gs1.TurnPhase = TurnPhase.actions) ∧
    (∃ gs1 p1, (freshGame.setPlayer 0 (NewPlayer "player_0" "Alice")).StartTurn = some gs1 ∧
      gs1.Players[0]? = some p1 ∧ p1.Hand.length = 5 ∧ gs1.Deck.length = 91) := by
  have hd : freshGame.Deck.length = 96 := by decide
  have hc : ∃ p, freshGame.GetCurrentPlayer = some (0, p) ∧ p.Hand.length = 5 := by
    have h : (freshGame.GetCurrentPlayer.map fun r => decide (r.1 = 0 ∧ r.2.Hand.length = 5))
        = some true := by decide
    obtain ⟨⟨i, p⟩, hp, hq⟩ := Option.map_eq_some'.mp h
    obtain ⟨rfl, h5⟩ := of_decide_eq_true hq
    exact ⟨p, hp, h5⟩
  obtain ⟨p, hp, h5⟩ := hc
  constructor
  · obtain ⟨k, gs1, p1, drawn, hk, hs, hl, hdk, hp1, hh, _, _, _, _, hph, _⟩ :=
      start_turn_draw freshGame 0 p hp (by rw [hd]; omega)
    refine ⟨gs1, p1, hs, hp1, ?_, ?_, hph⟩
    · rw [hh]; simp [h5, hl, hk]
    · have := congrArg List.length hdk
      simp [hl, hk, h5, hd] at this
      omega
  · have hc2 : (freshGame.setPlayer 0 (NewPlayer "player_0" "Alice")).GetCurrentPlayer
        = some (0, NewPlayer "player_0" "Alice") := by decide
    obtain ⟨k, gs1, p1, drawn, hk, hs, hl, hdk, hp1, hh, _, _, _, _, hph, _⟩ :=
      start_turn_draw _ 0 _ hc2 (by show 5 ≤ freshGame.Deck.length; rw [hd]; omega)
    refine ⟨gs1, p1, hs, hp1, ?_, ?_⟩
    · rw [hh]; simp [hl, hk, NewPlayer]
    · have := congrArg List.length hdk
      have hd2 : (freshGame.setPlayer 0 (NewPlayer "player_0" "Alice")).Deck.length = 96 := hd
      simp [hl, hk, NewPlayer, hd2] at this
      omega

/-! ## The catalog -/

/-- C28: deck composition.  `CreateAllCards` returns 106 cards, each of the Go type its `Type`
field names: 28 property cards (brown 2, blue 3, pink 3, orange 3, red 3, yellow 3, green 3,
darkblue 2, railroad 4, utility 2), 11 wildcards, 34 action cards, 13 rent cards of which 3 are
wild, and 20 money cards: six of 1, five of 2, three of 3, three of 4, two of 5 and one of 10,
with values summing to 57. -/
theorem deck_composition :
    CreateAllCards.length = 106 ∧
    (∀ c ∈ CreateAllCards, c.kind = c.GetType) ∧
    countOfType CardType.property CreateAllCards = 28 ∧
    (List.map (fun color => countOfColour color CreateAllCards)
        ["brown", "blue", "pink", "orange", "red", "yellow", "green", "darkblue", "railroad",
         "utility"]
      = [2, 3, 3, 3, 3, 3, 3, 2, 4, 2]) ∧
    countOfType CardType.wildcard CreateAllCards = 11 ∧
    countOfType CardType.action CreateAllCards = 34 ∧
    countOfType CardType.rent CreateAllCards = 13 ∧
    countWildRent CreateAllCards = 3 ∧
    countOfType CardType.money CreateAllCards = 20 ∧
    (List.map (fun d => countOfDenomination d CreateAllCards) [1, 2, 3, 4, 5, 10]
      = [6, 5, 3, 3, 2, 1]) ∧
    totalValue (moneyCards CreateAllCards) = 57 := by
  refine ⟨by decide, by decide, by decide, by decide, by decide, by decide, by decide, by decide,
    by decide, by decide, by decide⟩

/-- C29: unique identifiers.  The 106 cards of `CreateAllCards` have pairwise distinct ids. -/
theorem card_ids_unique :
    CreateAllCards.length = 106 ∧ (CreateAllCards.map Card.GetID).Nodup := by
  refine ⟨by decide, by decide⟩

/-! ## The per-turn action cap -/

theorem Quiet.rest (gs : GameState) : Quiet gs gs := ⟨rfl, rfl⟩

theorem Quiet.seq {a b c : GameState} (h1 : Quiet a b) (h2 : Quiet b c) : Quiet a c :=
  ⟨h2.1.trans h1.1, h2.2.trans h1.2⟩

/-- A quiet run followed by the counting of the play. -/
theorem CountStep.counted {gs g : GameState} {action : Action} (hq : Quiet gs g)
    (hp : (gs.GetPlayer action.PlayerID).isSome = true) (g1 : GameState)
    (hl : g1.Players.length = g.Players.length)
    (hc : g1.ActionsPlayedThisTurn = g.ActionsPlayedThisTurn + 1) : CountStep gs action g1 :=
  ⟨hl.trans hq.1, Or.inr ⟨by rw [hc, hq.2], hp⟩⟩

theorem Quiet.toCountStep {gs g : GameState} (action : Action) (hq : Quiet gs g) :
    CountStep gs action g :=
  ⟨hq.1, Or.inl hq.2⟩

namespace GameState

theorem setPlayer_quiet (gs : GameState) (i : Nat) (p : Player) : Quiet gs (gs.setPlayer i p) :=
  ⟨by simp, rfl⟩

theorem modifyPlayer_quiet (gs : GameState) (i : Nat) (f : Player → Player) :
    Quiet gs (gs.modifyPlayer i f) := by
  unfold modifyPlayer
  split
  · exact setPlayer_quiet _ _ _
  · exact Quiet.rest _

theorem setPropertySetAt_quiet (gs : GameState) (i : Nat) (color : String) (ps : PropertySet) :
    Quiet gs (gs.setPropertySetAt i color ps) :=
  modifyPlayer_quiet _ _ _

theorem getPropertySetAt_quiet (gs : GameState) (i : Nat) (color : String)
    (ps : PropertySet) (gs1 : GameState) (h : gs.getPropertySetAt i color = some (ps, gs1)) :
    Quiet gs gs1 := by
  unfold getPropertySetAt at h
  split at h
  · simp only [Option.some.injEq, Prod.mk.injEq] at h
    rw [← h.2]
    exact setPlayer_quiet _ _ _
  · simp at h

theorem addCardAt_quiet (gs : GameState) (i : Nat) (color : String) (card : Card)
    (gs1 : GameState) (h : gs.addCardAt i color card = some gs1) : Quiet gs gs1 := by
  unfold addCardAt at h
  split at h
  · next ps gs2 heq =>
    simp only [Option.some.injEq] at h
    rw [← h]
    exact (getPropertySetAt_quiet _ _ _ _ _ heq).seq (setPropertySetAt_quiet _ _ _ _)
  · simp at h

theorem removeCardAt_quiet (gs : GameState) (i : Nat) (color cardID : String) (card : Card)
    (gs1 : GameState) (h : gs.removeCardAt i color cardID = some (some (card, gs1))) :
    Quiet gs gs1 := by
  unfold removeCardAt at h
  split at h
  · simp at h
  · next ps gs2 heq =>
    split at h
    · simp at h
    · simp only [Option.some.injEq, Prod.mk.injEq] at h
      rw [← h.2]
      exact (getPropertySetAt_quiet _ _ _ _ _ heq).seq (setPropertySetAt_quiet _ _ _ _)

theorem resolveForPlayer_quiet [SliceSort] (gs : GameState) (pa : SubwayDeal.PendingAction)
    (playerID : String) (r : ActionResult) (gs1 : GameState)
    (h : gs.resolveForPlayer pa playerID = some (r, gs1)) : Quiet gs gs1 := by
  have hmoney : ∀ (r : ActionResult) (g : GameState), gs.resolveMoney pa playerID = some (r, g) →
      Quiet gs g := by
    intro r g hm
    unfold resolveMoney at hm
    split at hm
    · simp at hm
    · simp only at hm
      split at hm
      · simp only [Option.some.injEq, Prod.mk.injEq] at hm
        rw [← hm.2]
        exact (setPlayer_quiet _ _ _).seq (modifyPlayer_quiet _ _ _)
      · split at hm
        · simp only [Option.some.injEq, Prod.mk.injEq] at hm
          rw [← hm.2]
          exact setPlayer_quiet _ _ _
        · simp at hm
  unfold resolveForPlayer at h
  split at h
  · exact hmoney _ _ h
  · exact hmoney _ _ h
  · exact hmoney _ _ h
  · unfold resolvePowerBroker at h
    split at h
    · split at h
      · simp at h
      · split at h
        · next ps gs2 heq =>
          simp only [Option.some.injEq, Prod.mk.injEq] at h
          rw [← h.2]
          exact getPropertySetAt_quiet _ _ _ _ _ heq
        · simp at h
      · next stolen gs2 heq =>
        split at h
        · simp at h
        · split at h
          · next gs3 heq3 =>
            simp only [Option.some.injEq, Prod.mk.injEq] at h
            rw [← h.2]
            exact (removeCardAt_quiet _ _ _ _ _ _ heq).seq (addCardAt_quiet _ _ _ _ _ heq3)
          · simp at h
    · simp at h
  · unfold resolveLineClosure at h
    split at h
    · split at h
      · simp at h
      · next targetSet gs2 heq2 =>
        split at h
        · simp at h
        · next playerSet gs3 heq3 =>
          simp only [Option.some.injEq, Prod.mk.injEq] at h
          rw [← h.2]
          exact ((getPropertySetAt_quiet _ _ _ _ _ heq2).seq
            (getPropertySetAt_quiet _ _ _ _ _ heq3)).seq
            ((setPropertySetAt_quiet _ _ _ _).seq (setPropertySetAt_quiet _ _ _ _))
    · simp at h
  · unfold resolveServiceChange at h
    split at h
    · split at h
      · simp at h
      · next x1 g1 h1 =>
        split at h
        · simp at h
        · next x2 g2 h2 =>
          split at h
          · next c3 g3 h3 =>
            split at h
            · next c4 g4 h4 =>
              split at h
              · simp at h
              · next g5 h5 =>
                split at h
                · simp at h
                · next g6 h6 =>
                  simp only [Option.some.injEq, Prod.mk.injEq] at h
                  rw [← h.2]
                  exact (((((getPropertySetAt_quiet _ _ _ _ _ h1).seq
                    (getPropertySetAt_quiet _ _ _ _ _ h2)).seq
                    (removeCardAt_quiet _ _ _ _ _ _ h3)).seq
                    (removeCardAt_quiet _ _ _ _ _ _ h4)).seq
                    (addCardAt_quiet _ _ _ _ _ h5)).seq
                    (addCardAt_quiet _ _ _ _ _ h6)
            · simp at h
          · simp at h
    · simp at h
  · simp only [Option.some.injEq, Prod.mk.injEq] at h
    rw [← h.2]
    exact Quiet.rest _

theorem drawInto_quiet (gs : GameState) (i : Nat) (rnd : Nat → Nat) :
    Quiet gs (gs.drawInto i rnd) := by
  have hd : Quiet gs (gs.drawCard rnd).2 := by
    unfold drawCard refill
    repeat' split
    all_goals exact ⟨rfl, rfl⟩
  unfold drawInto
  split
  · exact hd.seq (modifyPlayer_quiet _ _ _)
  · exact hd

theorem applyRushHour_quiet (gs : GameState) (i : Nat) (rushHourID : String) (m : Int)
    (gs1 : GameState) (h : gs.applyRushHour i rushHourID = some (m, gs1)) : Quiet gs gs1 := by
  unfold applyRushHour at h
  split at h
  · split at h
    · simp at h
    · split at h
      · simp only [Option.some.injEq, Prod.mk.injEq] at h
        rw [← h.2]
        exact ⟨by simp, rfl⟩
      · simp only [Option.some.injEq, Prod.mk.injEq] at h
        rw [← h.2]
        exact Quiet.rest _
  · simp only [Option.some.injEq, Prod.mk.injEq] at h
    rw [← h.2]
    exact Quiet.rest _

/-- Taking the card of a play: the acting player exists, and the state is quiet. -/
theorem takeCard_quiet (gs : GameState) (action : Action) (i : Nat) (card : Card)
    (gs1 : GameState) (h : gs.takeCard action = some (some (i, card, gs1))) :
    Quiet gs gs1 ∧ (gs.GetPlayer action.PlayerID).isSome = true := by
  unfold takeCard at h
  split at h
  · simp at h
  · next k player hplayer =>
    split at h
    · simp at h
    · simp only [Option.some.injEq, Prod.mk.injEq] at h
      obtain ⟨_, _, rfl⟩ := h
      exact ⟨setPlayer_quiet _ _ _, by rw [hplayer]; rfl⟩

theorem executePlayProperty_count (gs : GameState) (action : Action) (r : ActionResult)
    (gs1 : GameState) (h : gs.executePlayProperty action = some (r, gs1)) :
    CountStep gs action gs1 := by
  unfold executePlayProperty at h
  split at h
  · simp at h
  · simp only [Option.some.injEq, Prod.mk.injEq] at h
    rw [← h.2]
    exact (Quiet.rest _).toCountStep _
  · next i card g1 htake =>
    obtain ⟨h1, hp⟩ := takeCard_quiet _ _ _ _ _ htake
    split at h
    · next ps g2 name hg hn =>
      simp only [Option.some.injEq, Prod.mk.injEq] at h
      rw [← h.2]
      exact CountStep.counted (h1.seq ((getPropertySetAt_quiet _ _ _ _ _ hg).seq
        (setPropertySetAt_quiet _ _ _ _))) hp _ rfl rfl
    · simp at h

theorem executePlayMoney_count (gs : GameState) (action : Action) (r : ActionResult)
    (gs1 : GameState) (h : gs.executePlayMoney action = some (r, gs1)) :
    CountStep gs action gs1 := by
  unfold executePlayMoney at h
  split at h
  · simp at h
  · simp only [Option.some.injEq, Prod.mk.injEq] at h
    rw [← h.2]
    exact (Quiet.rest _).toCountStep _
  · next i card g1 htake =>
    obtain ⟨h1, hp⟩ := takeCard_quiet _ _ _ _ _ htake
    split at h
    · simp only [Option.some.injEq, Prod.mk.injEq] at h
      rw [← h.2]
      exact CountStep.counted (h1.seq (modifyPlayer_quiet _ _ _)) hp _ rfl rfl
    · simp at h

theorem executeSwipeIn_count (gs : GameState) (action : Action) (rnd : Nat → Nat → Nat)
    (r : ActionResult) (gs1 : GameState) (h : gs.executeSwipeIn action rnd = some (r, gs1)) :
    CountStep gs action gs1 := by
  unfold executeSwipeIn at h
  split at h
  · simp at h
  · simp only [Option.some.injEq, Prod.mk.injEq] at h
    rw [← h.2]
    exact (Quiet.rest _).toCountStep _
  · next i card g1 htake =>
    obtain ⟨h1, hp⟩ := takeCard_quiet _ _ _ _ _ htake
    split at h
    · simp only [Option.some.injEq, Prod.mk.injEq] at h
      rw [← h.2]
      have hd : Quiet g1 (g1.discard card) := ⟨rfl, rfl⟩
      exact CountStep.counted (h1.seq (hd.seq ((drawInto_quiet _ _ _).seq
        (drawInto_quiet _ _ _)))) hp _ rfl rfl
    · simp at h

theorem executeImprovement_count (gs : GameState) (action : Action)
    (improvement label : String) (r : ActionResult) (gs1 : GameState)
    (h : gs.executeImprovement action improvement label = some (r, gs1)) :
    CountStep gs action gs1 := by
  unfold executeImprovement at h
  split at h
  · simp at h
  · simp only [Option.some.injEq, Prod.mk.injEq] at h
    rw [← h.2]
    exact (Quiet.rest _).toCountStep _
  · next i card g1 htake =>
    obtain ⟨h1, hp⟩ := takeCard_quiet _ _ _ _ _ htake
    split at h
    · next ps g2 name hg hn =>
      have h2 := h1.seq (getPropertySetAt_quiet _ _ _ _ _ hg)
      split at h
      · simp only [Option.some.injEq, Prod.mk.injEq] at h
        rw [← h.2]
        exact (h2.seq (modifyPlayer_quiet _ _ _)).toCountStep _
      · simp only [Option.some.injEq, Prod.mk.injEq] at h
        rw [← h.2]
        exact CountStep.counted (h2.seq (setPropertySetAt_quiet _ _ _ _)) hp _ rfl rfl
    · simp at h

theorem executeFlipWildcard_count (gs : GameState) (action : Action) (r : ActionResult)
    (gs1 : GameState) (h : gs.executeFlipWildcard action = some (r, gs1)) : Quiet gs gs1 := by
  unfold executeFlipWildcard at h
  split at h
  · simp at h
  · split at h
    · simp only [Option.some.injEq, Prod.mk.injEq] at h
      rw [← h.2]
      exact Quiet.rest _
    · simp only at h
      split at h
      · next ps g2 hg =>
        simp only [Option.some.injEq, Prod.mk.injEq] at h
        rw [← h.2]
        exact (setPropertySetAt_quiet _ _ _ _).seq
          ((getPropertySetAt_quiet _ _ _ _ _ hg).seq (setPropertySetAt_quiet _ _ _ _))
      · simp at h
    · simp only [Option.some.injEq, Prod.mk.injEq] at h
      rw [← h.2]
      exact Quiet.rest _

theorem createPendingRent_count (gs : GameState) (action : Action) (r : ActionResult)
    (gs1 : GameState) (h : gs.createPendingRent action = some (r, gs1)) :
    CountStep gs action gs1 := by
  unfold createPendingRent at h
  split at h
  · simp at h
  · simp only [Option.some.injEq, Prod.mk.injEq] at h
    rw [← h.2]
    exact (Quiet.rest _).toCountStep _
  · next i b colors target g1 htake =>
    obtain ⟨h1, hp⟩ := takeCard_quiet _ _ _ _ _ htake
    split at h
    · simp at h
    · next ps g2 hg =>
      have h2 := h1.seq (getPropertySetAt_quiet _ _ _ _ _ hg)
      split at h
      · next m g3 player hr hpl =>
        have h3 := h2.seq (applyRushHour_quiet _ _ _ _ _ hr)
        simp only [Option.some.injEq, Prod.mk.injEq] at h
        rw [← h.2]
        exact CountStep.counted h3 hp _ rfl rfl
      · simp at h
  · simp at h

theorem createPendingSteal_count (gs : GameState) (action : Action) (stealComplete : Bool)
    (r : ActionResult) (gs1 : GameState)
    (h : gs.createPendingSteal action stealComplete = some (r, gs1)) :
    CountStep gs action gs1 := by
  unfold createPendingSteal at h
  split at h
  · simp at h
  · simp only [Option.some.injEq, Prod.mk.injEq] at h
    rw [← h.2]
    exact (Quiet.rest _).toCountStep _
  · next i card g1 htake =>
    obtain ⟨h1, hp⟩ := takeCard_quiet _ _ _ _ _ htake
    split at h
    · simp at h
    · split at h
      · next ps g2 player hg hpl =>
        have h2 := h1.seq (getPropertySetAt_quiet _ _ _ _ _ hg)
        split at h
        · simp only [Option.some.injEq, Prod.mk.injEq] at h
          rw [← h.2]
          exact (h2.seq (modifyPlayer_quiet _ _ _)).toCountStep _
        · simp only [Option.some.injEq, Prod.mk.injEq] at h
          rw [← h.2]
          exact CountStep.counted h2 hp _ rfl rfl
      · simp at h

theorem createPendingServiceChange_count (gs : GameState) (action : Action)
    (r : ActionResult) (gs1 : GameState)
    (h : gs.createPendingServiceChange action = some (r, gs1)) : CountStep gs action gs1 := by
  unfold createPendingServiceChange at h
  split at h
  · simp at h
  · simp only [Option.some.injEq, Prod.mk.injEq] at h
    rw [← h.2]
    exact (Quiet.rest _).toCountStep _
  · next i card g1 htake =>
    obtain ⟨h1, hp⟩ := takeCard_quiet _ _ _ _ _ htake
    split at h
    · simp at h
    · next ps g2 hg =>
      have h2 := h1.seq (getPropertySetAt_quiet _ _ _ _ _ hg)
      split at h
      · simp at h
      · split at h
        · next ts g3 player hg3 hpl =>
          have h3 := h2.seq (getPropertySetAt_quiet _ _ _ _ _ hg3)
          split at h
          · simp only [Option.some.injEq, Prod.mk.injEq] at h
            rw [← h.2]
            exact (h3.seq (modifyPlayer_quiet _ _ _)).toCountStep _
          · split at h
            · simp only [Option.some.injEq, Prod.mk.injEq] at h
              rw [← h.2]
              exact (h3.seq (modifyPlayer_quiet _ _ _)).toCountStep _
            · simp only [Option.some.injEq, Prod.mk.injEq] at h
              rw [← h.2]
              exact CountStep.counted h3 hp _ rfl rfl
        · simp at h

theorem createPendingMissedTrain_count (gs : GameState) (action : Action)
    (r : ActionResult) (gs1 : GameState)
    (h : gs.createPendingMissedTrain action = some (r, gs1)) : CountStep gs action gs1 := by
  unfold createPendingMissedTrain at h
  split at h
  · simp at h
  · simp only [Option.some.injEq, Prod.mk.injEq] at h
    rw [← h.2]
    exact (Quiet.rest _).toCountStep _
  · next i card g1 htake =>
    obtain ⟨h1, hp⟩ := takeCard_quiet _ _ _ _ _ htake
    split at h
    · simp only [Option.some.injEq, Prod.mk.injEq] at h
      rw [← h.2]
      exact CountStep.counted h1 hp _ rfl rfl
    · simp at h

theorem createPendingItsMyStop_count (gs : GameState) (action : Action)
    (r : ActionResult) (gs1 : GameState)
    (h : gs.createPendingItsMyStop action = some (r, gs1)) : CountStep gs action gs1 := by
  unfold createPendingItsMyStop at h
  split at h
  · simp at h
  · simp only [Option.some.injEq, Prod.mk.injEq] at h
    rw [← h.2]
    exact (Quiet.rest _).toCountStep _
  · next i card g1 htake =>
    obtain ⟨h1, hp⟩ := takeCard_quiet _ _ _ _ _ htake
    split at h
    · simp only [Option.some.injEq, Prod.mk.injEq] at h
      rw [← h.2]
      exact CountStep.counted h1 hp _ rfl rfl
    · simp at h

theorem executeAccept_quiet [SliceSort] (gs : GameState) (action : Action) (r : ActionResult)
    (gs1 : GameState) (h : gs.executeAccept action = some (r, gs1)) : Quiet gs gs1 := by
  cases hpa : gs.PendingAction with
  | none =>
    simp only [executeAccept, hpa, Option.some.injEq, Prod.mk.injEq] at h
    rw [← h.2]
    exact Quiet.rest _
  | some pa =>
    rw [executeAccept_eq gs action pa hpa] at h
    split at h
    · simp at h
    · next result g heq =>
      simp only [Option.some.injEq, Prod.mk.injEq] at h
      have hm : Quiet gs (gs.MarkResponded action.PlayerID) := by
        simp only [MarkResponded, hpa]
        exact ⟨rfl, rfl⟩
      have hq := hm.seq (resolveForPlayer_quiet _ _ _ _ _ heq)
      rw [← h.2]
      split
      · exact hq.seq ⟨rfl, rfl⟩
      · exact hq

theorem executeFareEvasion_quiet (gs : GameState) (action : Action) (r : ActionResult)
    (gs1 : GameState) (h : gs.executeFareEvasion action = some (r, gs1)) : Quiet gs gs1 := by
  cases hpa : gs.PendingAction with
  | none =>
    simp only [executeFareEvasion, hpa, Option.some.injEq, Prod.mk.injEq] at h
    rw [← h.2]
    exact Quiet.rest _
  | some pa =>
    simp only [executeFareEvasion, hpa] at h
    split at h
    · simp at h
    · simp only [Option.some.injEq, Prod.mk.injEq] at h
      rw [← h.2]
      exact Quiet.rest _
    · next i card g1 htake =>
      obtain ⟨h1, _⟩ := takeCard_quiet _ _ _ _ _ htake
      have hm : Quiet g1 ((g1.discard card).MarkResponded action.PlayerID) := by
        simp only [MarkResponded, discard]
        split <;> exact ⟨rfl, rfl⟩
      have hq := h1.seq hm
      split at h
      · simp at h
      · split at h
        · simp only [Option.some.injEq, Prod.mk.injEq] at h
          rw [← h.2]
          exact hq.seq ⟨rfl, rfl⟩
        · simp only [Option.some.injEq, Prod.mk.injEq] at h
          rw [← h.2]
          split
          · exact hq.seq ⟨rfl, rfl⟩
          · exact hq

/-- One call of the executor keeps the number of players; the action counter stays, or it goes
up by one, and then the action is the play of a card by a player who exists. -/
theorem Execute_count [SliceSort] (gs : GameState) (action : Action) (rnd : Nat → Nat → Nat)
    (r : ActionResult) (gs1 : GameState) (h : gs.Execute action rnd = some (r, gs1)) :
    gs1.Players.length = gs.Players.length ∧
    (gs1.ActionsPlayedThisTurn = gs.ActionsPlayedThisTurn ∨
      (gs1.ActionsPlayedThisTurn = gs.ActionsPlayedThisTurn + 1 ∧
        isCardPlay action.Typ = true ∧ (gs.GetPlayer action.PlayerID).isSome = true)) := by
  have hstep : ∀ {g : GameState}, isCardPlay action.Typ = true → CountStep gs action g →
      g.Players.length = gs.Players.length ∧
      (g.ActionsPlayedThisTurn = gs.ActionsPlayedThisTurn ∨
        (g.ActionsPlayedThisTurn = gs.ActionsPlayedThisTurn + 1 ∧
          isCardPlay action.Typ = true ∧ (gs.GetPlayer action.PlayerID).isSome = true)) := by
    intro g ht hc
    rcases hc with ⟨hl, hc | ⟨hc, hp⟩⟩
    · exact ⟨hl, Or.inl hc⟩
    · exact ⟨hl, Or.inr ⟨hc, ht, hp⟩⟩
  have hquiet : ∀ {g : GameState}, Quiet gs g →
      g.Players.length = gs.Players.length ∧
      (g.ActionsPlayedThisTurn = gs.ActionsPlayedThisTurn ∨
        (g.ActionsPlayedThisTurn = gs.ActionsPlayedThisTurn + 1 ∧
          isCardPlay action.Typ = true ∧ (gs.GetPlayer action.PlayerID).isSome = true)) :=
    fun hq => ⟨hq.1, Or.inl hq.2⟩
  unfold Execute at h
  split at h
  · next ht => exact hstep (by rw [ht]; rfl) (executePlayProperty_count _ _ _ _ h)
  · next ht => exact hstep (by rw [ht]; rfl) (executePlayMoney_count _ _ _ _ h)
  · next ht => exact hstep (by rw [ht]; rfl) (executeSwipeIn_count _ _ _ _ _ h)
  · next ht => exact hstep (by rw [ht]; rfl) (executeImprovement_count _ _ _ _ _ _ h)
  · next ht => exact hstep (by rw [ht]; rfl) (executeImprovement_count _ _ _ _ _ _ h)
  · exact hquiet (executeFlipWildcard_count _ _ _ _ h)
  · simp only [Option.some.injEq, Prod.mk.injEq] at h
    rw [← h.2]
    exact hquiet (Quiet.rest _)
  · next ht => exact hstep (by rw [ht]; rfl) (createPendingRent_count _ _ _ _ h)
  · next ht => exact hstep (by rw [ht]; rfl) (createPendingSteal_count _ _ _ _ _ h)
  · next ht => exact hstep (by rw [ht]; rfl) (createPendingSteal_count _ _ _ _ _ h)
  · next ht => exact hstep (by rw [ht]; rfl) (createPendingServiceChange_count _ _ _ _ h)
  · next ht => exact hstep (by rw [ht]; rfl) (createPendingMissedTrain_count _ _ _ _ h)
  · next ht => exact hstep (by rw [ht]; rfl) (createPendingItsMyStop_count _ _ _ _ h)
  · exact hquiet (executeAccept_quiet _ _ _ _ h)
  · exact hquiet (executeFareEvasion_quiet _ _ _ _ h)
  · simp only [Option.some.injEq, Prod.mk.injEq] at h
    rw [← h.2]
    exact hquiet (Quiet.rest _)

/-- The validator looks the acting player up by id; a player of the game is found. -/
theorem GetPlayer_of_mem (gs : GameState) (p : Player) (hp : p ∈ gs.Players) :
    ∃ j q, gs.GetPlayer p.ID = some (j, q) := by
  have hidx : ∀ (l : List Player), p ∈ l → ∃ j, indexOfID l p.ID = some j := by
    intro l
    induction l with
    | nil => intro h; simp at h
    | cons x xs ih =>
      intro h
      by_cases hx : x.ID = p.ID
      · exact ⟨0, by simp [indexOfID, hx]⟩
      · have hmem : p ∈ xs := by
          rcases List.mem_cons.mp h with rfl | h
          · exact absurd rfl hx
          · exact h
        obtain ⟨j, hj⟩ := ih hmem
        exact ⟨j + 1, by simp [indexOfID, hx, hj]⟩
  obtain ⟨j, hj⟩ := hidx gs.Players hp
  obtain ⟨q, hq, _⟩ := indexOfID_get _ _ _ hj
  exact ⟨j, q, by simp [GetPlayer, hj, hq]⟩

theorem GetCurrentPlayer_mem (gs : GameState) (i : Nat) (current : Player)
    (hcur : gs.GetCurrentPlayer = some (i, current)) :
    gs.Players[i]? = some current ∧ current ∈ gs.Players := by
  unfold GetCurrentPlayer at hcur
  split at hcur
  · next q hq =>
    simp only [Option.some.injEq, Prod.mk.injEq] at hcur
    obtain ⟨rfl, rfl⟩ := hcur
    exact ⟨hq, List.mem_iff_getElem?.mpr ⟨_, hq⟩⟩
  · simp at hcur

theorem validatePlayProperty_below_cap (gs : GameState) (action : Action) (v : ValidationResult)
    (g : GameState) (h : gs.validatePlayProperty action = some (v, g)) (hv : v.Valid = true) :
    gs.ActionsPlayedThisTurn < gs.MaxActionsPerTurn := by
  unfold validatePlayProperty at h
  repeat' split at h
  all_goals first
    | omega
    | (simp only [Option.some.injEq, Prod.mk.injEq] at h
       rw [← h.1] at hv
       simp [Invalid] at hv)
    | simp at h

theorem validatePlayMoney_below_cap (gs : GameState) (action : Action) (v : ValidationResult)
    (g : GameState) (h : gs.validatePlayMoney action = some (v, g)) (hv : v.Valid = true) :
    gs.ActionsPlayedThisTurn < gs.MaxActionsPerTurn := by
  unfold validatePlayMoney at h
  repeat' split at h
  all_goals first
    | omega
    | (simp only [Option.some.injEq, Prod.mk.injEq] at h
       rw [← h.1] at hv
       simp [Invalid] at hv)
    | simp at h

theorem validatePlayAction_below_cap (gs : GameState) (action : Action) (v : ValidationResult)
    (g : GameState) (h : gs.validatePlayAction action = some (v, g)) (hv : v.Valid = true) :
    gs.ActionsPlayedThisTurn < gs.MaxActionsPerTurn := by
  unfold validatePlayAction at h
  repeat' split at h
  all_goals first
    | omega
    | (simp only [Option.some.injEq, Prod.mk.injEq] at h
       rw [← h.1] at hv
       simp [Invalid] at hv)
    | simp at h

theorem validatePlayRent_below_cap (gs : GameState) (action : Action) (v : ValidationResult)
    (g : GameState) (h : gs.validatePlayRent action = some (v, g)) (hv : v.Valid = true) :
    gs.ActionsPlayedThisTurn < gs.MaxActionsPerTurn := by
  unfold validatePlayRent at h
  split at h
  · simp only [Option.some.injEq, Prod.mk.injEq] at h
    rw [← h.1] at hv
    simp [Invalid] at hv
  · split at h
    · simp at h
    · simp only [Option.some.injEq, Prod.mk.injEq] at h
      rw [← h.1] at hv
      simp [Invalid] at hv
    · split at h
      · simp at h
      · split at h
        · simp only [Option.some.injEq, Prod.mk.injEq] at h
          rw [← h.1] at hv
          simp [Invalid] at hv
        · split at h
          · simp at h
          · next ps g1 hg =>
            have hpo := getPropertySetAt_playersOnly _ _ _ _ _ hg
            have hc := hpo.counter
            have hm := hpo.maxActions
            repeat' split at h
            all_goals first
              | omega
              | (simp only [Option.some.injEq, Prod.mk.injEq] at h
                 rw [← h.1] at hv
                 simp [Invalid] at hv)
        · simp only [Option.some.injEq, Prod.mk.injEq] at h
          rw [← h.1] at hv
          simp [Invalid] at hv

/-- An accepted play of a card found the action counter below the cap. -/
theorem Validate_below_cap (gs : GameState) (action : Action) (v : ValidationResult)
    (g : GameState) (h : gs.Validate action = some (v, g)) (hv : v.Valid = true)
    (ht : isCardPlay action.Typ = true) :
    gs.ActionsPlayedThisTurn < gs.MaxActionsPerTurn := by
  have hna : ¬ (action.Typ = ActionType.Accept ∨ action.Typ = ActionType.PlayFareEvasion) := by
    rintro (h1 | h1) <;> simp [h1, isCardPlay] at ht
  unfold Validate at h
  rw [if_neg hna] at h
  split at h
  · simp only [Option.some.injEq, Prod.mk.injEq] at h
    rw [← h.1] at hv
    simp [Invalid] at hv
  · split at h
    · next htt => simp [htt, isCardPlay] at ht
    · exact validatePlayProperty_below_cap _ _ _ _ h hv
    · exact validatePlayMoney_below_cap _ _ _ _ h hv
    · exact validatePlayRent_below_cap _ _ _ _ h hv
    · exact validatePlayAction_below_cap _ _ _ _ h hv
    · exact validatePlayAction_below_cap _ _ _ _ h hv
    · exact validatePlayAction_below_cap _ _ _ _ h hv
    · exact validatePlayAction_below_cap _ _ _ _ h hv
    · exact validatePlayAction_below_cap _ _ _ _ h hv
    · exact validatePlayAction_below_cap _ _ _ _ h hv
    · exact validatePlayAction_below_cap _ _ _ _ h hv
    · exact validatePlayAction_below_cap _ _ _ _ h hv
    · exact validatePlayAction_below_cap _ _ _ _ h hv
    · exact validatePlayAction_below_cap _ _ _ _ h hv
    · next htt => simp [htt, isCardPlay] at ht
    · next htt => simp [htt, isCardPlay] at ht
    · simp only [Option.some.injEq, Prod.mk.injEq] at h
      rw [← h.1] at hv
      simp [Invalid] at hv

/-- With a current player, the validator returns a verdict on every play of a card. -/
theorem Validate_cardPlay_returns (gs : GameState) (action : Action) (i : Nat)
    (current : Player) (hcur : gs.GetCurrentPlayer = some (i, current))
    (ht : isCardPlay action.Typ = true) :
    ∃ v g, gs.Validate action = some (v, g) := by
  have hna : ¬ (action.Typ = ActionType.Accept ∨ action.Typ = ActionType.PlayFareEvasion) := by
    rintro (h1 | h1) <;> simp [h1, isCardPlay] at ht
  have hn := notCurrentPlayer_of gs action i current hcur
  have hv : ∀ x : Option (ValidationResult × GameState),
      (x = gs.validatePlayProperty action ∨ x = gs.validatePlayMoney action ∨
        x = gs.validatePlayRent action ∨ x = gs.validatePlayAction action) →
      ∃ v g, x = some (v, g) := by
    intro x hx
    by_cases hid : action.PlayerID = current.ID
    · have hn2 : gs.notCurrentPlayer action = some false := by rw [hn]; simp [hid]
      obtain ⟨j, q, hq⟩ := GetPlayer_of_mem gs current (GetCurrentPlayer_mem gs i current hcur).2
      rw [← hid] at hq
      have hqj := (GetPlayer_some gs _ _ _ hq).2.1
      rcases hx with rfl | rfl | rfl | rfl
      · unfold validatePlayProperty
        rw [hn2, hq]
        simp only
        repeat' split
        all_goals exact ⟨_, _, rfl⟩
      · unfold validatePlayMoney
        rw [hn2, hq]
        simp only
        repeat' split
        all_goals exact ⟨_, _, rfl⟩
      · unfold validatePlayRent
        rw [hn2, hq]
        simp only [getPropertySetAt, hqj]
        repeat' split
        all_goals exact ⟨_, _, rfl⟩
      · unfold validatePlayAction
        rw [hn2]
        simp only
        repeat' split
        all_goals exact ⟨_, _, rfl⟩
    · have hn2 : gs.notCurrentPlayer action = some true := by rw [hn]; simp [hid]
      rcases hx with rfl | rfl | rfl | rfl
      · unfold validatePlayProperty
        rw [hn2]
        split <;> exact ⟨_, _, rfl⟩
      · unfold validatePlayMoney
        rw [hn2]
        split <;> exact ⟨_, _, rfl⟩
      · unfold validatePlayRent
        rw [hn2]
        split <;> exact ⟨_, _, rfl⟩
      · unfold validatePlayAction
        rw [hn2]
        split <;> exact ⟨_, _, rfl⟩
  unfold Validate
  rw [if_neg hna]
  split
  · exact ⟨_, _, rfl⟩
  · split
    · next htt => simp [htt, isCardPlay] at ht
    · exact hv _ (Or.inl rfl)
    · exact hv _ (Or.inr (Or.inl rfl))
    · exact hv _ (Or.inr (Or.inr (Or.inl rfl)))
    · exact hv _ (Or.inr (Or.inr (Or.inr rfl)))
    · exact hv _ (Or.inr (Or.inr (Or.inr rfl)))
    · exact hv _ (Or.inr (Or.inr (Or.inr rfl)))
    · exact hv _ (Or.inr (Or.inr (Or.inr rfl)))
    · exact hv _ (Or.inr (Or.inr (Or.inr rfl)))
    · exact hv _ (Or.inr (Or.inr (Or.inr rfl)))
    · exact hv _ (Or.inr (Or.inr (Or.inr rfl)))
    · exact hv _ (Or.inr (Or.inr (Or.inr rfl)))
    · exact hv _ (Or.inr (Or.inr (Or.inr rfl)))
    · exact hv _ (Or.inr (Or.inr (Or.inr rfl)))
    · next htt => simp [htt, isCardPlay] at ht
    · next htt => simp [htt, isCardPlay] at ht
    · exact ⟨_, _, rfl⟩

theorem getPropertySetAt_withCounter (gs : GameState) (n : Int) (i : Nat) (color : String) :
    (gs.withCounter n).getPropertySetAt i color
      = (gs.getPropertySetAt i color).map fun r => (r.1, r.2.withCounter n) := by
  have e : (gs.withCounter n).Players = gs.Players := rfl
  unfold getPropertySetAt
  rw [e]
  split <;> rfl

theorem validatePlayProperty_at_cap (gs : GameState) (action : Action) (n : Int)
    (g0 : GameState) (h0 : (gs.withCounter n).validatePlayProperty action = some (Valid, g0))
    (hcap : gs.MaxActionsPerTurn ≤ gs.ActionsPlayedThisTurn) :
    ∃ g, gs.validatePlayProperty action = some (Invalid errMaxActions, g) := by
  have e1 : (gs.withCounter n).TurnPhase = gs.TurnPhase := rfl
  have e2 : (gs.withCounter n).notCurrentPlayer action = gs.notCurrentPlayer action := rfl
  have e3 : (gs.withCounter n).GetPlayer action.PlayerID = gs.GetPlayer action.PlayerID := rfl
  unfold validatePlayProperty at h0 ⊢
  rw [e1, e2, e3] at h0
  split at h0
  · simp [Valid, Invalid] at h0
  · next hph =>
    rw [if_neg hph]
    split at h0
    · simp at h0
    · simp [Valid, Invalid] at h0
    · next hn =>
      try rw [hn]
      try simp only
      split at h0
      · simp at h0
      · next j player hp =>
        try rw [hp]
        try simp only
        split at h0
        · simp [Valid, Invalid] at h0
        · next card hc =>
          try rw [hc]
          try simp only
          split at h0
          · simp [Valid, Invalid] at h0
          · next hty =>
            rw [if_neg hty, if_pos (ge_iff_le.mpr hcap)]
            exact ⟨_, rfl⟩

theorem validatePlayMoney_at_cap (gs : GameState) (action : Action) (n : Int)
    (g0 : GameState) (h0 : (gs.withCounter n).validatePlayMoney action = some (Valid, g0))
    (hcap : gs.MaxActionsPerTurn ≤ gs.ActionsPlayedThisTurn) :
    ∃ g, gs.validatePlayMoney action = some (Invalid errMaxActions, g) := by
  have e1 : (gs.withCounter n).TurnPhase = gs.TurnPhase := rfl
  have e2 : (gs.withCounter n).notCurrentPlayer action = gs.notCurrentPlayer action := rfl
  have e3 : (gs.withCounter n).GetPlayer action.PlayerID = gs.GetPlayer action.PlayerID := rfl
  unfold validatePlayMoney at h0 ⊢
  rw [e1, e2, e3] at h0
  split at h0
  · simp [Valid, Invalid] at h0
  · next hph =>
    rw [if_neg hph]
    split at h0
    · simp at h0
    · simp [Valid, Invalid] at h0
    · next hn =>
      try rw [hn]
      try simp only
      split at h0
      · simp at h0
      · next j player hp =>
        try rw [hp]
        try simp only
        split at h0
        · simp [Valid, Invalid] at h0
        · next card hc =>
          try rw [hc]
          try simp only
          split at h0
          · simp [Valid, Invalid] at h0
          · next hval =>
            rw [if_neg hval, if_pos (ge_iff_le.mpr hcap)]
            exact ⟨_, rfl⟩

theorem validatePlayAction_at_cap (gs : GameState) (action : Action) (n : Int)
    (g0 : GameState) (h0 : (gs.withCounter n).validatePlayAction action = some (Valid, g0))
    (hcap : gs.MaxActionsPerTurn ≤ gs.ActionsPlayedThisTurn) :
    ∃ g, gs.validatePlayAction action = some (Invalid errMaxActions, g) := by
  have e1 : (gs.withCounter n).TurnPhase = gs.TurnPhase := rfl
  have e2 : (gs.withCounter n).notCurrentPlayer action = gs.notCurrentPlayer action := rfl
  unfold validatePlayAction at h0 ⊢
  rw [e1, e2] at h0
  split at h0
  · simp [Valid, Invalid] at h0
  · next hph =>
    rw [if_neg hph]
    split at h0
    · simp at h0
    · simp [Valid, Invalid] at h0
    · next hn =>
      try rw [hn]
      try simp only
      rw [if_pos (ge_iff_le.mpr hcap)]
      exact ⟨_, rfl⟩

theorem validatePlayRent_at_cap (gs : GameState) (action : Action) (n : Int)
    (g0 : GameState) (h0 : (gs.withCounter n).validatePlayRent action = some (Valid, g0))
    (hcap : gs.MaxActionsPerTurn ≤ gs.ActionsPlayedThisTurn) :
    ∃ g, gs.validatePlayRent action = some (Invalid errMaxActions, g) := by
  have e1 : (gs.withCounter n).TurnPhase = gs.TurnPhase := rfl
  have e2 : (gs.withCounter n).notCurrentPlayer action = gs.notCurrentPlayer action := rfl
  have e3 : (gs.withCounter n).GetPlayer action.PlayerID = gs.GetPlayer action.PlayerID := rfl
  unfold validatePlayRent at h0 ⊢
  rw [e1, e2, e3] at h0
  split at h0
  · simp [Valid, Invalid] at h0
  · next hph =>
    rw [if_neg hph]
    split at h0
    · simp at h0
    · simp [Valid, Invalid] at h0
    · next hn =>
      try rw [hn]
      try simp only
      split at h0
      · simp at h0
      · next j player hp =>
        try rw [hp]
        try simp only
        split at h0
        · simp [Valid, Invalid] at h0
        · next b colors target hc =>
          try rw [hc]
          try simp only
          rw [getPropertySetAt_withCounter] at h0
          cases hg : gs.getPropertySetAt j action.GetColor with
          | none => simp [hg] at h0
          | some r =>
            obtain ⟨ps, g1⟩ := r
            have hpo := getPropertySetAt_playersOnly _ _ _ _ _ hg
            simp only [hg, Option.map_some'] at h0
            split at h0
            · simp [Valid, Invalid] at h0
            · next hown =>
              simp only
              rw [if_neg hown, if_pos]
              · exact ⟨_, rfl⟩
              · rw [hpo.counter, hpo.maxActions]
                exact ge_iff_le.mpr hcap
        · simp [Valid, Invalid] at h0

/-- A play of a card that the validator accepts with the action counter at `n` is rejected for
the cap when the counter has reached it. -/
theorem Validate_at_cap (gs : GameState) (action : Action) (n : Int) (g0 : GameState)
    (ht : isCardPlay action.Typ = true)
    (h0 : (gs.withCounter n).Validate action = some (Valid, g0))
    (hcap : gs.MaxActionsPerTurn ≤ gs.ActionsPlayedThisTurn) :
    ∃ g, gs.Validate action = some (Invalid errMaxActions, g) := by
  have hna : ¬ (action.Typ = ActionType.Accept ∨ action.Typ = ActionType.PlayFareEvasion) := by
    rintro (h1 | h1) <;> simp [h1, isCardPlay] at ht
  have e1 : (gs.withCounter n).TurnPhase = gs.TurnPhase := rfl
  unfold Validate at h0 ⊢
  rw [if_neg hna, e1] at h0
  rw [if_neg hna]
  split at h0
  · simp [Valid, Invalid] at h0
  · next hph =>
    rw [if_neg hph]
    split at h0
    · next htt => simp [htt, isCardPlay] at ht
    · exact validatePlayProperty_at_cap _ _ _ _ h0 hcap
    · exact validatePlayMoney_at_cap _ _ _ _ h0 hcap
    · exact validatePlayRent_at_cap _ _ _ _ h0 hcap
    · exact validatePlayAction_at_cap _ _ _ _ h0 hcap
    · exact validatePlayAction_at_cap _ _ _ _ h0 hcap
    · exact validatePlayAction_at_cap _ _ _ _ h0 hcap
    · exact validatePlayAction_at_cap _ _ _ _ h0 hcap
    · exact validatePlayAction_at_cap _ _ _ _ h0 hcap
    · exact validatePlayAction_at_cap _ _ _ _ h0 hcap
    · exact validatePlayAction_at_cap _ _ _ _ h0 hcap
    · exact validatePlayAction_at_cap _ _ _ _ h0 hcap
    · exact validatePlayAction_at_cap _ _ _ _ h0 hcap
    · exact validatePlayAction_at_cap _ _ _ _ h0 hcap
    · next htt => simp [htt, isCardPlay] at ht
    · next htt => simp [htt, isCardPlay] at ht
    · simp [Valid, Invalid] at h0

/-- The validator keeps the number of players and the action counter. -/
theorem Validate_quiet (gs : GameState) (action : Action) (v : ValidationResult)
    (g : GameState) (h : gs.Validate action = some (v, g)) : Quiet gs g := by
  unfold Validate at h
  split at h
  · rw [validateResponse_state _ _ _ _ h]
    exact Quiet.rest _
  · split at h
    · simp only [Option.some.injEq, Prod.mk.injEq] at h
      rw [← h.2]
      exact Quiet.rest _
    · split at h
      · rw [validateDrawCards_state _ _ _ _ h]; exact Quiet.rest _
      · rw [validatePlayProperty_state _ _ _ _ h]; exact Quiet.rest _
      · rw [validatePlayMoney_state _ _ _ _ h]; exact Quiet.rest _
      · rcases validatePlayRent_state _ _ _ _ h with h1 | ⟨i, ps, h1⟩
        · rw [h1]; exact Quiet.rest _
        · exact getPropertySetAt_quiet _ _ _ _ _ h1
      · rw [validatePlayAction_state _ _ _ _ h]; exact Quiet.rest _
      · rw [validatePlayAction_state _ _ _ _ h]; exact Quiet.rest _
      · rw [validatePlayAction_state _ _ _ _ h]; exact Quiet.rest _
      · rw [validatePlayAction_state _ _ _ _ h]; exact Quiet.rest _
      · rw [validatePlayAction_state _ _ _ _ h]; exact Quiet.rest _
      · rw [validatePlayAction_state _ _ _ _ h]; exact Quiet.rest _
      · rw [validatePlayAction_state _ _ _ _ h]; exact Quiet.rest _
      · rw [validatePlayAction_state _ _ _ _ h]; exact Quiet.rest _
      · rw [validatePlayAction_state _ _ _ _ h]; exact Quiet.rest _
      · rw [validatePlayAction_state _ _ _ _ h]; exact Quiet.rest _
      · rw [validateEndTurn_state _ _ _ _ h]; exact Quiet.rest _
      · rw [validateFlipWildcard_state _ _ _ _ h]; exact Quiet.rest _
      · simp only [Option.some.injEq, Prod.mk.injEq] at h
        rw [← h.2]
        exact Quiet.rest _

end GameState

theorem CapInvariant.keep {gs g : GameState} (hinv : CapInvariant gs)
    (hlen : g.Players.length = gs.Players.length)
    (hidx : g.CurrentPlayerIndex = gs.CurrentPlayerIndex)
    (hmax : g.MaxActionsPerTurn = gs.MaxActionsPerTurn)
    (hc : g.ActionsPlayedThisTurn = gs.ActionsPlayedThisTurn) : CapInvariant g := by
  obtain ⟨h0, h3, hm, hp⟩ := hinv
  refine ⟨by rw [hc]; exact h0, by rw [hc]; exact h3, by rw [hmax]; exact hm, ?_⟩
  rcases hp with hp | ⟨hp, hz⟩
  · exact Or.inl (by rw [hidx, hlen]; exact hp)
  · refine Or.inr ⟨?_, by rw [hc]; exact hz⟩
    apply List.eq_nil_of_length_eq_zero
    rw [hlen, hp]
    rfl

theorem dealInitialHands_length :
    ∀ (players : List Player) (deck : List Card),
      (dealInitialHands players deck).2.length = players.length := by
  intro players
  induction players with
  | nil => intro deck; rfl
  | cons p rest ih => intro deck; simp [dealInitialHands, ih]

theorem NewEngine_capInvariant (gameID : String) (playerNames : List String) (rnd : Nat → Nat) :
    CapInvariant (NewEngine gameID playerNames rnd) := by
  have hlen : (NewEngine gameID playerNames rnd).Players.length = playerNames.length := by
    simp [NewEngine, dealInitialHands_length, createPlayers_length]
  refine ⟨by simp [NewEngine, NewGameState], by simp [NewEngine, NewGameState],
    by simp [NewEngine, NewGameState], ?_⟩
  cases playerNames with
  | nil =>
    refine Or.inr ⟨?_, by simp [NewEngine, NewGameState]⟩
    apply List.eq_nil_of_length_eq_zero
    rw [hlen]
    rfl
  | cons n rest =>
    refine Or.inl ?_
    rw [hlen]
    simp [NewEngine, NewGameState]

namespace GameState

theorem StartTurn_capInvariant (gs gs1 : GameState) (h : gs.StartTurn = some gs1)
    (hinv : CapInvariant gs) : CapInvariant gs1 := by
  unfold StartTurn at h
  split at h
  · simp at h
  · simp only [Option.some.injEq] at h
    rw [← h]
    exact hinv.keep (by simp) rfl rfl rfl

theorem EndTurn_capInvariant (gs gs1 : GameState) (h : gs.EndTurn = some gs1)
    (hinv : CapInvariant gs) : CapInvariant gs1 := by
  unfold EndTurn at h
  split at h
  · simp at h
  · simp only at h
    split at h
    · simp at h
    · next g hn =>
      refine StartTurn_capInvariant g gs1 h ?_
      unfold NextPlayer at hn
      split at hn
      · simp at hn
      · next hlen =>
        simp only [Option.some.injEq] at hn
        rw [← hn]
        simp only [List.length_set] at hlen ⊢
        refine ⟨le_refl _, by norm_num, hinv.2.2.1, Or.inl ?_⟩
        simp only [List.length_set]
        exact Nat.mod_lt _ (Nat.pos_of_ne_zero hlen)

theorem ExecuteAction_capInvariant [SliceSort] (gs : GameState) (action : Action)
    (rnd : Nat → Nat → Nat) (res : ActionResult × Option String) (gs1 : GameState)
    (h : gs.ExecuteAction action rnd = some (res, gs1)) (hinv : CapInvariant gs) :
    CapInvariant gs1 := by
  unfold ExecuteAction at h
  split at h
  · simp at h
  · next v g hv =>
    have hpo := Validate_playersOnly _ _ _ _ hv
    have hq := Validate_quiet _ _ _ _ hv
    have hg : CapInvariant g :=
      hinv.keep hq.1 (by rw [hpo]) hpo.maxActions hq.2
    split at h
    · simp only [Option.some.injEq, Prod.mk.injEq] at h
      rw [← h.2]
      exact hg
    · next hvalid =>
      split at h
      · simp at h
      · next r g2 he =>
        simp only [Option.some.injEq, Prod.mk.injEq] at h
        have hex := Execute_executorOnly _ _ _ _ _ he
        have hcount := Execute_count _ _ _ _ _ he
        have hcw : g2.CheckWinCondition.2.Players = g2.Players ∧
            g2.CheckWinCondition.2.CurrentPlayerIndex = g2.CurrentPlayerIndex ∧
            g2.CheckWinCondition.2.MaxActionsPerTurn = g2.MaxActionsPerTurn ∧
            g2.CheckWinCondition.2.ActionsPlayedThisTurn = g2.ActionsPlayedThisTurn := by
          unfold CheckWinCondition
          split <;> exact ⟨rfl, rfl, rfl, rfl⟩
        have hg2 : CapInvariant g2 := by
          rcases hcount with ⟨hlen, hc | ⟨hc, ht, hp⟩⟩
          · exact hg.keep hlen hex.cursorEq hex.capEq hc
          · have hlt := Validate_below_cap _ _ _ _ hv (by simpa using hvalid) ht
            rw [← hq.2, ← hpo.maxActions] at hlt
            obtain ⟨h0, h3, hm, hpl⟩ := hg
            refine ⟨by rw [hc]; omega, by rw [hc]; omega, by rw [hex.capEq]; exact hm, ?_⟩
            rcases hpl with hpl | ⟨hpl, _⟩
            · exact Or.inl (by rw [hex.cursorEq, hlen]; exact hpl)
            · exfalso
              obtain ⟨⟨j, q⟩, hjq⟩ := Option.isSome_iff_exists.mp hp
              have := (GetPlayer_some g _ _ _ hjq).2.1
              rw [hpl] at this
              simp at this
        rw [← h.2]
        exact hg2.keep (by rw [hcw.1]) hcw.2.1 hcw.2.2.1 hcw.2.2.2

end GameState

theorem reachable_capInvariant [SliceSort] (gs : GameState)
    (hreach : Reachable gs) : CapInvariant gs := by
  induction hreach with
  | init gs h0 =>
    obtain ⟨gameID, playerNames, rnd, rfl⟩ := h0
    exact NewEngine_capInvariant _ _ _
  | startTurn gs gs1 _ h ih => exact GameState.StartTurn_capInvariant gs gs1 h ih
  | endTurn gs gs1 _ h ih => exact GameState.EndTurn_capInvariant gs gs1 h ih
  | executeAction gs action rnd res gs1 _ h ih =>
    exact GameState.ExecuteAction_capInvariant gs action rnd res gs1 h ih

/-- C24, amended: the per-turn action cap.  In every state reachable from `NewEngine` by
`StartTurn`, `EndTurn` and `ExecuteAction` calls the action counter lies between 0 and 3 (and the
cap is 3).  When the counter is 3, every play of a card (`PLAY_PROPERTY`, `PLAY_MONEY`,
`PLAY_RENT` and the action-card plays) is rejected by `Validate`, `Engine.ExecuteAction` returns
the rejection as its error, and the counter stays 3.  The reason is "maximum actions per turn
exceeded" for every play that passes the validator's other checks, that is, every play the
validator accepts when the counter is 0. -/
theorem action_cap [SliceSort] (gs : GameState) (hreach : Reachable gs) :
    0 ≤ gs.ActionsPlayedThisTurn ∧ gs.ActionsPlayedThisTurn ≤ 3 ∧ gs.MaxActionsPerTurn = 3 ∧
    ∀ action : Action, isCardPlay action.Typ = true → gs.ActionsPlayedThisTurn = 3 →
      (∃ err g, gs.Validate action = some (Invalid err, g) ∧
        g.ActionsPlayedThisTurn = 3 ∧
        ∀ rnd, gs.ExecuteAction action rnd
          = some ((ActionResult.failure err, some err), g)) ∧
      (∀ g0, (gs.withCounter 0).Validate action = some (Valid, g0) →
        ∃ g, gs.Validate action = some (Invalid errMaxActions, g) ∧
          ∀ rnd, gs.ExecuteAction action rnd
            = some ((ActionResult.failure errMaxActions, some errMaxActions), g)) := by
  obtain ⟨h0, h3, hm, hp⟩ := reachable_capInvariant gs hreach
  refine ⟨h0, h3, hm, ?_⟩
  intro action ht hc
  have hexec : ∀ err g, gs.Validate action = some (Invalid err, g) →
      ∀ rnd, gs.ExecuteAction action rnd = some ((ActionResult.failure err, some err), g) := by
    intro err g hv rnd
    simp [GameState.ExecuteAction, hv, Invalid]
  constructor
  · have hidx : gs.CurrentPlayerIndex < gs.Players.length := by
      rcases hp with hp | ⟨_, hz⟩
      · exact hp
      · rw [hz] at hc
        norm_num at hc
    have hcur : ∃ current, gs.GetCurrentPlayer = some (gs.CurrentPlayerIndex, current) := by
      unfold GameState.GetCurrentPlayer
      rw [List.getElem?_eq_getElem hidx]
      exact ⟨_, rfl⟩
    obtain ⟨current, hcur⟩ := hcur
    obtain ⟨v, g, hv⟩ := GameState.Validate_cardPlay_returns gs action _ current hcur ht
    have hnot : v.Valid = false := by
      by_contra hval
      have hlt := GameState.Validate_below_cap gs action v g hv (by simpa using hval) ht
      rw [hc, hm] at hlt
      exact absurd hlt (lt_irrefl _)
    have hve : v = Invalid v.Error := by
      cases v with
      | mk valid err =>
        simp only at hnot
        subst hnot
        rfl
    rw [hve] at hv
    exact ⟨v.Error, g, hv, by rw [(GameState.Validate_quiet _ _ _ _ hv).2, hc], hexec _ _ hv⟩
  · intro g0 hv0
    obtain ⟨g, hg⟩ := GameState.Validate_at_cap gs action 0 g0 ht hv0 (by rw [hc, hm])
    exact ⟨g, hg, hexec _ _ hg⟩


/-- C24 as stated fails in the reason it names: in a reachable state with the counter at 3, a
banking that names a card in no hand is rejected with "card not in hand", and a banking by the
player whose turn it is not is rejected with "not your turn"; the cap is the last check of the
validator. -/
theorem action_cap_reason_counterexample :
    ∃ gs, threePlaysTrace = some gs ∧ Reachable gs ∧ gs.ActionsPlayedThisTurn = 3 ∧
      gs.Validate playNoCard = some (Invalid "card not in hand", gs) ∧
      gs.Validate playOutOfTurn = some (Invalid "not your turn", gs) ∧
      gs.ExecuteAction playNoCard noShuffle
        = some ((ActionResult.failure "card not in hand", some "card not in hand"), gs) := by
  have h : (threePlaysTrace.map fun gs =>
      decide (gs.ActionsPlayedThisTurn = 3 ∧
        (gs.Validate playNoCard).map (fun r => r.1) = some (Invalid "card not in hand") ∧
        (gs.Validate playOutOfTurn).map (fun r => r.1) = some (Invalid "not your turn"))) = some true := by
    decide
  obtain ⟨gs, hgs, h1⟩ := Option.map_eq_some'.mp h
  obtain ⟨hc, h2, h3⟩ := of_decide_eq_true h1
  obtain ⟨r2, hr2, e2⟩ := Option.map_eq_some'.mp h2
  obtain ⟨r3, hr3, e3⟩ := Option.map_eq_some'.mp h3
  have s2 : r2.2 = gs := by
    have hv : gs.Validate playNoCard = gs.validatePlayMoney playNoCard := by
      have hp : gs.TurnPhase ≠ TurnPhase.response := by
        intro hph
        simp [GameState.Validate, playNoCard, hph, Invalid] at hr2
        rw [← hr2] at e2
        simp [Invalid] at e2
      simp [GameState.Validate, playNoCard, hp]
    rw [hv] at hr2
    exact GameState.validatePlayMoney_state _ _ _ _ hr2
  have s3 : r3.2 = gs := by
    have hv : gs.Validate playOutOfTurn = gs.validatePlayMoney playOutOfTurn := by
      have hp : gs.TurnPhase ≠ TurnPhase.response := by
        intro hph
        simp [GameState.Validate, playOutOfTurn, hph, Invalid] at hr3
        rw [← hr3] at e3
        simp [Invalid] at e3
      simp [GameState.Validate, playOutOfTurn, hp]
    rw [hv] at hr3
    exact GameState.validatePlayMoney_state _ _ _ _ hr3
  have v2 : gs.Validate playNoCard = some (Invalid "card not in hand", gs) := by
    rw [hr2, ← e2, ← s2]
  have v3 : gs.Validate playOutOfTurn = some (Invalid "not your turn", gs) := by
    rw [hr3, ← e3, ← s3]
  refine ⟨gs, hgs, runCalls_reachable _ _ gs (Reachable.init _ ⟨_, _, _, rfl⟩) hgs, hc, v2, v3, ?_⟩
  simp [GameState.ExecuteAction, v2, Invalid]

/-- C24 in a game where the first player has banked three cards: the state is reachable, the
counter is 3, and a fourth banking, which would be accepted at the start of the turn, is
rejected with "maximum actions per turn exceeded". -/
theorem action_cap_witness :
    ∃ gs g, threePlaysTrace = some gs ∧ Reachable gs ∧ gs.ActionsPlayedThisTurn = 3 ∧
      gs.MaxActionsPerTurn = 3 ∧
      gs.Validate fourthPlay = some (Invalid "maximum actions per turn exceeded", g) ∧
      gs.ExecuteAction fourthPlay noShuffle
        = some ((ActionResult.failure "maximum actions per turn exceeded",
            some "maximum actions per turn exceeded"), g) := by
  have h : (threePlaysTrace.bind fun gs =>
      ((gs.withCounter 0).Validate fourthPlay).map fun r =>
        decide (gs.ActionsPlayedThisTurn = 3 ∧ r.1 = Valid)) = some true := by
    decide
  obtain ⟨gs, hgs, h1⟩ := Option.bind_eq_some.mp h
  obtain ⟨r, hr, h2⟩ := Option.map_eq_some'.mp h1
  obtain ⟨hc, hv⟩ := of_decide_eq_true h2
  have hreach : Reachable gs := runCalls_reachable _ _ gs (Reachable.init _ ⟨_, _, _, rfl⟩) hgs
  have hcap := action_cap gs hreach
  obtain ⟨g, hg, hx⟩ := (hcap.2.2.2 fourthPlay rfl hc).2 r.2 (by rw [hr, ← hv])
  exact ⟨gs, g, hgs, hreach, hc, hcap.2.2.1, hg, hx noShuffle⟩

/-! ## Failed executions -/

theorem removeFirstByID_perm :
    ∀ (l : List Card) (cardID : String) (c : Card) (rest : List Card),
      removeFirstByID l cardID = some (c, rest) → (rest ++ [c]).Perm l := by
  intro l cardID
  induction l with
  | nil => intro c rest h; simp [removeFirstByID] at h
  | cons x xs ih =>
    intro c rest h
    by_cases hx : x.GetID = cardID
    · simp only [removeFirstByID, hx, if_true, Option.some.injEq, Prod.mk.injEq] at h
      obtain ⟨rfl, rfl⟩ := h
      exact List.perm_append_singleton _ _
    · simp only [removeFirstByID, hx, if_false] at h
      split at h
      · next r rest1 heq =>
        simp only [Option.some.injEq, Prod.mk.injEq] at h
        obtain ⟨rfl, rfl⟩ := h
        exact (ih r rest1 heq).cons x
      · simp at h

theorem forall₂_same {α : Type} (R : α → α → Prop) (hrefl : ∀ a, R a a) :
    ∀ (l : List α), List.Forall₂ R l l := by
  intro l
  induction l with
  | nil => exact List.Forall₂.nil
  | cons x xs ih => exact List.Forall₂.cons (hrefl x) ih

theorem forall₂_set_of {α : Type} (R : α → α → Prop) (hrefl : ∀ a, R a a) :
    ∀ (l : List α) (i : Nat) (b : α), (∀ a, l[i]? = some a → R a b) →
      List.Forall₂ R l (l.set i b) := by
  intro l
  induction l with
  | nil => intro i b _; exact List.Forall₂.nil
  | cons x xs ih =>
    intro i b h
    cases i with
    | zero => exact List.Forall₂.cons (h x (by simp)) (forall₂_same R hrefl xs)
    | succ i =>
      exact List.Forall₂.cons (hrefl x) (ih i b (fun a ha => h a (by simpa using ha)))

theorem GetPropertySet_holdings (p : Player) (color : String) :
    (p.GetPropertySet color).2.holdings = p.holdings := by
  cases h : p.Properties.lookup color with
  | some ps => simp [Player.GetPropertySet, h]
  | none =>
    have h2 : (p.GetPropertySet color).2
        = { p with Properties := p.Properties ++ [(color, NewPropertySet color)] } := by
      simp [Player.GetPropertySet, h]
    rw [h2]
    have hc : ∀ c, (List.lookup c (p.Properties ++ [(color, NewPropertySet color)])).elim []
        (fun ps => ps.Cards) = (List.lookup c p.Properties).elim [] (fun ps => ps.Cards) := by
      intro c
      rw [lookup_append_one]
      cases hl : List.lookup c p.Properties with
      | some v => rfl
      | none =>
        by_cases hcc : c = color
        · simp [hcc, NewPropertySet]
        · simp [hcc]
    have hi : ∀ c, (List.lookup c (p.Properties ++ [(color, NewPropertySet color)])).elim []
        (fun ps => ps.Improvements)
          = (List.lookup c p.Properties).elim [] (fun ps => ps.Improvements) := by
      intro c
      rw [lookup_append_one]
      cases hl : List.lookup c p.Properties with
      | some v => rfl
      | none =>
        by_cases hcc : c = color
        · simp [hcc, NewPropertySet]
        · simp [hcc]
    have e1 : ∀ (q : Player), q.cardsOfColour
        = fun c => (List.lookup c q.Properties).elim [] (fun ps => ps.Cards) := by
      intro q
      funext c
      unfold Player.cardsOfColour
      cases List.lookup c q.Properties <;> rfl
    have e2 : ∀ (q : Player), q.improvementsOfColour
        = fun c => (List.lookup c q.Properties).elim [] (fun ps => ps.Improvements) := by
      intro q
      funext c
      unfold Player.improvementsOfColour
      cases List.lookup c q.Properties <;> rfl
    simp only [Player.holdings, e1, e2, Prod.mk.injEq, true_and]
    exact ⟨funext hc, funext hi⟩

theorem SetsLookedUp.unchanged (gs : GameState) : SetsLookedUp gs gs :=
  ⟨PlayersOnly.refl gs, rfl, rfl⟩

theorem SetsLookedUp.compose {a b c : GameState} (h1 : SetsLookedUp a b) (h2 : SetsLookedUp b c) :
    SetsLookedUp a c :=
  ⟨h1.1.trans h2.1, h2.2.1.trans h1.2.1, h2.2.2.trans h1.2.2⟩

/-- Players with the same hands hold the same cards in hand. -/
theorem forall₂_perm_of_hands :
    ∀ (l l1 : List Player), l1.map (fun p => p.Hand) = l.map (fun p => p.Hand) →
      List.Forall₂ (fun p p1 => p1.Hand.Perm p.Hand) l l1 := by
  intro l
  induction l with
  | nil =>
    intro l1 h
    cases l1 with
    | nil => exact List.Forall₂.nil
    | cons y ys => simp at h
  | cons x xs ih =>
    intro l1 h
    cases l1 with
    | nil => simp at h
    | cons y ys =>
      simp only [List.map_cons, List.cons.injEq] at h
      exact List.Forall₂.cons (h.1 ▸ List.Perm.refl _) (ih ys h.2)

theorem SetsLookedUp.keepsHoldings {a b : GameState} (h : SetsLookedUp a b) : KeepsHoldings a b :=
  ⟨h.2.1, forall₂_perm_of_hands _ _ h.2.2⟩

namespace GameState

theorem getPropertySetAt_lookedUp (gs : GameState) (i : Nat) (color : String)
    (ps : PropertySet) (gs1 : GameState) (h : gs.getPropertySetAt i color = some (ps, gs1)) :
    SetsLookedUp gs gs1 := by
  refine ⟨getPropertySetAt_playersOnly _ _ _ _ _ h, ?_⟩
  unfold getPropertySetAt at h
  split at h
  · next p hp =>
    simp only [Option.some.injEq, Prod.mk.injEq] at h
    rw [← h.2]
    exact ⟨map_set_of_eq Player.holdings _ _ _ _ hp (GetPropertySet_holdings p color),
      map_set_of_eq (fun p => p.Hand) _ _ _ _ hp (GetPropertySet_frame p color).2.2.1⟩
  · simp at h

/-- A card taken for a play and put back after property sets have been looked up: the players
hold what they held. -/
theorem takeCard_restored (gs : GameState) (action : Action) (i : Nat) (card : Card)
    (g1 g2 : GameState) (htake : gs.takeCard action = some (some (i, card, g1)))
    (hs : SetsLookedUp g1 g2) :
    PlayersOnly gs (g2.modifyPlayer i fun p => p.AddToHand card) ∧
    KeepsHoldings gs (g2.modifyPlayer i fun p => p.AddToHand card) := by
  refine ⟨((takeCard_playersOnly _ _ _ _ _ htake).trans hs.1).trans
    (modifyPlayer_playersOnly _ _ _), ?_⟩
  unfold takeCard at htake
  split at htake
  · simp at htake
  · next k player hplayer =>
    split at htake
    · simp at htake
    · next c player1 hrem =>
      simp only [Option.some.injEq, Prod.mk.injEq] at htake
      obtain ⟨rfl, rfl, rfl⟩ := htake
      have hp := (GetPlayer_some gs _ _ _ hplayer).2.1
      unfold Player.RemoveFromHand at hrem
      split at hrem
      · next removed rest heq =>
        simp only [Option.some.injEq, Prod.mk.injEq] at hrem
        obtain ⟨rfl, rfl⟩ := hrem
        have hperm := removeFirstByID_perm _ _ _ _ heq
        have hh1 : (gs.setPlayer k { player with Hand := rest }).Players.map Player.holdings
            = gs.Players.map Player.holdings :=
          map_set_of_eq Player.holdings _ _ _ _ hp rfl
        have hhand1 : (gs.setPlayer k { player with Hand := rest }).Players.map (fun p => p.Hand)
            = (gs.Players.map (fun p => p.Hand)).set k rest := by
          simp [List.map_set]
        have hlt : k < gs.Players.length := (List.getElem?_eq_some.mp hp).1
        have hq : ∃ q, g2.Players[k]? = some q ∧ q.Hand = rest := by
          have h2 : (g2.Players.map (fun p => p.Hand))[k]? = some rest := by
            rw [hs.2.2, hhand1]
            simp [hlt]
          rw [List.getElem?_map] at h2
          cases hq : g2.Players[k]? with
          | none => simp [hq] at h2
          | some q =>
            simp only [hq, Option.map_some', Option.some.injEq] at h2
            exact ⟨q, rfl, h2⟩
        obtain ⟨q, hq, hqh⟩ := hq
        have hfin : (g2.modifyPlayer k fun p => p.AddToHand removed).Players
            = g2.Players.set k (q.AddToHand removed) := by
          simp [modifyPlayer, hq]
        constructor
        · rw [hfin, map_set_of_eq Player.holdings g2.Players k q (q.AddToHand removed) hq rfl,
            hs.2.1, hh1]
        · have hmap : (g2.modifyPlayer k fun p => p.AddToHand removed).Players.map
              (fun p => p.Hand) = (gs.Players.map (fun p => p.Hand)).set k (rest ++ [removed]) := by
            rw [hfin, List.map_set, hs.2.2, hhand1, List.set_set]
            simp [Player.AddToHand, hqh]
          have key : List.Forall₂ (fun (h h1 : List Card) => h1.Perm h)
              (gs.Players.map (fun p => p.Hand))
              ((g2.modifyPlayer k fun p => p.AddToHand removed).Players.map (fun p => p.Hand)) := by
            rw [hmap]
            refine forall₂_set_of (fun (h h1 : List Card) => h1.Perm h)
              (fun a => List.Perm.refl a) _ _ _ ?_
            intro a ha
            rw [List.getElem?_map, hp] at ha
            simp only [Option.map_some', Option.some.injEq] at ha
            rw [← ha]
            exact hperm
          exact List.forall₂_map_right_iff.mp (List.forall₂_map_left_iff.mp key)
      · simp at hrem

theorem executeImprovement_failed (gs : GameState) (action : Action)
    (improvement label : String) (r : ActionResult) (gs1 : GameState)
    (h : gs.executeImprovement action improvement label = some (r, gs1))
    (hfail : r.Success = false) : PlayersOnly gs gs1 ∧ KeepsHoldings gs gs1 := by
  unfold executeImprovement at h
  split at h
  · simp at h
  · simp only [Option.some.injEq, Prod.mk.injEq] at h
    rw [← h.2]
    exact ⟨PlayersOnly.refl _, (SetsLookedUp.unchanged _).keepsHoldings⟩
  · next i card g1 htake =>
    split at h
    · next ps g2 name hg hn =>
      split at h
      · simp only [Option.some.injEq, Prod.mk.injEq] at h
        rw [← h.2]
        exact takeCard_restored gs action i card g1 g2 htake
          (getPropertySetAt_lookedUp _ _ _ _ _ hg)
      · simp only [Option.some.injEq, Prod.mk.injEq] at h
        rw [← h.1] at hfail
        simp [ActionResult.ok] at hfail
    · simp at h

theorem createPendingSteal_failed (gs : GameState) (action : Action) (stealComplete : Bool)
    (r : ActionResult) (gs1 : GameState)
    (h : gs.createPendingSteal action stealComplete = some (r, gs1))
    (hfail : r.Success = false) : PlayersOnly gs gs1 ∧ KeepsHoldings gs gs1 := by
  unfold createPendingSteal at h
  split at h
  · simp at h
  · simp only [Option.some.injEq, Prod.mk.injEq] at h
    rw [← h.2]
    exact ⟨PlayersOnly.refl _, (SetsLookedUp.unchanged _).keepsHoldings⟩
  · next i card g1 htake =>
    split at h
    · simp at h
    · split at h
      · next ps g2 player hg hp =>
        split at h
        · simp only [Option.some.injEq, Prod.mk.injEq] at h
          rw [← h.2]
          exact takeCard_restored gs action i card g1 g2 htake
            (getPropertySetAt_lookedUp _ _ _ _ _ hg)
        · simp only [Option.some.injEq, Prod.mk.injEq] at h
          rw [← h.1] at hfail
          simp [ActionResult.pending] at hfail
      · simp at h

theorem createPendingServiceChange_failed (gs : GameState) (action : Action)
    (r : ActionResult) (gs1 : GameState)
    (h : gs.createPendingServiceChange action = some (r, gs1))
    (hfail : r.Success = false) : PlayersOnly gs gs1 ∧ KeepsHoldings gs gs1 := by
  unfold createPendingServiceChange at h
  split at h
  · simp at h
  · simp only [Option.some.injEq, Prod.mk.injEq] at h
    rw [← h.2]
    exact ⟨PlayersOnly.refl _, (SetsLookedUp.unchanged _).keepsHoldings⟩
  · next i card g1 htake =>
    split at h
    · simp at h
    · next ps g2 hg =>
      split at h
      · simp at h
      · split at h
        · next ts g3 player hg3 hp =>
          have hs := (getPropertySetAt_lookedUp _ _ _ _ _ hg).compose
            (getPropertySetAt_lookedUp _ _ _ _ _ hg3)
          split at h
          · simp only [Option.some.injEq, Prod.mk.injEq] at h
            rw [← h.2]
            exact takeCard_restored gs action i card g1 g3 htake hs
          · split at h
            · simp only [Option.some.injEq, Prod.mk.injEq] at h
              rw [← h.2]
              exact takeCard_restored gs action i card g1 g3 htake hs
            · simp only [Option.some.injEq, Prod.mk.injEq] at h
              rw [← h.1] at hfail
              simp [ActionResult.pending] at hfail
        · simp at h

theorem executePlayProperty_failed (gs : GameState) (action : Action) (r : ActionResult)
    (gs1 : GameState) (h : gs.executePlayProperty action = some (r, gs1))
    (hfail : r.Success = false) : gs1 = gs := by
  unfold executePlayProperty at h
  split at h
  · simp at h
  · simp only [Option.some.injEq, Prod.mk.injEq] at h
    exact h.2.symm
  · split at h
    · simp only [Option.some.injEq, Prod.mk.injEq] at h
      rw [← h.1] at hfail
      simp [ActionResult.ok] at hfail
    · simp at h

theorem executePlayMoney_failed (gs : GameState) (action : Action) (r : ActionResult)
    (gs1 : GameState) (h : gs.executePlayMoney action = some (r, gs1))
    (hfail : r.Success = false) : gs1 = gs := by
  unfold executePlayMoney at h
  split at h
  · simp at h
  · simp only [Option.some.injEq, Prod.mk.injEq] at h
    exact h.2.symm
  · split at h
    · simp only [Option.some.injEq, Prod.mk.injEq] at h
      rw [← h.1] at hfail
      simp [ActionResult.ok] at hfail
    · simp at h

theorem executeSwipeIn_failed (gs : GameState) (action : Action) (rnd : Nat → Nat → Nat)
    (r : ActionResult) (gs1 : GameState) (h : gs.executeSwipeIn action rnd = some (r, gs1))
    (hfail : r.Success = false) : gs1 = gs := by
  unfold executeSwipeIn at h
  split at h
  · simp at h
  · simp only [Option.some.injEq, Prod.mk.injEq] at h
    exact h.2.symm
  · split at h
    · simp only [Option.some.injEq, Prod.mk.injEq] at h
      rw [← h.1] at hfail
      simp [ActionResult.ok] at hfail
    · simp at h

theorem executeFlipWildcard_failed (gs : GameState) (action : Action) (r : ActionResult)
    (gs1 : GameState) (h : gs.executeFlipWildcard action = some (r, gs1))
    (hfail : r.Success = false) : gs1 = gs := by
  unfold executeFlipWildcard at h
  split at h
  · simp at h
  · split at h
    · simp only [Option.some.injEq, Prod.mk.injEq] at h
      exact h.2.symm
    · simp only at h
      split at h
      · simp only [Option.some.injEq, Prod.mk.injEq] at h
        rw [← h.1] at hfail
        simp [ActionResult.ok] at hfail
      · simp at h
    · simp only [Option.some.injEq, Prod.mk.injEq] at h
      exact h.2.symm

theorem createPendingRent_failed (gs : GameState) (action : Action) (r : ActionResult)
    (gs1 : GameState) (h : gs.createPendingRent action = some (r, gs1))
    (hfail : r.Success = false) : gs1 = gs := by
  unfold createPendingRent at h
  split at h
  · simp at h
  · simp only [Option.some.injEq, Prod.mk.injEq] at h
    exact h.2.symm
  · split at h
    · simp at h
    · split at h
      · simp only [Option.some.injEq, Prod.mk.injEq] at h
        rw [← h.1] at hfail
        simp [ActionResult.pending] at hfail
      · simp at h
  · simp at h

theorem createPendingMissedTrain_failed (gs : GameState) (action : Action) (r : ActionResult)
    (gs1 : GameState) (h : gs.createPendingMissedTrain action = some (r, gs1))
    (hfail : r.Success = false) : gs1 = gs := by
  unfold createPendingMissedTrain at h
  split at h
  · simp at h
  · simp only [Option.some.injEq, Prod.mk.injEq] at h
    exact h.2.symm
  · split at h
    · simp only [Option.some.injEq, Prod.mk.injEq] at h
      rw [← h.1] at hfail
      simp [ActionResult.pending] at hfail
    · simp at h

theorem createPendingItsMyStop_failed (gs : GameState) (action : Action) (r : ActionResult)
    (gs1 : GameState) (h : gs.createPendingItsMyStop action = some (r, gs1))
    (hfail : r.Success = false) : gs1 = gs := by
  unfold createPendingItsMyStop at h
  split at h
  · simp at h
  · simp only [Option.some.injEq, Prod.mk.injEq] at h
    exact h.2.symm
  · split at h
    · simp only [Option.some.injEq, Prod.mk.injEq] at h
      rw [← h.1] at hfail
      simp [ActionResult.pending] at hfail
    · simp at h

theorem executeFareEvasion_failed (gs : GameState) (action : Action) (r : ActionResult)
    (gs1 : GameState) (h : gs.executeFareEvasion action = some (r, gs1))
    (hfail : r.Success = false) : gs1 = gs := by
  cases hpa : gs.PendingAction with
  | none =>
    simp only [executeFareEvasion, hpa, Option.some.injEq, Prod.mk.injEq] at h
    exact h.2.symm
  | some pa =>
    simp only [executeFareEvasion, hpa] at h
    split at h
    · simp at h
    · simp only [Option.some.injEq, Prod.mk.injEq] at h
      exact h.2.symm
    · split at h
      · simp at h
      · split at h
        · simp only [Option.some.injEq, Prod.mk.injEq] at h
          rw [← h.1] at hfail
          simp [ActionResult.ok] at hfail
        · simp only [Option.some.injEq, Prod.mk.injEq] at h
          rw [← h.1] at hfail
          simp [ActionResult.ok] at hfail

/-- A resolution that fails has at most looked property sets up. -/
theorem resolveForPlayer_failed [SliceSort] (gs : GameState) (pa : SubwayDeal.PendingAction)
    (playerID : String) (r : ActionResult) (gs1 : GameState)
    (h : gs.resolveForPlayer pa playerID = some (r, gs1)) (hfail : r.Success = false) :
    SetsLookedUp gs gs1 := by
  have hmoney : ∀ (r : ActionResult) (g : GameState), gs.resolveMoney pa playerID = some (r, g) →
      r.Success = true := by
    intro r g hm
    unfold resolveMoney at hm
    split at hm
    · simp at hm
    · simp only at hm
      split at hm
      · simp only [Option.some.injEq, Prod.mk.injEq] at hm
        rw [← hm.1]
        rfl
      · split at hm
        · simp only [Option.some.injEq, Prod.mk.injEq] at hm
          rw [← hm.1]
          rfl
        · simp at hm
  unfold resolveForPlayer at h
  split at h
  · rw [hmoney _ _ h] at hfail; simp at hfail
  · rw [hmoney _ _ h] at hfail; simp at hfail
  · rw [hmoney _ _ h] at hfail; simp at hfail
  · unfold resolvePowerBroker at h
    split at h
    · split at h
      · simp at h
      · split at h
        · next ps g2 heq =>
          simp only [Option.some.injEq, Prod.mk.injEq] at h
          rw [← h.2]
          exact getPropertySetAt_lookedUp _ _ _ _ _ heq
        · simp at h
      · split at h
        · simp at h
        · split at h
          · simp only [Option.some.injEq, Prod.mk.injEq] at h
            rw [← h.1] at hfail
            simp [ActionResult.ok] at hfail
          · simp at h
    · simp at h
  · unfold resolveLineClosure at h
    split at h
    · split at h
      · simp at h
      · split at h
        · simp at h
        · simp only [Option.some.injEq, Prod.mk.injEq] at h
          rw [← h.1] at hfail
          simp [ActionResult.ok] at hfail
    · simp at h
  · unfold resolveServiceChange at h
    split at h
    · split at h
      · simp at h
      · split at h
        · simp at h
        · split at h
          · split at h
            · split at h
              · simp at h
              · split at h
                · simp at h
                · simp only [Option.some.injEq, Prod.mk.injEq] at h
                  rw [← h.1] at hfail
                  simp [ActionResult.ok] at hfail
            · simp at h
          · simp at h
    · simp at h
  · simp only [Option.some.injEq, Prod.mk.injEq] at h
    rw [← h.2]
    exact SetsLookedUp.unchanged _

/-- A failed `ACCEPT` of an existing pending action: the response is recorded all the same. -/
theorem executeAccept_failed [SliceSort] (gs : GameState) (action : Action) (r : ActionResult)
    (gs1 : GameState) (pa : SubwayDeal.PendingAction) (hpa : gs.PendingAction = some pa)
    (h : gs.executeAccept action = some (r, gs1)) (hfail : r.Success = false) :
    ∃ g : GameState,
      g.Players.map Player.holdings = gs.Players.map Player.holdings ∧
      g.Players.map (fun p => p.Hand) = gs.Players.map (fun p => p.Hand) ∧
      g.Deck = gs.Deck ∧ g.DiscardPile = gs.DiscardPile ∧
      g.ActionsPlayedThisTurn = gs.ActionsPlayedThisTurn ∧ g.TurnPhase = gs.TurnPhase ∧
      g.PendingAction = some (pa.marked action.PlayerID) ∧
      gs1 = if g.AllTargetsResponded then g.ClearPendingAction else g := by
  rw [executeAccept_eq gs action pa hpa] at h
  split at h
  · simp at h
  · next result g heq =>
    simp only [Option.some.injEq, Prod.mk.injEq] at h
    rw [h.1] at heq
    have hs := resolveForPlayer_failed _ _ _ _ _ heq hfail
    have hm : gs.MarkResponded action.PlayerID
        = { gs with PendingAction := some (pa.marked action.PlayerID) } := by
      simp [MarkResponded, hpa, PendingAction.marked]
    rw [hm] at hs
    exact ⟨g, hs.2.1, hs.2.2, hs.1.deck, hs.1.discardPile, hs.1.counter, hs.1.turnPhase,
      hs.1.pending, h.2.symm⟩

end GameState

/-- C26, amended: a failed execution keeps the cards where they were.  When `Executor.Execute`
returns `Success = false`, every player has the same id, name, bank and property-set contents
(cards and improvements of every colour) as before and a hand with the same cards (a card taken
for the play is back, at the end of the hand); deck, discard pile and action counter are
unchanged.  Turn phase and pending action are unchanged too, except for an `ACCEPT` of an existing
pending action: that response is recorded although its effect failed, so the responder is
added to the responded ids, and the pending action is cleared, with the turn phase set to
actions, once no target is left to respond. -/
theorem failed_execution_keeps_cards [SliceSort] (gs : GameState) (action : Action)
    (rnd : Nat → Nat → Nat) (r : ActionResult) (gs1 : GameState)
    (h : gs.Execute action rnd = some (r, gs1)) (hfail : r.Success = false) :
    gs1.Players.map Player.holdings = gs.Players.map Player.holdings ∧
    List.Forall₂ (fun p p1 => p1.Hand.Perm p.Hand) gs.Players gs1.Players ∧
    gs1.Deck = gs.Deck ∧ gs1.DiscardPile = gs.DiscardPile ∧
    gs1.ActionsPlayedThisTurn = gs.ActionsPlayedThisTurn ∧
    ((action.Typ ≠ ActionType.Accept ∨ gs.PendingAction = none) →
      gs1.PendingAction = gs.PendingAction ∧ gs1.TurnPhase = gs.TurnPhase) ∧
    (action.Typ = ActionType.Accept → ∀ pa, gs.PendingAction = some pa →
      ((pa.marked action.PlayerID).pendingTargets = [] →
        gs1.PendingAction = none ∧ gs1.TurnPhase = TurnPhase.actions) ∧
      ((pa.marked action.PlayerID).pendingTargets ≠ [] →
        gs1.PendingAction = some (pa.marked action.PlayerID) ∧
        gs1.TurnPhase = gs.TurnPhase)) := by
  have hsame : gs1 = gs →
      gs1.Players.map Player.holdings = gs.Players.map Player.holdings ∧
      List.Forall₂ (fun p p1 => p1.Hand.Perm p.Hand) gs.Players gs1.Players ∧
      gs1.Deck = gs.Deck ∧ gs1.DiscardPile = gs.DiscardPile ∧
      gs1.ActionsPlayedThisTurn = gs.ActionsPlayedThisTurn ∧
      gs1.PendingAction = gs.PendingAction ∧ gs1.TurnPhase = gs.TurnPhase := by
    intro e
    rw [e]
    exact ⟨rfl, (SetsLookedUp.unchanged gs).keepsHoldings.2, rfl, rfl, rfl, rfl, rfl⟩
  have hkeep : PlayersOnly gs gs1 ∧ KeepsHoldings gs gs1 →
      gs1.Players.map Player.holdings = gs.Players.map Player.holdings ∧
      List.Forall₂ (fun p p1 => p1.Hand.Perm p.Hand) gs.Players gs1.Players ∧
      gs1.Deck = gs.Deck ∧ gs1.DiscardPile = gs.DiscardPile ∧
      gs1.ActionsPlayedThisTurn = gs.ActionsPlayedThisTurn ∧
      gs1.PendingAction = gs.PendingAction ∧ gs1.TurnPhase = gs.TurnPhase := by
    rintro ⟨hp, hk⟩
    exact ⟨hk.1, hk.2, hp.deck, hp.discardPile, hp.counter, hp.pending, hp.turnPhase⟩
  have hplain : action.Typ ≠ ActionType.Accept →
      (gs1.Players.map Player.holdings = gs.Players.map Player.holdings ∧
      List.Forall₂ (fun p p1 => p1.Hand.Perm p.Hand) gs.Players gs1.Players ∧
      gs1.Deck = gs.Deck ∧ gs1.DiscardPile = gs.DiscardPile ∧
      gs1.ActionsPlayedThisTurn = gs.ActionsPlayedThisTurn ∧
      gs1.PendingAction = gs.PendingAction ∧ gs1.TurnPhase = gs.TurnPhase) := by
    intro hne
    unfold GameState.Execute at h
    split at h
    · exact hsame (GameState.executePlayProperty_failed _ _ _ _ h hfail)
    · exact hsame (GameState.executePlayMoney_failed _ _ _ _ h hfail)
    · exact hsame (GameState.executeSwipeIn_failed _ _ _ _ _ h hfail)
    · exact hkeep (GameState.executeImprovement_failed _ _ _ _ _ _ h hfail)
    · exact hkeep (GameState.executeImprovement_failed _ _ _ _ _ _ h hfail)
    · exact hsame (GameState.executeFlipWildcard_failed _ _ _ _ h hfail)
    · simp only [Option.some.injEq, Prod.mk.injEq] at h
      exact hsame h.2.symm
    · exact hsame (GameState.createPendingRent_failed _ _ _ _ h hfail)
    · exact hkeep (GameState.createPendingSteal_failed _ _ _ _ _ h hfail)
    · exact hkeep (GameState.createPendingSteal_failed _ _ _ _ _ h hfail)
    · exact hkeep (GameState.createPendingServiceChange_failed _ _ _ _ h hfail)
    · exact hsame (GameState.createPendingMissedTrain_failed _ _ _ _ h hfail)
    · exact hsame (GameState.createPendingItsMyStop_failed _ _ _ _ h hfail)
    · next ht => exact absurd ht hne
    · exact hsame (GameState.executeFareEvasion_failed _ _ _ _ h hfail)
    · simp only [Option.some.injEq, Prod.mk.injEq] at h
      exact hsame h.2.symm
  by_cases ht : action.Typ = ActionType.Accept
  · have he : gs.Execute action rnd = gs.executeAccept action := by
      simp [GameState.Execute, ht]
    rw [he] at h
    cases hpa : gs.PendingAction with
    | none =>
      have e : gs1 = gs := by
        simp only [GameState.executeAccept, hpa, Option.some.injEq, Prod.mk.injEq] at h
        exact h.2.symm
      obtain ⟨a1, a2, a3, a4, a5, a6, a7⟩ := hsame e
      refine ⟨a1, a2, a3, a4, a5, fun _ => ⟨a6.trans hpa, a7⟩, ?_⟩
      intro _ pa hpa2
      simp at hpa2
    | some pa =>
      obtain ⟨g, hk1, hk2, hd, hdp, hc, htp, hg, hgs1⟩ :=
        GameState.executeAccept_failed gs action r gs1 pa hpa h hfail
      have hk : gs1.Players.map Player.holdings = gs.Players.map Player.holdings ∧
          List.Forall₂ (fun p p1 => p1.Hand.Perm p.Hand) gs.Players gs1.Players := by
        have hplayers : gs1.Players = g.Players := by
          rw [hgs1]; split <;> rfl
        rw [hplayers]
        exact ⟨hk1, forall₂_perm_of_hands _ _ hk2⟩
      have hfields : g.Deck = gs.Deck ∧ g.DiscardPile = gs.DiscardPile ∧
          g.ActionsPlayedThisTurn = gs.ActionsPlayedThisTurn ∧ g.TurnPhase = gs.TurnPhase :=
        ⟨hd, hdp, hc, htp⟩
      have hall : g.AllTargetsResponded = true ↔ (pa.marked action.PlayerID).pendingTargets = [] := by
        simp [GameState.AllTargetsResponded, GameState.GetPendingTargets, hg]
      refine ⟨hk.1, hk.2, ?_, ?_, ?_, ?_, ?_⟩
      · rw [hgs1]; split <;> exact hfields.1
      · rw [hgs1]; split <;> exact hfields.2.1
      · rw [hgs1]; split <;> exact hfields.2.2.1
      · rintro (hne | hnone)
        · exact absurd ht hne
        · simp at hnone
      · intro _ pa2 hpa2
        have : pa2 = pa := (Option.some.inj hpa2).symm
        subst this
        constructor
        · intro hempty
          rw [hgs1, if_pos (hall.mpr hempty)]
          exact ⟨rfl, rfl⟩
        · intro hne
          rw [hgs1, if_neg (fun hc => hne (hall.mp hc))]
          exact ⟨hg, hfields.2.2.2⟩
  · obtain ⟨a1, a2, a3, a4, a5, a6, a7⟩ := hplain ht
    exact ⟨a1, a2, a3, a4, a5, fun _ => ⟨a6, a7⟩, fun hc => absurd hc ht⟩

/-- C26 as stated fails: in a game reached by the engine's own calls, the second player accepts
a Power Broker that names a card they do not own.  The executor returns `Success = false`
("target card not found") and the engine returns it with a nil error, yet the pending action
has been cleared and the turn phase has moved from response to actions. -/
theorem failed_accept_counterexample :
    ∃ gs r gs1, emptyStealTrace = some gs ∧ Reachable gs ∧
      gs.Execute acceptBob noShuffle = some (r, gs1) ∧ r.Success = false ∧
      r.Error = "target card not found" ∧
      (∃ gs2, gs.ExecuteAction acceptBob noShuffle = some ((r, none), gs2) ∧
        gs2.PendingAction = none ∧ gs2.TurnPhase = TurnPhase.actions) ∧
      gs.PendingAction.isSome = true ∧ gs.TurnPhase = TurnPhase.response ∧
      gs1.PendingAction = none ∧ gs1.TurnPhase = TurnPhase.actions := by
  have h : (emptyStealTrace.bind fun gs =>
      (gs.Execute acceptBob noShuffle).bind fun x =>
        (gs.ExecuteAction acceptBob noShuffle).map fun y =>
          decide (x.1.Success = false ∧ x.1.Error = "target card not found" ∧
            y.1 = (x.1, none) ∧ y.2.PendingAction = none ∧ y.2.TurnPhase = TurnPhase.actions ∧
            gs.PendingAction.isSome = true ∧ gs.TurnPhase = TurnPhase.response ∧
            x.2.PendingAction = none ∧ x.2.TurnPhase = TurnPhase.actions)) = some true := by
    decide
  obtain ⟨gs, hgs, h1⟩ := Option.bind_eq_some.mp h
  obtain ⟨x, hx, h2⟩ := Option.bind_eq_some.mp h1
  obtain ⟨y, hy, h3⟩ := Option.map_eq_some'.mp h2
  obtain ⟨a, b, c, d, e, f, g, i, j⟩ := of_decide_eq_true h3
  refine ⟨gs, x.1, x.2, hgs, runCalls_reachable _ _ gs (Reachable.init _ ⟨_, _, _, rfl⟩) hgs,
    hx, a, b, ⟨y.2, ?_, d, e⟩, f, g, i, j⟩
  rw [hy, ← c]

/-- C26 amended, on `TestExecutorPowerBrokerCompleteSet`: Alice's Power Broker against Bob's
complete blue set fails, and afterwards all players hold what they held, the piles and the
counter are as before, and so are turn phase and pending action. -/
theorem failed_execution_keeps_cards_witness :
    ∃ r gs1, completeSetState.Execute powerBrokerOnComplete noShuffle = some (r, gs1) ∧
      r.Success = false ∧ r.Error = "cannot steal from complete set" ∧
      gs1.Players.map Player.holdings = completeSetState.Players.map Player.holdings ∧
      List.Forall₂ (fun p p1 => p1.Hand.Perm p.Hand) completeSetState.Players gs1.Players ∧
      gs1.Deck = completeSetState.Deck ∧ gs1.DiscardPile = completeSetState.DiscardPile ∧
      gs1.ActionsPlayedThisTurn = completeSetState.ActionsPlayedThisTurn ∧
      gs1.PendingAction = completeSetState.PendingAction ∧
      gs1.TurnPhase = completeSetState.TurnPhase := by
  have h : ((completeSetState.Execute powerBrokerOnComplete noShuffle).map fun x =>
      decide (x.1.Success = false ∧ x.1.Error = "cannot steal from complete set")) = some true := by
    decide
  obtain ⟨x, hx, h1⟩ := Option.map_eq_some'.mp h
  obtain ⟨a, b⟩ := of_decide_eq_true h1
  obtain ⟨k1, k2, k3, k4, k5, k6, _⟩ :=
    failed_execution_keeps_cards completeSetState powerBrokerOnComplete noShuffle x.1 x.2 hx a
  exact ⟨x.1, x.2, hx, a, b, k1, k2, k3, k4, k5, (k6 (Or.inl (by decide))).1,
    (k6 (Or.inl (by decide))).2⟩

/-! ## Draws from an empty deck -/

namespace GameState

/-- The executor's `drawCard` loop round in numbers: a card comes whenever deck and discard pile
together hold one, and then it is taken from the two piles into the hand of player `i`. -/
theorem drawInto_count (gs : GameState) (i : Nat) (rnd : Nat → Nat) (p : Player)
    (hp : gs.Players[i]? = some p) :
    ∃ p1, (gs.drawInto i rnd).Players[i]? = some p1 ∧
      p1.Hand.length = p.Hand.length + min 1 (gs.Deck.length + gs.DiscardPile.length) ∧
      (gs.drawInto i rnd).Deck.length + (gs.drawInto i rnd).DiscardPile.length
        = gs.Deck.length + gs.DiscardPile.length
          - min 1 (gs.Deck.length + gs.DiscardPile.length) := by
  have hpl : (gs.refill rnd).Players = gs.Players := by
    unfold refill
    split <;> rfl
  have hsum : (gs.refill rnd).Deck.length + (gs.refill rnd).DiscardPile.length
      = gs.Deck.length + gs.DiscardPile.length := by
    unfold refill
    split
    · next h0 => simp [shuffle_length, h0]
    · rfl
  have hempty : (gs.refill rnd).Deck = [] → gs.Deck.length + gs.DiscardPile.length = 0 := by
    unfold refill
    split
    · next h0 =>
      intro h
      have := congrArg List.length h
      simp only [shuffle_length, List.length_nil] at this
      omega
    · next h0 =>
      intro h
      exact absurd (by rw [h]; rfl) h0
  unfold drawInto drawCard
  rcases List.eq_nil_or_concat (gs.refill rnd).Deck with hnil | ⟨init, card, hcons⟩
  · have h0 := hempty hnil
    simp only [hnil, List.getLast?_nil]
    refine ⟨p, by rw [hpl]; exact hp, by rw [h0]; rfl, ?_⟩
    rw [hnil] at hsum
    simp only [List.length_nil] at hsum ⊢
    omega
  · have hpos : 0 < gs.Deck.length + gs.DiscardPile.length := by
      rw [← hsum, hcons]
      simp
    have hl : (gs.refill rnd).Deck.getLast? = some card := by rw [hcons]; simp
    simp only [hl]
    have hp2 : ({ gs.refill rnd with Deck := (gs.refill rnd).Deck.dropLast } : GameState).Players[i]?
        = some p := by
      show (gs.refill rnd).Players[i]? = some p
      rw [hpl]; exact hp
    simp only [modifyPlayer, hp2, setPlayer]
    refine ⟨p.AddToHand card, getElem?_set_same _ _ _ _ hp2, ?_, ?_⟩
    · simp only [Player.AddToHand, List.length_append, List.length_singleton]
      omega
    · have hd : (gs.refill rnd).Deck.dropLast.length + 1 = (gs.refill rnd).Deck.length := by
        rw [hcons]; simp
      show (gs.refill rnd).Deck.dropLast.length + (gs.refill rnd).DiscardPile.length = _
      omega

/-- The draw of Swipe In in numbers: the played card goes to the discard pile first, and then
the two `drawCard` rounds bring min(2, deck size + discard size) cards into the hand, the sizes
taken at the time of the draw. -/
theorem swipeIn_draws (gs : GameState) (action : Action) (rnd : Nat → Nat → Nat)
    (i : Nat) (player player1 : Player) (card : Card)
    (hp : gs.GetPlayer action.PlayerID = some (i, player))
    (hr : player.RemoveFromHand action.GetCardID = some (card, player1)) :
    ∃ r gs1 p1, gs.executeSwipeIn action rnd = some (r, gs1) ∧ r.Success = true ∧
      gs1.Players[i]? = some p1 ∧
      p1.Hand.length
        = player1.Hand.length + min 2 (gs.Deck.length + (gs.DiscardPile.length + 1)) := by
  have hpi := (GetPlayer_some gs _ _ _ hp).2.1
  have h1 : ((gs.setPlayer i player1).discard card).Players[i]? = some player1 :=
    getElem?_set_same _ _ _ _ hpi
  obtain ⟨p1, hp1, hh1, hs1⟩ := drawInto_count _ i (rnd 0) player1 h1
  obtain ⟨p2, hp2, hh2, hs2⟩ := drawInto_count _ i (rnd 1) p1 hp1
  have hname : (gs.setPlayer i player1).nameAt i = some player1.Name := by
    have : (gs.setPlayer i player1).Players[i]? = some player1 := getElem?_set_same _ _ _ _ hpi
    simp only [nameAt, this]
  have hex : gs.executeSwipeIn action rnd
      = some (ActionResult.ok (player1.Name ++ " used Swipe In and drew 2 cards"),
          ((((gs.setPlayer i player1).discard card).drawInto i (rnd 0)).drawInto i
            (rnd 1)).countAction) := by
    simp only [executeSwipeIn, takeCard, hp, hr, hname]
  refine ⟨_, _, p2, hex, rfl, hp2, ?_⟩
  rw [hh2, hh1, hs1]
  simp only [discard, setPlayer, List.length_append, List.length_singleton]
  omega

/-- The draw of `StartTurn` in numbers: min(k, deck size) cards reach the hand, and the discard
pile is left alone. -/
theorem StartTurn_count (gs : GameState) (i : Nat) (player : Player)
    (hcur : gs.GetCurrentPlayer = some (i, player)) (k : Nat)
    (hk : k = if player.Hand.length = 0 then 5 else 2) :
    ∃ gs1 player1, gs.StartTurn = some gs1 ∧ gs1.Players[i]? = some player1 ∧
      player1.Hand.length = player.Hand.length + min k gs.Deck.length ∧
      gs1.Deck.length = gs.Deck.length - k ∧ gs1.DiscardPile = gs.DiscardPile := by
  have hpi : gs.Players[i]? = some player := by
    unfold GetCurrentPlayer at hcur
    split at hcur
    · next q hq =>
      simp only [Option.some.injEq, Prod.mk.injEq] at hcur
      rw [← hcur.1, ← hcur.2]
      exact hq
    · simp at hcur
  refine ⟨_, _, StartTurn_eq gs i player hcur k hk, getElem?_set_same _ _ _ _ hpi, ?_, ?_, rfl⟩
  · simp only [List.length_append, List.length_reverse, List.length_drop]
    omega
  · simp only [List.length_take]
    omega

end GameState

/-- C31 (fails on the code for `StartTurn`): the start-of-turn draw takes min(k, deck size)
cards and never touches the discard pile, whereas the executor's `drawCard`, used by Swipe In,
first refills an empty deck from the discard pile.  In the game reached from `NewEngine` by
`StartTurn` and 47 calls of `EndTurn` the deck is empty and the discard pile holds 90 cards;
`StartTurn` there draws nothing for the current player, and `EndTurn` there starts the next
player's turn without a card drawn, the discard pile grown to 92. -/
theorem start_turn_never_recycles :
    (∀ (gs : GameState) (i : Nat) (player : Player) (k : Nat),
      gs.GetCurrentPlayer = some (i, player) → k = (if player.Hand.length = 0 then 5 else 2) →
      ∃ gs1 player1, gs.StartTurn = some gs1 ∧ gs1.Players[i]? = some player1 ∧
        player1.Hand.length = player.Hand.length + min k gs.Deck.length ∧
        gs1.Deck.length = gs.Deck.length - k ∧ gs1.DiscardPile = gs.DiscardPile) ∧
    (∃ gs gs1 gs2, drawnOutTrace = some gs ∧ Reachable gs ∧
      gs.Deck = [] ∧ gs.DiscardPile.length = 90 ∧ gs.CurrentPlayerIndex = 1 ∧
      gs.Players.map (fun p => p.Hand.length) = [7, 9] ∧
      gs.StartTurn = some gs1 ∧ gs1.Players.map (fun p => p.Hand.length) = [7, 9] ∧
      gs1.Deck = [] ∧ gs1.DiscardPile = gs.DiscardPile ∧
      gs.EndTurn = some gs2 ∧ gs2.CurrentPlayerIndex = 0 ∧
      gs2.Players.map (fun p => p.Hand.length) = [7, 7] ∧ gs2.Deck = [] ∧
      gs2.DiscardPile.length = 92) := by
  refine ⟨fun gs i player k hcur hk => GameState.StartTurn_count gs i player hcur k hk, ?_⟩
  have h : (drawnOutTrace.bind fun gs => gs.StartTurn.bind fun gs1 => gs.EndTurn.map fun gs2 =>
      decide (gs.Deck = [] ∧ gs.DiscardPile.length = 90 ∧ gs.CurrentPlayerIndex = 1 ∧
        gs.Players.map (fun p => p.Hand.length) = [7, 9] ∧
        gs1.Players.map (fun p => p.Hand.length) = [7, 9] ∧ gs1.Deck = [] ∧
        gs1.DiscardPile = gs.DiscardPile ∧ gs2.CurrentPlayerIndex = 0 ∧
        gs2.Players.map (fun p => p.Hand.length) = [7, 7] ∧ gs2.Deck = [] ∧
        gs2.DiscardPile.length = 92)) = some true := by
    decide
  obtain ⟨gs, hgs, h1⟩ := Option.bind_eq_some.mp h
  obtain ⟨gs1, hgs1, h2⟩ := Option.bind_eq_some.mp h1
  obtain ⟨gs2, hgs2, h3⟩ := Option.map_eq_some'.mp h2
  obtain ⟨a, b, c, d, e, f, g, i, j, k, l⟩ := of_decide_eq_true h3
  exact ⟨gs, gs1, gs2, hgs,
    runCalls_reachable _ _ gs (Reachable.init _ ⟨_, _, _, rfl⟩) hgs, a, b, c, d, hgs1, e, f, g,
    hgs2, i, j, k, l⟩

/-! ## End of turn -/

/-- The hand-limit loop in closed form: `n` rounds move the last `n` cards of the hand (all of
them when the hand is shorter), last card first, to the end of the discard pile. -/
theorem discardLoop_eq :
    ∀ (n : Nat) (hand pile : List Card),
      discardLoop n hand pile
        = (hand.take (hand.length - n), pile ++ (hand.drop (hand.length - n)).reverse) := by
  intro n
  induction n with
  | zero => intro hand pile; simp [discardLoop]
  | succ n ih =>
    intro hand pile
    rcases List.eq_nil_or_concat hand with rfl | ⟨init, card, rfl⟩
    · simp [discardLoop]
    · simp only [List.concat_eq_append]
      have hl : (init ++ [card]).getLast? = some card := by simp
      simp only [discardLoop, hl, List.dropLast_concat, ih]
      have h1 : (init ++ [card]).length - (n + 1) = init.length - n := by simp
      rw [h1]
      have h2 : init.length - n ≤ init.length := Nat.sub_le _ _
      rw [List.take_append_of_le_length h2, List.drop_append_of_le_length h2]
      simp

/-- The loop of `EndTurn` keeps the first seven cards of the hand. -/
theorem discardLoop_limit (hand pile : List Card) :
    discardLoop (hand.length - 7) hand pile = (hand.take 7, pile ++ (hand.drop 7).reverse) := by
  rw [discardLoop_eq]
  by_cases h : hand.length ≤ 7
  · have h0 : hand.length - (hand.length - 7) = hand.length := by omega
    rw [h0, List.take_of_length_le (le_refl _), List.take_of_length_le h,
      List.drop_of_length_le (le_refl _), List.drop_of_length_le h]
  · have h0 : hand.length - (hand.length - 7) = 7 := by omega
    rw [h0]

namespace GameState

/-- `EndTurn` in closed form, for at least two players: the current player `i` keeps the first
seven cards, the rest goes to the discard pile, and the player after them draws `k` cards. -/
theorem EndTurn_eq (gs : GameState) (i : Nat) (player next : Player)
    (hcur : gs.GetCurrentPlayer = some (i, player)) (hn : 2 ≤ gs.Players.length)
    (hnext : gs.Players[(i + 1) % gs.Players.length]? = some next) (k : Nat)
    (hk : k = if next.Hand.length = 0 then 5 else 2) :
    gs.EndTurn = some { gs with
      Players := (gs.Players.set i { player with Hand := player.Hand.take 7 }).set
        ((i + 1) % gs.Players.length)
        { next with Hand := next.Hand ++ (gs.Deck.drop (gs.Deck.length - k)).reverse }
      Deck := gs.Deck.take (gs.Deck.length - k)
      DiscardPile := gs.DiscardPile ++ (player.Hand.drop 7).reverse
      CurrentPlayerIndex := (i + 1) % gs.Players.length
      ActionsPlayedThisTurn := 0
      TurnPhase := TurnPhase.actions } := by
  have hi : gs.CurrentPlayerIndex = i ∧ gs.Players[i]? = some player := by
    unfold GetCurrentPlayer at hcur
    split at hcur
    · next q hq =>
      simp only [Option.some.injEq, Prod.mk.injEq] at hcur
      rw [← hcur.1, ← hcur.2]
      exact ⟨rfl, hq⟩
    · simp at hcur
  have hlt : i < gs.Players.length := by
    by_contra hge
    rw [List.getElem?_eq_none (by omega)] at hi
    simp at hi
  have hne : i ≠ (i + 1) % gs.Players.length := by
    intro heq
    by_cases hlast : i + 1 < gs.Players.length
    · rw [Nat.mod_eq_of_lt hlast] at heq
      omega
    · have hlen : i + 1 = gs.Players.length := by omega
      rw [hlen, Nat.mod_self] at heq
      omega
  have hlen0 : ¬ gs.Players.length = 0 := by omega
  have hnext2 : (gs.Players.set i { player with Hand := player.Hand.take 7 })[
      (i + 1) % gs.Players.length]? = some next := by
    rw [getElem?_set_diff _ _ _ _ hne]
    exact hnext
  subst hk
  simp only [EndTurn, hcur, discardLoop_limit, NextPlayer, List.length_set, hlen0, if_false,
    hi.1, StartTurn]
  simp only [GetCurrentPlayer, hnext2, dealLoop_eq]

end GameState

/-- C32: end of turn.  For every state with at least 2 players whose current player, at index
i, holds the hand `player.Hand` of n cards, `Engine.EndTurn` returns a state in which that
player's hand is the first min(7, n) cards of the previous hand in the same order, the removed
cards have been appended to the discard pile (the last card of the hand first), the current
player index is (i + 1) mod the number of players, and the per-turn action counter is 0; the
turn phase is actions, since the next player's turn has been started. -/
theorem end_turn (gs : GameState) (i : Nat) (player : Player)
    (hcur : gs.GetCurrentPlayer = some (i, player)) (hn : 2 ≤ gs.Players.length) :
    ∃ (gs1 : GameState) (player1 : Player),
      gs.EndTurn = some gs1 ∧
      gs1.Players[i]? = some player1 ∧
      player1.Hand = player.Hand.take (min 7 player.Hand.length) ∧
      player1.Hand.length = min 7 player.Hand.length ∧
      player1.Hand ++ player.Hand.drop 7 = player.Hand ∧
      gs1.DiscardPile = gs.DiscardPile ++ (player.Hand.drop 7).reverse ∧
      gs1.CurrentPlayerIndex = (i + 1) % gs.Players.length ∧
      gs1.CurrentPlayerIndex ≠ i ∧
      gs1.ActionsPlayedThisTurn = 0 ∧
      gs1.TurnPhase = TurnPhase.actions ∧
      player1.ID = player.ID ∧ player1.Name = player.Name ∧ player1.Bank = player.Bank ∧
      player1.Properties = player.Properties ∧
      gs1.Players.length = gs.Players.length := by
  have hlen0 : 0 < gs.Players.length := by omega
  have hj : (i + 1) % gs.Players.length < gs.Players.length := Nat.mod_lt _ hlen0
  obtain ⟨next, hnext⟩ : ∃ next, gs.Players[(i + 1) % gs.Players.length]? = some next :=
    ⟨_, List.getElem?_eq_getElem hj⟩
  have hi : gs.Players[i]? = some player := by
    unfold GameState.GetCurrentPlayer at hcur
    split at hcur
    · next q hq =>
      simp only [Option.some.injEq, Prod.mk.injEq] at hcur
      rw [← hcur.1, ← hcur.2]
      exact hq
    · simp at hcur
  have hlt : i < gs.Players.length := by
    by_contra hge
    rw [List.getElem?_eq_none (by omega)] at hi
    simp at hi
  have hne : i ≠ (i + 1) % gs.Players.length := by
    intro heq
    by_cases hlast : i + 1 < gs.Players.length
    · rw [Nat.mod_eq_of_lt hlast] at heq
      omega
    · have hlen : i + 1 = gs.Players.length := by omega
      rw [hlen, Nat.mod_self] at heq
      omega
  have htake : player.Hand.take (min 7 player.Hand.length) = player.Hand.take 7 := by
    by_cases h : player.Hand.length ≤ 7
    · rw [Nat.min_eq_right h, List.take_of_length_le (le_refl _), List.take_of_length_le h]
    · rw [Nat.min_eq_left (by omega)]
  refine ⟨_, { player with Hand := player.Hand.take 7 },
    GameState.EndTurn_eq gs i player next hcur hn hnext _ rfl, ?_, htake.symm, ?_, ?_, rfl, rfl,
    ?_, rfl, rfl, rfl, rfl, rfl, rfl, ?_⟩
  · simp only
    rw [getElem?_set_diff _ _ _ _ hne.symm]
    exact getElem?_set_same _ _ _ _ hi
  · simp
  · exact List.take_append_drop 7 player.Hand
  · exact fun h => hne h.symm
  · simp

/-- C32 on a three-player state in the manner of `TestEngineHandLimit`: the last player holds
ten cards and ends the turn; they keep the first seven, the three others go to the discard pile
(last card first), the turn passes to the first player (index 0 = (2 + 1) mod 3) and the action
counter, 2 before, is 0. -/
theorem end_turn_witness :
    2 ≤ handLimitState.Players.length ∧
    ∃ (gs1 : GameState) (player1 : Player),
      handLimitState.EndTurn = some gs1 ∧
      gs1.Players[2]? = some player1 ∧
      player1.Hand = (tenCardPlayer "player_2" "Carol").Hand.take
        (min 7 (tenCardPlayer "player_2" "Carol").Hand.length) ∧
      player1.Hand.length = min 7 (tenCardPlayer "player_2" "Carol").Hand.length ∧
      player1.Hand ++ (tenCardPlayer "player_2" "Carol").Hand.drop 7
        = (tenCardPlayer "player_2" "Carol").Hand ∧
      gs1.DiscardPile = handLimitState.DiscardPile
        ++ ((tenCardPlayer "player_2" "Carol").Hand.drop 7).reverse ∧
      gs1.CurrentPlayerIndex = (2 + 1) % handLimitState.Players.length ∧
      gs1.CurrentPlayerIndex ≠ 2 ∧
      gs1.ActionsPlayedThisTurn = 0 ∧
      gs1.TurnPhase = TurnPhase.actions ∧
      player1.ID = (tenCardPlayer "player_2" "Carol").ID ∧
      player1.Name = (tenCardPlayer "player_2" "Carol").Name ∧
      player1.Bank = (tenCardPlayer "player_2" "Carol").Bank ∧
      player1.Properties = (tenCardPlayer "player_2" "Carol").Properties ∧
      gs1.Players.length = handLimitState.Players.length :=
  ⟨by decide, end_turn handLimitState 2 (tenCardPlayer "player_2" "Carol") (by decide) (by decide)⟩

/-- The numbers of the hand-limit state after `EndTurn`: a hand of seven, the discard pile `x, m9, m8, m7`, and
the first player's hand of five drawn from a deck of three holds three cards. -/
theorem end_turn_example :
    (handLimitState.EndTurn.map fun gs1 =>
      (gs1.Players.map fun p => p.Hand.map Card.GetID, gs1.DiscardPile.map Card.GetID,
        gs1.Deck, gs1.CurrentPlayerIndex, gs1.ActionsPlayedThisTurn))
      = some ([["d2", "d1", "d0"], [], ["m0", "m1", "m2", "m3", "m4", "m5", "m6"]],
          ["x", "m9", "m8", "m7"], [], 0, 0) := by
  decide

/-! ## Turn boundaries during a pending action -/

namespace GameState

/-- `StartTurn` sets the turn phase to actions whatever the state. -/
theorem StartTurn_phase (gs gs1 : GameState) (h : gs.StartTurn = some gs1) :
    gs1.TurnPhase = TurnPhase.actions := by
  unfold StartTurn at h
  split at h
  · simp at h
  · simp only [Option.some.injEq] at h
    rw [← h]

/-- `EndTurn` never touches the pending action and ends in the action phase of the next
player. -/
theorem EndTurn_pending (gs gs1 : GameState) (h : gs.EndTurn = some gs1) :
    gs1.PendingAction = gs.PendingAction ∧ gs1.TurnPhase = TurnPhase.actions := by
  unfold EndTurn at h
  split at h
  · simp at h
  · simp only at h
    split at h
    · simp at h
    · next g hn =>
      refine ⟨?_, StartTurn_phase g gs1 h⟩
      rw [StartTurn_pending g gs1 h]
      unfold NextPlayer at hn
      split at hn
      · simp at hn
      · simp only [Option.some.injEq] at hn
        rw [← hn]

end GameState

/-- C34 (fails on the code): `Engine.StartTurn` and `Engine.EndTurn` leave the pending action
as it is and end with the turn phase actions, so from every state with a pending action they
lead to a state with a pending action outside the response phase.  This happens in a game
reached from `NewEngine`: the first player plays It's My Stop, the state has a pending action
in the response phase, and after `EndTurn` (which the server calls on `END_TURN` without
validating) as well as after `StartTurn` the pending action is still there, unanswered, with the
turn phase actions. -/
theorem turn_boundary_keeps_pending :
    (∀ gs gs1 : GameState, gs.StartTurn = some gs1 →
      gs1.PendingAction = gs.PendingAction ∧ gs1.TurnPhase = TurnPhase.actions) ∧
    (∀ gs gs1 : GameState, gs.EndTurn = some gs1 →
      gs1.PendingAction = gs.PendingAction ∧ gs1.TurnPhase = TurnPhase.actions) ∧
    (∃ gs gs1 gs2 pa, stopTrace = some gs ∧ Reachable gs ∧ PendingOnlyInResponse gs ∧
      gs.PendingAction = some pa ∧ pa.TargetPlayerIDs = ["player_1"] ∧ pa.RespondedIDs = [] ∧
      gs.TurnPhase = TurnPhase.response ∧
      gs.EndTurn = some gs1 ∧ Reachable gs1 ∧ gs1.PendingAction = some pa ∧
      gs1.TurnPhase = TurnPhase.actions ∧ gs1.CurrentPlayerIndex = 1 ∧
      ¬ PendingOnlyInResponse gs1 ∧
      gs.StartTurn = some gs2 ∧ Reachable gs2 ∧ gs2.PendingAction = some pa ∧
      gs2.TurnPhase = TurnPhase.actions ∧ ¬ PendingOnlyInResponse gs2) := by
  refine ⟨fun gs gs1 h => ⟨GameState.StartTurn_pending gs gs1 h, GameState.StartTurn_phase gs gs1 h⟩,
    GameState.EndTurn_pending, ?_⟩
  have h : (stopTrace.bind fun gs => gs.PendingAction.bind fun pa =>
      gs.EndTurn.bind fun gs1 => gs.StartTurn.map fun gs2 =>
        decide (pa.TargetPlayerIDs = ["player_1"] ∧ pa.RespondedIDs = [] ∧
          gs.TurnPhase = TurnPhase.response ∧ gs1.PendingAction = some pa ∧
          gs1.TurnPhase = TurnPhase.actions ∧ gs1.CurrentPlayerIndex = 1 ∧
          gs2.PendingAction = some pa ∧ gs2.TurnPhase = TurnPhase.actions)) = some true := by
    decide
  obtain ⟨gs, hgs, h1⟩ := Option.bind_eq_some.mp h
  obtain ⟨pa, hpa, h2⟩ := Option.bind_eq_some.mp h1
  obtain ⟨gs1, hgs1, h3⟩ := Option.bind_eq_some.mp h2
  obtain ⟨gs2, hgs2, h4⟩ := Option.map_eq_some'.mp h3
  obtain ⟨a, b, c, d, e, f, g, i⟩ := of_decide_eq_true h4
  have hreach : Reachable gs := runCalls_reachable _ _ gs (Reachable.init _ ⟨_, _, _, rfl⟩) hgs
  refine ⟨gs, gs1, gs2, pa, hgs, hreach, fun _ => c, hpa, a, b, c, hgs1,
    Reachable.endTurn gs gs1 hreach hgs1, d, e, f, ?_, hgs2,
    Reachable.startTurn gs gs2 hreach hgs2, g, i, ?_⟩
  · intro hinv
    have := hinv (by rw [d]; rfl)
    rw [e] at this
    exact absurd this (by decide)
  · intro hinv
    have := hinv (by rw [g]; rfl)
    rw [i] at this
    exact absurd this (by decide)

/-! ## Service Change on cards that are not there -/

/-- The Service Change case of `resolveForPlayer` has no result when the actor's card is not in
the actor's named set: the error of `RemoveCard` is dropped and the nil card is dereferenced. -/
theorem resolveServiceChange_missing (gs : GameState) (pa : PendingAction) (playerID : String)
    (i j : Nat) (source target : Player) (ps ts : PropertySet) (gs1 gs2 : GameState)
    (hs : gs.GetPlayer pa.SourcePlayerID = some (i, source))
    (ht : gs.GetPlayer playerID = some (j, target))
    (h1 : gs.getPropertySetAt i (pa.Act.data "playerColor") = some (ps, gs1))
    (h2 : gs1.getPropertySetAt j pa.Act.GetColor = some (ts, gs2))
    (hmiss : gs2.removeCardAt i (pa.Act.data "playerColor") (pa.Act.data "playerCardId")
      = some none) :
    gs.resolveServiceChange pa playerID = none := by
  simp [GameState.resolveServiceChange, hs, ht, h1, h2, hmiss]

/-- C36 (fails on the code): in a game reached from `NewEngine`, the first player holds a
Service Change card and plays it naming the card J of their own brown set and the card A of the
second player's blue set, while neither player owns a property.  `Validate` accepts, `Execute`
creates the pending action (both named sets are empty, hence incomplete), and the second
player's `ACCEPT` passes the validator; then both `RemoveCard` lookups fail and the engine has
no result (the nil card is dereferenced for the message). -/
theorem service_change_missing_cards :
    ∃ gs g r gs1 pa g1,
      serviceChangeTrace = some gs ∧ Reachable gs ∧
      gs.Validate serviceChangeOnNothing = some (Valid, g) ∧
      gs.ExecuteAction serviceChangeOnNothing noShuffle = some ((r, none), gs1) ∧
      r.Success = true ∧ r.PendingAction = true ∧ Reachable gs1 ∧
      gs1.PendingAction = some pa ∧ pa.Act = serviceChangeOnNothing ∧
      pa.TargetPlayerIDs = ["player_1"] ∧
      gs1.Validate acceptBob = some (Valid, g1) ∧
      g1.removeCardAt 0 "brown" "prop_j" = some none ∧
      g1.removeCardAt 1 "blue" "prop_a" = some none ∧
      g1.resolveForPlayer pa "player_1" = none ∧
      gs1.ExecuteAction acceptBob noShuffle = none := by
  have h : (serviceChangeTrace.bind fun gs =>
      (gs.Validate serviceChangeOnNothing).bind fun v =>
        (gs.ExecuteAction serviceChangeOnNothing noShuffle).bind fun x =>
          x.2.PendingAction.bind fun pa => (x.2.Validate acceptBob).map fun w =>
            decide (v.1 = Valid ∧ x.1.2 = none ∧ x.1.1.Success = true ∧
              x.1.1.PendingAction = true ∧ pa.Act = serviceChangeOnNothing ∧
              pa.TargetPlayerIDs = ["player_1"] ∧ w.1 = Valid ∧
              w.2.removeCardAt 0 "brown" "prop_j" = some none ∧
              w.2.removeCardAt 1 "blue" "prop_a" = some none ∧
              w.2.resolveForPlayer pa "player_1" = none ∧
              x.2.ExecuteAction acceptBob noShuffle = none)) = some true := by
    decide
  obtain ⟨gs, hgs, h1⟩ := Option.bind_eq_some.mp h
  obtain ⟨v, hv, h2⟩ := Option.bind_eq_some.mp h1
  obtain ⟨x, hx, h3⟩ := Option.bind_eq_some.mp h2
  obtain ⟨pa, hpa, h4⟩ := Option.bind_eq_some.mp h3
  obtain ⟨w, hw, h5⟩ := Option.map_eq_some'.mp h4
  obtain ⟨a, b, c, d, e, f, g, i, j, k, l⟩ := of_decide_eq_true h5
  have hreach : Reachable gs := runCalls_reachable _ _ gs (Reachable.init _ ⟨_, _, _, rfl⟩) hgs
  refine ⟨gs, v.2, x.1.1, x.2, pa, w.2, hgs, hreach, ?_, ?_, c, d,
    Reachable.executeAction gs _ _ x.1 x.2 hreach hx, hpa, e, f, ?_, i, j, k, l⟩
  · rw [hv, ← a]
  · rw [hx, ← b]
  · rw [hw, ← g]

/-! ## The card named as Rush Hour -/

/-- The Rush Hour step of `createPendingRent` never looks at the card it removes: any card of
the hand with the named id is discarded and the multiplier is 2. -/
theorem applyRushHour_any_card (gs : GameState) (i : Nat) (rushHourID : String)
    (player player1 : Player) (rushCard : Card) (hid : rushHourID ≠ "")
    (hp : gs.Players[i]? = some player)
    (hr : player.RemoveFromHand rushHourID = some (rushCard, player1)) :
    gs.applyRushHour i rushHourID = some (2, (gs.setPlayer i player1).discard rushCard) := by
  simp [GameState.applyRushHour, hid, hp, hr]

/-- C37 (fails on the code): in a game reached from `NewEngine`, the first player owns the brown
property J and charges brown rent with a blue-brown rent card, naming the money card `money_4_3`
of their hand as `rushHourCardId`.  `Engine.ExecuteAction` succeeds, the pending action has
`RentMultiplier = 2` and `RentAmount = 2` (twice the rent 1 of one brown property), and the money
card has left the hand for the discard pile, although it is no Rush Hour card. -/
theorem rush_hour_any_card :
    ∃ gs r gs1 pa player player1,
      brownRentTrace = some gs ∧ Reachable gs ∧
      gs.Players[0]? = some player ∧
      player.GetCardFromHand "money_4_3" = some (moneyCard "money_4_3" "$4" 4) ∧
      gs.ExecuteAction (playRentRush "rent_blue_brown_1" "brown" "money_4_3") noShuffle
        = some ((r, none), gs1) ∧
      r.Success = true ∧ gs1.PendingAction = some pa ∧ pa.RentMultiplier = 2 ∧
      pa.RentAmount = 2 ∧ gs1.Players[0]? = some player1 ∧
      player1.GetCardFromHand "money_4_3" = none ∧
      gs1.DiscardPile = gs.DiscardPile
        ++ [moneyCard "money_4_3" "$4" 4,
            rentCard "rent_blue_brown_1" "Rent" 1 ["blue", "brown"] "all"] := by
  have h : (brownRentTrace.bind fun gs =>
      (gs.ExecuteAction (playRentRush "rent_blue_brown_1" "brown" "money_4_3") noShuffle).bind
        fun x => gs.Players[0]?.bind fun player => x.2.PendingAction.bind fun pa =>
          x.2.Players[0]?.map fun player1 =>
            decide (player.GetCardFromHand "money_4_3" = some (moneyCard "money_4_3" "$4" 4) ∧
              x.1.2 = none ∧ x.1.1.Success = true ∧ pa.RentMultiplier = 2 ∧ pa.RentAmount = 2 ∧
              player1.GetCardFromHand "money_4_3" = none ∧
              x.2.DiscardPile = gs.DiscardPile
                ++ [moneyCard "money_4_3" "$4" 4,
                    rentCard "rent_blue_brown_1" "Rent" 1 ["blue", "brown"] "all"])) = some true := by
    decide
  obtain ⟨gs, hgs, h1⟩ := Option.bind_eq_some.mp h
  obtain ⟨x, hx, h2⟩ := Option.bind_eq_some.mp h1
  obtain ⟨player, hp, h3⟩ := Option.bind_eq_some.mp h2
  obtain ⟨pa, hpa, h4⟩ := Option.bind_eq_some.mp h3
  obtain ⟨player1, hp1, h5⟩ := Option.map_eq_some'.mp h4
  obtain ⟨a, b, c, d, e, f, g⟩ := of_decide_eq_true h5
  refine ⟨gs, x.1.1, x.2, pa, player, player1, hgs,
    runCalls_reachable _ _ gs (Reachable.init _ ⟨_, _, _, rfl⟩) hgs, hp, a, ?_, c, hpa, d, e,
    hp1, f, g⟩
  rw [hx, ← b]

/-! ## The colour claimed by a rent action -/

/-- What the validator has checked when it accepts `PLAY_RENT`: the action phase, the turn
owner, a rent card in the actor's hand and, unless that card is a wild rent, a card in the
actor's property set of the claimed colour. -/
theorem validatePlayRent_accepts (gs : GameState) (action : Action) (v : ValidationResult)
    (g : GameState) (h : gs.validatePlayRent action = some (v, g)) (hv : v.Valid = true) :
    ∃ i player b colors target, gs.GetPlayer action.PlayerID = some (i, player) ∧
      player.GetCardFromHand action.GetCardID = some (Card.rent b colors target) ∧
      (Card.IsWildRent b.Name colors = false → player.cardsOfColour action.GetColor ≠ []) := by
  unfold GameState.validatePlayRent at h
  split at h
  · simp at h; rw [← h.1] at hv; simp [Invalid] at hv
  · split at h
    · simp at h
    · simp at h; rw [← h.1] at hv; simp [Invalid] at hv
    · split at h
      · simp at h
      · next i player hplayer =>
        split at h
        · simp at h; rw [← h.1] at hv; simp [Invalid] at hv
        · next b colors target hcard =>
          have hp := (GameState.GetPlayer_some gs _ _ _ hplayer).2.1
          simp only [GameState.getPropertySetAt, hp] at h
          refine ⟨i, player, b, colors, target, hplayer, hcard, ?_⟩
          intro hw hnone
          rw [if_pos] at h
          · simp at h; rw [← h.1] at hv; simp [Invalid] at hv
          · rw [GetPropertySet_cards, hnone]
            simp [hw]
        · simp at h; rw [← h.1] at hv; simp [Invalid] at hv

/-- C38 (fails on the code): in a game reached from `NewEngine`, the first player owns the pink
42nd St Shuttle and holds the rent card `rent_blue_brown_1`, which lists blue and brown and is
no wild rent; `Validate` accepts their `PLAY_RENT` with that card on pink. -/
theorem rent_colour_counterexample :
    ∃ gs g player b colors target,
      pinkRentTrace = some gs ∧ Reachable gs ∧ gs.Players[0]? = some player ∧
      player.GetCardFromHand "rent_blue_brown_1" = some (Card.rent b colors target) ∧
      Card.IsWildRent b.Name colors = false ∧ "pink" ∉ colors ∧
      gs.Validate (playRentOn "rent_blue_brown_1" "pink") = some (Valid, g) := by
  have h : (pinkRentTrace.bind fun gs =>
      gs.Players[0]?.bind fun player =>
        (gs.Validate (playRentOn "rent_blue_brown_1" "pink")).map fun x =>
          decide (player.GetCardFromHand "rent_blue_brown_1"
              = some (rentCard "rent_blue_brown_1" "Rent" 1 ["blue", "brown"] "all") ∧
            x.1 = Valid)) = some true := by
    decide
  obtain ⟨gs, hgs, h1⟩ := Option.bind_eq_some.mp h
  obtain ⟨player, hp, h2⟩ := Option.bind_eq_some.mp h1
  obtain ⟨x, hx, h3⟩ := Option.map_eq_some'.mp h2
  obtain ⟨a, b⟩ := of_decide_eq_true h3
  refine ⟨gs, x.2, player, _, _, _, hgs,
    runCalls_reachable _ _ gs (Reachable.init _ ⟨_, _, _, rfl⟩) hgs, hp, a, by decide,
    by decide, ?_⟩
  rw [hx, ← b]

/-- C38 amended: for every `PLAY_RENT` action that `Validate` accepts, the card named is a rent
card of the actor's hand and, when it is not a wild rent, the claimed colour is one of which the
actor owns at least one property card; the colours listed on the card are not consulted. -/
theorem rent_colour_is_owned (gs : GameState) (action : Action) (v : ValidationResult)
    (g : GameState) (htyp : action.Typ = ActionType.PlayRent)
    (h : gs.Validate action = some (v, g)) (hv : v.Valid = true) :
    ∃ i player b colors target, gs.GetPlayer action.PlayerID = some (i, player) ∧
      player.GetCardFromHand action.GetCardID = some (Card.rent b colors target) ∧
      (Card.IsWildRent b.Name colors = false → player.cardsOfColour action.GetColor ≠ []) := by
  have hval : gs.validatePlayRent action = some (v, g) := by
    simp only [GameState.Validate, htyp] at h
    simp at h
    split at h
    · simp at h; rw [← h.1] at hv; simp [Invalid] at hv
    · exact h
  exact validatePlayRent_accepts gs action v g hval hv

/-- C38 amended, on the counterexample: the accepted pink rent names a rent card that is no
wild rent, and the first player owns a pink card. -/
theorem rent_colour_is_owned_witness :
    ∃ gs g, pinkRentTrace = some gs ∧
      gs.Validate (playRentOn "rent_blue_brown_1" "pink") = some (Valid, g) ∧
      ∃ i player b colors target,
        gs.GetPlayer (playRentOn "rent_blue_brown_1" "pink").PlayerID = some (i, player) ∧
        player.GetCardFromHand (playRentOn "rent_blue_brown_1" "pink").GetCardID
          = some (Card.rent b colors target) ∧
        (Card.IsWildRent b.Name colors = false →
          player.cardsOfColour (playRentOn "rent_blue_brown_1" "pink").GetColor ≠ []) := by
  have h : (pinkRentTrace.bind fun gs =>
      (gs.Validate (playRentOn "rent_blue_brown_1" "pink")).map fun x =>
        decide (x.1 = Valid)) = some true := by
    decide
  obtain ⟨gs, hgs, h1⟩ := Option.bind_eq_some.mp h
  obtain ⟨x, hx, h2⟩ := Option.map_eq_some'.mp h1
  have hx1 : gs.Validate (playRentOn "rent_blue_brown_1" "pink") = some (Valid, x.2) := by
    rw [hx, ← of_decide_eq_true h2]
  exact ⟨gs, x.2, hgs, hx1,
    rent_colour_is_owned gs (playRentOn "rent_blue_brown_1" "pink") Valid x.2 rfl hx1 rfl⟩

/-! ## Validated actions without an executor -/

/-- Every action type that `Validate` accepts is one of the eighteen types its switch (and its
response gate) names. -/
theorem Validate_valid_type (gs : GameState) (action : Action) (v : ValidationResult)
    (g : GameState) (h : gs.Validate action = some (v, g)) (hv : v.Valid = true) :
    action.Typ ∈ [ActionType.Accept, ActionType.PlayFareEvasion, ActionType.DrawCards,
      ActionType.PlayProperty, ActionType.PlayMoney, ActionType.PlayRent, ActionType.PlayAction,
      ActionType.SwipeIn, ActionType.PowerBroker, ActionType.LineClosure,
      ActionType.ServiceChange, ActionType.MissedTrain, ActionType.ItsMyStop,
      ActionType.RushHour, ActionType.ExpressService, ActionType.NewStation,
      ActionType.EndTurn, ActionType.FlipWildcard] := by
  cases ht : action.Typ <;> simp
  all_goals
    simp only [GameState.Validate, ht] at h
    simp at h
    split at h
    · simp at h
      rw [← h.1] at hv
      simp [Invalid] at hv
    · simp at h
      rw [← h.1] at hv
      simp [Invalid] at hv

/-- The three validated types without a case in `Execute` take its default branch. -/
theorem Execute_default [SliceSort] (gs : GameState) (action : Action) (rnd : Nat → Nat → Nat)
    (ht : action.Typ = ActionType.DrawCards ∨ action.Typ = ActionType.PlayAction ∨
      action.Typ = ActionType.RushHour) :
    gs.Execute action rnd
      = some (ActionResult.failure ("no executor for: " ++ action.Typ.name), gs) := by
  rcases ht with h | h | h <;> simp [GameState.Execute, h]

/-- Every other validated type has its own case in `Execute`. -/
theorem Execute_branch [SliceSort] (gs : GameState) (action : Action) (rnd : Nat → Nat → Nat)
    (v : ValidationResult) (g : GameState) (h : gs.Validate action = some (v, g))
    (hv : v.Valid = true)
    (ht : ¬ (action.Typ = ActionType.DrawCards ∨ action.Typ = ActionType.PlayAction ∨
      action.Typ = ActionType.RushHour)) :
    g.Execute action rnd ∈
      [g.executePlayProperty action, g.executePlayMoney action, g.executeSwipeIn action rnd,
       g.executeExpressService action, g.executeNewStation action,
       g.executeFlipWildcard action, some (ActionResult.ok "turn ended", g),
       g.createPendingRent action, g.createPendingPowerBroker action,
       g.createPendingLineClosure action, g.createPendingServiceChange action,
       g.createPendingMissedTrain action, g.createPendingItsMyStop action,
       g.executeAccept action, g.executeFareEvasion action] := by
  have hmem := Validate_valid_type gs action v g h hv
  simp only [List.mem_cons, List.mem_singleton, List.not_mem_nil, or_false] at hmem
  rcases hmem with h1 | h1 | h1 | h1 | h1 | h1 | h1 | h1 | h1 | h1 | h1 | h1 | h1 | h1 | h1 | h1
    | h1 | h1 <;> simp [GameState.Execute, h1] at ht ⊢

/-- `PLAY_ACTION` and `RUSH_HOUR` pass the validator in the action phase, for the current
player below the cap. -/
theorem Validate_playAction (gs : GameState) (action : Action) (k : Nat) (current : Player)
    (ht : action.Typ = ActionType.PlayAction ∨ action.Typ = ActionType.RushHour)
    (hphase : gs.TurnPhase = TurnPhase.actions)
    (hcur : gs.GetCurrentPlayer = some (k, current)) (hid : action.PlayerID = current.ID)
    (hcap : gs.ActionsPlayedThisTurn < gs.MaxActionsPerTurn) :
    gs.Validate action = some (Valid, gs) := by
  have hn : gs.notCurrentPlayer action = some false := by
    simp [GameState.notCurrentPlayer, hcur, hid]
  have hc : ¬ gs.ActionsPlayedThisTurn ≥ gs.MaxActionsPerTurn := by omega
  rcases ht with h | h <;>
    simp [GameState.Validate, h, hphase, GameState.validatePlayAction, hn, hc]

/-- `DRAW_CARDS` passes the validator in the draw phase, for the current player. -/
theorem Validate_drawCards (gs : GameState) (action : Action) (k : Nat) (current : Player)
    (ht : action.Typ = ActionType.DrawCards) (hphase : gs.TurnPhase = TurnPhase.draw)
    (hcur : gs.GetCurrentPlayer = some (k, current)) (hid : action.PlayerID = current.ID) :
    gs.Validate action = some (Valid, gs) := by
  have hn : gs.notCurrentPlayer action = some false := by
    simp [GameState.notCurrentPlayer, hcur, hid]
  simp [GameState.Validate, ht, hphase, GameState.validateDrawCards, hn]

/-- C40 (fails on the code): `Validate` accepts `DRAW_CARDS` from the current player in the draw
phase, and `PLAY_ACTION` and `RUSH_HOUR` from the current player in the action phase below the
cap, but `Execute` has no case for these three types: `Engine.ExecuteAction` returns the failure
"no executor for: <type>" with a nil error and the state as it was.  This happens in the game
right after `NewEngine` (`DRAW_CARDS`) and after its first `StartTurn` (`PLAY_ACTION`,
`RUSH_HOUR`). -/
theorem validated_without_executor :
    (∀ (gs : GameState) (action : Action) (rnd : Nat → Nat → Nat) (k : Nat) (current : Player),
      gs.GetCurrentPlayer = some (k, current) → action.PlayerID = current.ID →
      ((action.Typ = ActionType.DrawCards ∧ gs.TurnPhase = TurnPhase.draw) ∨
       ((action.Typ = ActionType.PlayAction ∨ action.Typ = ActionType.RushHour) ∧
         gs.TurnPhase = TurnPhase.actions ∧
         gs.ActionsPlayedThisTurn < gs.MaxActionsPerTurn)) →
      gs.Validate action = some (Valid, gs) ∧
      gs.ExecuteAction action rnd
        = some ((ActionResult.failure ("no executor for: " ++ action.Typ.name), none),
            gs.CheckWinCondition.2)) ∧
    Reachable freshGame ∧
    freshGame.Validate (bareAction ActionType.DrawCards) = some (Valid, freshGame) ∧
    freshGame.ExecuteAction (bareAction ActionType.DrawCards) noShuffle
      = some ((ActionResult.failure "no executor for: DRAW_CARDS", none), freshGame) ∧
    (∃ gs, freshGame.StartTurn = some gs ∧ Reachable gs ∧
      gs.Validate (bareAction ActionType.PlayAction) = some (Valid, gs) ∧
      gs.ExecuteAction (bareAction ActionType.PlayAction) noShuffle
        = some ((ActionResult.failure "no executor for: PLAY_ACTION", none), gs) ∧
      gs.Validate (bareAction ActionType.RushHour) = some (Valid, gs) ∧
      gs.ExecuteAction (bareAction ActionType.RushHour) noShuffle
        = some ((ActionResult.failure "no executor for: RUSH_HOUR", none), gs)) := by
  have hgen : ∀ (gs : GameState) (action : Action) (rnd : Nat → Nat → Nat) (k : Nat)
      (current : Player),
      gs.GetCurrentPlayer = some (k, current) → action.PlayerID = current.ID →
      ((action.Typ = ActionType.DrawCards ∧ gs.TurnPhase = TurnPhase.draw) ∨
       ((action.Typ = ActionType.PlayAction ∨ action.Typ = ActionType.RushHour) ∧
         gs.TurnPhase = TurnPhase.actions ∧
         gs.ActionsPlayedThisTurn < gs.MaxActionsPerTurn)) →
      gs.Validate action = some (Valid, gs) ∧
      gs.ExecuteAction action rnd
        = some ((ActionResult.failure ("no executor for: " ++ action.Typ.name), none),
            gs.CheckWinCondition.2) := by
    intro gs action rnd k current hcur hid hcase
    have hv : gs.Validate action = some (Valid, gs) := by
      rcases hcase with ⟨ht, hphase⟩ | ⟨ht, hphase, hcap⟩
      · exact Validate_drawCards gs action k current ht hphase hcur hid
      · exact Validate_playAction gs action k current ht hphase hcur hid hcap
    have ht : action.Typ = ActionType.DrawCards ∨ action.Typ = ActionType.PlayAction ∨
        action.Typ = ActionType.RushHour := by
      rcases hcase with ⟨ht, _⟩ | ⟨ht | ht, _⟩
      · exact Or.inl ht
      · exact Or.inr (Or.inl ht)
      · exact Or.inr (Or.inr ht)
    refine ⟨hv, ?_⟩
    simp [GameState.ExecuteAction, hv, Valid, Execute_default gs action rnd ht]
  have hinit : Reachable freshGame := Reachable.init _ ⟨_, _, _, rfl⟩
  have h : (freshGame.StartTurn.map fun gs =>
      decide (freshGame.Validate (bareAction ActionType.DrawCards) = some (Valid, freshGame) ∧
        freshGame.ExecuteAction (bareAction ActionType.DrawCards) noShuffle
          = some ((ActionResult.failure "no executor for: DRAW_CARDS", none), freshGame) ∧
        gs.Validate (bareAction ActionType.PlayAction) = some (Valid, gs) ∧
        gs.ExecuteAction (bareAction ActionType.PlayAction) noShuffle
          = some ((ActionResult.failure "no executor for: PLAY_ACTION", none), gs) ∧
        gs.Validate (bareAction ActionType.RushHour) = some (Valid, gs) ∧
        gs.ExecuteAction (bareAction ActionType.RushHour) noShuffle
          = some ((ActionResult.failure "no executor for: RUSH_HOUR", none), gs))) = some true := by
    decide
  obtain ⟨gs, hgs, h1⟩ := Option.map_eq_some'.mp h
  obtain ⟨a, b, c, d, e, f⟩ := of_decide_eq_true h1
  exact ⟨hgen, hinit, a, b, gs, hgs, Reachable.startTurn _ _ hinit hgs, c, d, e, f⟩

/-! ## Improvements only sit on complete sets -/

theorem improvementsSound_of_none (ps : PropertySet) (h : ps.Improvements = []) :
    ps.improvementsSound := fun hne => absurd h hne

theorem no_improvements_of_incomplete (ps : PropertySet) (h : ps.improvementsSound)
    (hc : ps.IsComplete = false) : ps.Improvements = [] := by
  by_contra hne
  have := (h hne).1
  rw [hc] at this
  exact absurd this (by decide)

theorem AddCard_sound (ps : PropertySet) (card : Card) (h : ps.improvementsSound) :
    (ps.AddCard card).improvementsSound := by
  intro hne
  obtain ⟨h1, h2, h3, h4⟩ := h hne
  refine ⟨?_, h2, h3, h4⟩
  rw [IsComplete_iff] at h1 ⊢
  have hs : (ps.AddCard card).SetSize = ps.SetSize := rfl
  rw [hs]
  simp only [PropertySet.AddCard, List.length_append, List.length_singleton]
  push_cast
  omega

theorem AddImprovement_sound (ps ps1 : PropertySet) (t : String)
    (h : ps.AddImprovement t = some ps1) : ps1.improvementsSound ∧ ps1.Color = ps.Color := by
  unfold PropertySet.AddImprovement at h
  split at h
  · next hcan =>
    simp only [Option.some.injEq] at h
    rw [← h]
    refine ⟨?_, rfl⟩
    obtain ⟨hsize, hr, hu, hcase⟩ := (CanAddImprovement_iff ps t).mp hcan
    intro _
    refine ⟨(IsComplete_iff _).mpr hsize, hr, hu, ?_⟩
    intro _
    rw [hasImprovement_iff]
    rcases hcase with ⟨rfl, _⟩ | ⟨_, he, _⟩
    · simp
    · simp [he]
  · simp at h

theorem foldl_append_singleton {α : Type} (l : List α) :
    ∀ init : List α, l.foldl (fun acc x => acc ++ [x]) init = init ++ l := by
  induction l with
  | nil => intro init; simp
  | cons x xs ih => intro init; simp [ih]

/-- The set a Line Closure builds: the cards and improvements of the stolen set appended to
those of the thief's set of the same colour. -/
theorem merge_sound (ts ps : PropertySet) (ht : ts.improvementsSound)
    (hp : ps.improvementsSound) (hc : ts.Color = ps.Color) :
    ({ ps with
      Cards := ts.Cards.foldl (fun cards c => cards ++ [c]) ps.Cards
      Improvements := ts.Improvements.foldl (fun imps imp => imps ++ [imp]) ps.Improvements } :
      PropertySet).improvementsSound := by
  rw [foldl_append_singleton, foldl_append_singleton]
  intro hne
  have hsz : ts.SetSize = ps.SetSize := by simp [PropertySet.SetSize, hc]
  have hsz2 : ∀ (cs : List Card) (is : List String),
      ({ ps with Cards := cs, Improvements := is } : PropertySet).SetSize = ps.SetSize :=
    fun _ _ => rfl
  simp only [IsComplete_iff, hasImprovement_iff, hsz2, List.length_append, List.mem_append]
  by_cases hpi : ps.Improvements = []
  · have hti : ts.Improvements ≠ [] := by
      intro h
      apply hne
      simp [hpi, h]
    obtain ⟨h1, h2, h3, h4⟩ := ht hti
    rw [IsComplete_iff, hsz] at h1
    rw [hc] at h2 h3
    refine ⟨by push_cast; omega, h2, h3, ?_⟩
    rintro (h | h)
    · rw [hpi] at h; simp at h
    · exact Or.inr ((hasImprovement_iff _ _).mp (h4 ((hasImprovement_iff _ _).mpr h)))
  · obtain ⟨h1, h2, h3, h4⟩ := hp hpi
    rw [IsComplete_iff] at h1
    refine ⟨by push_cast; omega, h2, h3, ?_⟩
    rintro (h | h)
    · exact Or.inl ((hasImprovement_iff _ _).mp (h4 ((hasImprovement_iff _ _).mpr h)))
    · have hti : ts.Improvements ≠ [] := List.ne_nil_of_mem h
      exact Or.inr ((hasImprovement_iff _ _).mp ((ht hti).2.2.2 ((hasImprovement_iff _ _).mpr h)))

theorem mem_of_lookup :
    ∀ (props : List (String × PropertySet)) (c : String) (ps : PropertySet),
      props.lookup c = some ps → (c, ps) ∈ props := by
  intro props c ps
  induction props with
  | nil => intro h; simp [List.lookup] at h
  | cons e rest ih =>
    obtain ⟨k, v⟩ := e
    intro h
    by_cases hck : c = k
    · subst hck
      simp [List.lookup] at h
      simp [h]
    · have hb : (c == k) = false := by simpa using hck
      simp only [List.lookup, hb] at h
      exact List.mem_cons_of_mem _ (ih h)

theorem mem_mapSet :
    ∀ (props : List (String × PropertySet)) (key : String) (ps : PropertySet)
      (e : String × PropertySet), e ∈ mapSet props key ps → e ∈ props ∨ e = (key, ps) := by
  intro props key ps e
  induction props with
  | nil => intro h; simp [mapSet] at h; exact Or.inr h
  | cons x rest ih =>
    obtain ⟨k, v⟩ := x
    intro h
    by_cases hk : k = key
    · subst hk
      simp only [mapSet, if_true, List.mem_cons] at h
      rcases h with h | h
      · exact Or.inr h
      · exact Or.inl (List.mem_cons_of_mem _ h)
    · simp only [mapSet, hk, if_false, List.mem_cons] at h
      rcases h with h | h
      · exact Or.inl (by rw [h]; exact List.mem_cons_self _ _)
      · rcases ih h with h1 | h1
        · exact Or.inl (List.mem_cons_of_mem _ h1)
        · exact Or.inr h1

namespace Player

theorem setsSound_congr (p p1 : Player) (h : p1.Properties = p.Properties) (hs : p.setsSound) :
    p1.setsSound := by
  unfold setsSound
  rw [h]
  exact hs

theorem GetPropertySet_sound (p : Player) (color : String) (hs : p.setsSound) :
    (p.GetPropertySet color).2.setsSound ∧ (p.GetPropertySet color).1.Color = color ∧
      (p.GetPropertySet color).1.improvementsSound := by
  cases h : p.Properties.lookup color with
  | some ps =>
    have h2 : p.GetPropertySet color = (ps, p) := by simp [GetPropertySet, h]
    rw [h2]
    have := hs _ (mem_of_lookup _ _ _ h)
    exact ⟨hs, this.1, this.2⟩
  | none =>
    have h2 : p.GetPropertySet color
        = (NewPropertySet color,
            { p with Properties := p.Properties ++ [(color, NewPropertySet color)] }) := by
      simp [GetPropertySet, h]
    rw [h2]
    refine ⟨?_, rfl, improvementsSound_of_none _ rfl⟩
    intro e he
    simp only [List.mem_append, List.mem_singleton] at he
    rcases he with he | he
    · exact hs e he
    · rw [he]
      exact ⟨rfl, improvementsSound_of_none _ rfl⟩

theorem setPropertySet_sound (p : Player) (color : String) (ps : PropertySet)
    (hs : p.setsSound) (hc : ps.Color = color) (hg : ps.improvementsSound) :
    (p.setPropertySet color ps).setsSound := by
  intro e he
  rcases mem_mapSet _ _ _ _ he with h | h
  · exact hs e h
  · rw [h]
    exact ⟨hc, hg⟩

theorem GetPropertySet_improvements (p : Player) (color : String) :
    (p.GetPropertySet color).1.Improvements = p.improvementsOfColour color := by
  cases h : p.Properties.lookup color <;>
    simp [GetPropertySet, improvementsOfColour, h, NewPropertySet]

/-- After the lookup the set is in the map under its colour. -/
theorem GetPropertySet_lookup (p : Player) (color : String) :
    (p.GetPropertySet color).2.Properties.lookup color = some (p.GetPropertySet color).1 := by
  cases h : p.Properties.lookup color with
  | some ps => simp [GetPropertySet, h]
  | none => simp [GetPropertySet, h, lookup_append_one]

/-- A write that keeps the improvements of the set keeps the improvements of every colour. -/
theorem setPropertySet_view (p : Player) (color : String) (ps : PropertySet)
    (h : ps.Improvements = p.improvementsOfColour color) :
    (p.setPropertySet color ps).improvementView = p.improvementView := by
  unfold improvementView
  refine Prod.ext rfl ?_
  funext c
  show (p.setPropertySet color ps).improvementsOfColour c = p.improvementsOfColour c
  by_cases hc : c = color
  · subst hc
    rw [← h]
    simp [improvementsOfColour, setPropertySet, lookup_mapSet_same]
  · simp only [improvementsOfColour, setPropertySet, lookup_mapSet_ne _ _ _ _ hc]

theorem holdings_view (p q : Player) (h : q.holdings = p.holdings) :
    q.improvementView = p.improvementView := by
  simp only [holdings, Prod.mk.injEq] at h
  exact Prod.ext h.1 h.2.2.2.2

end Player

theorem SoundPlayers.set (l : List Player) (i : Nat) (p1 : Player) (hs : SoundPlayers l)
    (h1 : p1.setsSound) : SoundPlayers (l.set i p1) := by
  intro p hp
  rcases List.mem_or_eq_of_mem_set hp with h | h
  · exact hs p h
  · rw [h]; exact h1

theorem SoundPlayers.get (l : List Player) (i : Nat) (p : Player) (hs : SoundPlayers l)
    (hp : l[i]? = some p) : p.setsSound :=
  hs p (List.mem_iff_getElem?.mpr ⟨i, hp⟩)

namespace GameState

theorem modifyPlayer_sound (gs : GameState) (i : Nat) (f : Player → Player)
    (hs : SoundPlayers gs.Players) (hf : ∀ p, p.setsSound → (f p).setsSound) :
    SoundPlayers (gs.modifyPlayer i f).Players := by
  unfold modifyPlayer
  split
  · next p hp => exact hs.set _ _ _ (hf p (hs.get _ _ _ hp))
  · exact hs

theorem getPropertySetAt_sound (gs : GameState) (i : Nat) (color : String) (ps : PropertySet)
    (gs1 : GameState) (h : gs.getPropertySetAt i color = some (ps, gs1))
    (hs : SoundPlayers gs.Players) :
    SoundPlayers gs1.Players ∧ ps.Color = color ∧ ps.improvementsSound := by
  unfold getPropertySetAt at h
  split at h
  · next p hp =>
    simp only [Option.some.injEq, Prod.mk.injEq] at h
    obtain ⟨h1, h2, h3⟩ := Player.GetPropertySet_sound p color (hs.get _ _ _ hp)
    rw [← h.1, ← h.2]
    exact ⟨hs.set _ _ _ h1, h2, h3⟩
  · simp at h

theorem setPropertySetAt_sound (gs : GameState) (i : Nat) (color : String) (ps : PropertySet)
    (hs : SoundPlayers gs.Players) (hc : ps.Color = color) (hg : ps.improvementsSound) :
    SoundPlayers (gs.setPropertySetAt i color ps).Players :=
  modifyPlayer_sound gs i _ hs fun p hp => Player.setPropertySet_sound p color ps hp hc hg

theorem takeCard_sound (gs : GameState) (action : Action) (i : Nat) (card : Card)
    (gs1 : GameState) (h : gs.takeCard action = some (some (i, card, gs1)))
    (hs : SoundPlayers gs.Players) : SoundPlayers gs1.Players := by
  unfold takeCard at h
  split at h
  · simp at h
  · next j player hp =>
    split at h
    · simp at h
    · next c player1 hr =>
      simp only [Option.some.injEq, Prod.mk.injEq] at h
      obtain ⟨_, _, rfl⟩ := h
      have := (RemoveFromHand_some _ _ _ _ hr).1
      exact hs.set _ _ _ (Player.setsSound_congr player player1 (by rw [this])
        (hs.get _ _ _ (GetPlayer_some gs _ _ _ hp).2.1))

theorem addToHand_sound (gs : GameState) (i : Nat) (card : Card)
    (hs : SoundPlayers gs.Players) :
    SoundPlayers (gs.modifyPlayer i fun p => p.AddToHand card).Players :=
  modifyPlayer_sound gs i _ hs fun p hp => Player.setsSound_congr p _ rfl hp

theorem drawInto_sound (gs : GameState) (i : Nat) (rnd : Nat → Nat)
    (hs : SoundPlayers gs.Players) : SoundPlayers (gs.drawInto i rnd).Players := by
  have hr : (gs.refill rnd).Players = gs.Players := by
    unfold refill
    split <;> rfl
  unfold drawInto drawCard
  split
  · next card hc =>
    split at hc
    · simp at hc
    · simp only
      refine addToHand_sound _ i card ?_
      show SoundPlayers (gs.refill rnd).Players
      rw [hr]; exact hs
  · next hc =>
    split
    · show SoundPlayers (gs.refill rnd).Players
      rw [hr]; exact hs
    · show SoundPlayers (gs.refill rnd).Players
      rw [hr]; exact hs

theorem applyRushHour_sound (gs : GameState) (i : Nat) (rushHourID : String) (m : Int)
    (gs1 : GameState) (h : gs.applyRushHour i rushHourID = some (m, gs1))
    (hs : SoundPlayers gs.Players) : SoundPlayers gs1.Players := by
  unfold applyRushHour at h
  split at h
  · split at h
    · simp at h
    · next player hp =>
      split at h
      · next rushCard player1 hr =>
        simp only [Option.some.injEq, Prod.mk.injEq] at h
        rw [← h.2]
        have := (RemoveFromHand_some _ _ _ _ hr).1
        exact hs.set _ _ _ (Player.setsSound_congr player player1 (by rw [this])
          (hs.get _ _ _ hp))
      · simp only [Option.some.injEq, Prod.mk.injEq] at h
        rw [← h.2]; exact hs
  · simp only [Option.some.injEq, Prod.mk.injEq] at h
    rw [← h.2]; exact hs

theorem addCardAt_sound (gs : GameState) (i : Nat) (color : String) (card : Card)
    (gs1 : GameState) (h : gs.addCardAt i color card = some gs1)
    (hs : SoundPlayers gs.Players) : SoundPlayers gs1.Players := by
  unfold addCardAt at h
  split at h
  · next ps g heq =>
    simp only [Option.some.injEq] at h
    rw [← h]
    obtain ⟨h1, h2, h3⟩ := getPropertySetAt_sound _ _ _ _ _ heq hs
    exact setPropertySetAt_sound _ _ _ _ h1 h2 (AddCard_sound _ _ h3)
  · simp at h

/-- Taking a card out of a set that carries no improvement keeps the sets sound. -/
theorem removeCardAt_sound (gs : GameState) (i : Nat) (color cardID : String) (card : Card)
    (gs1 : GameState) (h : gs.removeCardAt i color cardID = some (some (card, gs1)))
    (hs : SoundPlayers gs.Players)
    (hno : ∀ p, gs.Players[i]? = some p → p.improvementsOfColour color = []) :
    SoundPlayers gs1.Players := by
  unfold removeCardAt at h
  split at h
  · simp at h
  · next ps g heq =>
    split at h
    · simp at h
    · next c ps1 hr =>
      simp only [Option.some.injEq, Prod.mk.injEq] at h
      rw [← h.2]
      obtain ⟨h1, h2, _⟩ := getPropertySetAt_sound _ _ _ _ _ heq hs
      have hps1 : ps1 = { ps with Cards := ps1.Cards } := by
        unfold PropertySet.RemoveCard at hr
        split at hr
        · simp only [Option.some.injEq, Prod.mk.injEq] at hr
          rw [← hr.2]
        · simp at hr
      have hnone : ps.Improvements = [] := by
        unfold getPropertySetAt at heq
        split at heq
        · next p hp =>
          simp only [Option.some.injEq, Prod.mk.injEq] at heq
          rw [← heq.1, Player.GetPropertySet_improvements]
          exact hno p hp
        · simp at heq
      refine setPropertySetAt_sound _ _ _ _ h1 ?_ (improvementsSound_of_none _ ?_)
      · rw [hps1]; exact h2
      · rw [hps1]; exact hnone

theorem executePlayProperty_sound (gs : GameState) (action : Action) (r : ActionResult)
    (gs1 : GameState) (h : gs.executePlayProperty action = some (r, gs1))
    (hs : SoundPlayers gs.Players) : SoundPlayers gs1.Players := by
  unfold executePlayProperty at h
  split at h
  · simp at h
  · simp only [Option.some.injEq, Prod.mk.injEq] at h
    rw [← h.2]; exact hs
  · next i card g1 htake =>
    have h1 := takeCard_sound _ _ _ _ _ htake hs
    split at h
    · next ps g2 name hg hn =>
      simp only [Option.some.injEq, Prod.mk.injEq] at h
      rw [← h.2]
      obtain ⟨h2, h3, h4⟩ := getPropertySetAt_sound _ _ _ _ _ hg h1
      exact setPropertySetAt_sound _ _ _ _ h2 h3 (AddCard_sound _ _ h4)
    · simp at h

theorem executePlayMoney_sound (gs : GameState) (action : Action) (r : ActionResult)
    (gs1 : GameState) (h : gs.executePlayMoney action = some (r, gs1))
    (hs : SoundPlayers gs.Players) : SoundPlayers gs1.Players := by
  unfold executePlayMoney at h
  split at h
  · simp at h
  · simp only [Option.some.injEq, Prod.mk.injEq] at h
    rw [← h.2]; exact hs
  · next i card g1 htake =>
    have h1 := takeCard_sound _ _ _ _ _ htake hs
    split at h
    · simp only [Option.some.injEq, Prod.mk.injEq] at h
      rw [← h.2]
      exact modifyPlayer_sound g1 i _ h1 fun p hp => Player.setsSound_congr p _ rfl hp
    · simp at h

theorem executeSwipeIn_sound (gs : GameState) (action : Action) (rnd : Nat → Nat → Nat)
    (r : ActionResult) (gs1 : GameState) (h : gs.executeSwipeIn action rnd = some (r, gs1))
    (hs : SoundPlayers gs.Players) : SoundPlayers gs1.Players := by
  unfold executeSwipeIn at h
  split at h
  · simp at h
  · simp only [Option.some.injEq, Prod.mk.injEq] at h
    rw [← h.2]; exact hs
  · next i card g1 htake =>
    have h1 := takeCard_sound _ _ _ _ _ htake hs
    split at h
    · simp only [Option.some.injEq, Prod.mk.injEq] at h
      rw [← h.2]
      exact drawInto_sound _ _ _ (drawInto_sound (g1.discard card) _ _ h1)
    · simp at h

theorem executeImprovement_sound (gs : GameState) (action : Action) (improvement label : String)
    (r : ActionResult) (gs1 : GameState)
    (h : gs.executeImprovement action improvement label = some (r, gs1))
    (hs : SoundPlayers gs.Players) : SoundPlayers gs1.Players := by
  unfold executeImprovement at h
  split at h
  · simp at h
  · simp only [Option.some.injEq, Prod.mk.injEq] at h
    rw [← h.2]; exact hs
  · next i card g1 htake =>
    have h1 := takeCard_sound _ _ _ _ _ htake hs
    split at h
    · next ps g2 name hg hn =>
      obtain ⟨h2, h3, h4⟩ := getPropertySetAt_sound _ _ _ _ _ hg h1
      split at h
      · simp only [Option.some.injEq, Prod.mk.injEq] at h
        rw [← h.2]
        exact addToHand_sound _ _ _ h2
      · next ps1 hadd =>
        simp only [Option.some.injEq, Prod.mk.injEq] at h
        rw [← h.2]
        obtain ⟨h5, h6⟩ := AddImprovement_sound _ _ _ hadd
        exact setPropertySetAt_sound _ _ _ _ h2 (h6.trans h3) h5
    · simp at h

theorem mem_of_findInSets :
    ∀ (props : List (String × PropertySet)) (cardID color : String) (ps : PropertySet)
      (card : Card), findInSets props cardID = some (color, ps, card) → (color, ps) ∈ props := by
  intro props cardID color ps card
  induction props with
  | nil => intro h; simp [findInSets] at h
  | cons e rest ih =>
    obtain ⟨k, v⟩ := e
    intro h
    simp only [findInSets] at h
    split at h
    · simp only [Option.some.injEq, Prod.mk.injEq] at h
      rw [← h.1, ← h.2.1]
      exact List.mem_cons_self _ _
    · exact List.mem_cons_of_mem _ (ih h)

/-- A flip out of a set that is not complete keeps the sets sound. -/
theorem executeFlipWildcard_sound (gs : GameState) (action : Action) (r : ActionResult)
    (gs1 : GameState) (h : gs.executeFlipWildcard action = some (r, gs1))
    (hs : SoundPlayers gs.Players)
    (hguard : ∀ i player color ps b colors current,
      gs.GetPlayer action.PlayerID = some (i, player) →
      findInSets player.Properties action.GetCardID
        = some (color, ps, Card.wildcard b colors current) → ps.IsComplete = false) :
    SoundPlayers gs1.Players := by
  unfold executeFlipWildcard at h
  split at h
  · simp at h
  · next i player hp =>
    split at h
    · simp only [Option.some.injEq, Prod.mk.injEq] at h
      rw [← h.2]; exact hs
    · next color ps b colors current hfind =>
      have hinc := hguard i player color ps b colors current hp hfind
      have hmem := mem_of_findInSets _ _ _ _ _ hfind
      have hsp := hs.get _ _ _ (GetPlayer_some gs _ _ _ hp).2.1 _ hmem
      have hnone := no_improvements_of_incomplete ps hsp.2 hinc
      have h1 : SoundPlayers (gs.setPropertySetAt i color
          { ps with Cards := eraseFirstByID ps.Cards action.GetCardID }).Players :=
        setPropertySetAt_sound _ _ _ _ hs hsp.1 (improvementsSound_of_none _ hnone)
      simp only at h
      split at h
      · next newSet g2 hg =>
        simp only [Option.some.injEq, Prod.mk.injEq] at h
        rw [← h.2]
        obtain ⟨h2, h3, h4⟩ := getPropertySetAt_sound _ _ _ _ _ hg h1
        exact setPropertySetAt_sound _ _ _ _ h2 h3 (AddCard_sound _ _ h4)
      · simp at h
    · simp only [Option.some.injEq, Prod.mk.injEq] at h
      rw [← h.2]; exact hs

theorem createPendingRent_sound (gs : GameState) (action : Action) (r : ActionResult)
    (gs1 : GameState) (h : gs.createPendingRent action = some (r, gs1))
    (hs : SoundPlayers gs.Players) : SoundPlayers gs1.Players := by
  unfold createPendingRent at h
  split at h
  · simp at h
  · simp only [Option.some.injEq, Prod.mk.injEq] at h
    rw [← h.2]; exact hs
  · next i b colors target g1 htake =>
    have h1 := takeCard_sound _ _ _ _ _ htake hs
    split at h
    · simp at h
    · next ps g2 hg =>
      have h2 := (getPropertySetAt_sound _ _ _ _ _ hg h1).1
      split at h
      · next m g3 player hr hp =>
        simp only [Option.some.injEq, Prod.mk.injEq] at h
        rw [← h.2]
        have h3 := applyRushHour_sound _ _ _ _ _ hr h2
        exact h3
      · simp at h
  · simp at h

theorem createPendingSteal_sound (gs : GameState) (action : Action) (stealComplete : Bool)
    (r : ActionResult) (gs1 : GameState)
    (h : gs.createPendingSteal action stealComplete = some (r, gs1))
    (hs : SoundPlayers gs.Players) : SoundPlayers gs1.Players := by
  unfold createPendingSteal at h
  split at h
  · simp at h
  · simp only [Option.some.injEq, Prod.mk.injEq] at h
    rw [← h.2]; exact hs
  · next i card g1 htake =>
    have h1 := takeCard_sound _ _ _ _ _ htake hs
    split at h
    · simp at h
    · split at h
      · next ts g2 player hg hp =>
        have h2 := (getPropertySetAt_sound _ _ _ _ _ hg h1).1
        split at h
        · simp only [Option.some.injEq, Prod.mk.injEq] at h
          rw [← h.2]
          exact addToHand_sound _ _ _ h2
        · simp only [Option.some.injEq, Prod.mk.injEq] at h
          rw [← h.2]
          exact h2
      · simp at h

theorem createPendingServiceChange_sound (gs : GameState) (action : Action) (r : ActionResult)
    (gs1 : GameState) (h : gs.createPendingServiceChange action = some (r, gs1))
    (hs : SoundPlayers gs.Players) : SoundPlayers gs1.Players := by
  unfold createPendingServiceChange at h
  split at h
  · simp at h
  · simp only [Option.some.injEq, Prod.mk.injEq] at h
    rw [← h.2]; exact hs
  · next i card g1 htake =>
    have h1 := takeCard_sound _ _ _ _ _ htake hs
    split at h
    · simp at h
    · next ps g2 hg =>
      have h2 := (getPropertySetAt_sound _ _ _ _ _ hg h1).1
      split at h
      · simp at h
      · split at h
        · next ts g3 player hg3 hp =>
          have h3 := (getPropertySetAt_sound _ _ _ _ _ hg3 h2).1
          split at h
          · simp only [Option.some.injEq, Prod.mk.injEq] at h
            rw [← h.2]
            exact addToHand_sound _ _ _ h3
          · split at h
            · simp only [Option.some.injEq, Prod.mk.injEq] at h
              rw [← h.2]
              exact addToHand_sound _ _ _ h3
            · simp only [Option.some.injEq, Prod.mk.injEq] at h
              rw [← h.2]
              exact h3
        · simp at h

theorem createPendingMissedTrain_sound (gs : GameState) (action : Action) (r : ActionResult)
    (gs1 : GameState) (h : gs.createPendingMissedTrain action = some (r, gs1))
    (hs : SoundPlayers gs.Players) : SoundPlayers gs1.Players := by
  unfold createPendingMissedTrain at h
  split at h
  · simp at h
  · simp only [Option.some.injEq, Prod.mk.injEq] at h
    rw [← h.2]; exact hs
  · next i card g1 htake =>
    have h1 := takeCard_sound _ _ _ _ _ htake hs
    split at h
    · simp only [Option.some.injEq, Prod.mk.injEq] at h
      rw [← h.2]
      exact h1
    · simp at h

theorem createPendingItsMyStop_sound (gs : GameState) (action : Action) (r : ActionResult)
    (gs1 : GameState) (h : gs.createPendingItsMyStop action = some (r, gs1))
    (hs : SoundPlayers gs.Players) : SoundPlayers gs1.Players := by
  unfold createPendingItsMyStop at h
  split at h
  · simp at h
  · simp only [Option.some.injEq, Prod.mk.injEq] at h
    rw [← h.2]; exact hs
  · next i card g1 htake =>
    have h1 := takeCard_sound _ _ _ _ _ htake hs
    split at h
    · simp only [Option.some.injEq, Prod.mk.injEq] at h
      rw [← h.2]
      exact h1
    · simp at h

theorem executeFareEvasion_sound (gs : GameState) (action : Action) (r : ActionResult)
    (gs1 : GameState) (h : gs.executeFareEvasion action = some (r, gs1))
    (hs : SoundPlayers gs.Players) : SoundPlayers gs1.Players := by
  unfold executeFareEvasion at h
  split at h
  · simp only [Option.some.injEq, Prod.mk.injEq] at h
    rw [← h.2]; exact hs
  · next pa hpa =>
    split at h
    · simp at h
    · simp only [Option.some.injEq, Prod.mk.injEq] at h
      rw [← h.2]; exact hs
    · next i card g1 htake =>
      have h1 := takeCard_sound _ _ _ _ _ htake hs
      have hpl : ((g1.discard card).MarkResponded action.PlayerID).Players = g1.Players := by
        simp only [MarkResponded, discard]
        split <;> rfl
      split at h
      · simp at h
      · simp only at h
        split at h
        · simp only [Option.some.injEq, Prod.mk.injEq] at h
          rw [← h.2]
          show SoundPlayers ((g1.discard card).MarkResponded action.PlayerID).Players
          rw [hpl]; exact h1
        · simp only [Option.some.injEq, Prod.mk.injEq] at h
          rw [← h.2]
          split
          · show SoundPlayers ((g1.discard card).MarkResponded action.PlayerID).Players
            rw [hpl]; exact h1
          · rw [hpl]; exact h1

end GameState

theorem PayMoney_properties [SliceSort] (p : Player) (amount : Int) :
    (p.PayMoney amount).2.Properties = p.Properties := by
  unfold Player.PayMoney Player.PayMoneyWith
  split
  · rfl
  · rfl

theorem foldl_AddToBank_properties (paid : List Card) (p : Player) :
    (paid.foldl Player.AddToBank p).Properties = p.Properties := by
  rw [foldl_AddToBank]

/-- Players with the same holdings have the same improvements. -/
theorem map_view_of_holdings (l l1 : List Player)
    (h : l1.map Player.holdings = l.map Player.holdings) :
    l1.map Player.improvementView = l.map Player.improvementView := by
  have e : ∀ l : List Player, l.map Player.improvementView
      = (l.map Player.holdings).map fun x => (x.1, x.2.2.2.2) := by
    intro l
    rw [List.map_map]
    rfl
  rw [e, e, h]

theorem view_at (l l1 : List Player) (i : Nat) (p p1 : Player)
    (h : l1.map Player.improvementView = l.map Player.improvementView)
    (hp1 : l1[i]? = some p1) (hp : l[i]? = some p) :
    p1.improvementsOfColour = p.improvementsOfColour := by
  have h1 : (l1.map Player.improvementView)[i]? = some p1.improvementView := by
    simp [hp1]
  have h2 : (l.map Player.improvementView)[i]? = some p.improvementView := by
    simp [hp]
  rw [h, h2] at h1
  simp only [Option.some.injEq, Player.improvementView, Prod.mk.injEq] at h1
  exact h1.2.symm

theorem view_same_index (l l1 : List Player) (i : Nat) (p1 : Player)
    (h : l1.map Player.improvementView = l.map Player.improvementView)
    (hp1 : l1[i]? = some p1) : ∃ p, l[i]? = some p ∧ p.ID = p1.ID := by
  have hlen : l1.length = l.length := by
    have := congrArg List.length h
    simpa using this
  have hlt : i < l.length := by
    rw [← hlen]
    exact (List.getElem?_eq_some.mp hp1).1
  refine ⟨l[i], List.getElem?_eq_getElem hlt, ?_⟩
  have h1 : (l1.map Player.improvementView)[i]? = some p1.improvementView := by
    simp [hp1]
  have h2 : (l.map Player.improvementView)[i]? = some (l[i]).improvementView := by
    simp [List.getElem?_eq_getElem hlt]
  rw [h, h2] at h1
  simp only [Option.some.injEq, Player.improvementView, Prod.mk.injEq] at h1
  exact h1.1

theorem view_ids (l l1 : List Player)
    (h : l1.map Player.improvementView = l.map Player.improvementView) :
    l1.map Player.ID = l.map Player.ID := by
  have e : ∀ l : List Player, l.map Player.ID
      = (l.map Player.improvementView).map fun x => x.1 := by
    intro l
    rw [List.map_map]
    rfl
  rw [e, e, h]

namespace GameState

theorem getPropertySetAt_view (gs : GameState) (i : Nat) (color : String) (ps : PropertySet)
    (gs1 : GameState) (h : gs.getPropertySetAt i color = some (ps, gs1)) :
    gs1.Players.map Player.improvementView = gs.Players.map Player.improvementView :=
  map_view_of_holdings _ _ (getPropertySetAt_lookedUp _ _ _ _ _ h).2.1

theorem removeCardAt_view (gs : GameState) (i : Nat) (color cardID : String) (card : Card)
    (gs1 : GameState) (h : gs.removeCardAt i color cardID = some (some (card, gs1))) :
    gs1.Players.map Player.improvementView = gs.Players.map Player.improvementView := by
  unfold removeCardAt at h
  split at h
  · simp at h
  · next ps g heq =>
    split at h
    · simp at h
    · next c ps1 hr =>
      simp only [Option.some.injEq, Prod.mk.injEq] at h
      rw [← h.2]
      have hv := getPropertySetAt_view _ _ _ _ _ heq
      have hps1 : ps1.Improvements = ps.Improvements := by
        unfold PropertySet.RemoveCard at hr
        split at hr
        · simp only [Option.some.injEq, Prod.mk.injEq] at hr
          rw [← hr.2]
        · simp at hr
      unfold getPropertySetAt at heq
      split at heq
      · next p hp =>
        simp only [Option.some.injEq, Prod.mk.injEq] at heq
        have hgi : g.Players[i]? = some (p.GetPropertySet color).2 := by
          rw [← heq.2]
          exact getElem?_set_same _ _ _ _ hp
        rw [← hv]
        simp only [setPropertySetAt, modifyPlayer, hgi, setPlayer]
        refine map_set_of_eq Player.improvementView _ _ _ _ hgi ?_
        apply Player.setPropertySet_view
        rw [hps1, ← heq.1]
        simp [Player.improvementsOfColour, Player.GetPropertySet_lookup]
      · simp at heq

theorem resolveMoney_sound [SliceSort] (gs : GameState) (pa : SubwayDeal.PendingAction)
    (playerID : String)
    (r : ActionResult) (gs1 : GameState) (h : gs.resolveMoney pa playerID = some (r, gs1))
    (hs : SoundPlayers gs.Players) : SoundPlayers gs1.Players := by
  unfold resolveMoney at h
  split at h
  · simp at h
  · next j tp hj =>
    have h1 : SoundPlayers (gs.setPlayer j (tp.PayMoney pa.RentAmount).2).Players :=
      hs.set _ _ _ (Player.setsSound_congr tp _ (PayMoney_properties _ _)
        (hs.get _ _ _ (GetPlayer_some gs _ _ _ hj).2.1))
    simp only at h
    split at h
    · simp only [Option.some.injEq, Prod.mk.injEq] at h
      rw [← h.2]
      exact modifyPlayer_sound _ _ _ h1 fun p hp =>
        Player.setsSound_congr p _ (foldl_AddToBank_properties _ _) hp
    · split at h
      · simp only [Option.some.injEq, Prod.mk.injEq] at h
        rw [← h.2]
        exact h1
      · simp at h

theorem resolvePowerBroker_sound (gs : GameState) (pa : SubwayDeal.PendingAction)
    (playerID : String) (r : ActionResult) (gs1 : GameState)
    (h : gs.resolvePowerBroker pa playerID = some (r, gs1)) (hs : SoundPlayers gs.Players)
    (hguard : gs.noImprovementsAt playerID pa.Act.GetColor) : SoundPlayers gs1.Players := by
  unfold resolvePowerBroker at h
  split at h
  · next j tp htp =>
    split at h
    · simp at h
    · split at h
      · next ps g heq =>
        simp only [Option.some.injEq, Prod.mk.injEq] at h
        rw [← h.2]
        exact (getPropertySetAt_sound _ _ _ _ _ heq hs).1
      · simp at h
    · next stolen g hrem =>
      have h1 : SoundPlayers g.Players := by
        refine removeCardAt_sound _ _ _ _ _ _ hrem hs ?_
        intro p hp
        have hj := (GetPlayer_some gs _ _ _ htp).2.1
        rw [hj] at hp
        simp only [Option.some.injEq] at hp
        rw [← hp]
        exact hguard j tp htp
      split at h
      · simp at h
      · split at h
        · next g2 hadd =>
          simp only [Option.some.injEq, Prod.mk.injEq] at h
          rw [← h.2]
          exact addCardAt_sound _ _ _ _ _ hadd h1
        · simp at h
  · simp at h

theorem resolveLineClosure_sound (gs : GameState) (pa : SubwayDeal.PendingAction)
    (playerID : String) (r : ActionResult) (gs1 : GameState)
    (h : gs.resolveLineClosure pa playerID = some (r, gs1)) (hs : SoundPlayers gs.Players) :
    SoundPlayers gs1.Players := by
  unfold resolveLineClosure at h
  split at h
  · split at h
    · simp at h
    · next ts g1 hg1 =>
      obtain ⟨h1, h2, h3⟩ := getPropertySetAt_sound _ _ _ _ _ hg1 hs
      split at h
      · simp at h
      · next ps g2 hg2 =>
        obtain ⟨h4, h5, h6⟩ := getPropertySetAt_sound _ _ _ _ _ hg2 h1
        simp only [Option.some.injEq, Prod.mk.injEq] at h
        rw [← h.2]
        refine setPropertySetAt_sound _ _ _ _ ?_ h2 (improvementsSound_of_none _ rfl)
        exact setPropertySetAt_sound _ _ _ _ h4 h5 (merge_sound ts ps h3 h6 (h2.trans h5.symm))
  · simp at h

theorem resolveServiceChange_sound (gs : GameState) (pa : SubwayDeal.PendingAction)
    (playerID : String) (r : ActionResult) (gs1 : GameState)
    (h : gs.resolveServiceChange pa playerID = some (r, gs1)) (hs : SoundPlayers gs.Players)
    (hsource : gs.noImprovementsAt pa.SourcePlayerID (pa.Act.data "playerColor"))
    (htarget : gs.noImprovementsAt playerID pa.Act.GetColor) : SoundPlayers gs1.Players := by
  unfold resolveServiceChange at h
  split at h
  · next i sp j tp hsrc htp =>
    have hi := (GetPlayer_some gs _ _ _ hsrc).2.1
    have hj := (GetPlayer_some gs _ _ _ htp).2.1
    split at h
    · simp at h
    · next ps1 g1 hg1 =>
      have s1 := (getPropertySetAt_sound _ _ _ _ _ hg1 hs).1
      have v1 := getPropertySetAt_view _ _ _ _ _ hg1
      split at h
      · simp at h
      · next ps2 g2 hg2 =>
        have s2 := (getPropertySetAt_sound _ _ _ _ _ hg2 s1).1
        have v2 := (getPropertySetAt_view _ _ _ _ _ hg2).trans v1
        split at h
        · next playerCard g3 hrem3 =>
          have s3 : SoundPlayers g3.Players := by
            refine removeCardAt_sound _ _ _ _ _ _ hrem3 s2 ?_
            intro p hp
            rw [view_at _ _ _ _ _ v2 hp hi]
            exact hsource i sp hsrc
          have v3 := (removeCardAt_view _ _ _ _ _ _ hrem3).trans v2
          split at h
          · next targetCard g4 hrem4 =>
            have s4 : SoundPlayers g4.Players := by
              refine removeCardAt_sound _ _ _ _ _ _ hrem4 s3 ?_
              intro p hp
              rw [view_at _ _ _ _ _ v3 hp hj]
              exact htarget j tp htp
            split at h
            · simp at h
            · next g5 hadd5 =>
              have s5 := addCardAt_sound _ _ _ _ _ hadd5 s4
              split at h
              · simp at h
              · next g6 hadd6 =>
                simp only [Option.some.injEq, Prod.mk.injEq] at h
                rw [← h.2]
                exact addCardAt_sound _ _ _ _ _ hadd6 s5
          · simp at h
        · simp at h
  · simp at h

/-- The resolution of an accepted pending action keeps the sets sound, given the guard of a
steal or a swap. -/
theorem resolveForPlayer_sound [SliceSort] (gs : GameState) (pa : SubwayDeal.PendingAction)
    (playerID : String) (r : ActionResult) (gs1 : GameState)
    (h : gs.resolveForPlayer pa playerID = some (r, gs1)) (hs : SoundPlayers gs.Players)
    (hpb : pa.Act.Typ = ActionType.PowerBroker → gs.noImprovementsAt playerID pa.Act.GetColor)
    (hsc : pa.Act.Typ = ActionType.ServiceChange →
      gs.noImprovementsAt playerID pa.Act.GetColor ∧
      gs.noImprovementsAt pa.SourcePlayerID (pa.Act.data "playerColor")) :
    SoundPlayers gs1.Players := by
  unfold resolveForPlayer at h
  split at h
  · exact resolveMoney_sound _ _ _ _ _ h hs
  · exact resolveMoney_sound _ _ _ _ _ h hs
  · exact resolveMoney_sound _ _ _ _ _ h hs
  · next ht => exact resolvePowerBroker_sound _ _ _ _ _ h hs (hpb ht)
  · exact resolveLineClosure_sound _ _ _ _ _ h hs
  · next ht => exact resolveServiceChange_sound _ _ _ _ _ h hs (hsc ht).2 (hsc ht).1
  · simp only [Option.some.injEq, Prod.mk.injEq] at h
    rw [← h.2]; exact hs

theorem executeAccept_sound [SliceSort] (gs : GameState) (action : Action) (r : ActionResult)
    (gs1 : GameState) (h : gs.executeAccept action = some (r, gs1))
    (hs : SoundPlayers gs.Players)
    (hguard : ∀ pa, gs.PendingAction = some pa →
      (pa.Act.Typ = ActionType.PowerBroker →
        gs.noImprovementsAt action.PlayerID pa.Act.GetColor) ∧
      (pa.Act.Typ = ActionType.ServiceChange →
        gs.noImprovementsAt action.PlayerID pa.Act.GetColor ∧
        gs.noImprovementsAt pa.SourcePlayerID (pa.Act.data "playerColor"))) :
    SoundPlayers gs1.Players := by
  cases hpa : gs.PendingAction with
  | none =>
    simp only [executeAccept, hpa, Option.some.injEq, Prod.mk.injEq] at h
    rw [← h.2]; exact hs
  | some pa =>
    rw [executeAccept_eq gs action pa hpa] at h
    have hpl : (gs.MarkResponded action.PlayerID).Players = gs.Players := by
      simp only [MarkResponded, hpa]
    have hno : ∀ pid c, gs.noImprovementsAt pid c →
        (gs.MarkResponded action.PlayerID).noImprovementsAt pid c := by
      intro pid c hn j t ht
      apply hn j t
      simpa only [GetPlayer, hpl] using ht
    split at h
    · simp at h
    · next result g hres =>
      simp only [Option.some.injEq, Prod.mk.injEq] at h
      rw [← h.2]
      have hg : SoundPlayers g.Players := by
        refine resolveForPlayer_sound _ _ _ _ _ hres (by rw [hpl]; exact hs) ?_ ?_
        · intro ht
          exact hno _ _ ((hguard pa hpa).1 ht)
        · intro ht
          exact ⟨hno _ _ ((hguard pa hpa).2 ht).1, hno _ _ ((hguard pa hpa).2 ht).2⟩
      split
      · exact hg
      · exact hg

/-- One call of the executor keeps the sets sound, given the validator's check of a wildcard
flip and the guard of an accepted steal or swap. -/
theorem Execute_sound [SliceSort] (gs : GameState) (action : Action) (rnd : Nat → Nat → Nat)
    (r : ActionResult) (gs1 : GameState) (h : gs.Execute action rnd = some (r, gs1))
    (hs : SoundPlayers gs.Players)
    (hflip : action.Typ = ActionType.FlipWildcard → ∀ i player color ps b colors current,
      gs.GetPlayer action.PlayerID = some (i, player) →
      findInSets player.Properties action.GetCardID
        = some (color, ps, Card.wildcard b colors current) → ps.IsComplete = false)
    (hacc : action.Typ = ActionType.Accept → ∀ pa, gs.PendingAction = some pa →
      (pa.Act.Typ = ActionType.PowerBroker →
        gs.noImprovementsAt action.PlayerID pa.Act.GetColor) ∧
      (pa.Act.Typ = ActionType.ServiceChange →
        gs.noImprovementsAt action.PlayerID pa.Act.GetColor ∧
        gs.noImprovementsAt pa.SourcePlayerID (pa.Act.data "playerColor"))) :
    SoundPlayers gs1.Players := by
  unfold Execute at h
  split at h
  · exact executePlayProperty_sound _ _ _ _ h hs
  · exact executePlayMoney_sound _ _ _ _ h hs
  · exact executeSwipeIn_sound _ _ _ _ _ h hs
  · exact executeImprovement_sound _ _ _ _ _ _ h hs
  · exact executeImprovement_sound _ _ _ _ _ _ h hs
  · next ht => exact executeFlipWildcard_sound _ _ _ _ h hs (hflip ht)
  · simp only [Option.some.injEq, Prod.mk.injEq] at h
    rw [← h.2]; exact hs
  · exact createPendingRent_sound _ _ _ _ h hs
  · exact createPendingSteal_sound _ _ _ _ _ h hs
  · exact createPendingSteal_sound _ _ _ _ _ h hs
  · exact createPendingServiceChange_sound _ _ _ _ h hs
  · exact createPendingMissedTrain_sound _ _ _ _ h hs
  · exact createPendingItsMyStop_sound _ _ _ _ h hs
  · next ht => exact executeAccept_sound _ _ _ _ h hs (hacc ht)
  · exact executeFareEvasion_sound _ _ _ _ h hs
  · simp only [Option.some.injEq, Prod.mk.injEq] at h
    rw [← h.2]; exact hs

/-- What `takeCard` did when it found the card. -/
theorem takeCard_some (gs : GameState) (action : Action) (i : Nat) (card : Card)
    (g1 : GameState) (h : gs.takeCard action = some (some (i, card, g1))) :
    ∃ player player1, gs.GetPlayer action.PlayerID = some (i, player) ∧
      player.RemoveFromHand action.GetCardID = some (card, player1) ∧
      g1 = gs.setPlayer i player1 ∧ player1.ID = action.PlayerID ∧
      g1.Players[i]? = some player1 ∧
      g1.Players.map Player.holdings = gs.Players.map Player.holdings := by
  unfold takeCard at h
  split at h
  · simp at h
  · next j player hp =>
    split at h
    · simp at h
    · next c player1 hr =>
      simp only [Option.some.injEq, Prod.mk.injEq] at h
      obtain ⟨rfl, rfl, rfl⟩ := h
      obtain ⟨_, hget, hid⟩ := GetPlayer_some gs _ _ _ hp
      have hp1 := (RemoveFromHand_some _ _ _ _ hr).1
      refine ⟨player, player1, hp, hr, rfl, by rw [hp1]; exact hid,
        getElem?_set_same _ _ _ _ hget, ?_⟩
      exact map_set_of_eq Player.holdings _ _ _ _ hget (by rw [hp1]; rfl)

theorem holdings_ids (l l1 : List Player)
    (h : l1.map Player.holdings = l.map Player.holdings) :
    l1.map Player.ID = l.map Player.ID :=
  view_ids _ _ (map_view_of_holdings _ _ h)

/-- The player found under an id after a step that kept ids and improvements. -/
theorem noImprovementsAt_of_index (gs : GameState) (playerID color : String) (j : Nat)
    (hidx : indexOfID gs.Players playerID = some j)
    (h : ∀ t, gs.Players[j]? = some t → t.improvementsOfColour color = []) :
    gs.noImprovementsAt playerID color := by
  intro j1 t ht
  obtain ⟨h1, h2, _⟩ := GetPlayer_some gs _ _ _ ht
  rw [hidx] at h1
  simp only [Option.some.injEq] at h1
  subst h1
  exact h t h2

/-- The set that `getPropertySetAt` returned is the one the player now holds. -/
theorem getPropertySetAt_improvements (gs : GameState) (i : Nat) (color : String)
    (ps : PropertySet) (gs1 : GameState) (h : gs.getPropertySetAt i color = some (ps, gs1)) :
    ∀ t, gs1.Players[i]? = some t → t.improvementsOfColour color = ps.Improvements := by
  unfold getPropertySetAt at h
  split at h
  · next p hp =>
    simp only [Option.some.injEq, Prod.mk.injEq] at h
    intro t ht
    rw [← h.2] at ht
    rw [show (gs.setPlayer i (p.GetPropertySet color).2).Players[i]?
      = some (p.GetPropertySet color).2 from getElem?_set_same _ _ _ _ hp] at ht
    simp only [Option.some.injEq] at ht
    rw [← ht, ← h.1]
    simp [Player.improvementsOfColour, Player.GetPropertySet_lookup]
  · simp at h

/-- A successful Power Broker or Line Closure: the pending action it installs, and for Power
Broker the guard that the target's set carries no improvement. -/
theorem createPendingSteal_created (g : GameState) (action : Action) (stealComplete : Bool)
    (r : ActionResult) (gs1 : GameState)
    (h : g.createPendingSteal action stealComplete = some (r, gs1)) (hr : r.Success = true) :
    gs1.TurnPhase = TurnPhase.response ∧
    gs1.PendingAction
      = some (plainPending action action.PlayerID [action.GetTargetPlayerID] 0) ∧
    gs1.Players.map Player.ID = g.Players.map Player.ID ∧
    (∃ j t, gs1.GetPlayer action.GetTargetPlayerID = some (j, t)) ∧
    (stealComplete = false → SoundPlayers g.Players →
      gs1.noImprovementsAt action.GetTargetPlayerID action.GetColor) := by
  unfold createPendingSteal at h
  split at h
  · simp at h
  · simp only [Option.some.injEq, Prod.mk.injEq] at h
    rw [← h.1] at hr
    simp [ActionResult.failure] at hr
  · next i card g1 htake =>
    obtain ⟨player, player1, hp, hrem, hg1, hid1, hget1, hhold1⟩ := takeCard_some _ _ _ _ _ htake
    split at h
    · simp at h
    · next j tp htp =>
      split at h
      · next ts g2 pl hg hpl =>
        split at h
        · simp only [Option.some.injEq, Prod.mk.injEq] at h
          rw [← h.1] at hr
          simp [ActionResult.failure] at hr
        · next hcomp =>
          simp only [Option.some.injEq, Prod.mk.injEq] at h
          have hpl1 : pl = player1 := by
            rw [hget1] at hpl
            simp only [Option.some.injEq] at hpl
            exact hpl.symm
          have hhold2 := (getPropertySetAt_lookedUp _ _ _ _ _ hg).2.1
          have hids2 : g2.Players.map Player.ID = g.Players.map Player.ID :=
            (holdings_ids _ _ hhold2).trans (holdings_ids _ _ hhold1)
          obtain ⟨hidx, hj, _⟩ := GetPlayer_some _ _ _ _ htp
          have hidx2 : indexOfID g2.Players action.GetTargetPlayerID = some j := by
            rw [indexOfID_congr _ _ _ (holdings_ids _ _ hhold2)]
            exact hidx
          have hj2 : ∃ t, g2.Players[j]? = some t := by
            have hlen : g2.Players.length = g1.Players.length := by
              have := congrArg List.length hhold2
              simpa using this
            have hlt : j < g2.Players.length := by
              rw [hlen]; exact (List.getElem?_eq_some.mp hj).1
            exact ⟨_, List.getElem?_eq_getElem hlt⟩
          rw [← h.2]
          refine ⟨rfl, ?_, hids2, ?_, ?_⟩
          · simp only [setPending, countAction, discard, hpl1, hid1]
          · obtain ⟨t, ht⟩ := hj2
            exact ⟨j, t, by
              show g2.GetPlayer action.GetTargetPlayerID = some (j, t)
              simp [GetPlayer, hidx2, ht]⟩
          · intro hsc hs
            have hs1 := takeCard_sound _ _ _ _ _ htake hs
            obtain ⟨_, _, hts⟩ := getPropertySetAt_sound _ _ _ _ _ hg hs1
            have hinc : ts.IsComplete = false := by
              rw [hsc] at hcomp
              simpa using hcomp
            have hnone := no_improvements_of_incomplete ts hts hinc
            refine noImprovementsAt_of_index _ _ _ j hidx2 ?_
            intro t ht
            rw [getPropertySetAt_improvements _ _ _ _ _ hg t ht]
            exact hnone
      · simp at h

/-- A successful Service Change: the pending action it installs, and the guard that neither
set named carries an improvement. -/
theorem createPendingServiceChange_created (g : GameState) (action : Action)
    (r : ActionResult) (gs1 : GameState)
    (h : g.createPendingServiceChange action = some (r, gs1)) (hr : r.Success = true) :
    gs1.TurnPhase = TurnPhase.response ∧
    gs1.PendingAction
      = some (plainPending action action.PlayerID [action.GetTargetPlayerID] 0) ∧
    gs1.Players.map Player.ID = g.Players.map Player.ID ∧
    (∃ j t, gs1.GetPlayer action.GetTargetPlayerID = some (j, t)) ∧
    (SoundPlayers g.Players →
      gs1.noImprovementsAt action.GetTargetPlayerID action.GetColor ∧
      gs1.noImprovementsAt action.PlayerID (action.data "playerColor")) := by
  unfold createPendingServiceChange at h
  split at h
  · simp at h
  · simp only [Option.some.injEq, Prod.mk.injEq] at h
    rw [← h.1] at hr
    simp [ActionResult.failure] at hr
  · next i card g1 htake =>
    obtain ⟨player, player1, hp, hrem, hg1, hid1, hget1, hhold1⟩ := takeCard_some _ _ _ _ _ htake
    split at h
    · simp at h
    · next ps g2 hg2 =>
      split at h
      · simp at h
      · next j tp htp =>
        split at h
        · next ts g3 pl hg3 hpl =>
          split at h
          · simp only [Option.some.injEq, Prod.mk.injEq] at h
            rw [← h.1] at hr
            simp [ActionResult.failure] at hr
          · next hpc =>
            split at h
            · simp only [Option.some.injEq, Prod.mk.injEq] at h
              rw [← h.1] at hr
              simp [ActionResult.failure] at hr
            · next htc =>
              simp only [Option.some.injEq, Prod.mk.injEq] at h
              have hhold2 := (getPropertySetAt_lookedUp _ _ _ _ _ hg2).2.1
              have hhold3 := (getPropertySetAt_lookedUp _ _ _ _ _ hg3).2.1
              have hids21 := holdings_ids _ _ hhold2
              have hids32 := holdings_ids _ _ hhold3
              have hids3 : g3.Players.map Player.ID = g.Players.map Player.ID :=
                hids32.trans (hids21.trans (holdings_ids _ _ hhold1))
              have hlen : ∀ a b : GameState,
                  a.Players.map Player.ID = b.Players.map Player.ID →
                  a.Players.length = b.Players.length := by
                intro a b hab
                have := congrArg List.length hab
                simpa using this
              have hpl2 : ∃ q, g2.Players[i]? = some q ∧ q.ID = action.PlayerID := by
                have hlt : i < g2.Players.length := by
                  rw [hlen _ _ hids21]; exact (List.getElem?_eq_some.mp hget1).1
                refine ⟨_, List.getElem?_eq_getElem hlt, ?_⟩
                have e1 : (g2.Players.map Player.ID)[i]? = some (g2.Players[i]).ID := by
                  simp [List.getElem?_eq_getElem hlt]
                have e2 : (g1.Players.map Player.ID)[i]? = some player1.ID := by
                  simp [hget1]
                rw [hids21, e2] at e1
                simp only [Option.some.injEq] at e1
                rw [← e1, hid1]
              obtain ⟨q, hq, hqid⟩ := hpl2
              have hplid : pl.ID = action.PlayerID := by
                rw [hq] at hpl
                simp only [Option.some.injEq] at hpl
                rw [← hpl]; exact hqid
              obtain ⟨hidx, hj, _⟩ := GetPlayer_some _ _ _ _ htp
              have hidx3 : indexOfID g3.Players action.GetTargetPlayerID = some j := by
                rw [indexOfID_congr _ _ _ hids32]
                exact hidx
              have hidxi : indexOfID g3.Players action.PlayerID = some i := by
                rw [indexOfID_congr _ _ _ hids3]
                exact (GetPlayer_some _ _ _ _ hp).1
              have hj3 : ∃ t, g3.Players[j]? = some t := by
                have hlt : j < g3.Players.length := by
                  rw [hlen _ _ hids32]; exact (List.getElem?_eq_some.mp hj).1
                exact ⟨_, List.getElem?_eq_getElem hlt⟩
              rw [← h.2]
              refine ⟨rfl, ?_, hids3, ?_, ?_⟩
              · simp only [setPending, countAction, discard, hplid]
              · obtain ⟨t, ht⟩ := hj3
                exact ⟨j, t, by
                  show g3.GetPlayer action.GetTargetPlayerID = some (j, t)
                  simp [GetPlayer, hidx3, ht]⟩
              · intro hs
                have hs1 := takeCard_sound _ _ _ _ _ htake hs
                obtain ⟨hs2, _, hps⟩ := getPropertySetAt_sound _ _ _ _ _ hg2 hs1
                obtain ⟨_, _, hts⟩ := getPropertySetAt_sound _ _ _ _ _ hg3 hs2
                have hpnone := no_improvements_of_incomplete ps hps (by simpa using hpc)
                have htnone := no_improvements_of_incomplete ts hts (by simpa using htc)
                constructor
                · refine noImprovementsAt_of_index _ _ _ j hidx3 ?_
                  intro t ht
                  rw [getPropertySetAt_improvements _ _ _ _ _ hg3 t ht]
                  exact htnone
                · refine noImprovementsAt_of_index _ _ _ i hidxi ?_
                  intro t ht
                  have hv := getPropertySetAt_view _ _ _ _ _ hg3
                  rw [view_at _ _ _ _ _ hv ht hq,
                    getPropertySetAt_improvements _ _ _ _ _ hg2 q hq]
                  exact hpnone
        · simp at h

/-- A successful Missed Your Train: the pending action it installs. -/
theorem createPendingMissedTrain_created (g : GameState) (action : Action)
    (r : ActionResult) (gs1 : GameState)
    (h : g.createPendingMissedTrain action = some (r, gs1)) (hr : r.Success = true) :
    gs1.TurnPhase = TurnPhase.response ∧
    gs1.PendingAction
      = some (plainPending action action.PlayerID [action.GetTargetPlayerID] 5) ∧
    gs1.Players.map Player.ID = g.Players.map Player.ID ∧
    (∃ j t, gs1.GetPlayer action.GetTargetPlayerID = some (j, t)) := by
  unfold createPendingMissedTrain at h
  split at h
  · simp at h
  · simp only [Option.some.injEq, Prod.mk.injEq] at h
    rw [← h.1] at hr
    simp [ActionResult.failure] at hr
  · next i card g1 htake =>
    obtain ⟨player, player1, hp, hrem, hg1, hid1, hget1, hhold1⟩ := takeCard_some _ _ _ _ _ htake
    split at h
    · next j tp pl htp hpl =>
      simp only [Option.some.injEq, Prod.mk.injEq] at h
      have hplid : pl.ID = action.PlayerID := by
        rw [hget1] at hpl
        simp only [Option.some.injEq] at hpl
        rw [← hpl]; exact hid1
      rw [← h.2]
      refine ⟨rfl, ?_, holdings_ids _ _ hhold1, j, tp, htp⟩
      simp only [setPending, countAction, discard, hplid]
    · simp at h

/-- A successful It's My Stop: the pending action it installs, aimed at every player with
another id. -/
theorem createPendingItsMyStop_created (g : GameState) (action : Action)
    (r : ActionResult) (gs1 : GameState)
    (h : g.createPendingItsMyStop action = some (r, gs1)) (hr : r.Success = true) :
    gs1.TurnPhase = TurnPhase.response ∧
    gs1.PendingAction
      = some (plainPending action action.PlayerID (gs1.otherPlayerIDs action.PlayerID) 2) ∧
    gs1.Players.map Player.ID = g.Players.map Player.ID := by
  unfold createPendingItsMyStop at h
  split at h
  · simp at h
  · simp only [Option.some.injEq, Prod.mk.injEq] at h
    rw [← h.1] at hr
    simp [ActionResult.failure] at hr
  · next i card g1 htake =>
    obtain ⟨player, player1, hp, hrem, hg1, hid1, hget1, hhold1⟩ := takeCard_some _ _ _ _ _ htake
    split at h
    · next pl hpl =>
      simp only [Option.some.injEq, Prod.mk.injEq] at h
      have hplid : pl.ID = action.PlayerID := by
        rw [hget1] at hpl
        simp only [Option.some.injEq] at hpl
        rw [← hpl]; exact hid1
      rw [← h.2]
      refine ⟨rfl, ?_, holdings_ids _ _ hhold1⟩
      simp only [setPending, countAction, discard, hplid, otherPlayerIDs]
    · simp at h

/-- A successful rent: the rent card played and the pending action installed; a card with the
target `all` aims at every player with another id, any other card at the id the action names. -/
theorem createPendingRent_created (g : GameState) (action : Action)
    (r : ActionResult) (gs1 : GameState)
    (h : g.createPendingRent action = some (r, gs1)) (hr : r.Success = true) :
    ∃ i player b colors target pa,
      g.GetPlayer action.PlayerID = some (i, player) ∧
      player.GetCardFromHand action.GetCardID = some (Card.rent b colors target) ∧
      gs1.TurnPhase = TurnPhase.response ∧ gs1.PendingAction = some pa ∧ pa.Act = action ∧
      pa.SourcePlayerID = action.PlayerID ∧
      pa.TargetPlayerIDs
        = (if target = "all" then g.otherPlayerIDs action.PlayerID
           else [action.GetTargetPlayerID]) ∧
      pa.RespondedIDs = [] ∧ gs1.Players.map Player.ID = g.Players.map Player.ID := by
  have h0 := h
  unfold createPendingRent at h
  split at h
  · simp at h
  · simp only [Option.some.injEq, Prod.mk.injEq] at h
    rw [← h.1] at hr
    simp [ActionResult.failure] at hr
  · next i b colors target g1 htake =>
    obtain ⟨player, player1, hp, hrem, hg1, hid1, hget1, hhold1⟩ := takeCard_some _ _ _ _ _ htake
    obtain ⟨res, gs2, pa1, hc, _, hpa, hph, hact, hsrc, htg, hresp, _, _, hids⟩ :=
      createPendingRent_spec g action i player player1 b colors target hp hrem
    rw [h0] at hc
    simp only [Option.some.injEq, Prod.mk.injEq] at hc
    obtain ⟨_, rfl⟩ := hc
    have hpid := (GetPlayer_some _ _ _ _ hp).2.2
    refine ⟨i, player, b, colors, target, pa1, hp, (RemoveFromHand_some _ _ _ _ hrem).2, hph,
      hpa, hact, by rw [hsrc, hpid], by rw [htg, hpid], hresp, hids⟩
  · simp at h

end GameState

theorem PendingGuard.of_phase (gs : GameState) (h : gs.TurnPhase ≠ TurnPhase.response) :
    PendingGuard gs := fun hp => absurd hp h

theorem PendingGuard.of_type (gs : GameState) (pa : PendingAction)
    (hpa : gs.PendingAction = some pa) (h1 : pa.Act.Typ ≠ ActionType.PowerBroker)
    (h2 : pa.Act.Typ ≠ ActionType.ServiceChange) : PendingGuard gs := by
  intro _ pa1 hpa1 ht
  rw [hpa] at hpa1
  simp only [Option.some.injEq] at hpa1
  subst hpa1
  rcases ht with ht | ht
  · exact absurd ht h1
  · exact absurd ht h2

namespace GameState

/-- Outside the response phase, one call of the executor for an action that is no response
leaves the guard in place: whatever pending action it installs has been checked. -/
theorem Execute_guard [SliceSort] (g : GameState) (action : Action) (rnd : Nat → Nat → Nat)
    (r : ActionResult) (gs1 : GameState) (h : g.Execute action rnd = some (r, gs1))
    (hphase : g.TurnPhase ≠ TurnPhase.response) (hs : SoundPlayers g.Players)
    (hna : action.Typ ≠ ActionType.Accept) (hnf : action.Typ ≠ ActionType.PlayFareEvasion) :
    PendingGuard gs1 := by
  have hplay : PlayOnly g gs1 → PendingGuard gs1 := fun hp =>
    PendingGuard.of_phase _ (by rw [hp.turnPhaseEq]; exact hphase)
  have hsame : gs1 = g → PendingGuard gs1 := fun e =>
    PendingGuard.of_phase _ (by rw [e]; exact hphase)
  have hplayers : PlayersOnly g gs1 → PendingGuard gs1 := fun hp =>
    PendingGuard.of_phase _ (by rw [hp.turnPhase]; exact hphase)
  unfold Execute at h
  split at h
  · exact hplay (executePlayProperty_playOnly _ _ _ _ h)
  · exact hplay (executePlayMoney_playOnly _ _ _ _ h)
  · exact hplay (executeSwipeIn_playOnly _ _ _ _ _ h)
  · exact hplay (executeImprovement_playOnly _ _ _ _ _ _ h)
  · exact hplay (executeImprovement_playOnly _ _ _ _ _ _ h)
  · exact hplay (executeFlipWildcard_playOnly _ _ _ _ h)
  · simp only [Option.some.injEq, Prod.mk.injEq] at h
    exact hsame h.2.symm
  · next ht =>
    by_cases hr : r.Success = true
    · obtain ⟨_, _, _, _, _, pa, _, _, _, hpa, hact, _⟩ := createPendingRent_created _ _ _ _ h hr
      exact PendingGuard.of_type _ pa hpa (by rw [hact, ht]; decide) (by rw [hact, ht]; decide)
    · exact hsame (createPendingRent_failed _ _ _ _ h (by simpa using hr))
  · next ht =>
    by_cases hr : r.Success = true
    · obtain ⟨hph, hpa, _, _, hno⟩ := createPendingSteal_created _ _ _ _ _ h hr
      intro _ pa1 hpa1 _
      rw [hpa] at hpa1
      simp only [Option.some.injEq] at hpa1
      subst hpa1
      refine ⟨rfl, rfl, hno rfl hs, ?_⟩
      intro hsc
      simp only [plainPending] at hsc
      rw [ht] at hsc
      exact absurd hsc (by decide)
    · exact hplayers (createPendingSteal_failed _ _ _ _ _ h (by simpa using hr)).1
  · next ht =>
    by_cases hr : r.Success = true
    · obtain ⟨_, hpa, _⟩ := createPendingSteal_created _ _ _ _ _ h hr
      exact PendingGuard.of_type _ _ hpa (by simp only [plainPending]; rw [ht]; decide)
        (by simp only [plainPending]; rw [ht]; decide)
    · exact hplayers (createPendingSteal_failed _ _ _ _ _ h (by simpa using hr)).1
  · next ht =>
    by_cases hr : r.Success = true
    · obtain ⟨hph, hpa, _, _, hno⟩ := createPendingServiceChange_created _ _ _ _ h hr
      intro _ pa1 hpa1 _
      rw [hpa] at hpa1
      simp only [Option.some.injEq] at hpa1
      subst hpa1
      exact ⟨rfl, rfl, (hno hs).1, fun _ => (hno hs).2⟩
    · exact hplayers (createPendingServiceChange_failed _ _ _ _ h (by simpa using hr)).1
  · next ht =>
    by_cases hr : r.Success = true
    · obtain ⟨_, hpa, _⟩ := createPendingMissedTrain_created _ _ _ _ h hr
      exact PendingGuard.of_type _ _ hpa (by simp only [plainPending]; rw [ht]; decide)
        (by simp only [plainPending]; rw [ht]; decide)
    · exact hsame (createPendingMissedTrain_failed _ _ _ _ h (by simpa using hr))
  · next ht =>
    by_cases hr : r.Success = true
    · obtain ⟨_, hpa, _⟩ := createPendingItsMyStop_created _ _ _ _ h hr
      exact PendingGuard.of_type _ _ hpa (by simp only [plainPending]; rw [ht]; decide)
        (by simp only [plainPending]; rw [ht]; decide)
    · exact hsame (createPendingItsMyStop_failed _ _ _ _ h (by simpa using hr))
  · next ht => exact absurd ht hna
  · next ht => exact absurd ht hnf
  · simp only [Option.some.injEq, Prod.mk.injEq] at h
    exact hsame h.2.symm

/-- In the response phase, one answer of an open target leaves the guard in place: a steal or
swap has one target and is cleared by its answer. -/
theorem response_guard [SliceSort] (g : GameState) (action : Action) (rnd : Nat → Nat → Nat)
    (r : ActionResult) (gs1 : GameState) (h : g.Execute action rnd = some (r, gs1))
    (hphase : g.TurnPhase = TurnPhase.response) (hguard : PendingGuard g)
    (hopen : isOpenTarget g action.PlayerID)
    (ht : action.Typ = ActionType.Accept ∨ action.Typ = ActionType.PlayFareEvasion) :
    PendingGuard gs1 := by
  obtain ⟨pa, hpa, hmem, hnot⟩ := hopen
  have hsingle : (pa.Act.Typ = ActionType.PowerBroker ∨ pa.Act.Typ = ActionType.ServiceChange) →
      pa.TargetPlayerIDs = [action.PlayerID] := by
    intro hty
    obtain ⟨h1, _, _, _⟩ := hguard hphase pa hpa hty
    rw [h1] at hmem
    simp only [List.mem_singleton] at hmem
    rw [h1, hmem]
  have hmarked : (g.MarkResponded action.PlayerID).PendingAction
      = some (pa.marked action.PlayerID) := by
    simp only [MarkResponded, hpa, PendingAction.marked]
  have hother : ¬ (∀ t ∈ (pa.marked action.PlayerID).TargetPlayerIDs,
      t ∈ (pa.marked action.PlayerID).RespondedIDs) →
      (pa.marked action.PlayerID).Act.Typ ≠ ActionType.PowerBroker ∧
      (pa.marked action.PlayerID).Act.Typ ≠ ActionType.ServiceChange := by
    intro hnall
    have hcontra : ¬ (pa.Act.Typ = ActionType.PowerBroker ∨
        pa.Act.Typ = ActionType.ServiceChange) := by
      intro hty
      apply hnall
      rw [marked_all_iff, hsingle hty]
      intro t htm
      simp only [List.mem_singleton] at htm
      exact Or.inr htm
    exact ⟨fun e => hcontra (Or.inl e), fun e => hcontra (Or.inr e)⟩
  rcases ht with ht | ht
  · simp only [Execute, ht] at h
    rw [executeAccept_eq g action pa hpa] at h
    split at h
    · simp at h
    · next result g1 hres =>
      simp only [Option.some.injEq, Prod.mk.injEq] at h
      rw [← h.2]
      have hpo := resolveForPlayer_playersOnly _ _ _ _ _ hres
      have hpa1 : g1.PendingAction = some (pa.marked action.PlayerID) := by
        rw [hpo.pending]; exact hmarked
      have hph1 : g1.TurnPhase = TurnPhase.response := by
        rw [hpo.turnPhase]
        simp only [MarkResponded, hpa]
        exact hphase
      by_cases hall : ∀ t ∈ (pa.marked action.PlayerID).TargetPlayerIDs,
          t ∈ (pa.marked action.PlayerID).RespondedIDs
      · refine PendingGuard.of_phase _ ?_
        rw [((finish_response g1 _ hpa1 hph1).1 hall).2]
        decide
      · exact PendingGuard.of_type _ _ ((finish_response g1 _ hpa1 hph1).2 hall).1
          (hother hall).1 (hother hall).2
  · simp only [Execute, ht] at h
    unfold executeFareEvasion at h
    rw [hpa] at h
    simp only at h
    split at h
    · simp at h
    · simp only [Option.some.injEq, Prod.mk.injEq] at h
      rw [← h.2]; exact hguard
    · next i card g1 htake =>
      have hpo := takeCard_playersOnly _ _ _ _ _ htake
      split at h
      · simp at h
      · have hpa2 : ((g1.discard card).MarkResponded action.PlayerID).PendingAction
            = some (pa.marked action.PlayerID) := by
          have : g1.PendingAction = some pa := by rw [hpo.pending]; exact hpa
          simp only [MarkResponded, discard, this, PendingAction.marked]
        have hph2 : ((g1.discard card).MarkResponded action.PlayerID).TurnPhase
            = TurnPhase.response := by
          have : g1.PendingAction = some pa := by rw [hpo.pending]; exact hpa
          simp only [MarkResponded, discard, this]
          rw [hpo.turnPhase]; exact hphase
        split at h
        · simp only [Option.some.injEq, Prod.mk.injEq] at h
          rw [← h.2]
          exact PendingGuard.of_phase _ (by simp)
        · next hlen =>
          simp only [Option.some.injEq, Prod.mk.injEq] at h
          rw [← h.2]
          have hty : (pa.marked action.PlayerID).Act.Typ ≠ ActionType.PowerBroker ∧
              (pa.marked action.PlayerID).Act.Typ ≠ ActionType.ServiceChange := by
            have hcontra : ¬ (pa.Act.Typ = ActionType.PowerBroker ∨
                pa.Act.Typ = ActionType.ServiceChange) := by
              intro hty
              apply hlen
              rw [hsingle hty]
              rfl
            exact ⟨fun e => hcontra (Or.inl e), fun e => hcontra (Or.inr e)⟩
          by_cases hall : ∀ t ∈ (pa.marked action.PlayerID).TargetPlayerIDs,
              t ∈ (pa.marked action.PlayerID).RespondedIDs
          · refine PendingGuard.of_phase _ ?_
            rw [((finish_response _ _ hpa2 hph2).1 hall).2]
            decide
          · exact PendingGuard.of_type _ _ ((finish_response _ _ hpa2 hph2).2 hall).1
              hty.1 hty.2

/-- The validator returns the state or the state with one property set looked up. -/
theorem Validate_state (gs : GameState) (action : Action) (v : ValidationResult)
    (g : GameState) (h : gs.Validate action = some (v, g)) :
    g = gs ∨ ∃ i ps, gs.getPropertySetAt i action.GetColor = some (ps, g) := by
  unfold Validate at h
  split at h
  · exact Or.inl (validateResponse_state _ _ _ _ h)
  · split at h
    · simp only [Option.some.injEq, Prod.mk.injEq] at h
      exact Or.inl h.2.symm
    · split at h
      · exact Or.inl (validateDrawCards_state _ _ _ _ h)
      · exact Or.inl (validatePlayProperty_state _ _ _ _ h)
      · exact Or.inl (validatePlayMoney_state _ _ _ _ h)
      · exact validatePlayRent_state _ _ _ _ h
      · exact Or.inl (validatePlayAction_state _ _ _ _ h)
      · exact Or.inl (validatePlayAction_state _ _ _ _ h)
      · exact Or.inl (validatePlayAction_state _ _ _ _ h)
      · exact Or.inl (validatePlayAction_state _ _ _ _ h)
      · exact Or.inl (validatePlayAction_state _ _ _ _ h)
      · exact Or.inl (validatePlayAction_state _ _ _ _ h)
      · exact Or.inl (validatePlayAction_state _ _ _ _ h)
      · exact Or.inl (validatePlayAction_state _ _ _ _ h)
      · exact Or.inl (validatePlayAction_state _ _ _ _ h)
      · exact Or.inl (validatePlayAction_state _ _ _ _ h)
      · exact Or.inl (validateEndTurn_state _ _ _ _ h)
      · exact Or.inl (validateFlipWildcard_state _ _ _ _ h)
      · simp only [Option.some.injEq, Prod.mk.injEq] at h
        exact Or.inl h.2.symm

theorem Validate_sound (gs : GameState) (action : Action) (v : ValidationResult)
    (g : GameState) (h : gs.Validate action = some (v, g)) (hs : SoundPlayers gs.Players) :
    SoundPlayers g.Players := by
  rcases Validate_state _ _ _ _ h with e | ⟨i, ps, hg⟩
  · rw [e]; exact hs
  · exact (getPropertySetAt_sound _ _ _ _ _ hg hs).1

/-- In the response phase the validator leaves the state as it is. -/
theorem Validate_response_state (gs : GameState) (action : Action) (v : ValidationResult)
    (g : GameState) (h : gs.Validate action = some (v, g))
    (hphase : gs.TurnPhase = TurnPhase.response) : g = gs := by
  unfold Validate at h
  split at h
  · exact validateResponse_state _ _ _ _ h
  · simp only [Option.some.injEq, Prod.mk.injEq] at h
    exact h.2.symm

/-- An accepted response comes from an open target in the response phase. -/
theorem Validate_valid_response (gs : GameState) (action : Action) (v : ValidationResult)
    (g : GameState) (h : gs.Validate action = some (v, g)) (hv : v.Valid = true)
    (ht : action.Typ = ActionType.Accept ∨ action.Typ = ActionType.PlayFareEvasion) :
    g = gs ∧ gs.TurnPhase = TurnPhase.response ∧ isOpenTarget gs action.PlayerID := by
  unfold Validate at h
  rw [if_pos ht] at h
  refine ⟨validateResponse_state _ _ _ _ h, ?_⟩
  by_contra hgate
  obtain ⟨err, herr⟩ := validateResponse_closed gs action hgate
  rw [herr] at h
  simp only [Option.some.injEq, Prod.mk.injEq] at h
  rw [← h.1] at hv
  simp [Invalid] at hv

/-- Any other accepted action comes outside the response phase. -/
theorem Validate_valid_other (gs : GameState) (action : Action) (v : ValidationResult)
    (g : GameState) (h : gs.Validate action = some (v, g)) (hv : v.Valid = true)
    (ht : ¬ (action.Typ = ActionType.Accept ∨ action.Typ = ActionType.PlayFareEvasion)) :
    gs.TurnPhase ≠ TurnPhase.response := by
  intro hphase
  unfold Validate at h
  rw [if_neg ht, if_pos hphase] at h
  simp only [Option.some.injEq, Prod.mk.injEq] at h
  rw [← h.1] at hv
  simp [Invalid] at hv

/-- An accepted wildcard flip takes the card out of a set that is not complete. -/
theorem Validate_flip_guard (gs : GameState) (action : Action) (v : ValidationResult)
    (g : GameState) (h : gs.Validate action = some (v, g)) (hv : v.Valid = true)
    (ht : action.Typ = ActionType.FlipWildcard) :
    ∀ i player color ps b colors current,
      g.GetPlayer action.PlayerID = some (i, player) →
      findInSets player.Properties action.GetCardID
        = some (color, ps, Card.wildcard b colors current) → ps.IsComplete = false := by
  have hphase := Validate_valid_other gs action v g h hv (by rw [ht]; decide)
  have hval : gs.validateFlipWildcard action = some (v, g) := by
    unfold Validate at h
    rw [if_neg (by rw [ht]; decide), if_neg hphase] at h
    simpa only [ht] using h
  have hg := validateFlipWildcard_state _ _ _ _ hval
  intro i player color ps b colors current hp hfind
  rw [hg] at hp
  unfold validateFlipWildcard at hval
  split at hval
  · simp at hval
  · simp only [Option.some.injEq, Prod.mk.injEq] at hval
    rw [← hval.1] at hv
    simp [Invalid] at hv
  · rw [hp] at hval
    simp only [hfind] at hval
    split at hval
    · simp only [Option.some.injEq, Prod.mk.injEq] at hval
      rw [← hval.1] at hv
      simp [Invalid] at hv
    · next hinc => simpa using hinc

end GameState

theorem PendingGuard.congr {a b : GameState} (h1 : b.TurnPhase = a.TurnPhase)
    (h2 : b.PendingAction = a.PendingAction) (h3 : b.Players = a.Players)
    (ha : PendingGuard a) : PendingGuard b := by
  intro hph pa hpa hty
  have hno : ∀ pid c, a.noImprovementsAt pid c → b.noImprovementsAt pid c := by
    intro pid c hn j t ht
    apply hn j t
    simpa only [GameState.GetPlayer, h3] using ht
  obtain ⟨e1, e2, e3, e4⟩ := ha (h1 ▸ hph) pa (h2 ▸ hpa) hty
  exact ⟨e1, e2, hno _ _ e3, fun hsc => hno _ _ (e4 hsc)⟩

namespace GameState

theorem ExecuteAction_setsInvariant [SliceSort] (gs : GameState) (action : Action)
    (rnd : Nat → Nat → Nat) (res : ActionResult × Option String) (gs1 : GameState)
    (h : gs.ExecuteAction action rnd = some (res, gs1)) (hinv : SetsInvariant gs) :
    SetsInvariant gs1 := by
  unfold ExecuteAction at h
  split at h
  · simp at h
  · next v g hv =>
    have hsg := Validate_sound _ _ _ _ hv hinv.1
    have hgg : PendingGuard g := by
      by_cases hph : gs.TurnPhase = TurnPhase.response
      · rw [Validate_response_state _ _ _ _ hv hph]; exact hinv.2
      · exact PendingGuard.of_phase _
          (by rw [(Validate_playersOnly _ _ _ _ hv).turnPhase]; exact hph)
    split at h
    · simp only [Option.some.injEq, Prod.mk.injEq] at h
      rw [← h.2]; exact ⟨hsg, hgg⟩
    · next hvalid =>
      have hvt : v.Valid = true := by simpa using hvalid
      split at h
      · simp at h
      · next r g2 hex =>
        simp only [Option.some.injEq, Prod.mk.injEq] at h
        rw [← h.2]
        have hframe := CheckWinCondition_frame g2
        have hs2 : SoundPlayers g2.Players := by
          refine Execute_sound _ _ _ _ _ hex hsg ?_ ?_
          · intro ht
            exact Validate_flip_guard _ _ _ _ hv hvt ht
          · intro ht pa hpa
            obtain ⟨hg, hph, hopen⟩ := Validate_valid_response _ _ _ _ hv hvt (Or.inl ht)
            obtain ⟨pa1, hpa1, hmem, _⟩ := hopen
            rw [hg] at hpa
            rw [hpa] at hpa1
            simp only [Option.some.injEq] at hpa1
            subst hpa1
            have hph2 : g.TurnPhase = TurnPhase.response := by rw [hg]; exact hph
            have hpa2 : g.PendingAction = some pa := by rw [hg]; exact hpa
            have hid : ∀ hty : pa.Act.Typ = ActionType.PowerBroker ∨
                pa.Act.Typ = ActionType.ServiceChange,
                action.PlayerID = pa.Act.GetTargetPlayerID := by
              intro hty
              obtain ⟨e1, _, _, _⟩ := hgg hph2 pa hpa2 hty
              rw [e1] at hmem
              simpa using hmem
            constructor
            · intro hty
              rw [hid (Or.inl hty)]
              exact (hgg hph2 pa hpa2 (Or.inl hty)).2.2.1
            · intro hty
              rw [hid (Or.inr hty)]
              exact ⟨(hgg hph2 pa hpa2 (Or.inr hty)).2.2.1,
                (hgg hph2 pa hpa2 (Or.inr hty)).2.2.2 hty⟩
        have hg2 : PendingGuard g2 := by
          by_cases ht : action.Typ = ActionType.Accept ∨
              action.Typ = ActionType.PlayFareEvasion
          · obtain ⟨hg, hph, hopen⟩ := Validate_valid_response _ _ _ _ hv hvt ht
            exact response_guard g action rnd r g2 hex (by rw [hg]; exact hph) hgg
              (by rw [hg]; exact hopen) ht
          · have hph := Validate_valid_other _ _ _ _ hv hvt ht
            refine Execute_guard g action rnd r g2 hex ?_ hsg (fun e => ht (Or.inl e))
              (fun e => ht (Or.inr e))
            rw [(Validate_playersOnly _ _ _ _ hv).turnPhase]; exact hph
        exact ⟨by rw [hframe.2.2.1]; exact hs2,
          PendingGuard.congr hframe.2.1 hframe.1 hframe.2.2.1 hg2⟩

theorem StartTurn_setsInvariant (gs gs1 : GameState) (h : gs.StartTurn = some gs1)
    (hinv : SetsInvariant gs) : SetsInvariant gs1 := by
  unfold StartTurn at h
  split at h
  · simp at h
  · next i player hcur =>
    simp only [Option.some.injEq] at h
    rw [← h]
    have hp : gs.Players[i]? = some player := by
      unfold GetCurrentPlayer at hcur
      split at hcur
      · next q hq =>
        simp only [Option.some.injEq, Prod.mk.injEq] at hcur
        rw [← hcur.1, ← hcur.2]
        exact hq
      · simp at hcur
    exact ⟨hinv.1.set _ _ _ (Player.setsSound_congr player _ rfl (hinv.1.get _ _ _ hp)),
      PendingGuard.of_phase _ (by simp)⟩

theorem EndTurn_setsInvariant (gs gs1 : GameState) (h : gs.EndTurn = some gs1)
    (hinv : SetsInvariant gs) : SetsInvariant gs1 := by
  unfold EndTurn at h
  split at h
  · simp at h
  · next i player hcur =>
    simp only at h
    split at h
    · simp at h
    · next g hn =>
      have hp : gs.Players[i]? = some player := by
        unfold GetCurrentPlayer at hcur
        split at hcur
        · next q hq =>
          simp only [Option.some.injEq, Prod.mk.injEq] at hcur
          rw [← hcur.1, ← hcur.2]
          exact hq
        · simp at hcur
      have hsg : SoundPlayers g.Players := by
        unfold NextPlayer at hn
        split at hn
        · simp at hn
        · simp only [Option.some.injEq] at hn
          rw [← hn]
          exact hinv.1.set _ _ _ (Player.setsSound_congr player _ rfl (hinv.1.get _ _ _ hp))
      have hgg : PendingGuard g := by
        unfold NextPlayer at hn
        split at hn
        · simp at hn
        · simp only [Option.some.injEq] at hn
          rw [← hn]
          exact PendingGuard.of_phase _ (by simp)
      exact StartTurn_setsInvariant g gs1 h ⟨hsg, hgg⟩

end GameState

theorem createPlayers_properties :
    ∀ (names : List String) (i : Nat), ∀ p ∈ createPlayers names i, p.Properties = [] := by
  intro names
  induction names with
  | nil => intro i p hp; simp [createPlayers] at hp
  | cons n rest ih =>
    intro i p hp
    simp only [createPlayers, List.mem_cons] at hp
    rcases hp with rfl | hp
    · rfl
    · exact ih _ p hp

theorem dealInitialHands_properties :
    ∀ (players : List Player) (deck : List Card), (∀ p ∈ players, p.Properties = []) →
      ∀ p ∈ (dealInitialHands players deck).2, p.Properties = [] := by
  intro players
  induction players with
  | nil => intro deck _ p hp; simp [dealInitialHands] at hp
  | cons q rest ih =>
    intro deck hempty p hp
    simp only [dealInitialHands, List.mem_cons] at hp
    rcases hp with rfl | hp
    · exact hempty q (List.mem_cons_self _ _)
    · exact ih _ (fun x hx => hempty x (List.mem_cons_of_mem _ hx)) p hp

theorem NewEngine_setsInvariant (gs : GameState) (h : IsInitial gs) : SetsInvariant gs := by
  obtain ⟨gameID, names, rnd, rfl⟩ := h
  constructor
  · intro p hp e he
    have : p.Properties = [] :=
      dealInitialHands_properties _ _ (createPlayers_properties names 0) p hp
    rw [this] at he
    simp at he
  · exact PendingGuard.of_phase _ (by simp [NewEngine, NewGameState])

theorem reachable_setsInvariant [SliceSort] (gs : GameState) (hreach : Reachable gs) :
    SetsInvariant gs := by
  induction hreach with
  | init gs h => exact NewEngine_setsInvariant gs h
  | startTurn gs gs1 _ h ih => exact GameState.StartTurn_setsInvariant gs gs1 h ih
  | endTurn gs gs1 _ h ih => exact GameState.EndTurn_setsInvariant gs gs1 h ih
  | executeAction gs action rnd res gs1 _ h ih =>
    exact GameState.ExecuteAction_setsInvariant gs action rnd res gs1 h ih

/-- C35: improvements only sit on complete sets.  In every state reachable from `NewEngine` by
`Engine.StartTurn`, `Engine.EndTurn` and `Engine.ExecuteAction` calls, every property set of
every player that carries at least one improvement is complete, has a colour other than
railroad and utility, and carries station only if it also carries express. -/
theorem improvements_on_complete_sets [SliceSort] (gs : GameState) (hreach : Reachable gs) :
    ∀ p ∈ gs.Players, ∀ e ∈ p.Properties, e.2.Improvements ≠ [] →
      e.2.IsComplete = true ∧ e.2.Color ≠ "railroad" ∧ e.2.Color ≠ "utility" ∧
      (e.2.hasImprovement "station" = true → e.2.hasImprovement "express" = true) :=
  fun p hp e he => ((reachable_setsInvariant gs hreach).1 p hp e he).2

/-- C35 on the game in which the first player completes brown and adds Express Service: the
brown set carries express, and every set with an improvement obeys the rules. -/
theorem improvements_on_complete_sets_witness :
    ∃ gs, lostCardTrace = some gs ∧
      (gs.Players.map fun p => p.Properties.map fun e => (e.1, e.2.Improvements))
        = [[("brown", ["express"])], []] ∧
      ∀ p ∈ gs.Players, ∀ e ∈ p.Properties, e.2.Improvements ≠ [] →
        e.2.IsComplete = true ∧ e.2.Color ≠ "railroad" ∧ e.2.Color ≠ "utility" ∧
        (e.2.hasImprovement "station" = true → e.2.hasImprovement "express" = true) := by
  have h : (lostCardTrace.map fun gs =>
      decide ((gs.Players.map fun p => p.Properties.map fun e => (e.1, e.2.Improvements))
        = [[("brown", ["express"])], []])) = some true := by
    decide
  obtain ⟨gs, hgs, h1⟩ := Option.map_eq_some'.mp h
  exact ⟨gs, hgs, of_decide_eq_true h1,
    improvements_on_complete_sets gs (lostCardTrace_reachable gs hgs)⟩

/-! ## The targets of a pending action -/

namespace GameState

end GameState

/-- The loop of `FlipColor` in closed form: the colour after the first occurrence of the current
colour, wrapping. -/
theorem flipFrom_eq (all : List String) (current : String) :
    ∀ (rest : List String) (i : Nat), current ∈ rest →
      Card.flipFrom all current rest i
        = all[(i + rest.indexOf current + 1) % all.length]? := by
  intro rest
  induction rest with
  | nil => intro i h; simp at h
  | cons x xs ih =>
    intro i h
    by_cases hx : x = current
    · subst hx
      simp [Card.flipFrom]
    · have hmem : current ∈ xs := by
        rcases List.mem_cons.mp h with e | e
        · exact absurd e.symm hx
        · exact e
      have hidx : (x :: xs).indexOf current = xs.indexOf current + 1 := by
        rw [List.indexOf_cons_ne _ hx]
      simp only [Card.flipFrom, hx, if_false, ih (i + 1) hmem, hidx]
      congr 2
      omega

/-- `FlipColor` on a wildcard whose current colour is in its list. -/
theorem FlipColor_eq (b : BaseCard) (colors : List String) (c : String) (hc : c ∈ colors) :
    ∃ next, colors[(colors.indexOf c + 1) % colors.length]? = some next ∧
      (Card.wildcard b colors c).FlipColor = Card.wildcard b colors next := by
  have hpos : 0 < colors.length := List.length_pos_of_mem hc
  have hlt : (colors.indexOf c + 1) % colors.length < colors.length := Nat.mod_lt _ hpos
  refine ⟨colors[(colors.indexOf c + 1) % colors.length], List.getElem?_eq_getElem hlt, ?_⟩
  have h := flipFrom_eq colors c colors 0 hc
  simp only [Nat.zero_add] at h
  simp only [Card.FlipColor, h, List.getElem?_eq_getElem hlt]

/-- In a two-colour list the colours follow each other. -/
theorem next_of_two (x y : String) (hxy : x ≠ y) :
    [x, y][(([x, y] : List String).indexOf x + 1) % ([x, y] : List String).length]? = some y ∧
    [x, y][(([x, y] : List String).indexOf y + 1) % ([x, y] : List String).length]? = some x := by
  have h1 : ([x, y] : List String).indexOf x = 0 := by simp
  have h2 : ([x, y] : List String).indexOf y = 1 := by
    rw [List.indexOf_cons_ne _ hxy]
    simp
  rw [h1, h2]
  simp

theorem findInSets_some :
    ∀ (props : List (String × PropertySet)) (cardID color : String) (ps : PropertySet)
      (card : Card), findInSets props cardID = some (color, ps, card) →
        findByID ps.Cards cardID = some card := by
  intro props cardID color ps card
  induction props with
  | nil => intro h; simp [findInSets] at h
  | cons e rest ih =>
    obtain ⟨k, v⟩ := e
    intro h
    simp only [findInSets] at h
    split at h
    · next c hc =>
      simp only [Option.some.injEq, Prod.mk.injEq] at h
      rw [← h.2.1, ← h.2.2]
      exact hc
    · exact ih h

/-- The nested search finds the card in the set of a colour when no set of another colour holds
a card with the id. -/
theorem findInSets_of_lookup :
    ∀ (props : List (String × PropertySet)) (cardID k : String) (s : PropertySet) (card : Card),
      props.lookup k = some s → findByID s.Cards cardID = some card →
      (∀ e ∈ props, e.1 ≠ k → findByID e.2.Cards cardID = none) →
      findInSets props cardID = some (k, s, card) := by
  intro props cardID k s card
  induction props with
  | nil => intro h; simp [List.lookup] at h
  | cons e rest ih =>
    obtain ⟨k1, v⟩ := e
    intro hl hf hothers
    by_cases hk : k = k1
    · subst hk
      simp only [List.lookup, beq_self_eq_true, Option.some.injEq] at hl
      subst hl
      simp only [findInSets, hf]
    · have hb : (k == k1) = false := by simpa using hk
      simp only [List.lookup, hb] at hl
      have hnone := hothers (k1, v) (List.mem_cons_self _ _) (fun e => hk e.symm)
      simp only at hnone
      simp only [findInSets, hnone]
      exact ih hl hf (fun e he hne => hothers e (List.mem_cons_of_mem _ he) hne)

/-- Map assignment over distinct keys keeps every entry of another key and no other. -/
theorem mem_mapSet_strong :
    ∀ (props : List (String × PropertySet)) (key : String) (ps : PropertySet)
      (e : String × PropertySet), (props.map Prod.fst).Nodup → e ∈ mapSet props key ps →
        e = (key, ps) ∨ (e ∈ props ∧ e.1 ≠ key) := by
  intro props key ps e
  induction props with
  | nil => intro _ h; simp [mapSet] at h; exact Or.inl h
  | cons x rest ih =>
    obtain ⟨k, v⟩ := x
    intro hnd h
    simp only [List.map_cons, List.nodup_cons] at hnd
    by_cases hk : k = key
    · subst hk
      simp only [mapSet, if_true, List.mem_cons] at h
      rcases h with h | h
      · exact Or.inl h
      · refine Or.inr ⟨List.mem_cons_of_mem _ h, ?_⟩
        intro he
        apply hnd.1
        rw [← he]
        exact List.mem_map.mpr ⟨e, h, rfl⟩
    · simp only [mapSet, hk, if_false, List.mem_cons] at h
      rcases h with h | h
      · refine Or.inr ⟨by rw [h]; exact List.mem_cons_self _ _, ?_⟩
        rw [h]; exact hk
      · rcases ih hnd.2 h with h1 | ⟨h1, h2⟩
        · exact Or.inl h1
        · exact Or.inr ⟨List.mem_cons_of_mem _ h1, h2⟩

theorem count_mapSet_some :
    ∀ (props : List (String × PropertySet)) (key : String) (s s1 : PropertySet),
      props.lookup key = some s →
      ((mapSet props key s1).map fun e => e.2.Cards.length).sum + s.Cards.length
        = (props.map fun e => e.2.Cards.length).sum + s1.Cards.length := by
  intro props key s s1
  induction props with
  | nil => intro h; simp [List.lookup] at h
  | cons e rest ih =>
    obtain ⟨k, v⟩ := e
    intro h
    by_cases hk : k = key
    · subst hk
      simp only [List.lookup, beq_self_eq_true, Option.some.injEq] at h
      subst h
      simp only [mapSet, if_true, List.map_cons, List.sum_cons]
      omega
    · have hb : (key == k) = false := by simpa using (Ne.symm hk)
      simp only [List.lookup, hb] at h
      have := ih h
      simp only [mapSet, hk, if_false, List.map_cons, List.sum_cons]
      omega

theorem eraseFirstByID_length :
    ∀ (l : List Card) (cardID : String) (c : Card), findByID l cardID = some c →
      (eraseFirstByID l cardID).length + 1 = l.length := by
  intro l cardID c
  induction l with
  | nil => intro h; simp [findByID] at h
  | cons x xs ih =>
    intro h
    by_cases hx : x.GetID = cardID
    · simp [eraseFirstByID, hx]
    · simp only [findByID, hx, if_false] at h
      simp [eraseFirstByID, hx, ih h]

theorem eraseFirstByID_append_new :
    ∀ (l : List Card) (cardID : String) (c : Card), findByID l cardID = none →
      c.GetID = cardID → eraseFirstByID (l ++ [c]) cardID = l := by
  intro l cardID c
  induction l with
  | nil => intro _ hc; simp [eraseFirstByID, hc]
  | cons x xs ih =>
    intro h hc
    by_cases hx : x.GetID = cardID
    · simp [findByID, hx] at h
    · simp only [findByID, hx, if_false] at h
      simp [eraseFirstByID, hx, ih h hc]

theorem findByID_append_new :
    ∀ (l : List Card) (cardID : String) (c : Card), findByID l cardID = none →
      c.GetID = cardID → findByID (l ++ [c]) cardID = some c := by
  intro l cardID c
  induction l with
  | nil => intro _ hc; simp [findByID, hc]
  | cons x xs ih =>
    intro h hc
    by_cases hx : x.GetID = cardID
    · simp [findByID, hx] at h
    · simp only [findByID, hx, if_false] at h
      simp [findByID, hx, ih h hc]

namespace Player

theorem withoutCard_count (p : Player) (color : String) (ps : PropertySet) (cardID : String)
    (card : Card) (hset : p.Properties.lookup color = some ps)
    (hcard : findByID ps.Cards cardID = some card) :
    (p.withoutCard color ps cardID).propertyCount + 1 = p.propertyCount := by
  have h := count_mapSet_some p.Properties color ps
    { ps with Cards := eraseFirstByID ps.Cards cardID } hset
  have hl := eraseFirstByID_length ps.Cards cardID card hcard
  simp only [propertyCount, withoutCard, setPropertySet] at h ⊢
  omega

theorem withCard_count (p : Player) (card : Card) :
    (p.withCard card).propertyCount = p.propertyCount + 1 := by
  have hl := GetPropertySet_lookup p card.playColor
  have h := count_mapSet_some (p.GetPropertySet card.playColor).2.Properties card.playColor
    (p.GetPropertySet card.playColor).1 ((p.GetPropertySet card.playColor).1.AddCard card) hl
  have hsame : ((p.GetPropertySet card.playColor).2.Properties.map
      fun e => e.2.Cards.length).sum = (p.Properties.map fun e => e.2.Cards.length).sum := by
    cases hp : p.Properties.lookup card.playColor with
    | some s => simp [GetPropertySet, hp]
    | none => simp [GetPropertySet, hp, NewPropertySet]
  simp only [propertyCount, withCard, setPropertySet, PropertySet.AddCard, List.length_append,
    List.length_singleton] at h ⊢
  omega

end Player

namespace GameState

/-- `executeFlipWildcard` in closed form, when the search finds a wildcard. -/
theorem executeFlipWildcard_eq (gs : GameState) (action : Action) (i : Nat) (player : Player)
    (c : String) (ps : PropertySet) (b : BaseCard) (colors : List String) (current : String)
    (hp : gs.GetPlayer action.PlayerID = some (i, player))
    (hfind : findInSets player.Properties action.GetCardID
      = some (c, ps, Card.wildcard b colors current)) :
    gs.executeFlipWildcard action
      = some (ActionResult.ok (player.Name ++ " flipped wildcard from " ++ c ++ " to "
            ++ (Card.wildcard b colors current).FlipColor.playColor),
          gs.setPlayer i
            ((player.withoutCard c ps action.GetCardID).withCard
              (Card.wildcard b colors current).FlipColor)) := by
  obtain ⟨_, hi, _⟩ := GetPlayer_some _ _ _ _ hp
  have hlt : i < gs.Players.length := (List.getElem?_eq_some.mp hi).1
  simp [executeFlipWildcard, hp, hfind, setPropertySetAt, modifyPlayer, hi, getPropertySetAt,
    hlt, Player.withCard, Player.withoutCard]

end GameState

theorem findByID_id (cardID : String) (c : Card) :
    ∀ (l : List Card), findByID l cardID = some c → c.GetID = cardID := by
  intro l
  induction l with
  | nil => intro h; simp [findByID] at h
  | cons x xs ih =>
    intro h
    simp only [findByID] at h
    split at h
    · next hx =>
      simp only [Option.some.injEq] at h
      rw [← h]; exact hx
    · exact ih h

namespace GameState

/-- One flip of a wildcard found in the player's set of its current colour. -/
theorem flip_once [SliceSort] (gs : GameState) (action : Action) (rnd : Nat → Nat → Nat) (i : Nat)
    (player : Player) (c : String) (ps : PropertySet) (b : BaseCard) (colors : List String)
    (htyp : action.Typ = ActionType.FlipWildcard)
    (hp : gs.GetPlayer action.PlayerID = some (i, player))
    (hset : player.Properties.lookup c = some ps)
    (hfind : findInSets player.Properties action.GetCardID
      = some (c, ps, Card.wildcard b colors c))
    (hc : c ∈ colors) :
    ∃ (next : String) (r : ActionResult) (gs1 : GameState) (player1 : Player),
      colors[(colors.indexOf c + 1) % colors.length]? = some next ∧
      gs.Execute action rnd = some (r, gs1) ∧ r.Success = true ∧
      gs1.Players[i]? = some player1 ∧ gs1 = gs.setPlayer i player1 ∧
      (next ≠ c →
        player1.Properties.lookup c
          = some { ps with Cards := eraseFirstByID ps.Cards action.GetCardID } ∧
        player1.Properties.lookup next
          = some { (player.GetPropertySet next).1 with
              Cards := (player.GetPropertySet next).1.Cards ++ [Card.wildcard b colors next] }) ∧
      (next = c →
        player1.Properties.lookup c
          = some { ps with
              Cards := eraseFirstByID ps.Cards action.GetCardID
                ++ [Card.wildcard b colors next] }) ∧
      (∀ x, x ≠ c → x ≠ next → player1.Properties.lookup x = player.Properties.lookup x) ∧
      player1.propertyCount = player.propertyCount ∧
      player1.Hand = player.Hand ∧ player1.Bank = player.Bank ∧ player1.ID = player.ID ∧
      player1.Name = player.Name := by
  obtain ⟨next, hnext, hflip⟩ := FlipColor_eq b colors c hc
  obtain ⟨_, hi, _⟩ := GetPlayer_some _ _ _ _ hp
  have hex := executeFlipWildcard_eq gs action i player c ps b colors c hp hfind
  rw [hflip] at hex
  have hcard := findInSets_some _ _ _ _ _ hfind
  obtain ⟨w1, w2, w3, w4, w5, w6⟩ := withoutCard_spec player c ps action.GetCardID
  obtain ⟨v1, v2, v3, v4, v5, v6⟩ :=
    withCard_spec (player.withoutCard c ps action.GetCardID) (Card.wildcard b colors next)
  have hpc : (Card.wildcard b colors next).playColor = next := rfl
  rw [hpc] at v1 v2
  have hexec : gs.Execute action rnd = gs.executeFlipWildcard action := by
    simp only [Execute, htyp]
  rw [← hexec] at hex
  refine ⟨next, _, _, _, hnext, hex, rfl, getElem?_set_same _ _ _ _ hi, rfl, ?_, ?_, ?_, ?_,
    v3.trans w3, v4.trans w4, v5.trans w5, v6.trans w6⟩
  · intro hne
    refine ⟨?_, ?_⟩
    · rw [v2 c (Ne.symm hne)]; exact w1
    · rw [v1]
      have e : ((player.withoutCard c ps action.GetCardID).GetPropertySet next).1
          = (player.GetPropertySet next).1 := by
        simp only [Player.GetPropertySet, w2 next hne]
        split <;> rfl
      rw [e]
  · intro heq
    subst heq
    rw [v1]
    have e : ((player.withoutCard next ps action.GetCardID).GetPropertySet next).1
        = { ps with Cards := eraseFirstByID ps.Cards action.GetCardID } := by
      simp only [Player.GetPropertySet, w1]
    rw [e]
  · intro x hxc hxn
    rw [v2 x hxn]; exact w2 x hxc
  · have h1 := Player.withoutCard_count player c ps action.GetCardID _ hset hcard
    have h2 := Player.withCard_count (player.withoutCard c ps action.GetCardID)
      (Card.wildcard b colors next)
    omega

end GameState

/-- C33: wildcard flip.  When the card named by a `FLIP_WILDCARD` action is found as the
wildcard w in the player's property set of w's current colour c, and c occurs in w's colour
list, `Execute` succeeds; w's current colour becomes the colour that follows (the first
occurrence of) c in the list, wrapping to the first; w is removed from the set of c and appended
to the player's set of the new colour (created when missing); the sets of all other colours,
hand, bank, id and name are as before, and so is the player's total number of property cards.
For a two-colour wildcard that is the only card with its id among the player's sets, a second
flip succeeds as well and returns the card to its original colour and to the set of c, at the
end of that set, and leaves the set of the other colour with the cards it had. -/
theorem wildcard_flip [SliceSort] (gs : GameState) (action : Action) (rnd : Nat → Nat → Nat)
    (i : Nat)
    (player : Player) (c : String) (ps : PropertySet) (b : BaseCard) (colors : List String)
    (htyp : action.Typ = ActionType.FlipWildcard)
    (hp : gs.GetPlayer action.PlayerID = some (i, player))
    (hset : player.Properties.lookup c = some ps)
    (hfind : findInSets player.Properties action.GetCardID
      = some (c, ps, Card.wildcard b colors c))
    (hc : c ∈ colors) :
    ∃ (next : String) (r : ActionResult) (gs1 : GameState) (player1 : Player),
      colors[(colors.indexOf c + 1) % colors.length]? = some next ∧
      gs.Execute action rnd = some (r, gs1) ∧ r.Success = true ∧
      gs1.Players[i]? = some player1 ∧ gs1 = gs.setPlayer i player1 ∧
      (next ≠ c →
        player1.Properties.lookup c
          = some { ps with Cards := eraseFirstByID ps.Cards action.GetCardID } ∧
        player1.Properties.lookup next
          = some { (player.GetPropertySet next).1 with
              Cards := (player.GetPropertySet next).1.Cards ++ [Card.wildcard b colors next] }) ∧
      (next = c →
        player1.Properties.lookup c
          = some { ps with
              Cards := eraseFirstByID ps.Cards action.GetCardID
                ++ [Card.wildcard b colors next] }) ∧
      (∀ x, x ≠ c → x ≠ next → player1.Properties.lookup x = player.Properties.lookup x) ∧
      player1.propertyCount = player.propertyCount ∧
      player1.Hand = player.Hand ∧ player1.Bank = player.Bank ∧ player1.ID = player.ID ∧
      player1.Name = player.Name ∧
      (∀ x y, colors = [x, y] → x ≠ y →
        (∀ e ∈ player.Properties, e.1 ≠ c → findByID e.2.Cards action.GetCardID = none) →
        findByID (eraseFirstByID ps.Cards action.GetCardID) action.GetCardID = none →
        (player.Properties.map Prod.fst).Nodup →
        ∃ r2 gs2 player2, gs1.Execute action rnd = some (r2, gs2) ∧ r2.Success = true ∧
          gs2.Players[i]? = some player2 ∧
          player2.Properties.lookup c
            = some { ps with
                Cards := eraseFirstByID ps.Cards action.GetCardID
                  ++ [Card.wildcard b colors c] } ∧
          player2.cardsOfColour next = player.cardsOfColour next ∧
          (∀ z, z ≠ c → z ≠ next →
            player2.Properties.lookup z = player.Properties.lookup z) ∧
          player2.propertyCount = player.propertyCount) := by
  obtain ⟨next, r, gs1, player1, hnext, hex, hsucc, hp1, hgs1, hne, heq, hoth, hcount, hh, hb,
    hid, hname⟩ := GameState.flip_once gs action rnd i player c ps b colors htyp hp hset hfind hc
  refine ⟨next, r, gs1, player1, hnext, hex, hsucc, hp1, hgs1, hne, heq, hoth, hcount, hh, hb,
    hid, hname, ?_⟩
  intro x y hcol hxy hunique honce hkeys
  have hcard := findInSets_some _ _ _ _ _ hfind
  have hwid : (Card.wildcard b colors next).GetID = action.GetCardID := by
    exact findByID_id _ (Card.wildcard b colors c) _ hcard
  -- the two colours follow each other
  have hnc : next ≠ c ∧ colors[(colors.indexOf next + 1) % colors.length]? = some c := by
    subst hcol
    obtain ⟨n1, n2⟩ := next_of_two x y hxy
    simp only [List.mem_cons, List.mem_singleton, List.not_mem_nil, or_false] at hc
    rcases hc with rfl | rfl
    · rw [n1] at hnext
      simp only [Option.some.injEq] at hnext
      subst hnext
      exact ⟨fun e => hxy e.symm, n2⟩
    · rw [n2] at hnext
      simp only [Option.some.injEq] at hnext
      subst hnext
      exact ⟨hxy, n1⟩
  obtain ⟨hl1c, hl1n⟩ := hne hnc.1
  have hnmem : next ∈ colors := List.mem_iff_getElem?.mpr ⟨_, hnext⟩
  -- the set of the other colour held no card with the id
  have hold : findByID (player.GetPropertySet next).1.Cards action.GetCardID = none := by
    cases hl : player.Properties.lookup next with
    | some s =>
      have : (player.GetPropertySet next).1 = s := by simp [Player.GetPropertySet, hl]
      rw [this]
      exact hunique (next, s) (mem_of_lookup _ _ _ hl) hnc.1
    | none =>
      have : (player.GetPropertySet next).1 = NewPropertySet next := by
        simp [Player.GetPropertySet, hl]
      rw [this]
      rfl
  have hfound : findByID ((player.GetPropertySet next).1.Cards ++ [Card.wildcard b colors next])
      action.GetCardID = some (Card.wildcard b colors next) :=
    findByID_append_new _ _ _ hold hwid
  -- the entries of the player after the first flip
  have hentries : ∀ e ∈ player1.Properties, e.1 ≠ next →
      findByID e.2.Cards action.GetCardID = none := by
    intro e he hen
    have hp1eq : player1 = (player.withoutCard c ps action.GetCardID).withCard
        (Card.wildcard b colors c).FlipColor := by
      have h2 := GameState.executeFlipWildcard_eq gs action i player c ps b colors c hp hfind
      have h3 : gs.Execute action rnd = gs.executeFlipWildcard action := by
        simp only [GameState.Execute, htyp]
      rw [h3, h2] at hex
      simp only [Option.some.injEq, Prod.mk.injEq] at hex
      have h4 := hex.2
      rw [hgs1] at h4
      have h5 := congrArg (fun g : GameState => g.Players[i]?) h4
      simp only [GameState.setPlayer] at h5
      rw [getElem?_set_same _ _ _ _ (GameState.GetPlayer_some _ _ _ _ hp).2.1,
        getElem?_set_same _ _ _ _ (GameState.GetPlayer_some _ _ _ _ hp).2.1] at h5
      simp only [Option.some.injEq] at h5
      exact h5.symm
    obtain ⟨nx, hnx, hfl⟩ := FlipColor_eq b colors c hc
    rw [hnext] at hnx
    simp only [Option.some.injEq] at hnx
    subst hnx
    rw [hfl] at hp1eq
    rw [hp1eq] at he
    simp only [Player.withCard, Player.setPropertySet] at he
    have hpc : (Card.wildcard b colors next).playColor = next := rfl
    rw [hpc] at he
    rcases mem_mapSet _ _ _ _ he with he1 | he1
    · have he2 : e ∈ (player.withoutCard c ps action.GetCardID).Properties := by
        cases hl : (player.withoutCard c ps action.GetCardID).Properties.lookup next with
        | some s =>
          simpa [Player.GetPropertySet, hl] using he1
        | none =>
          simp only [Player.GetPropertySet, hl, List.mem_append, List.mem_singleton] at he1
          rcases he1 with he1 | he1
          · exact he1
          · rw [he1] at hen
            exact absurd rfl hen
      simp only [Player.withoutCard, Player.setPropertySet] at he2
      rcases mem_mapSet_strong _ _ _ _ hkeys he2 with he3 | ⟨he3, he4⟩
      · rw [he3]
        exact honce
      · exact hunique e he3 he4
    · rw [he1] at hen
      exact absurd rfl hen
  have hfind2 : findInSets player1.Properties action.GetCardID
      = some (next, { (player.GetPropertySet next).1 with
          Cards := (player.GetPropertySet next).1.Cards ++ [Card.wildcard b colors next] },
        Card.wildcard b colors next) :=
    findInSets_of_lookup _ _ _ _ _ hl1n hfound hentries
  have hids : gs1.Players.map Player.ID = gs.Players.map Player.ID := by
    rw [hgs1]
    exact map_set_of_eq Player.ID _ _ _ _ (GameState.GetPlayer_some _ _ _ _ hp).2.1 hid
  have hp2 : gs1.GetPlayer action.PlayerID = some (i, player1) :=
    GameState.GetPlayer_congr gs gs1 _ i player player1 hids hp hp1
  obtain ⟨next2, r2, gs2, player2, hnext2, hex2, hsucc2, hp2', _, hne2, _, hoth2, hcount2, _⟩ :=
    GameState.flip_once gs1 action rnd i player1 next _ b colors htyp hp2 hl1n hfind2 hnmem
  rw [hnc.2] at hnext2
  simp only [Option.some.injEq] at hnext2
  subst hnext2
  obtain ⟨hl2n, hl2c⟩ := hne2 (fun e => hnc.1 e.symm)
  refine ⟨r2, gs2, player2, hex2, hsucc2, hp2', ?_, ?_, ?_, hcount2.trans hcount⟩
  · rw [hl2c]
    have e : (player1.GetPropertySet c).1
        = { ps with Cards := eraseFirstByID ps.Cards action.GetCardID } := by
      simp only [Player.GetPropertySet, hl1c]
    rw [e]
  · simp only [Player.cardsOfColour, hl2n]
    rw [eraseFirstByID_append_new _ _ _ hold hwid]
    exact GetPropertySet_cards player next
  · intro z hzc hzn
    rw [hoth2 z hzn hzc]
    exact hoth z hzc hzn

/-- Instance of `wildcard_flip` on the state of `TestExecutorFlipWildcard`: the blue/brown
wildcard moves from Alice's blue set to a new brown set, and a second flip brings it back
behind the property A. -/
theorem wildcard_flip_witness :
    flipState.GetPlayer flipTestWild.PlayerID = some (0, flipAlice) ∧
    findInSets flipAlice.Properties flipTestWild.GetCardID
      = some ("blue",
          { Color := "blue",
            Cards := [prop "prop_a" "A" 1 "blue" 3 [(1, 1), (2, 2), (3, 3)], testWildcard],
            Improvements := [] }, testWildcard) ∧
    ∃ r gs1 player1, flipState.Execute flipTestWild noShuffle = some (r, gs1) ∧
      r.Success = true ∧ gs1.Players[0]? = some player1 ∧
      player1.Properties.lookup "blue"
        = some { Color := "blue",
                 Cards := [prop "prop_a" "A" 1 "blue" 3 [(1, 1), (2, 2), (3, 3)]],
                 Improvements := [] } ∧
      player1.Properties.lookup "brown"
        = some { Color := "brown",
                 Cards := [Card.wildcard ⟨"test_wild", CardType.wildcard, "Broadway Junction", 1⟩
                   ["blue", "brown"] "brown"],
                 Improvements := [] } ∧
      player1.propertyCount = 2 ∧
      ∃ r2 gs2 player2, gs1.Execute flipTestWild noShuffle = some (r2, gs2) ∧
        r2.Success = true ∧ gs2.Players[0]? = some player2 ∧
        player2.Properties.lookup "blue"
          = some { Color := "blue",
                   Cards := [prop "prop_a" "A" 1 "blue" 3 [(1, 1), (2, 2), (3, 3)], testWildcard],
                   Improvements := [] } ∧
        player2.cardsOfColour "brown" = [] ∧ player2.propertyCount = 2 := by
  refine ⟨by decide, by decide, ?_⟩
  obtain ⟨next, r, gs1, player1, hnext, hex, hsucc, hp1, _, hne, _, _, hcount, _, _, _, _, htwo⟩ :=
    wildcard_flip flipState flipTestWild noShuffle 0 flipAlice "blue"
      { Color := "blue",
        Cards := [prop "prop_a" "A" 1 "blue" 3 [(1, 1), (2, 2), (3, 3)], testWildcard],
        Improvements := [] }
      ⟨"test_wild", CardType.wildcard, "Broadway Junction", 1⟩ ["blue", "brown"]
      rfl (by decide) (by decide) (by decide) (by decide)
  have hn : next = "brown" := by
    have h : (["blue", "brown"] : List String)[(List.indexOf "blue" ["blue", "brown"] + 1)
        % ["blue", "brown"].length]? = some "brown" := by decide
    rw [h] at hnext
    exact (Option.some.inj hnext).symm
  subst hn
  obtain ⟨h1, h2⟩ := hne (by decide)
  obtain ⟨r2, gs2, player2, hex2, hsucc2, hp2, hb2, hbr2, _, hcount2⟩ :=
    htwo "blue" "brown" rfl (by decide) (by decide) (by decide) (by decide)
  exact ⟨r, gs1, player1, hex, hsucc, hp1, h1, h2, hcount, r2, gs2, player2, hex2, hsucc2, hp2,
    hb2, hbr2, hcount2⟩

/-! ## Accepts that pay more than was asked -/

/-- C9 (fails on the code): in a three-player game reached from `NewEngine`, Bob has banked $1
and $2 and Charlie $2 when Alice plays It's My Stop, a demand of 2 from each.  Both can pay
exactly 2, each with a $2 card, but `PayMoney` takes Bob's cards in ascending order of value and
takes both: in either order of the two accepts Alice's bank total rises from 0 to 5. -/
theorem accept_overpays_counterexample :
    ∃ gs pa rb sb rc sbc qc tc qb tcb,
      overpayTrace = some gs ∧ Reachable gs ∧
      gs.PendingAction = some pa ∧ pa.Act.Typ = ActionType.ItsMyStop ∧
      pa.SourcePlayerID = "player_0" ∧ pa.TargetPlayerIDs = ["player_1", "player_2"] ∧
      pa.RespondedIDs = [] ∧ pa.RentAmount = 2 ∧
      gs.Players.map (fun p => (p.ID, p.Bank.map Card.GetValue))
        = [("player_0", []), ("player_1", [1, 2]), ("player_2", [2])] ∧
      gs.ExecuteAction (acceptBy "player_1") noShuffle = some ((rb, none), sb) ∧
      sb.ExecuteAction (acceptBy "player_2") noShuffle = some ((rc, none), sbc) ∧
      gs.ExecuteAction (acceptBy "player_2") noShuffle = some ((qc, none), tc) ∧
      tc.ExecuteAction (acceptBy "player_1") noShuffle = some ((qb, none), tcb) ∧
      rb.Success = true ∧ rc.Success = true ∧ qc.Success = true ∧ qb.Success = true ∧
      sbc.PendingAction = none ∧ tcb.PendingAction = none ∧
      sbc.Players.map Player.GetTotalMoney = [5, 0, 0] ∧
      tcb.Players.map Player.GetTotalMoney = [5, 0, 0] := by
  have h : (overpayTrace.bind fun gs => gs.PendingAction.bind fun pa =>
      (gs.ExecuteAction (acceptBy "player_1") noShuffle).bind fun x =>
      (x.2.ExecuteAction (acceptBy "player_2") noShuffle).bind fun y =>
      (gs.ExecuteAction (acceptBy "player_2") noShuffle).bind fun z =>
      (z.2.ExecuteAction (acceptBy "player_1") noShuffle).map fun w =>
        decide (pa.Act.Typ = ActionType.ItsMyStop ∧
          pa.SourcePlayerID = "player_0" ∧ pa.TargetPlayerIDs = ["player_1", "player_2"] ∧
          pa.RespondedIDs = [] ∧ pa.RentAmount = 2 ∧
          gs.Players.map (fun p => (p.ID, p.Bank.map Card.GetValue))
            = [("player_0", []), ("player_1", [1, 2]), ("player_2", [2])] ∧
          x.1.2 = none ∧ y.1.2 = none ∧ z.1.2 = none ∧ w.1.2 = none ∧
          x.1.1.Success = true ∧ y.1.1.Success = true ∧ z.1.1.Success = true ∧
          w.1.1.Success = true ∧
          y.2.PendingAction = none ∧ w.2.PendingAction = none ∧
          y.2.Players.map Player.GetTotalMoney = [5, 0, 0] ∧
          w.2.Players.map Player.GetTotalMoney = [5, 0, 0])) = some true := by
    decide
  obtain ⟨gs, hgs, h1⟩ := Option.bind_eq_some.mp h
  obtain ⟨pa, hpa, h2⟩ := Option.bind_eq_some.mp h1
  obtain ⟨x, hx, h3⟩ := Option.bind_eq_some.mp h2
  obtain ⟨y, hy, h4⟩ := Option.bind_eq_some.mp h3
  obtain ⟨z, hz, h5⟩ := Option.bind_eq_some.mp h4
  obtain ⟨w, hw, h6⟩ := Option.map_eq_some'.mp h5
  obtain ⟨a1, a2, a3, a4, a5, a6, b1, b2, b3, b4, c1, c2, c3, c4, d1, d2, d3, d4⟩ :=
    of_decide_eq_true h6
  refine ⟨gs, pa, x.1.1, x.2, y.1.1, y.2, z.1.1, z.2, w.1.1, w.2, hgs,
    runCalls_reachable _ _ gs (Reachable.init _ ⟨_, _, _, rfl⟩) hgs, hpa, a1, a2, a3, a4, a5, a6,
    ?_, ?_, ?_, ?_, c1, c2, c3, c4, d1, d2, d3, d4⟩
  · rw [hx, ← b1]
  · rw [hy, ← b2]
  · rw [hz, ← b3]
  · rw [hw, ← b4]

end SubwayDeal
